import Mathlib

/-!
# ingress-audit: finding / fix orchestration engine

A shallow embedding of the Go sources `state.go`, `shell.go`, `fix.go` and
`report.go` of the ingress-audit tool, followed by the properties proved
about them.

Conventions of the embedding

* A Go `string` is a Lean `String`; a Go `[]T` is a `List T`.
* Every `int` field of `AuditState` is a length or a counter that only
  grows from zero, so it is a `Nat`.
* A Go `error` is an `Option String`: `none` is `nil`, `some e` is an error
  whose text is `e`.
* Methods on `*AuditState` take the state and return the new state together
  with the events they emitted on the terminal.
* The colour constants (`Green`, `Red`, ...) are declared in a file that is
  not part of the audited sources; they are carried as a `Palette` argument.
-/

namespace IngressAudit

/-! ## Go library helpers -/

/-- Go `error`: `none` is `nil`, `some e` is an error printing as `e`. -/
abbrev GoError := Option String

/-- The eight terminal colour constants used by the sources. Their values are
declared outside the audited files, so they are an argument of every function
that prints. -/
structure Palette where
  Green : String
  Red : String
  Yellow : String
  Blue : String
  Cyan : String
  Bold : String
  Dim : String
  Reset : String

/-- Go `strings.Repeat`. -/
def strRepeat (s : String) : Nat → String
  | 0 => ""
  | n + 1 => s ++ strRepeat s n

/-- The verb `%-Ns` of Go `fmt`: pad with blanks on the right up to `width` runes. -/
def padRight (width : Nat) (s : String) : String :=
  s ++ strRepeat " " (width - s.length)

/-- The verb `%Nd` of Go `fmt` on a non-negative int: pad with blanks on the left. -/
def padLeftNat (width : Nat) (n : Nat) : String :=
  strRepeat " " (width - (toString n).length) ++ toString n

/-- Go `unicode.IsSpace`: the Latin-1 white space and the runes of category Z. -/
def isSpace (c : Char) : Bool :=
  let n := c.toNat
  (0x09 ≤ n && n ≤ 0x0d) || n = 0x20 || n = 0x85 || n = 0xa0 || n = 0x1680 ||
  (0x2000 ≤ n && n ≤ 0x200a) || n = 0x2028 || n = 0x2029 || n = 0x202f ||
  n = 0x205f || n = 0x3000

/-- Go `strings.TrimSpace`: drop leading and trailing white space. -/
def trimSpace (s : String) : String :=
  String.mk ((s.data.dropWhile isSpace).reverse.dropWhile isSpace).reverse

/-- Go `unicode.ToLower` on one rune. ASCII capitals are lowered; the two
non-ASCII runes whose lower case is an ASCII letter (U+0130 and U+212A) are
mapped as Go maps them. Other non-ASCII capitals, which Go maps to non-ASCII
runes, are left as they are: the sources only compare lowered text with ASCII
words. -/
def toLowerRune (c : Char) : Char :=
  if c.toNat = 0x130 then 'i' else if c.toNat = 0x212a then 'k' else c.toLower

/-- Go `strings.ToLower`. -/
def toLower (s : String) : String := String.mk (s.data.map toLowerRune)

/-- Go `strings.Contains` on rune lists: `sub` occurs in `s`. -/
def containsChars (sub : List Char) : List Char → Bool
  | [] => sub.isEmpty
  | c :: cs => sub.isPrefixOf (c :: cs) || containsChars sub cs

/-- Go `strings.Contains`. -/
def strContains (s sub : String) : Bool := containsChars sub.data s.data

/-! ## shell.go -/

/-- The class `[0-9;]` of the pattern in `ansiRE`. -/
def isAnsiParam (c : Char) : Bool := c.isDigit || c = ';'

/-- Match `[0-9;]*m` at the head of the input; the result is the number of
runes consumed. The star is greedy and `m` is outside the class, so the match
is unique. -/
def matchParamsM : List Char → Option Nat
  | [] => none
  | c :: cs =>
    if c = 'm' then some 1
    else if isAnsiParam c then (matchParamsM cs).map (· + 1)
    else none

/-- Match the whole pattern `\x1b\[[0-9;]*m` at the head of the input; the
result is the length of the match. -/
def matchAnsi : List Char → Option Nat
  | '\x1b' :: '[' :: rest => (matchParamsM rest).map (· + 2)
  | _ => none

/-- The scan of `ansiRE.ReplaceAllString(s, "")`: `skip` runes of a match
found earlier are still to be deleted; otherwise the leftmost match starting
at the current rune is deleted, and a rune that starts no match is kept. -/
def stripFrom : Nat → List Char → List Char
  | _, [] => []
  | skip + 1, _ :: cs => stripFrom skip cs
  | 0, c :: cs =>
    match matchAnsi (c :: cs) with
    | some (k + 1) => stripFrom k cs
    | _ => c :: stripFrom 0 cs

/-- Embeds `stripANSI` of shell.go: remove every match of `ansiRE`. -/
def stripANSI (s : String) : String := String.mk (stripFrom 0 s.data)

/-! ## The process environment -/

/-- An external command: program name and argument list. -/
structure Cmd where
  name : String
  args : List String
deriving DecidableEq, Repr

/-- The world outside the process. `log` holds the external commands run so
far, oldest first; `result` is the exit outcome the next command will have,
given those that ran before it. -/
structure World where
  log : List Cmd
  result : List Cmd → Cmd → GoError

/-- What the program itself does on its terminal and to its fixes, in order. -/
inductive Event where
  /-- text written to standard output by `fmt.Print`, `Printf` or `Println` -/
  | stdout (text : String)
  /-- one `reader.ReadString` on standard input -/
  | stdin
  /-- the call `fix.Run()` for the fix at this index of `a.Fixes` -/
  | call (index : Nat)
  /-- a `runCmd` issued by the program itself, outside any fix action -/
  | exec (c : Cmd)
deriving DecidableEq, Repr

/-- Embeds `runCmd` of fix.go: run the program, return its outcome. -/
def runCmd (name : String) (args : List String) (w : World) : GoError × World :=
  (w.result w.log ⟨name, args⟩, { w with log := w.log ++ [⟨name, args⟩] })

/-! ## state.go -/

/-- The fields of `AuditState`, with the element type of `Fixes` left open so
that a fix action can be given the state it captured. Field defaults are the
Go zero values, so `{}` is `&AuditState{}`. -/
structure AuditStateOf (F : Type) where
  Namespace : String := ""
  Namespaces : List String := []
  ScanAll : Bool := false
  Domain : String := ""
  Email : String := ""
  ControllerName : String := ""
  Fixes : List F := []
  PassCount : Nat := 0
  WarnCount : Nat := 0
  FailCount : Nat := 0
  InfoCount : Nat := 0
  ClusterVersion : String := ""
  APIServer : String := ""
  CurrentContext : String := ""
  NodeCount : Nat := 0
  ReadyNodes : Nat := 0
  DeploymentType : String := ""
  ControllerImage : String := ""
  ControllerVersion : String := ""
  ControllerReplicas : String := ""
  HelmChart : String := ""
  HelmChartVersion : String := ""
  HelmStatus : String := ""
  HelmRevision : String := ""
  AdmissionSvcType : String := ""
  AdmissionClusterIP : String := ""
  AdmissionExternalIP : String := ""
  IngressExposing : String := ""
  AllowSnippets : String := ""
  CPULimit : String := ""
  MemoryLimit : String := ""
  CPURequest : String := ""
  MemoryRequest : String := ""
  NpCount : Nat := 0
  UpdateStrategy : String := ""
  ImagePullPolicy : String := ""
  TextReportFile : String := ""
  JSONReportFile : String := ""
  OutputBuffer : String := ""

/-- What a fix action sees of the state when it is called: every field but the
fix list. A Go closure that captured the pointer `a` reads `a.X` at call time,
not at registration time. -/
abbrev Captured := AuditStateOf Unit

/-- Embeds `Fix` of state.go. `Run` is `none` for a nil func; otherwise it is
the closure, which may read the captured state, acts on the world and returns
an error or nil. No closure of the sources writes to the state. -/
structure Fix where
  ID : String
  Severity : String
  Description : String
  Command : String
  Run : Option (Captured → World → GoError × World)

/-- Embeds `AuditState` of state.go. -/
abbrev AuditState := AuditStateOf Fix

/-- The state as a fix action reads it through the captured pointer. -/
def captured (a : AuditState) : Captured where
  Namespace := a.Namespace
  Namespaces := a.Namespaces
  ScanAll := a.ScanAll
  Domain := a.Domain
  Email := a.Email
  ControllerName := a.ControllerName
  Fixes := []
  PassCount := a.PassCount
  WarnCount := a.WarnCount
  FailCount := a.FailCount
  InfoCount := a.InfoCount
  ClusterVersion := a.ClusterVersion
  APIServer := a.APIServer
  CurrentContext := a.CurrentContext
  NodeCount := a.NodeCount
  ReadyNodes := a.ReadyNodes
  DeploymentType := a.DeploymentType
  ControllerImage := a.ControllerImage
  ControllerVersion := a.ControllerVersion
  ControllerReplicas := a.ControllerReplicas
  HelmChart := a.HelmChart
  HelmChartVersion := a.HelmChartVersion
  HelmStatus := a.HelmStatus
  HelmRevision := a.HelmRevision
  AdmissionSvcType := a.AdmissionSvcType
  AdmissionClusterIP := a.AdmissionClusterIP
  AdmissionExternalIP := a.AdmissionExternalIP
  IngressExposing := a.IngressExposing
  AllowSnippets := a.AllowSnippets
  CPULimit := a.CPULimit
  MemoryLimit := a.MemoryLimit
  CPURequest := a.CPURequest
  MemoryRequest := a.MemoryRequest
  NpCount := a.NpCount
  UpdateStrategy := a.UpdateStrategy
  ImagePullPolicy := a.ImagePullPolicy
  TextReportFile := a.TextReportFile
  JSONReportFile := a.JSONReportFile
  OutputBuffer := a.OutputBuffer

/-- Embeds `write`: print `s` and append its ANSI-stripped form to the buffer. -/
def write (s : String) (a : AuditState) : AuditState × List Event :=
  ({ a with OutputBuffer := a.OutputBuffer ++ stripANSI s }, [Event.stdout s])

/-- Embeds `writeln`. -/
def writeln (s : String) (a : AuditState) : AuditState × List Event :=
  write (s ++ "\n") a

/-- Embeds `logPass`. -/
def logPass (P : Palette) (msg : String) (a : AuditState) : AuditState × List Event :=
  let r := writeln (P.Green ++ "✓ PASS" ++ P.Reset ++ ": " ++ msg) a
  ({ r.1 with PassCount := r.1.PassCount + 1 }, r.2)

/-- Embeds `logFail`. -/
def logFail (P : Palette) (msg : String) (a : AuditState) : AuditState × List Event :=
  let r := writeln (P.Red ++ "✗ FAIL" ++ P.Reset ++ ": " ++ msg) a
  ({ r.1 with FailCount := r.1.FailCount + 1 }, r.2)

/-- Embeds `logWarn`. -/
def logWarn (P : Palette) (msg : String) (a : AuditState) : AuditState × List Event :=
  let r := writeln (P.Yellow ++ "⚠ WARN" ++ P.Reset ++ ": " ++ msg) a
  ({ r.1 with WarnCount := r.1.WarnCount + 1 }, r.2)

/-- Embeds `logInfo`. -/
def logInfo (P : Palette) (msg : String) (a : AuditState) : AuditState × List Event :=
  let r := writeln (P.Blue ++ "ℹ INFO" ++ P.Reset ++ ": " ++ msg) a
  ({ r.1 with InfoCount := r.1.InfoCount + 1 }, r.2)

/-- Embeds `addFix`: append one `Fix` built from the five arguments. -/
def addFix (id severity description command : String)
    (run : Option (Captured → World → GoError × World)) (a : AuditState) : AuditState :=
  { a with Fixes := a.Fixes ++ [⟨id, severity, description, command, run⟩] }

/-- The four classifications of a finding. -/
inductive Classification where
  | PASS
  | FAIL
  | WARN
  | INFO
deriving DecidableEq, Repr

/-- One call of the finding recorder: which of the four log methods, and the message. -/
structure LogCall where
  cls : Classification
  msg : String
deriving DecidableEq, Repr

/-- Perform one recorder call by the method of its classification. -/
def LogCall.run (P : Palette) (c : LogCall) (a : AuditState) : AuditState × List Event :=
  match c.cls with
  | .PASS => logPass P c.msg a
  | .FAIL => logFail P c.msg a
  | .WARN => logWarn P c.msg a
  | .INFO => logInfo P c.msg a

/-- Perform a sequence of recorder calls one after the other. -/
def runCalls (P : Palette) : List LogCall → AuditState → AuditState × List Event
  | [], a => (a, [])
  | c :: cs, a =>
    let r := c.run P a
    let r2 := runCalls P cs r.1
    (r2.1, r.2 ++ r2.2)

/-- Number of calls of one classification in a sequence. -/
def countClass (k : Classification) (cs : List LogCall) : Nat :=
  cs.countP (fun c => c.cls = k)

/-- The state of `newTestState` in state_test.go. -/
def newTestState : AuditState := { Namespace := "test-ns", Domain := "test.example.com" }

/-! ## report.go -/

/-- Embeds `buildRecommendations`. -/
def buildRecommendations (a : AuditState) : List String :=
  let recs : List String := []
  let recs := if a.ControllerVersion ≠ "v1.14.3" then
      recs ++ ["Upgrade controller to v1.14.3"] else recs
  let recs := if a.AdmissionSvcType ≠ "ClusterIP" then
      recs ++ ["Change admission controller service to ClusterIP"] else recs
  let recs := recs ++ ["Plan migration from Ingress-NGINX (retiring March 2026)"]
  let recs := recs ++ ["Consider migrating to Gateway API or alternative controller"]
  recs

/-! ## fix.go -/

/-- What the process observes from its terminal and its clock while the fix
executor runs. -/
structure Console where
  /-- the text `reader.ReadString` returns for the confirmation prompt: the
  line up to and including its newline, or whatever precedes the end of input -/
  answer : String
  /-- the text `%v` prints for the rounded time measured around the fix at
  this index -/
  elapsed : Nat → String

/-- Embeds `fixResult`: the outcome of one fix execution. -/
structure fixResult where
  fix : Fix
  err : GoError

/-- The command line `waitForRollout` hands to `runCmd`. -/
def rolloutCmd (resourceType name ns : String) : Cmd :=
  ⟨"kubectl", ["rollout", "status", resourceType ++ "/" ++ name, "-n", ns, "--timeout=120s"]⟩

/-- Embeds `waitForRollout`: announce the wait, run `kubectl rollout status`
and drop its outcome. -/
def waitForRollout (P : Palette) (resourceType name ns : String) (w : World) :
    List Event × World :=
  ([Event.stdout ("  " ++ P.Cyan ++ "→" ++ P.Reset ++ " Waiting for rollout of " ++
      resourceType ++ "/" ++ name ++ " in " ++ ns ++ " ...\n"),
    Event.exec (rolloutCmd resourceType name ns)],
   (runCmd (rolloutCmd resourceType name ns).name (rolloutCmd resourceType name ns).args w).2)

/-- The `switch fix.ID` of `offerFixes`, reached only after a fix that returned nil. -/
def rolloutSwitch (P : Palette) (a : AuditState) (fix : Fix) (w : World) :
    List Event × World :=
  if fix.ID = "snippet-annotations" ∨ fix.ID = "resource-limits" then
    let resType := toLower a.DeploymentType
    let resType := if resType = "" then "deployment" else resType
    waitForRollout P resType "ingress-nginx-controller" a.Namespace w
  else if fix.ID = "upgrade-controller" then
    waitForRollout P "deployment" "ingress-nginx-controller" a.Namespace w
  else ([], w)

/-- The prints of `offerFixes` that precede the fix table. -/
def tableHead (P : Palette) (a : AuditState) : List Event :=
  [Event.stdout ("\n" ++ P.Bold ++ P.Yellow ++ strRepeat "═" 10 ++ " AUTO-FIX AVAILABLE " ++
      strRepeat "═" 10 ++ P.Reset ++ "\n"),
   Event.stdout ("\n  The audit found " ++ P.Bold ++ toString a.Fixes.length ++
      " fixable issue(s)" ++ P.Reset ++ " for namespace " ++ P.Cyan ++ a.Namespace ++
      P.Reset ++ ":\n\n"),
   Event.stdout ("  " ++ padRight 4 "#" ++ "  " ++ padRight 10 "SEVERITY" ++ "  " ++
      "DESCRIPTION" ++ "\n"),
   Event.stdout ("  " ++ strRepeat "─" 70 ++ "\n")]

/-- The body of the first `for i, fix := range a.Fixes` loop: the table row of
one fix, its command line and a blank line. -/
def fixRow (P : Palette) (i : Nat) (fix : Fix) : List Event :=
  let severityColor := if fix.Severity = "CRITICAL" then P.Red else P.Yellow
  [Event.stdout ("  " ++ P.Bold ++ "[" ++ padLeftNat 2 (i + 1) ++ "]" ++ P.Reset ++ "  " ++
      severityColor ++ padRight 10 fix.Severity ++ P.Reset ++ "  " ++ fix.Description ++ "\n"),
   Event.stdout ("        " ++ P.Dim ++ "$ " ++ fix.Command ++ P.Reset ++ "\n"),
   Event.stdout "\n"]

/-- The first loop of `offerFixes` from index `i` on. -/
def fixTable (P : Palette) : Nat → List Fix → List Event
  | _, [] => []
  | i, fix :: rest => fixRow P i fix ++ fixTable P (i + 1) rest

/-- The prints between the fix table and the prompt. -/
def tableFoot (P : Palette) : List Event :=
  [Event.stdout ("  " ++ strRepeat "─" 70 ++ "\n"),
   Event.stdout ("\n  " ++ P.Yellow ++ P.Bold ++
      "⚠  These changes will be applied to your live cluster." ++ P.Reset ++ "\n"),
   Event.stdout ("  " ++ P.Yellow ++ "   Review the commands above before continuing." ++
      P.Reset ++ "\n\n")]

/-- The prompt and the single read of the answer. -/
def askOperator (P : Palette) : List Event :=
  [Event.stdout ("  " ++ P.Bold ++ "Do you want to apply all fixes? [yes/no]:" ++ P.Reset ++ " "),
   Event.stdin]

/-- The two prints of the declined branch. -/
def skipNotice (P : Palette) (a : AuditState) : List Event :=
  [Event.stdout ("\n  " ++ P.Yellow ++ "Skipping auto-fix." ++ P.Reset ++
      " Fixes were logged in " ++ a.TextReportFile ++ "\n"),
   Event.stdout "  You can apply them manually using the commands shown above.\n"]

/-- The state of the second loop of `offerFixes` when it stops. -/
structure LoopOut where
  results : List fixResult
  events : List Event
  world : World
  /-- the loop hit a fix whose `Run` is nil: the call panics and the process dies -/
  panicked : Bool

/-- The two prints that announce fix `i` of `total` before it runs. -/
def fixAnnounce (P : Palette) (total i : Nat) (fix : Fix) : List Event :=
  [Event.stdout ("\n  " ++ P.Bold ++ P.Cyan ++ "[" ++ toString (i + 1) ++ "/" ++ toString total ++
      "]" ++ P.Reset ++ " " ++ P.Bold ++ fix.Description ++ P.Reset ++ "\n"),
   Event.stdout ("  " ++ P.Dim ++ "$ " ++ fix.Command ++ P.Reset ++ "\n\n")]

/-- The second loop of `offerFixes` from index `i` on: run each fix, record
its result, and after a fix that succeeded go through the rollout switch. -/
def applyFixes (P : Palette) (con : Console) (a : AuditState) :
    Nat → List Fix → World → LoopOut
  | _, [], w => ⟨[], [], w, false⟩
  | i, fix :: rest, w =>
    match fix.Run with
    | none => ⟨[], fixAnnounce P a.Fixes.length i fix, w, true⟩
    | some run =>
      let r := run (captured a) w
      match r.1 with
      | some e =>
        let t := applyFixes P con a (i + 1) rest r.2
        ⟨⟨fix, some e⟩ :: t.results,
         fixAnnounce P a.Fixes.length i fix ++
           [Event.call i,
            Event.stdout ("\n  " ++ P.Red ++ P.Bold ++ "✗ FAILED" ++ P.Reset ++ " (" ++
              con.elapsed i ++ "): " ++ e ++ "\n")] ++ t.events,
         t.world, t.panicked⟩
      | none =>
        let s := rolloutSwitch P a fix r.2
        let t := applyFixes P con a (i + 1) rest s.2
        ⟨⟨fix, none⟩ :: t.results,
         fixAnnounce P a.Fixes.length i fix ++
           [Event.call i,
            Event.stdout ("\n  " ++ P.Green ++ P.Bold ++ "✓ DONE" ++ P.Reset ++ " (" ++
              con.elapsed i ++ ")\n")] ++ s.1 ++ t.events,
         t.world, t.panicked⟩

/-- The summary entry printed for one result. -/
def summaryLine (P : Palette) (r : fixResult) : Event :=
  match r.err with
  | none => Event.stdout ("  " ++ P.Green ++ "✓" ++ P.Reset ++ "  " ++ r.fix.Description ++ "\n")
  | some e => Event.stdout ("  " ++ P.Red ++ "✗" ++ P.Reset ++ "  " ++ r.fix.Description ++
      "\n      " ++ P.Dim ++ "Error: " ++ e ++ P.Reset ++ "\n")

/-- The loop `for _, r := range results` of the summary: print one entry per
result and count `passed` and `failed`, starting from the given counts. -/
def tally (P : Palette) : List fixResult → Nat → Nat → List Event × Nat × Nat
  | [], passed, failed => ([], passed, failed)
  | r :: rs, passed, failed =>
    let t := match r.err with
      | none => tally P rs (passed + 1) failed
      | some _ => tally P rs passed (failed + 1)
    (summaryLine P r :: t.1, t.2)

/-- The closing prints of the summary, chosen by `failed == 0`. -/
def closing (P : Palette) (passed failed : Nat) : List Event :=
  Event.stdout "\n" ::
  (if failed = 0 then
    [Event.stdout ("  " ++ P.Green ++ P.Bold ++ "✓ All " ++ toString passed ++
        " fix(es) applied successfully." ++ P.Reset ++ "\n"),
     Event.stdout ("  " ++ P.Dim ++ "Re-run the audit to confirm all issues are resolved." ++
        P.Reset ++ "\n\n")]
  else
    [Event.stdout ("  " ++ P.Red ++ P.Bold ++ "✗ " ++ toString failed ++ " fix(es) failed, " ++
        toString passed ++ " succeeded." ++ P.Reset ++ "\n"),
     Event.stdout ("  " ++ P.Yellow ++
        "Apply the failed fixes manually using the commands shown above." ++ P.Reset ++ "\n\n")])

/-- What a run of `offerFixes` leaves behind. -/
structure FixRun where
  /-- the audit state after the call -/
  state : AuditState
  /-- everything the executor did, in order -/
  events : List Event
  world : World
  /-- the local `results` -/
  results : List fixResult
  /-- the locals `passed` and `failed` of the summary -/
  passed : Nat
  failed : Nat
  /-- the process died in a call of a nil `Run` -/
  panicked : Bool

/-- The banner `APPLYING FIXES`. -/
def applyBanner (P : Palette) : Event :=
  Event.stdout ("\n" ++ P.Bold ++ P.Blue ++ strRepeat "═" 10 ++ " APPLYING FIXES " ++
    strRepeat "═" 10 ++ P.Reset ++ "\n")

/-- The banner `FIX SUMMARY`. -/
def summaryBanner (P : Palette) : Event :=
  Event.stdout ("\n" ++ P.Bold ++ P.Blue ++ strRepeat "═" 10 ++ " FIX SUMMARY " ++
    strRepeat "═" 10 ++ P.Reset ++ "\n")

/-- The test `answer != "yes" && answer != "y"` of `offerFixes` on the trimmed,
lower-cased answer: the operator did not confirm. -/
def declined (con : Console) : Bool :=
  let answer := toLower (trimSpace con.answer)
  answer ≠ "yes" && answer ≠ "y"

/-- Embeds `offerFixes`: show the fixes, ask once, and unless the answer is
declined run them all and print the summary. -/
def offerFixes (P : Palette) (con : Console) (a : AuditState) (w : World) : FixRun :=
  let shown := tableHead P a ++ fixTable P 0 a.Fixes ++ tableFoot P ++ askOperator P
  if declined con then
    ⟨a, shown ++ skipNotice P a, w, [], 0, 0, false⟩
  else
    let run := applyFixes P con a 0 a.Fixes w
    if run.panicked then
      ⟨a, shown ++ [applyBanner P] ++ run.events, run.world, run.results, 0, 0, true⟩
    else
      let t := tally P run.results 0 0
      ⟨a, shown ++ [applyBanner P] ++ run.events ++ [summaryBanner P] ++ t.1 ++
          closing P t.2.1 t.2.2,
        run.world, run.results, t.2.1, t.2.2, false⟩

/-! ## Reading a run of the executor -/

/-- The index carried by a call event. -/
def Event.callIndex : Event → Option Nat
  | .call i => some i
  | _ => none

/-- The event is a print. -/
def Event.isStdout : Event → Bool
  | .stdout _ => true
  | _ => false

/-- The event is a read of standard input. -/
def Event.isStdin : Event → Bool
  | .stdin => true
  | _ => false

/-- The event is a command run by the executor itself. -/
def Event.isExec : Event → Bool
  | .exec _ => true
  | _ => false

/-- The event is no command, or is the command of `waitForRollout` for the
workload `ingress-nginx-controller` in the namespace of `a`, its resource type
being `deployment` or the lower-cased `DeploymentType`. -/
def Event.isRolloutWaitOf (a : AuditState) : Event → Bool
  | .exec c =>
    c = rolloutCmd "deployment" "ingress-nginx-controller" a.Namespace ||
    c = rolloutCmd (toLower a.DeploymentType) "ingress-nginx-controller" a.Namespace
  | _ => true

/-- The action steps of the executor: the call of the fix at an index, or a rollout wait. -/
inductive Act where
  | call (index : Nat)
  | wait
deriving DecidableEq, Repr

/-- The action step an event stands for, if any. -/
def Event.act : Event → Option Act
  | .call i => some (.call i)
  | .exec _ => some .wait
  | _ => none

/-- The fix has an action, and the action returns `e` in every state and world. -/
def Fix.returns (f : Fix) (e : GoError) : Prop :=
  ∃ run, f.Run = some run ∧ ∀ c w, (run c w).1 = e

/-- The identifiers after which the executor waits for a rollout. -/
def disruptiveIds : List String :=
  ["snippet-annotations", "resource-limits", "upgrade-controller"]

/-- The action steps expected of a confirmed run over fixes with the given
outcomes, from index `i` on: every fix is called in turn; a call that returned
nil for a fix with a disruptive identifier is followed by one wait, any other
call by none. -/
def expectedActs : Nat → List Fix → List GoError → List Act
  | i, f :: fs, e :: es =>
    Act.call i :: ((if e = none ∧ f.ID ∈ disruptiveIds then [Act.wait] else []) ++
      expectedActs (i + 1) fs es)
  | _, _, _ => []

/-- The action steps a run would show if a wait followed every attempted fix
with a disruptive identifier, whatever its outcome. -/
def actsWaitingAfterEveryAttempt : Nat → List Fix → List Act
  | _, [] => []
  | i, f :: fs =>
    Act.call i :: ((if f.ID ∈ disruptiveIds then [Act.wait] else []) ++
      actsWaitingAfterEveryAttempt (i + 1) fs)

/-- A palette of the usual ANSI colour codes, for evaluating examples. -/
def ansiPalette : Palette :=
  ⟨"\x1b[0;32m", "\x1b[0;31m", "\x1b[1;33m", "\x1b[0;34m", "\x1b[0;36m", "\x1b[1m", "\x1b[2m",
    "\x1b[0m"⟩

/-- A world in which nothing has run yet and every command succeeds. -/
def calmWorld : World := ⟨[], fun _ _ => none⟩

/-- An action that changes nothing and returns `e`. -/
def constAction (e : GoError) : Option (Captured → World → GoError × World) :=
  some (fun _ w => (e, w))

/-- A console whose operator types `answer` and whose clock always shows 1ms. -/
def demoConsole (answer : String) : Console := ⟨answer, fun _ => "1ms"⟩

/-- Three fixes for evaluating examples: a disruptive one that succeeds, a
disruptive one that fails, and a non-disruptive one that succeeds. -/
def demoFixes : List Fix :=
  [⟨"snippet-annotations", "CRITICAL", "Disable allow-snippet-annotations",
      "kubectl patch cm ingress-nginx-controller", constAction none⟩,
   ⟨"upgrade-controller", "CRITICAL", "Upgrade ingress-nginx controller",
      "helm upgrade ingress-nginx", constAction (some "exit status 1")⟩,
   ⟨"admission-loadbalancer", "WARNING", "Change admission controller service",
      "kubectl patch svc ingress-nginx-controller-admission", constAction none⟩]

/-- A state after an audit that found the three fixes of `demoFixes`. -/
def demoState : AuditState :=
  { Namespace := "ingress-nginx", DeploymentType := "DaemonSet", Fixes := demoFixes,
    PassCount := 7, FailCount := 3, WarnCount := 2, InfoCount := 11,
    TextReportFile := "ingress-audit-20260218-101500.txt",
    OutputBuffer := "PASS: kubectl found\n" }

/-- A state whose only fix is a disruptive one that fails. -/
def failedUpgradeState : AuditState :=
  { Namespace := "ingress-nginx", DeploymentType := "Deployment",
    Fixes := [⟨"upgrade-controller", "CRITICAL", "Upgrade ingress-nginx controller",
      "helm upgrade ingress-nginx", constAction (some "exit status 1")⟩],
    FailCount := 1 }


/-! ## More Go library helpers -/

/-- Go `strings.Split(s, sep)` for a one-rune separator, on rune lists: the
pieces between the separators, empty pieces included; the empty input gives
one empty piece. -/
def splitChars (sep : Char) : List Char → List (List Char)
  | [] => [[]]
  | c :: cs =>
    if c = sep then [] :: splitChars sep cs
    else match splitChars sep cs with
      | [] => [[c]]
      | l :: ls => (c :: l) :: ls

/-- Go `strings.Split(s, "\n")`. -/
def splitLines (s : String) : List String := (splitChars '\n' s.data).map String.mk

/-- Go `strings.Join`. -/
def strJoin (sep : String) : List String → String
  | [] => ""
  | [s] => s
  | s :: t :: rest => s ++ sep ++ strJoin sep (t :: rest)

/-! ## state.go: step, header and section printers -/

/-- A sequence of `writeln` calls, one per line, in order. -/
def writelns : List String → AuditState → AuditState × List Event
  | [], a => (a, [])
  | l :: ls, a =>
    let r := writeln l a
    let r2 := writelns ls r.1
    (r2.1, r.2 ++ r2.2)

/-- Embeds `logStep`: a progress line, no counter. -/
def logStep (P : Palette) (msg : String) (a : AuditState) : AuditState × List Event :=
  writeln ("  " ++ P.Cyan ++ "→" ++ P.Reset ++ " " ++ msg) a

/-- The three lines `printHeader` writes. -/
def headerLines (P : Palette) (title : String) : List String :=
  let line := strRepeat "═" 60
  ["\n" ++ P.Blue ++ P.Bold ++ line ++ P.Reset,
   P.Blue ++ P.Bold ++ "  " ++ "  " ++ padRight 56 title ++ P.Reset,
   P.Blue ++ P.Bold ++ line ++ P.Reset ++ "\n"]

/-- Embeds `printHeader`. -/
def printHeader (P : Palette) (title : String) (a : AuditState) : AuditState × List Event :=
  writelns (headerLines P title) a

/-- The two lines `printSection` writes. -/
def sectionLines (P : Palette) (title : String) : List String :=
  ["\n" ++ P.Bold ++ "▶ " ++ title ++ P.Reset, strRepeat "─" 55]

/-- Embeds `printSection`. -/
def printSection (P : Palette) (title : String) (a : AuditState) : AuditState × List Event :=
  writelns (sectionLines P title) a

/-! ## ui.go -/

/-- The three renderings of the lipgloss library that `infoBox` uses. The
library is not part of the audited sources, so they are an argument. -/
structure Lipgloss where
  /-- `labelStyle.Render`: bold, width 12 -/
  label : String → String
  /-- `dividerStyle.Render`: colour 240 -/
  divider : String → String
  /-- `border.Render` for a border colour: rounded border, padding 0 1 -/
  border : String → String → String

/-- Embeds `infoBox`: header rows, a divider if both kinds of rows are present,
data rows, all inside a border of the given colour. A row is a label and a value. -/
def infoBox (L : Lipgloss) (borderColor : String) (headerRows dataRows : List (String × String)) :
    String :=
  let lines := headerRows.map (fun row => L.label row.1 ++ row.2)
  let lines := if headerRows.length > 0 ∧ dataRows.length > 0 then
      lines ++ [L.divider (strRepeat "â”€" 44)] else lines
  let lines := lines ++ dataRows.map (fun row => L.label row.1 ++ row.2)
  L.border borderColor (strJoin "\n" lines)

/-! ## report.go: the console summary -/

/-- The four overall status tiers of `generateSummary`. -/
inductive Tier where
  | EXCELLENT
  | GOOD
  | NEEDS_ATTENTION
  | CRITICAL
deriving DecidableEq, Repr

/-- The tier name as it is printed after `Overall Status:`. -/
def Tier.label : Tier → String
  | .EXCELLENT => "EXCELLENT"
  | .GOOD => "GOOD"
  | .NEEDS_ATTENTION => "NEEDS ATTENTION"
  | .CRITICAL => "CRITICAL"

/-- The case the `switch` of `generateSummary` under `Overall status` takes:
the cases are tried in order. -/
def overallStatus (a : AuditState) : Tier :=
  if a.FailCount = 0 ∧ a.WarnCount = 0 then .EXCELLENT
  else if a.FailCount = 0 then .GOOD
  else if a.FailCount ≤ 2 then .NEEDS_ATTENTION
  else .CRITICAL

/-- The two lines the taken case of that `switch` writes. -/
def statusLines (P : Palette) (a : AuditState) : List String :=
  match overallStatus a with
  | .EXCELLENT =>
    ["  " ++ P.Green ++ P.Bold ++ "● Overall Status: EXCELLENT" ++ P.Reset,
     "  No critical issues or warnings found."]
  | .GOOD =>
    ["  " ++ P.Yellow ++ P.Bold ++ "● Overall Status: GOOD" ++ P.Reset,
     "  No critical issues, but " ++ toString a.WarnCount ++ " warning(s) found."]
  | .NEEDS_ATTENTION =>
    ["  " ++ P.Yellow ++ P.Bold ++ "● Overall Status: NEEDS ATTENTION" ++ P.Reset,
     "  " ++ toString a.FailCount ++ " critical issue(s) found — remediation recommended."]
  | .CRITICAL =>
    ["  " ++ P.Red ++ P.Bold ++ "● Overall Status: CRITICAL" ++ P.Reset,
     "  " ++ toString a.FailCount ++ " critical issue(s) found — immediate action required!"]

/-- The stats box of the summary, one written line per line of the box. -/
def summaryBoxLines (L : Lipgloss) (a : AuditState) : List String :=
  let summaryBoxColor :=
    if a.FailCount > 0 then "196" else if a.WarnCount > 0 then "226" else "46"
  let summaryBox := infoBox L summaryBoxColor
    [("Domain:", a.Domain), ("Email:", a.Email)]
    [("✓ Passed:", toString a.PassCount), ("✗ Failed:", toString a.FailCount),
     ("⚠ Warnings:", toString a.WarnCount), ("ℹ Info:", toString a.InfoCount)]
  (splitLines summaryBox).map (fun line => "  " ++ line)

/-- The numbered entries of a list, `    %d. %s`, counting from `i + 1`. -/
def numbered : Nat → List String → List String
  | _, [] => []
  | i, rec :: rest => ("    " ++ toString (i + 1) ++ ". " ++ rec) :: numbered (i + 1) rest

/-- The AbuseBSI compliance text of the summary. -/
def compliantText (P : Palette) (a : AuditState) : String :=
  if a.AdmissionSvcType ≠ "ClusterIP" then P.Red ++ "✗ NON-COMPLIANT" ++ P.Reset
  else P.Green ++ "✓ COMPLIANT" ++ P.Reset

/-- The lines `generateSummary` writes after the overall status: key findings,
recommendations, report response, file names, contact. -/
def summaryTail (P : Palette) (a : AuditState) : List String :=
  ["",
   "  " ++ P.Bold ++ "Key Findings:" ++ P.Reset,
   "    • Controller version:          " ++ a.ControllerVersion,
   "    • Admission controller:        " ++ a.AdmissionSvcType,
   "    • AbuseBSI compliance:         " ++ compliantText P a,
   "",
   "  " ++ P.Bold ++ "Recommendations:" ++ P.Reset] ++
  numbered 0 (buildRecommendations a) ++
  ["",
   "  " ++ P.Bold ++ "AbuseBSI Report Response:" ++ P.Reset,
   "    Report ID: CB-Report#20260218-10009947"] ++
  (if a.AdmissionSvcType = "ClusterIP" then
    ["    Status:    " ++ P.Green ++ "✓ RESOLVED" ++ P.Reset,
     "    Details:   Admission controller is not publicly exposed"]
  else
    ["    Status:    " ++ P.Red ++ "✗ STILL VULNERABLE" ++ P.Reset,
     "    Details:   Exposed via " ++ a.AdmissionSvcType ++ " — immediate remediation required"]) ++
  ["",
   "  " ++ P.Bold ++ "Report files generated:" ++ P.Reset,
   "    • " ++ a.TextReportFile ++ " (text)",
   "    • " ++ a.JSONReportFile ++ " (json)",
   "",
   "  " ++ P.Bold ++ "For questions: " ++ a.Email ++ P.Reset]

/-- Every line `generateSummary` writes, in order. No line depends on the
output buffer, the only field a write changes. -/
def summaryLines (P : Palette) (L : Lipgloss) (a : AuditState) : List String :=
  headerLines P "AUDIT SUMMARY" ++
  summaryBoxLines L a ++
  [""] ++
  statusLines P a ++
  summaryTail P a

/-- Embeds `generateSummary`: write the lines of the summary one by one. -/
def generateSummary (P : Palette) (L : Lipgloss) (a : AuditState) : AuditState × List Event :=
  writelns (summaryLines P L a) a


/-! ## main.go and setup.go: contexts and report file names -/

/-- Embeds the `sub := &AuditState{...}` literal of `runMultiNamespaceScan`: the
context built for the target `ns` of a scan started at time stamp `ts`. Every
field not named in the literal has its zero value. -/
def subState (a : AuditState) (ns ts : String) : AuditState :=
  { Namespace := ns,
    Namespaces := [ns],
    Domain := a.Domain,
    Email := a.Email,
    ControllerName := a.ControllerName,
    TextReportFile := "ingress-audit-" ++ ns ++ "-" ++ ts ++ ".txt",
    JSONReportFile := "ingress-audit-" ++ ns ++ "-" ++ ts ++ ".json" }

/-- Embeds the three lines of `interactiveSetup` that name the report files of
a single-target run from the time stamp `ts`. -/
def setupReportFiles (ts : String) (a : AuditState) : AuditState :=
  { a with TextReportFile := "ingress-audit-" ++ ts ++ ".txt",
           JSONReportFile := "ingress-audit-" ++ ts ++ ".json" }

/-- The text has the shape `YYYYMMDD-HHMMSS` that `time.Format` gives for the
layout `20060102-150405`: fifteen runes, a dash at position 8, digits elsewhere. -/
def isStamp (ts : String) : Bool :=
  ts.data.length = 15 && ts.data[8]? = some '-' && (ts.data.eraseIdx 8).all Char.isDigit


/-! ## The fixes the probes register -/

/-- Embeds the registration in `auditVersion` (audit_version.go, the `default`
case of the version switch): `ns` is copied from the state, the closure uses
only `ns`. -/
def registerUpgradeFix (a : AuditState) : AuditState :=
  let ns := a.Namespace
  addFix "upgrade-controller" "CRITICAL"
    ("Upgrade ingress-nginx controller from " ++ a.ControllerVersion ++ " to v1.14.3")
    ("helm upgrade ingress-nginx ingress-nginx/ingress-nginx --version 4.14.3 -n " ++ ns)
    (some (fun _ w => runCmd "helm" ["upgrade", "ingress-nginx",
      "ingress-nginx/ingress-nginx", "--version", "4.14.3", "-n", ns] w)) a

/-- Embeds the registration in `auditAdmissionController` (audit_admission.go,
case `LoadBalancer`): the closure uses only the copied `ns`. -/
def registerAdmissionFix (a : AuditState) : AuditState :=
  let ns := a.Namespace
  addFix "admission-loadbalancer" "CRITICAL"
    "Change admission controller service from LoadBalancer → ClusterIP"
    ("kubectl patch svc ingress-nginx-controller-admission -n " ++ ns ++
      " -p \x27\x7b\"spec\":\x7b\"type\":\"ClusterIP\"\x7d\x7d\x27")
    (some (fun _ w => runCmd "kubectl" ["patch", "svc", "ingress-nginx-controller-admission",
      "-n", ns, "-p", "\x7b\"spec\":\x7b\"type\":\"ClusterIP\"\x7d\x7d"] w)) a

/-- Embeds the registration in `auditConfiguration` (audit_config.go, snippet
annotations enabled): `ns` is copied from the state, but the closure reads
`a.ControllerName` through the captured pointer when it is called. -/
def registerSnippetFix (a : AuditState) : AuditState :=
  let ns := a.Namespace
  addFix "snippet-annotations" "CRITICAL"
    "Disable allow-snippet-annotations in ingress-nginx ConfigMap"
    ("kubectl patch cm ingress-nginx-controller -n " ++ ns ++
      " --type merge -p \x27\x7b\"data\":\x7b\"allow-snippet-annotations\":\"false\"\x7d\x7d\x27")
    (some (fun c w => runCmd "kubectl" ["patch", "cm", c.ControllerName,
      "-n", ns, "--type", "merge",
      "-p", "\x7b\"data\":\x7b\"allow-snippet-annotations\":\"false\"\x7d\x7d"] w)) a

/-- Embeds the registration in `auditConfiguration` (audit_config.go, resource
limits missing): `ns` and `rt` are copied from the state, but the closure reads
`a.ControllerName` through the captured pointer when it is called. -/
def registerLimitsFix (a : AuditState) : AuditState :=
  let ns := a.Namespace
  let rt := toLower a.DeploymentType
  let rt := if rt = "" then "deployment" else rt
  addFix "resource-limits" "WARNING"
    "Set default resource limits on ingress-nginx-controller"
    ("kubectl set resources " ++ rt ++ " ingress-nginx-controller -n " ++ ns ++
      " --limits=cpu=200m,memory=256Mi --requests=cpu=100m,memory=128Mi")
    (some (fun c w => runCmd "kubectl" ["set", "resources", rt, c.ControllerName,
      "-n", ns,
      "--limits=cpu=200m,memory=256Mi",
      "--requests=cpu=100m,memory=128Mi"] w)) a

/-- The commands the action of a fix runs when it is called in a world where
nothing has run yet, the state being as the closure then reads it. -/
def Fix.commandsRun (f : Fix) (live : Captured) : List Cmd :=
  match f.Run with
  | none => []
  | some run => (run live calmWorld).2.log

/-- The words of a command text as a shell reads them: blanks separate words,
single quotes group a word and are dropped. `cur` is the word being read. -/
def shellWordsFrom : Bool → List Char → List Char → List String
  | _, cur, [] => if cur.isEmpty then [] else [String.mk cur]
  | false, cur, c :: cs =>
    if c = ' ' then
      (if cur.isEmpty then shellWordsFrom false [] cs
       else String.mk cur :: shellWordsFrom false [] cs)
    else if c = Char.ofNat 39 then shellWordsFrom true cur cs
    else shellWordsFrom false (cur ++ [c]) cs
  | true, cur, c :: cs =>
    if c = Char.ofNat 39 then shellWordsFrom false cur cs
    else shellWordsFrom true (cur ++ [c]) cs

/-- The words of a command text. -/
def shellWords (text : String) : List String := shellWordsFrom false [] text.data

/-- The words of a command: the program followed by its arguments. -/
def Cmd.words (c : Cmd) : List String := c.name :: c.args

/-- A state of an audit of the controller `my-nginx` in namespace `web`. -/
def customNameState : AuditState :=
  { Namespace := "web", ControllerName := "my-nginx", DeploymentType := "Deployment",
    ControllerVersion := "v1.10.0", AllowSnippets := "true" }


/-! ## util.go and more of the Go library -/

/-- Go `strings.Fields` on rune lists: the maximal runs of runes that are not
white space. `cur` is the field being read. -/
def fieldsFrom : List Char → List Char → List String
  | cur, [] => if cur.isEmpty then [] else [String.mk cur]
  | cur, c :: cs =>
    if isSpace c then
      (if cur.isEmpty then fieldsFrom [] cs else String.mk cur :: fieldsFrom [] cs)
    else fieldsFrom (cur ++ [c]) cs

/-- Go `strings.Fields`. -/
def fields (s : String) : List String := fieldsFrom [] s.data

/-- Embeds `nonEmpty` of util.go: drop the strings that are blank. -/
def nonEmpty (ss : List String) : List String :=
  ss.filter (fun s => trimSpace s ≠ "")

/-! ## report.go: the structured report -/

/-- Embeds `ControllerReport`. -/
structure ControllerReport where
  DeploymentType : String
  Version : String
  Image : String
  LatestVersion : String
deriving DecidableEq, Repr

/-- Embeds `AdmissionReport`. -/
structure AdmissionReport where
  ServiceType : String
  ClusterIP : String
  ExternalIP : String
  PubliclyExposed : Bool
deriving DecidableEq, Repr

/-- Embeds `SecurityReport`. -/
structure SecurityReport where
  AbuseBSICompliant : Bool
  SnippetAnnotationsEnabled : Bool
  NetworkPoliciesCount : Nat
deriving DecidableEq, Repr

/-- Embeds `AuditResultsReport`. -/
structure AuditResultsReport where
  Passed : Nat
  Failed : Nat
  Warnings : Nat
  Info : Nat
deriving DecidableEq, Repr

/-- Embeds `AuditReport`, the value that is marshalled into the JSON file. -/
structure AuditReport where
  AuditTimestamp : String
  Domain : String
  AdminEmail : String
  ClusterVersion : String
  Namespace : String
  Controller : ControllerReport
  Admission : AdmissionReport
  Security : SecurityReport
  AuditResults : AuditResultsReport
  Recommendations : List String
deriving DecidableEq, Repr

/-- The `report` value built by `generateJSONReport` from the state and the
current time in RFC 3339 form. -/
def buildReport (now : String) (a : AuditState) : AuditReport :=
  let recs := buildRecommendations a
  { AuditTimestamp := now,
    Domain := a.Domain,
    AdminEmail := a.Email,
    ClusterVersion := a.ClusterVersion,
    Namespace := a.Namespace,
    Controller :=
      { DeploymentType := a.DeploymentType,
        Version := a.ControllerVersion,
        Image := a.ControllerImage,
        LatestVersion := "v1.14.3" },
    Admission :=
      { ServiceType := a.AdmissionSvcType,
        ClusterIP := a.AdmissionClusterIP,
        ExternalIP := a.AdmissionExternalIP,
        PubliclyExposed := a.AdmissionSvcType ≠ "ClusterIP" },
    Security :=
      { AbuseBSICompliant := a.AdmissionSvcType = "ClusterIP",
        SnippetAnnotationsEnabled := a.AllowSnippets = "true",
        NetworkPoliciesCount := a.NpCount },
    AuditResults :=
      { Passed := a.PassCount,
        Failed := a.FailCount,
        Warnings := a.WarnCount,
        Info := a.InfoCount },
    Recommendations := recs }

/-! ## The running process -/

/-- One decoded Helm release as `auditVersion` observes it: whether its `name`
equals `ingress-nginx`, and what `%v` prints for its `chart`, `status` and
`revision`. -/
structure HelmRelease where
  isIngressNginx : Bool
  chart : String
  status : String
  revision : String

/-- What the machine shows to the process, beyond the outcome of commands that
the world holds: everything here may depend on the commands run so far. -/
structure Host where
  /-- `exec.LookPath` finds the program on PATH -/
  lookPath : List Cmd → String → Bool
  /-- the standard output a command produces -/
  output : List Cmd → Cmd → String
  /-- the standard error a command produces -/
  errput : List Cmd → Cmd → String
  /-- `time.Now().Format("20060102-150405")` -/
  stamp : List Cmd → String
  /-- `time.Now().UTC().Format(time.RFC3339)` -/
  rfc3339 : List Cmd → String
  /-- `json.Unmarshal` of the output of `helm list -o json` into a slice of
  maps, as far as `auditVersion` looks at it; `none` is a decoding error -/
  helmReleases : String → Option (List HelmRelease)

/-- The nine probes of the pipeline. -/
inductive ProbeId where
  | preflight
  | version
  | admission
  | network
  | configuration
  | podSecurity
  | vulnerabilities
  | certificates
  | ingress
deriving DecidableEq, Repr

/-- What the whole program does, in order. -/
inductive Step where
  /-- something on the terminal or a call of a fix action -/
  | term (e : Event)
  /-- `runAudit` calls this probe -/
  | probe (k : ProbeId)
  /-- `os.WriteFile` of the marshalled report to the JSON report file -/
  | writeReport (path : String) (report : AuditReport)
  /-- `os.WriteFile` of the output buffer to the text report file -/
  | writeText (path : String) (content : String)

/-- A process while it audits one state: the state, what it did so far, the
world, and its exit status once it has terminated (`os.Exit`, or 2 for a
run-time panic). A terminated process does nothing more. -/
structure Proc where
  a : AuditState
  steps : List Step
  w : World
  exit : Option Nat

/-- A method of the state that only writes: run it unless the process is dead. -/
def Proc.emit (f : AuditState → AuditState × List Event) (p : Proc) : Proc :=
  match p.exit with
  | some _ => p
  | none => { p with a := (f p.a).1, steps := p.steps ++ (f p.a).2.map Step.term }

/-- A print of the program outside the state's buffer (`fmt.Printf`). -/
def Proc.print (text : String) (p : Proc) : Proc :=
  match p.exit with
  | some _ => p
  | none => { p with steps := p.steps ++ [Step.term (Event.stdout text)] }

/-- An assignment to fields of the state. -/
def Proc.modify (f : AuditState → AuditState) (p : Proc) : Proc :=
  match p.exit with
  | some _ => p
  | none => { p with a := f p.a }

/-- Embeds `os.Exit(code)`; a run-time panic is the exit with status 2. -/
def Proc.osExit (code : Nat) (p : Proc) : Proc :=
  match p.exit with
  | some _ => p
  | none => { p with exit := some code }

/-- The call `exec.Command(name, args...).Output()`: the raw standard output
and the error; the command joins the log of the world. -/
def Proc.output (H : Host) (name : String) (args : List String) (p : Proc) :
    (String × GoError) × Proc :=
  match p.exit with
  | some _ => (("", none), p)
  | none => ((H.output p.w.log ⟨name, args⟩, (runCmd name args p.w).1),
      { p with w := (runCmd name args p.w).2 })

/-- Embeds `kubectl` of shell.go: trimmed standard output and error. -/
def Proc.kubectl (H : Host) (args : List String) (p : Proc) : (String × GoError) × Proc :=
  let r := Proc.output H "kubectl" args p
  ((trimSpace r.1.1, r.1.2), r.2)

/-- Embeds `kubectlE` of shell.go: trimmed standard output, trimmed standard
error, and error. -/
def Proc.kubectlE (H : Host) (args : List String) (p : Proc) :
    (String × String × GoError) × Proc :=
  match p.exit with
  | some _ => (("", "", none), p)
  | none => ((trimSpace (H.output p.w.log ⟨"kubectl", args⟩),
      trimSpace (H.errput p.w.log ⟨"kubectl", args⟩), (runCmd "kubectl" args p.w).1),
      { p with w := (runCmd "kubectl" args p.w).2 })

/-- Embeds `helmCmd` of shell.go. -/
def Proc.helmCmd (H : Host) (args : List String) (p : Proc) : (String × GoError) × Proc :=
  let r := Proc.output H "helm" args p
  ((trimSpace r.1.1, r.1.2), r.2)

/-- Embeds `cmdExists` of shell.go. -/
def Proc.cmdExists (H : Host) (name : String) (p : Proc) : Bool :=
  H.lookPath p.w.log name


/-! ## audit_preflight.go -/

/-- The loop of the `kubectl` version closure: the third field of the first
line that contains `Client` and has more than two fields, else `unknown`. -/
def clientVersionOf : List String → String
  | [] => "unknown"
  | line :: rest =>
    if strContains line "Client" then
      (if (fields line).length > 2 then (fields line).getD 2 "" else clientVersionOf rest)
    else clientVersionOf rest

/-- The `version` closure of the tool at hand, called only when the tool was found. -/
def toolVersion (H : Host) (name : String) (p : Proc) : String × Proc :=
  if name = "kubectl" then
    let r := Proc.kubectl H ["version", "--client", "--short"] p
    (clientVersionOf (splitLines r.1.1), r.2)
  else if name = "helm" then
    let r := Proc.helmCmd H ["version", "--short"] p
    let v := r.1.1
    (if v.data.contains '+' then String.mk (v.data.takeWhile (· ≠ '+')) else v, r.2)
  else
    let r := Proc.output H "jq" ["--version"] p
    (trimSpace r.1.1, r.2)

/-- The body of the loop over the required tools. -/
def checkTool (H : Host) (P : Palette) (p : Proc) (name : String) : Proc :=
  let p := p.emit (logStep P ("Checking " ++ name ++ "..."))
  if Proc.cmdExists H name p then
    let v := toolVersion H name p
    v.2.emit (logPass P (name ++ " is installed (" ++ v.1 ++ ")"))
  else
    let p := p.emit (logFail P (name ++ " is not installed — please install it and retry"))
    p.osExit 1

/-- The section `Required tools` of `auditPreflight`. -/
def preflightTools (H : Host) (P : Palette) (p : Proc) : Proc :=
  let p := p.emit (printHeader P "PHASE 1 — PRE-FLIGHT CHECKS")
  let p := p.emit (printSection P "Required Tools Validation")
  ["kubectl", "helm", "jq"].foldl (checkTool H P) p

/-- The loop that reads the server version: the third field of the last line
that contains `Server` and has more than two fields. -/
def serverVersionOf (cur : String) : List String → String
  | [] => cur
  | line :: rest =>
    if strContains line "Server" then
      (if (fields line).length > 2 then serverVersionOf ((fields line).getD 2 "") rest
       else serverVersionOf cur rest)
    else serverVersionOf cur rest

/-- The loop that reads the API server: the last field of the last line that
contains `control plane`. `none` stands for the index out of range on a line
without fields. -/
def apiServerOf (cur : String) : List String → Option String
  | [] => some cur
  | line :: rest =>
    if strContains line "control plane" then
      match (fields line).getLast? with
      | some x => apiServerOf x rest
      | none => none
    else apiServerOf cur rest

/-- The indented copies of the non-blank lines of a listing. -/
def detailLines (listing : String) : List String :=
  ((splitLines listing).filter (fun l => trimSpace l ≠ "")).map (fun l => "    " ++ l)

/-- The section `Cluster connectivity` of `auditPreflight`. -/
def preflightCluster (H : Host) (P : Palette) (p : Proc) : Proc :=
  let p := p.emit (printSection P "Kubernetes Cluster Connectivity")
  let p := p.emit (logStep P "Executing: kubectl cluster-info...")
  let r := Proc.kubectlE H ["cluster-info"] p
  let p := r.2
  let p := if r.1.2.2 ≠ none then
      (p.emit (logFail P "Cannot reach Kubernetes API server — check kubeconfig")).osExit 1
    else p
  let p := p.emit (logPass P "Kubernetes cluster is reachable")
  let p := p.emit (logStep P "Fetching cluster version...")
  let r := Proc.kubectl H ["version", "--short"] p
  let p := r.2.modify
    (fun a => { a with ClusterVersion := serverVersionOf a.ClusterVersion (splitLines r.1.1) })
  let p := p.emit (fun a => logInfo P ("Cluster version: " ++ a.ClusterVersion) a)
  let p := p.emit (logStep P "Getting API server endpoint...")
  let r := Proc.kubectl H ["cluster-info"] p
  let p := match apiServerOf r.2.a.APIServer (splitLines r.1.1) with
    | some v => r.2.modify (fun a => { a with APIServer := v })
    | none => r.2.osExit 2
  let p := p.emit (fun a => logInfo P ("API Server: " ++ a.APIServer) a)
  let p := p.emit (logStep P "Checking current context...")
  let r := Proc.kubectl H ["config", "current-context"] p
  let p := r.2.modify (fun a => { a with CurrentContext := r.1.1 })
  let p := p.emit (fun a => logInfo P ("Context: " ++ a.CurrentContext) a)
  let p := p.emit (logStep P "Counting cluster nodes...")
  let r := Proc.kubectl H ["get", "nodes", "--no-headers"] p
  let lines := nonEmpty (splitLines r.1.1)
  let p := r.2.modify (fun a => { a with
    NodeCount := lines.length,
    ReadyNodes := a.ReadyNodes + lines.countP (fun l => strContains l "Ready") })
  let p := p.emit (fun a => logInfo P
    ("Cluster nodes: " ++ toString a.ReadyNodes ++ "/" ++ toString a.NodeCount ++ " ready") a)
  if p.a.NodeCount > 0 then
    let p := p.emit (writeln "\n  Node details:")
    let r := Proc.kubectl H ["get", "nodes", "-o",
      "custom-columns=NAME:.metadata.name,STATUS:.status.conditions[-1].type,VERSION:.status.nodeInfo.kubeletVersion",
      "--no-headers"] p
    r.2.emit (writelns (detailLines r.1.1))
  else p

/-- The section `Namespace` of `auditPreflight`. -/
def preflightNamespace (H : Host) (P : Palette) (p : Proc) : Proc :=
  let p := p.emit (printSection P "Namespace Validation")
  let p := p.emit (fun a => logStep P ("Executing: kubectl get namespace " ++ a.Namespace ++ "...") a)
  let r := Proc.kubectlE H ["get", "namespace", p.a.Namespace] p
  let p := r.2
  let p := if r.1.2.2 ≠ none then
      let p := p.emit (fun a => logFail P ("Namespace \x27" ++ a.Namespace ++ "\x27 not found") a)
      let ns := Proc.kubectl H ["get", "namespaces", "-o",
        "jsonpath=\x7b.items[*].metadata.name\x7d"] p
      let p := ns.2.emit (logInfo P ("Available: " ++ ns.1.1))
      p.osExit 1
    else p
  let p := p.emit (fun a => logPass P ("Namespace \x27" ++ a.Namespace ++ "\x27 exists") a)
  let nsStatus := Proc.kubectl H ["get", "namespace", p.a.Namespace, "-o",
    "jsonpath=\x7b.status.phase\x7d"] p
  let nsAge := Proc.kubectl H ["get", "namespace", p.a.Namespace, "-o",
    "jsonpath=\x7b.metadata.creationTimestamp\x7d"] nsStatus.2
  let p := nsAge.2.emit (logInfo P ("Status: " ++ nsStatus.1.1))
  let p := p.emit (logInfo P ("Created: " ++ nsAge.1.1))
  let p := p.emit (logStep P "Counting namespace resources...")
  let podOut := Proc.kubectl H ["get", "pods", "-n", p.a.Namespace, "--no-headers"] p
  let svcOut := Proc.kubectl H ["get", "svc", "-n", p.a.Namespace, "--no-headers"] podOut.2
  let cmOut := Proc.kubectl H ["get", "cm", "-n", p.a.Namespace, "--no-headers"] svcOut.2
  let pc := (nonEmpty (splitLines podOut.1.1)).length
  let sc := (nonEmpty (splitLines svcOut.1.1)).length
  let cc := (nonEmpty (splitLines cmOut.1.1)).length
  let p := cmOut.2.emit (logInfo P ("Resources: " ++ toString pc ++ " pods, " ++ toString sc ++
    " services, " ++ toString cc ++ " configmaps"))
  if pc > 0 then
    let p := p.emit (writeln "\n  Pod summary:")
    let podSum := Proc.kubectl H ["get", "pods", "-n", p.a.Namespace, "-o",
      "custom-columns=NAME:.metadata.name,STATUS:.status.phase,RESTARTS:.status.containerStatuses[0].restartCount",
      "--no-headers"] p
    podSum.2.emit (writelns (detailLines podSum.1.1))
  else p

/-- The body of the loop over the RBAC checks: verb, resource, extra argument. -/
def checkRbac (H : Host) (P : Palette) (p : Proc) (c : String × String × String) : Proc :=
  let args := ["auth", "can-i", c.1, c.2.1]
  let args := if c.2.2 ≠ "" then args ++ [c.2.2] else args
  let p := p.emit (logStep P ("Testing \x27kubectl " ++ strJoin " " (args.drop 2) ++ "\x27..."))
  let r := Proc.kubectl H args p
  if r.1.2 = none ∧ trimSpace r.1.1 = "yes" then
    r.2.emit (logPass P ("Can " ++ c.1 ++ " " ++ c.2.1))
  else
    r.2.emit (logWarn P ("Limited permission: " ++ c.1 ++ " " ++ c.2.1))

/-- The section `RBAC` of `auditPreflight`. -/
def preflightRbac (H : Host) (P : Palette) (p : Proc) : Proc :=
  let p := p.emit (printSection P "RBAC Permissions Check")
  let p := [("get", "pods", "--all-namespaces"),
    ("get", "services", "--all-namespaces"),
    ("get", "validatingwebhookconfigurations", ""),
    ("get", "networkpolicies", "--all-namespaces")].foldl (checkRbac H P) p
  p.emit (logInfo P "Pre-flight checks completed ✓")

/-- Embeds `auditPreflight`: tools, cluster, namespace, RBAC. It terminates the
process with status 1 when a tool is missing, the cluster is unreachable or
the namespace is not found. -/
def auditPreflight (H : Host) (P : Palette) (p : Proc) : Proc :=
  preflightRbac H P (preflightNamespace H P (preflightCluster H P (preflightTools H P p)))


/-! ## setup.go: the existence check -/

/-- The loop of `nsHasIngressNginx` over the resource kinds still to try. -/
def hasWorkload (H : Host) (ns controllerName : String) : List String → Proc → Bool × Proc
  | [], p => (false, p)
  | resource :: rest, p =>
    let r := Proc.output H "kubectl"
      ["get", resource, "-n", ns, controllerName, "--ignore-not-found"] p
    if trimSpace r.1.1 ≠ "" then (true, r.2) else hasWorkload H ns controllerName rest r.2

/-- Embeds `nsHasIngressNginx`: a Deployment or a DaemonSet of that name exists
in the namespace. -/
def nsHasIngressNginx (H : Host) (ns controllerName : String) (p : Proc) : Bool × Proc :=
  hasWorkload H ns controllerName ["deployment", "daemonset"] p

/-! ## main.go -/

/-- What a probe leaves behind: the new state, the texts it printed, the new
world, and whether it died in a run-time panic. -/
structure ProbeOut where
  state : AuditState
  texts : List String
  world : World
  aborted : Bool

/-- The eight probes that follow the pre-flight, each an arbitrary procedure on
the state and the world: what a probe checks is outside the orchestration, and
the properties of the pipeline are proved for whatever the probes do. -/
structure Probes where
  auditVersion : AuditState → World → ProbeOut
  auditAdmissionController : AuditState → World → ProbeOut
  auditNetworkSecurity : AuditState → World → ProbeOut
  auditConfiguration : AuditState → World → ProbeOut
  auditPodSecurity : AuditState → World → ProbeOut
  auditVulnerabilities : AuditState → World → ProbeOut
  auditCertificates : AuditState → World → ProbeOut
  auditIngressResources : AuditState → World → ProbeOut

/-- The note that `runAudit` calls a probe. -/
def Proc.mark (k : ProbeId) (p : Proc) : Proc :=
  match p.exit with
  | some _ => p
  | none => { p with steps := p.steps ++ [Step.probe k] }

/-- The call of one of the eight probes. -/
def Proc.probe (k : ProbeId) (f : AuditState → World → ProbeOut) (p : Proc) : Proc :=
  match p.exit with
  | some _ => p
  | none =>
    { a := (f p.a p.w).state,
      steps := p.steps ++ Step.probe k ::
        (f p.a p.w).texts.map (fun t => Step.term (Event.stdout t)),
      w := (f p.a p.w).world,
      exit := if (f p.a p.w).aborted then some 2 else none }

/-- The first nine statements of `runAudit`: the probes, in the order of the source. -/
def runProbes (H : Host) (P : Palette) (probes : Probes) (p : Proc) : Proc :=
  let p := auditPreflight H P (p.mark .preflight)
  let p := p.probe .version probes.auditVersion
  let p := p.probe .admission probes.auditAdmissionController
  let p := p.probe .network probes.auditNetworkSecurity
  let p := p.probe .configuration probes.auditConfiguration
  let p := p.probe .podSecurity probes.auditPodSecurity
  let p := p.probe .vulnerabilities probes.auditVulnerabilities
  let p := p.probe .certificates probes.auditCertificates
  p.probe .ingress probes.auditIngressResources

/-- Embeds `generateJSONReport`: build the report and write it to the JSON file. -/
def Proc.generateJSONReport (H : Host) (p : Proc) : Proc :=
  match p.exit with
  | some _ => p
  | none => { p with steps := p.steps ++
      [Step.writeReport p.a.JSONReportFile (buildReport (H.rfc3339 p.w.log) p.a)] }

/-- The statement `os.WriteFile(a.TextReportFile, a.OutputBuffer.Bytes(), 0644)`. -/
def Proc.writeTextReport (p : Proc) : Proc :=
  match p.exit with
  | some _ => p
  | none => { p with steps := p.steps ++ [Step.writeText p.a.TextReportFile p.a.OutputBuffer] }

/-- The call of `offerFixes`; a call of a nil action kills the process. -/
def Proc.offerFixes (P : Palette) (con : Console) (p : Proc) : Proc :=
  match p.exit with
  | some _ => p
  | none =>
    { a := (IngressAudit.offerFixes P con p.a p.w).state,
      steps := p.steps ++ (IngressAudit.offerFixes P con p.a p.w).events.map Step.term,
      w := (IngressAudit.offerFixes P con p.a p.w).world,
      exit := if (IngressAudit.offerFixes P con p.a p.w).panicked then some 2 else none }

/-- Embeds `runAudit`: the nine probes, the JSON report, the summary, the text
report, and the fix executor if a fix was registered. -/
def runAudit (H : Host) (P : Palette) (L : Lipgloss) (probes : Probes) (con : Console)
    (p : Proc) : Proc :=
  let p := runProbes H P probes p
  let p := p.generateJSONReport H
  let p := p.emit (generateSummary P L)
  let p := p.writeTextReport
  if p.a.Fixes.length > 0 then p.offerFixes P con else p

/-- One audited target of a run: its namespace, the context the audit started
from and the context it ended with. -/
structure TargetRun where
  ns : String
  initial : AuditState
  final : AuditState

/-- The state of `runMultiNamespaceScan` inside its loop: the process (with the
state `a` of the caller), the local `totalFail`, and the targets audited so far. -/
structure Scan where
  p : Proc
  totalFail : Nat
  runs : List TargetRun

/-- The line the loop of `runMultiNamespaceScan` prints when it comes to target `i`. -/
def targetBanner (P : Palette) (a : AuditState) (i : Nat) (ns : String) : String :=
  "\n" ++ P.Bold ++ P.Blue ++ "--- NAMESPACE " ++ toString (i + 1) ++ "/" ++
    toString a.Namespaces.length ++ ": " ++ ns ++ " ---" ++ P.Reset ++ "\n"

/-- The line the loop prints when it skips a target. -/
def skipLine (P : Palette) (ns : String) : String :=
  "  " ++ P.Yellow ++ "SKIP" ++ P.Reset ++ ": No ingress-nginx in namespace " ++ P.Cyan ++ ns ++
    P.Reset ++ "\n"

/-- The banner of target `i` and the call `nsHasIngressNginx(ns, a.ControllerName)`. -/
def existenceCheck (H : Host) (P : Palette) (a : AuditState) (i : Nat) (ns : String)
    (p : Proc) : Bool × Proc :=
  nsHasIngressNginx H ns a.ControllerName (p.print (targetBanner P a i ns))

/-- The call `runAudit(sub)` for target `i`, after its existence check. -/
def targetAudit (H : Host) (P : Palette) (L : Lipgloss) (probes : Probes) (con : Nat → Console)
    (a : AuditState) (ts : String) (i : Nat) (ns : String) (p : Proc) : Proc :=
  runAudit H P L probes (con i) { (existenceCheck H P a i ns p).2 with a := subState a ns ts }

/-- The body of the loop `for i, ns := range a.Namespaces` of
`runMultiNamespaceScan`, for target `i`; `con i` is what the terminal shows
during the fix phase of that target. The process carries the state `a` of the
caller; the audit runs on `sub`. When `runAudit` terminates the process the
target is recorded and `totalFail` is not updated. -/
def scanTurn (H : Host) (P : Palette) (L : Lipgloss) (probes : Probes) (con : Nat → Console)
    (a : AuditState) (ts : String) (i : Nat) (ns : String) (s : Scan) : Scan :=
  match s.p.exit with
  | some _ => s
  | none =>
    let sub := subState a ns ts
    let found := existenceCheck H P a i ns s.p
    if found.1 = false then
      { s with p := found.2.print (skipLine P ns) }
    else
      let r := targetAudit H P L probes con a ts i ns s.p
      match r.exit with
      | some _ => { s with p := { r with a := s.p.a }, runs := s.runs ++ [⟨ns, sub, r.a⟩] }
      | none =>
        { p := { r with a := s.p.a },
          totalFail := s.totalFail + r.a.FailCount,
          runs := s.runs ++ [⟨ns, sub, r.a⟩] }

/-- The loop `for i, ns := range a.Namespaces` of `runMultiNamespaceScan`, from
index `i` on. A terminated process goes through the remaining turns unchanged. -/
def scanLoop (H : Host) (P : Palette) (L : Lipgloss) (probes : Probes) (con : Nat → Console)
    (a : AuditState) (ts : String) : Nat → List String → Scan → Scan
  | _, [], s => s
  | i, ns :: rest, s =>
    scanLoop H P L probes con a ts (i + 1) rest (scanTurn H P L probes con a ts i ns s)

/-- The lines that list the scanned namespaces. -/
def scannedLines (P : Palette) (nss : List String) : List Step :=
  nss.map (fun ns => Step.term (Event.stdout ("  * " ++ P.Cyan ++ ns ++ P.Reset ++ "\n")))

/-- The statements of `runMultiNamespaceScan` after the loop: the closing
summary and the exit with status 1 if a target recorded a failure. -/
def scanVerdict (P : Palette) (a : AuditState) (s : Scan) : Scan :=
  match s.p.exit with
  | some _ => s
  | none =>
    let p := s.p.print ("\n" ++ P.Bold ++ P.Blue ++ "=== MULTI-NAMESPACE SCAN COMPLETE ===" ++
      P.Reset ++ "\n")
    let p := p.print ("  Namespaces scanned: " ++ P.Cyan ++ toString a.Namespaces.length ++
      P.Reset ++ "\n")
    let p := { p with steps := p.steps ++ scannedLines P a.Namespaces }
    if s.totalFail > 0 then
      let p := p.print ("\n  " ++ P.Red ++ P.Bold ++ "X Total failures: " ++ toString s.totalFail ++
        P.Reset ++ "\n")
      { s with p := p.osExit 1 }
    else
      { s with p := p.print ("\n  " ++ P.Green ++ P.Bold ++ "✓ All namespaces passed" ++
        P.Reset ++ "\n") }

/-- Embeds `runMultiNamespaceScan`. -/
def runMultiNamespaceScan (H : Host) (P : Palette) (L : Lipgloss) (probes : Probes)
    (con : Nat → Console) (a : AuditState) (w : World) : Scan :=
  let ts := H.stamp w.log
  scanVerdict P a (scanLoop H P L probes con a ts 0 a.Namespaces ⟨⟨a, [], w, none⟩, 0, []⟩)

/-- Embeds `main` from the statement after `interactiveSetup(a)` on: `a` is the
state the setup produced. -/
def main (H : Host) (P : Palette) (L : Lipgloss) (probes : Probes) (con : Nat → Console)
    (a : AuditState) (w : World) : Proc :=
  if a.ScanAll = true ∧ a.Namespaces.length > 1 then
    (runMultiNamespaceScan H P L probes con a w).p
  else
    let p := runAudit H P L probes (con 0) ⟨a, [], w, none⟩
    if p.a.FailCount > 0 then p.osExit 1 else p

/-- The exit status of the process: that of `os.Exit` or of a panic, and 0 when
`main` returns. -/
def exitStatus (p : Proc) : Nat := p.exit.getD 0


/-! ## Reading a run of the program -/

/-- The step is a print on the terminal. -/
def Step.isPrint : Step → Bool
  | .term (.stdout _) => true
  | _ => false

/-- The steps of a process that are not prints: probe calls, file writes,
reads of the answer, calls of fix actions and rollout waits, in order. -/
def Proc.trail (p : Proc) : List Step := p.steps.filter (fun s => !s.isPrint)

/-- The method leaves the fix list alone and does nothing but print. -/
def Writes (f : AuditState → AuditState × List Event) : Prop :=
  ∀ a, (f a).1.Fixes = a.Fixes ∧ (f a).2.all Event.isStdout = true

/-- The process `q` is `p` after statements that print, query the cluster,
assign discovered values or terminate the process: the fix list is the same,
the steps added are prints, and a dead process stays as it is. -/
structure Quiet (p q : Proc) : Prop where
  fixes : q.a.Fixes = p.a.Fixes
  steps : ∃ added, q.steps = p.steps ++ added ∧ added.all Step.isPrint = true
  dead : ∀ c, p.exit = some c → q = p

/-- The statements between `p` and `q` leave the exit status of the process as
it is or end the process with status 1 or 2. -/
def ExitsOnly (p q : Proc) : Prop := q.exit = p.exit ∨ q.exit = some 1 ∨ q.exit = some 2

/-- A method of the state that leaves the failed count as it is. -/
def Keeps (f : AuditState → AuditState × List Event) : Prop :=
  ∀ a, (f a).1.FailCount = a.FailCount

/-- The process `q` after statements of the pre-flight probe that started with
a failed count of `n`: the count did not go down, and the process is alive or
was ended with status 1 after the count went up. -/
def Preflighted (n : Nat) (q : Proc) : Prop :=
  n ≤ q.a.FailCount ∧ (q.exit = none ∨ (q.exit = some 1 ∧ n < q.a.FailCount))

/-- The process `q` right after a failed finding of the pre-flight probe. -/
def Charged (n : Nat) (q : Proc) : Prop :=
  Preflighted n q ∧ n < q.a.FailCount


/-! ## util.go: extractVersion, truncate -/

/-- Go `strings.FieldsFunc` on rune lists: the maximal runs of runes that are
not separators. `cur` is the field being read. -/
def fieldsFuncFrom (isSep : Char → Bool) : List Char → List Char → List String
  | cur, [] => if cur.isEmpty then [] else [String.mk cur]
  | cur, c :: cs =>
    if isSep c then
      (if cur.isEmpty then fieldsFuncFrom isSep [] cs
       else String.mk cur :: fieldsFuncFrom isSep [] cs)
    else fieldsFuncFrom isSep (cur ++ [c]) cs

/-- The expression `strings.SplitN(p, "-", 2)[0]`: the text before the first dash. -/
def beforeDash (p : String) : String := String.mk (p.data.takeWhile (· ≠ '-'))

/-- Go `strings.Count(s, ".")`. -/
def countDots (s : String) : Nat := s.data.count '.'

/-- The first loop of `extractVersion`: the first part that starts with `v`, is
longer than one byte and has two dots before its first dash. -/
def firstVTag : List String → Option String
  | [] => none
  | p :: rest =>
    if p.utf8ByteSize > 1 ∧ p.data.head? = some 'v' ∧ countDots (beforeDash p) ≥ 2 then
      some (beforeDash p)
    else firstVTag rest

/-- The second loop of `extractVersion`: the first part whose text before the
dash has two dots and only digits and dots. -/
def firstBareVersion : List String → Option String
  | [] => none
  | p :: rest =>
    if countDots (beforeDash p) ≥ 2 ∧
        (beforeDash p).data.all (fun c => c = '.' || ('0' ≤ c && c ≤ '9')) then
      some (beforeDash p)
    else firstBareVersion rest

/-- Embeds `extractVersion` of util.go. -/
def extractVersion (s : String) : String :=
  let parts := fieldsFuncFrom (fun r => r = ':' || r = '@' || r = '/') [] s.data
  match firstVTag parts with
  | some v => v
  | none =>
    match firstBareVersion parts with
    | some v => v
    | none => "unknown"

/-- The runes that lie wholly within the first `n` bytes of the UTF-8 encoding
of the list. -/
def takeBytes : Nat → List Char → List Char
  | _, [] => []
  | n, c :: cs => if c.utf8Size ≤ n then c :: takeBytes (n - c.utf8Size) cs else []

/-- Embeds `truncate` of util.go. Go counts bytes: `len(s) <= n` is the test and
`s[:n]` the first `n` bytes. When byte `n` falls inside a rune the Go string
ends with the leading bytes of that rune, which is no valid UTF-8 text; the
model then ends the text before that rune. On every other input, texts of
one-byte runes among them, the result is that of the source. -/
def truncate (s : String) (n : Nat) : String :=
  if s.utf8ByteSize ≤ n then s else String.mk (takeBytes n s.data)

/-! ## audit_version.go -/

/-- The discovery of the controller at the start of `auditVersion`. The result
is false when neither a DaemonSet nor a Deployment was found and the probe
returns early. -/
def versionDiscover (H : Host) (P : Palette) (p : Proc) : Bool × Proc :=
  let p := p.emit (printHeader P "PHASE 2 — VERSION AUDIT")
  let p := p.emit (printSection P "Controller Deployment Discovery")
  let p := p.emit (logStep P "Checking for DaemonSet deployment...")
  let ds := Proc.kubectl H ["get", "daemonset", "-n", p.a.Namespace, p.a.ControllerName] p
  if ds.1.2 = none then
    let p := ds.2.modify (fun a => { a with DeploymentType := "DaemonSet" })
    let p := p.emit (logPass P "Found controller as DaemonSet")
    let p := p.emit (logStep P "Fetching container image...")
    let img := Proc.kubectl H ["get", "daemonset", "-n", p.a.Namespace, p.a.ControllerName,
      "-o", "jsonpath=\x7b.spec.template.spec.containers[0].image\x7d"] p
    let p := img.2.modify (fun a => { a with ControllerImage := img.1.1 })
    let p := p.emit (logStep P "Checking replica status...")
    let ready := Proc.kubectl H ["get", "daemonset", "-n", p.a.Namespace, p.a.ControllerName,
      "-o", "jsonpath=\x7b.status.numberReady\x7d"] p
    let desired := Proc.kubectl H ["get", "daemonset", "-n", p.a.Namespace, p.a.ControllerName,
      "-o", "jsonpath=\x7b.status.desiredNumberScheduled\x7d"] ready.2
    (true, desired.2.modify
      (fun a => { a with ControllerReplicas := ready.1.1 ++ "/" ++ desired.1.1 }))
  else
    let p := ds.2.emit (logStep P "Not a DaemonSet, checking for Deployment...")
    let dp := Proc.kubectl H ["get", "deployment", "-n", p.a.Namespace, p.a.ControllerName] p
    if dp.1.2 = none then
      let p := dp.2.modify (fun a => { a with DeploymentType := "Deployment" })
      let p := p.emit (logPass P "Found controller as Deployment")
      let p := p.emit (logStep P "Fetching container image...")
      let img := Proc.kubectl H ["get", "deployment", "-n", p.a.Namespace, p.a.ControllerName,
        "-o", "jsonpath=\x7b.spec.template.spec.containers[0].image\x7d"] p
      let p := img.2.modify (fun a => { a with ControllerImage := img.1.1 })
      let p := p.emit (logStep P "Checking replica status...")
      let readyRep := Proc.kubectl H ["get", "deployment", "-n", p.a.Namespace,
        p.a.ControllerName, "-o", "jsonpath=\x7b.status.readyReplicas\x7d"] p
      let desiredRep := Proc.kubectl H ["get", "deployment", "-n", p.a.Namespace,
        p.a.ControllerName, "-o", "jsonpath=\x7b.spec.replicas\x7d"] readyRep.2
      (true, desiredRep.2.modify
        (fun a => { a with ControllerReplicas := readyRep.1.1 ++ "/" ++ desiredRep.1.1 }))
    else
      let p := dp.2.emit (logFail P
        "No ingress-nginx-controller found (neither DaemonSet nor Deployment)")
      let p := p.emit (logStep P "Searching for alternative controller names...")
      let out := Proc.kubectl H ["get", "deployments,daemonsets", "-n", p.a.Namespace,
        "-o", "name"] p
      (false, out.2.emit (writeln out.1.1))

/-- The version analysis of `auditVersion`: extract the version from the image,
compare it with the latest one, and register the upgrade fix if it is another. -/
def versionAnalysis (P : Palette) (p : Proc) : Proc :=
  let p := p.emit (fun a => logInfo P ("Ready replicas: " ++ a.ControllerReplicas) a)
  let p := p.emit (printSection P "Version Analysis")
  let p := p.emit (fun a => logInfo P ("Deployment type:  " ++ a.DeploymentType) a)
  let p := p.emit (fun a => logInfo P ("Container image:  " ++ a.ControllerImage) a)
  let p := p.emit (logStep P "Extracting version from image tag...")
  let p := p.modify (fun a => { a with ControllerVersion := extractVersion a.ControllerImage })
  let p := p.emit (fun a => logInfo P ("Controller version: " ++ a.ControllerVersion) a)
  let p := p.emit (fun a => logInfo P
    ("Image registry: " ++ ((splitChars '/' a.ControllerImage.data).map String.mk).headD "") a)
  let p := if strContains p.a.ControllerImage "@sha256:" then
      p.emit (fun a => logInfo P ("Image SHA: " ++
        truncate (String.mk ((a.ControllerImage.data.dropWhile (· ≠ '@')).drop 1)) 20 ++ "...") a)
    else p
  let latestVersion := "v1.14.3"
  let p := p.emit (fun a => logStep P
    ("Comparing " ++ a.ControllerVersion ++ " with latest " ++ latestVersion ++ "...") a)
  if p.a.ControllerVersion = latestVersion then
    p.emit (logPass P ("Running latest stable version " ++ latestVersion ++ " ✓"))
  else if p.a.ControllerVersion = "unknown" then
    p.emit (logWarn P
      "Could not determine version from image tag — manual verification required")
  else
    let p := p.emit (fun a => logFail P
      ("Outdated version " ++ a.ControllerVersion ++ " (latest: " ++ latestVersion ++ ")") a)
    let p := p.emit (fun a => logInfo P
      ("Upgrade command: helm upgrade ingress-nginx ingress-nginx/ingress-nginx --version 4.14.3 -n "
        ++ a.Namespace) a)
    p.modify registerUpgradeFix

/-- The body of the loop over the Helm releases. -/
def helmRelease (P : Palette) (p : Proc) (r : HelmRelease) : Proc :=
  if r.isIngressNginx then
    let p := p.modify (fun a => { a with HelmChart := r.chart })
    let p := p.modify (fun a => { a with HelmStatus := r.status })
    let p := p.modify (fun a => { a with HelmRevision := r.revision })
    let p := p.modify (fun a => { a with HelmChartVersion := extractVersion a.HelmChart })
    let p := p.emit (fun a => logInfo P ("Helm chart:    " ++ a.HelmChart) a)
    let p := p.emit (fun a => logInfo P ("Status:        " ++ a.HelmStatus) a)
    let p := p.emit (fun a => logInfo P ("Revision:      " ++ a.HelmRevision) a)
    if p.a.HelmChartVersion = "4.14.3" then
      p.emit (logPass P "Running latest Helm chart version 4.14.3")
    else
      p.emit (fun a => logWarn P
        ("Chart version " ++ a.HelmChartVersion ++ " may be outdated (latest: 4.14.3)") a)
  else p

/-- The Helm chart section of `auditVersion`. -/
def versionHelm (H : Host) (P : Palette) (p : Proc) : Proc :=
  let p := p.emit (printSection P "Helm Chart Information")
  let p := p.emit (fun a => logStep P
    ("Querying Helm releases in namespace " ++ a.Namespace ++ "...") a)
  let r := Proc.helmCmd H ["list", "-n", p.a.Namespace, "-o", "json"] p
  if r.1.2 = none ∧ r.1.1 ≠ "" then
    match H.helmReleases r.1.1 with
    | some releases => releases.foldl (helmRelease P) r.2
    | none => r.2
  else
    r.2.emit (logWarn P
      "Could not query Helm releases — not installed via Helm or Helm not available")

/-- The update configuration and lifecycle sections of `auditVersion`. -/
def versionUpdate (H : Host) (P : Palette) (p : Proc) : Proc :=
  let p := p.emit (printSection P "Update Configuration")
  let resType := toLower p.a.DeploymentType
  let p := p.emit (logStep P "Fetching image pull policy...")
  let r := Proc.kubectl H ["get", resType, "-n", p.a.Namespace, p.a.ControllerName,
    "-o", "jsonpath=\x7b.spec.template.spec.containers[0].imagePullPolicy\x7d"] p
  let p := r.2.modify (fun a => { a with ImagePullPolicy := r.1.1 })
  let p := p.emit (fun a => logInfo P ("Image pull policy: " ++ a.ImagePullPolicy) a)
  let p := p.emit (logStep P "Fetching update strategy...")
  let p := if p.a.DeploymentType = "DaemonSet" then
      let r := Proc.kubectl H ["get", "daemonset", "-n", p.a.Namespace, p.a.ControllerName,
        "-o", "jsonpath=\x7b.spec.updateStrategy.type\x7d"] p
      r.2.modify (fun a => { a with UpdateStrategy := r.1.1 })
    else
      let r := Proc.kubectl H ["get", "deployment", "-n", p.a.Namespace, p.a.ControllerName,
        "-o", "jsonpath=\x7b.spec.strategy.type\x7d"] p
      let p := r.2.modify (fun a => { a with UpdateStrategy := r.1.1 })
      let surge := Proc.kubectl H ["get", "deployment", "-n", p.a.Namespace,
        p.a.ControllerName, "-o", "jsonpath=\x7b.spec.strategy.rollingUpdate.maxSurge\x7d"] p
      let unavail := Proc.kubectl H ["get", "deployment", "-n", p.a.Namespace,
        p.a.ControllerName,
        "-o", "jsonpath=\x7b.spec.strategy.rollingUpdate.maxUnavailable\x7d"] surge.2
      unavail.2.emit (fun a => logInfo P ("Update strategy: " ++ a.UpdateStrategy ++
        " (maxSurge: " ++ surge.1.1 ++ ", maxUnavailable: " ++ unavail.1.1 ++ ")") a)
  let p := p.emit (fun a => logInfo P ("Update strategy: " ++ a.UpdateStrategy) a)
  let p := p.emit (printSection P "Project Lifecycle Status")
  let p := p.emit (logWarn P
    "⚠️  IMPORTANT: Ingress-NGINX community project is retiring in March 2026")
  let p := p.emit (logInfo P "Timeline: ~1 month remaining before end-of-life")
  let p := p.emit (logInfo P
    "Impact: No security updates, bug fixes, or support after March 2026")
  let p := p.emit (logInfo P
    "Action required: Plan migration to Gateway API or alternative controller")
  p.emit (writelns
    ["\n  Recommended alternatives:",
     "    1. Gateway API (recommended) — Future-proof Kubernetes standard",
     "    2. Traefik            — Drop-in replacement, actively maintained",
     "    3. F5 NGINX Ingress   — Commercial, actively maintained",
     "    4. Istio              — Service mesh with ingress capabilities"])

/-- Embeds `auditVersion`. -/
def auditVersion (H : Host) (P : Palette) (p : Proc) : Proc :=
  let d := versionDiscover H P p
  if d.1 then versionUpdate H P (versionHelm H P (versionAnalysis P d.2)) else d.2

/-- A probe written on processes, as a procedure on the state and the world. -/
def asProbe (f : Proc → Proc) (a : AuditState) (w : World) : ProbeOut :=
  let p := f ⟨a, [], w, none⟩
  ⟨p.a,
   p.steps.filterMap (fun s => match s with
     | .term (.stdout t) => some t
     | _ => none),
   p.w, p.exit.isSome⟩


/-! ## A concrete machine for evaluating runs -/

/-- A machine on which every tool is installed. A Deployment named
`ingress-nginx-controller` shows up in every namespace, its image is
`controller:v1.10.0`, and every other query prints nothing. -/
def demoHost : Host :=
  { lookPath := fun _ _ => true,
    output := fun _ c =>
      if c.name = "kubectl" ∧ c.args.take 2 = ["get", "deployment"] ∧
          c.args.getLast? = some "--ignore-not-found" then
        "ingress-nginx-controller   1/1     1            1           40d\n"
      else if c.name = "kubectl" ∧ c.args.getLast? =
          some "jsonpath=\x7b.spec.template.spec.containers[0].image\x7d" then
        "registry.k8s.io/ingress-nginx/controller:v1.10.0"
      else "",
    errput := fun _ _ => "",
    stamp := fun _ => "20260218-101500",
    rfc3339 := fun _ => "2026-02-18T10:15:00Z",
    helmReleases := fun _ => some [] }

/-- A machine like `demoHost` on which no Deployment or DaemonSet shows up in
the namespace `empty`. -/
def hostWithEmptyNamespace : Host :=
  { demoHost with
    output := fun log c =>
      if c.args.take 4 = ["get", "deployment", "-n", "empty"] then ""
      else demoHost.output log c }

/-- A world in which nothing has run yet, `kubectl get daemonset` fails (the
controller is a Deployment), `kubectl get namespace edge` fails, and every
other command succeeds. -/
def scanWorld : World :=
  ⟨[], fun _ c =>
    if c = ⟨"kubectl", ["get", "namespace", "edge"]⟩ ∨ c.args.take 2 = ["get", "daemonset"]
    then some "exit status 1" else none⟩

/-- A world like `scanWorld` in which `kubectl` is reachable for every namespace. -/
def healthyWorld : World :=
  ⟨[], fun _ c => if c.args.take 2 = ["get", "daemonset"] then some "exit status 1" else none⟩

/-- A probe that finds nothing and prints nothing. -/
def silentProbe (a : AuditState) (w : World) : ProbeOut := ⟨a, [], w, false⟩

/-- The version probe of the source on `demoHost`, the seven probes after it
silent: for evaluating a run of the pipeline. -/
def demoProbes (H : Host) : Probes :=
  { auditVersion := asProbe (auditVersion H ansiPalette),
    auditAdmissionController := silentProbe,
    auditNetworkSecurity := silentProbe,
    auditConfiguration := silentProbe,
    auditPodSecurity := silentProbe,
    auditVulnerabilities := silentProbe,
    auditCertificates := silentProbe,
    auditIngressResources := silentProbe }

/-- A lipgloss that renders every text as it is. -/
def plainLipgloss : Lipgloss := ⟨fun s => s, fun s => s, fun _ s => s⟩

/-- The state after a setup in which the operator chose to scan the two
namespaces `ingress-nginx` and `edge`. -/
def twoTargetState : AuditState :=
  { ScanAll := true, Namespaces := ["ingress-nginx", "edge"],
    Domain := "rubikmh.io", Email := "admin@rubikmh.io",
    ControllerName := "ingress-nginx-controller",
    TextReportFile := "ingress-audit-20260218-101459.txt",
    JSONReportFile := "ingress-audit-20260218-101459.json" }

/-- The state after a setup in which the only namespace found was `ingress-nginx`. -/
def oneTargetState : AuditState :=
  { Namespace := "ingress-nginx", Namespaces := ["ingress-nginx"],
    Domain := "rubikmh.io", Email := "admin@rubikmh.io",
    ControllerName := "ingress-nginx-controller",
    TextReportFile := "ingress-audit-20260218-101459.txt",
    JSONReportFile := "ingress-audit-20260218-101459.json" }

/-- The index of the fix whose action the step calls. -/
def Step.callIndex : Step → Option Nat
  | .term (.call i) => some i
  | _ => none

/-- The probe the step marks. -/
def Step.marker : Step → Option ProbeId
  | .probe k => some k
  | _ => none

/-- The path of the file the step writes. -/
def Step.filePath : Step → Option String
  | .writeReport path _ => some path
  | .writeText path _ => some path
  | _ => none

/-- The nine probe calls of the pipeline, in the order of `runAudit`. -/
def pipelineMarks : List Step :=
  [.probe .preflight, .probe .version, .probe .admission, .probe .network,
   .probe .configuration, .probe .podSecurity, .probe .vulnerabilities,
   .probe .certificates, .probe .ingress]


/-- The statements of `runAudit` after the probes: the JSON report, the summary,
the text report, and the fix executor if a fix was registered. -/
def finishAudit (H : Host) (P : Palette) (L : Lipgloss) (con : Console) (p : Proc) : Proc :=
  let p := p.generateJSONReport H
  let p := p.emit (generateSummary P L)
  let p := p.writeTextReport
  if p.a.Fixes.length > 0 then p.offerFixes P con else p


/-- The targets whose pipeline a run of `main` executed and the total of their
failed counts, with the process as it is when `main` or the scan comes to decide
the exit status. -/
def audited (H : Host) (P : Palette) (L : Lipgloss) (probes : Probes) (con : Nat → Console)
    (a : AuditState) (w : World) : Scan :=
  if a.ScanAll = true ∧ a.Namespaces.length > 1 then
    scanLoop H P L probes con a (H.stamp w.log) 0 a.Namespaces ⟨⟨a, [], w, none⟩, 0, []⟩
  else
    ⟨runAudit H P L probes (con 0) ⟨a, [], w, none⟩,
     (runAudit H P L probes (con 0) ⟨a, [], w, none⟩).a.FailCount,
     [⟨a.Namespace, a, (runAudit H P L probes (con 0) ⟨a, [], w, none⟩).a⟩]⟩


/-- The state after a setup in which the operator chose to scan the namespaces
`empty` and `ingress-nginx`. -/
def emptyFirstState : AuditState :=
  { twoTargetState with Namespaces := ["empty", "ingress-nginx"] }


/-! ## ANSI colour sequences in a text -/

/-- The runes are one ANSI colour escape sequence: ESC, `[`, any number of
digits or semicolons, and then `m`. -/
def AnsiSequence (l : List Char) : Prop :=
  ∃ ps : List Char, (∀ c ∈ ps, c.isDigit = true ∨ c = ';') ∧ l = '\x1b' :: '[' :: (ps ++ ['m'])

/-- An ANSI colour escape sequence occurs in the text. -/
def HasAnsiSequence (s : String) : Prop :=
  ∃ pre seq post : List Char, s.data = pre ++ seq ++ post ∧ AnsiSequence seq

/-- A sequence starts at some position of the runes: the test for
`HasAnsiSequence`. -/
def containsAnsi : List Char → Bool
  | [] => false
  | c :: cs => (matchAnsi (c :: cs)).isSome || containsAnsi cs

/-- Every ESC of the runes is the first rune of a complete colour sequence, as
in the texts the program builds from its colour constants. -/
def escapesComplete : List Char → Bool
  | [] => true
  | c :: cs => (c ≠ '\x1b' || (matchAnsi (c :: cs)).isSome) && escapesComplete cs

/-! ## Sequences of writes -/

/-- One call of a writing method of the state. -/
inductive WriteCall where
  | write (s : String)
  | writeln (s : String)
  | log (c : LogCall)
  | step (msg : String)

/-- The text the call hands to `write`. -/
def WriteCall.text (P : Palette) : WriteCall → String
  | .write s => s
  | .writeln s => s ++ "\n"
  | .log ⟨.PASS, msg⟩ => P.Green ++ "✓ PASS" ++ P.Reset ++ ": " ++ msg ++ "\n"
  | .log ⟨.FAIL, msg⟩ => P.Red ++ "✗ FAIL" ++ P.Reset ++ ": " ++ msg ++ "\n"
  | .log ⟨.WARN, msg⟩ => P.Yellow ++ "⚠ WARN" ++ P.Reset ++ ": " ++ msg ++ "\n"
  | .log ⟨.INFO, msg⟩ => P.Blue ++ "ℹ INFO" ++ P.Reset ++ ": " ++ msg ++ "\n"
  | .step msg => "  " ++ P.Cyan ++ "→" ++ P.Reset ++ " " ++ msg ++ "\n"

/-- Perform the call by the method of the source. -/
def WriteCall.run (P : Palette) : WriteCall → AuditState → AuditState × List Event
  | .write s, a => IngressAudit.write s a
  | .writeln s, a => IngressAudit.writeln s a
  | .log c, a => c.run P a
  | .step msg, a => logStep P msg a

/-- Perform a sequence of writing calls one after the other. -/
def runWrites (P : Palette) : List WriteCall → AuditState → AuditState × List Event
  | [], a => (a, [])
  | c :: cs, a =>
    let r := c.run P a
    let r2 := runWrites P cs r.1
    (r2.1, r.2 ++ r2.2)

/-- Go `strings.Join(ss, "")`. -/
def concatAll : List String → String
  | [] => ""
  | s :: rest => s ++ concatAll rest


/-! ## Image references -/

/-- The runes at which `extractVersion` cuts its input. -/
def imageSep (r : Char) : Bool := r = ':' || r = '@' || r = '/'

/-- The `parts` of `extractVersion`: the pieces of the input between `:`, `@`
and `/`. -/
def imageParts (s : String) : List String :=
  fieldsFuncFrom (fun r => r = ':' || r = '@' || r = '/') [] s.data

/-- A decimal number: one digit or more. -/
def isDecimal (s : String) : Bool := !s.data.isEmpty && s.data.all Char.isDigit

/-- The version token is semver-like as the claim describes it: an optional
leading `v`, then only digits and dots, with at least two dots. -/
def semverLike (s : String) : Bool :=
  let body := if s.data.head? = some 'v' then s.data.drop 1 else s.data
  body.all (fun c => c = '.' || c.isDigit) && decide (body.count '.' ≥ 2)


/-! ## Decoded JSON -/

/-- A value as `encoding/json` decodes it into an `interface{}`: nil, bool,
float64 (kept as the text `%v` prints for it), string, `[]interface{}` or
`map[string]interface{}` (the fields with their keys). -/
inductive Json where
  | null
  | bool (b : Bool)
  | num (shown : String)
  | str (s : String)
  | arr (items : List Json)
  | obj (fields : List (String × Json))

/-- A Go `map[string]interface{}`: `none` is the nil map. -/
abbrev GoMap := Option (List (String × Json))

/-- What the sources use of `encoding/json` and `fmt` on decoded values. -/
structure JsonLib where
  /-- `json.Unmarshal([]byte(text), &m)` for a `map[string]interface{}`:
  `none` is an error, `some none` leaves the map nil (the text `null`) -/
  unmarshalMap : String → Option GoMap
  /-- what `%v` prints for a number, a slice or a map -/
  showCompound : Json → String

/-- The index expression `m[key]`: nil for a nil map and for a missing key. -/
def GoMap.index (m : GoMap) (key : String) : Option Json :=
  match m with
  | none => none
  | some fields => fields.lookup key

/-- The two-value assertion `v, _ := x.(map[string]interface{})`: the nil map
when `x` is not a map. -/
def asMap : Option Json → GoMap
  | some (.obj fields) => some fields
  | _ => none

/-- The two-value assertion `v, _ := x.([]interface{})`: the nil slice, which
has no element, when `x` is not a slice. -/
def asSlice : Option Json → List Json
  | some (.arr items) => items
  | _ => []

/-- Embeds `getMap` of util.go. -/
def getMap (m : GoMap) (key : String) : GoMap :=
  match m with
  | none => some []
  | some _ =>
    match asMap (m.index key) with
    | none => some []
    | some v => some v

/-- The text `fmt.Sprintf("%v", x)`. -/
def sprintV (J : JsonLib) : Option Json → String
  | none => "<nil>"
  | some .null => "<nil>"
  | some (.bool b) => if b then "true" else "false"
  | some (.str s) => s
  | some j => J.showCompound j

/-! ## fix.go: fixDeleteExposingIngress -/

/-- Go `strings.SplitN(s, sep, 2)` for a one-rune separator, on rune lists. -/
def splitN2 (sep : Char) (l : List Char) : List (List Char) :=
  if sep ∈ l then [l.takeWhile (· ≠ sep), (l.dropWhile (· ≠ sep)).drop 1] else [l]

/-- The body of the loop of `fixDeleteExposingIngress` for one line: the error
it returns with, if any, the world after it, and what it prints. -/
def deleteEntry (P : Palette) (line : String) (w : World) : (GoError × World) × List String :=
  let line := trimSpace line
  if line = "" then ((none, w), [])
  else
    match splitN2 '/' line.data with
    | [ns, name] =>
      let ns := String.mk ns
      let name := String.mk name
      let announce := "  " ++ P.Cyan ++ "→" ++ P.Reset ++ " Deleting Ingress " ++ ns ++ "/" ++
        name ++ " ...\n"
      let r := runCmd "kubectl" ["delete", "ingress", name, "-n", ns] w
      match r.1 with
      | some e => ((some ("delete ingress " ++ ns ++ "/" ++ name ++ ": " ++ e), r.2), [announce])
      | none =>
        ((none, r.2), [announce, "  " ++ P.Green ++ "✓" ++ P.Reset ++ " Deleted " ++ ns ++ "/" ++
          name ++ "\n"])
    | _ =>
      ((none, w), ["  " ++ P.Yellow ++ "⚠ Skipping unrecognised entry: " ++ line ++ P.Reset ++ "\n"])

/-- The loop of `fixDeleteExposingIngress`: it returns at the first error. -/
def deleteEntries (P : Palette) : List String → World → (GoError × World) × List String
  | [], w => ((none, w), [])
  | line :: rest, w =>
    match (deleteEntry P line w).1.1 with
    | some _ => deleteEntry P line w
    | none =>
      ((deleteEntries P rest (deleteEntry P line w).1.2).1,
        (deleteEntry P line w).2 ++ (deleteEntries P rest (deleteEntry P line w).1.2).2)

/-- Embeds `fixDeleteExposingIngress`: the error, the world after it, and what
it prints. -/
def fixDeleteExposingIngress (P : Palette) (exposing : String) (w : World) :
    (GoError × World) × List String :=
  deleteEntries P (splitLines (trimSpace exposing)) w

/-- The well-formed `ns/name` lines of the argument, in order, each cut at its
first slash: blank lines and lines without a slash are left out. -/
def exposingEntries (exposing : String) : List (String × String) :=
  ((splitLines (trimSpace exposing)).map trimSpace).filterMap (fun line =>
    if line = "" ∨ '/' ∉ line.data then none
    else some (String.mk (line.data.takeWhile (· ≠ '/')),
      String.mk ((line.data.dropWhile (· ≠ '/')).drop 1)))

/-- The command `kubectl delete ingress <name> -n <ns>`. -/
def deleteCmd (e : String × String) : Cmd := ⟨"kubectl", ["delete", "ingress", e.2, "-n", e.1]⟩

/-- The outcomes the commands have when they are run one after the other. -/
def outcomesOf : World → List Cmd → List GoError
  | _, [] => []
  | w, c :: cs => (runCmd c.name c.args w).1 :: outcomesOf (runCmd c.name c.args w).2 cs

/-- Issue one delete per entry, in order, and stop at the first one that fails,
with an error that names its entry. -/
def deleteAll : List (String × String) → World → GoError × World
  | [], w => (none, w)
  | e :: rest, w =>
    match (runCmd "kubectl" ["delete", "ingress", e.2, "-n", e.1] w).1 with
    | some err => (some ("delete ingress " ++ e.1 ++ "/" ++ e.2 ++ ": " ++ err),
        (runCmd "kubectl" ["delete", "ingress", e.2, "-n", e.1] w).2)
    | none => deleteAll rest (runCmd "kubectl" ["delete", "ingress", e.2, "-n", e.1] w).2


/-- The number of commands that succeed before the first one that fails, when
they are run one after the other. -/
def leadingSuccesses (w : World) (cmds : List Cmd) : Nat :=
  ((outcomesOf w cmds).takeWhile Option.isNone).length

/-- A world in which every command succeeds but `kubectl delete ingress admin-ui
-n prod`. -/
def stubbornWorld : World :=
  ⟨[], fun _ c => if c = ⟨"kubectl", ["delete", "ingress", "admin-ui", "-n", "prod"]⟩
    then some "exit status 1" else none⟩


/-! ## audit_admission.go -/

/-- One `kubectl get svc -n <ns> ingress-nginx-controller-admission -o
jsonpath=...` of the admission probe. -/
def admissionSvcField (H : Host) (path : String) (p : Proc) : (String × GoError) × Proc :=
  Proc.kubectl H ["get", "svc", "-n", p.a.Namespace, "ingress-nginx-controller-admission",
    "-o", "jsonpath=" ++ path] p

/-- The sections `Service discovery` and `Service details` of
`auditAdmissionController`. The result is false when the service was not found
and the probe returns early. -/
def admissionService (H : Host) (P : Palette) (p : Proc) : Bool × Proc :=
  let p := p.emit (printHeader P "PHASE 3 — ADMISSION CONTROLLER SECURITY AUDIT")
  let p := p.emit (printSection P "Service Discovery")
  let p := p.emit (logStep P "Searching for admission controller service...")
  let r := Proc.kubectl H ["get", "svc", "-n", p.a.Namespace,
    "ingress-nginx-controller-admission"] p
  if r.1.2 ≠ none then
    (false, r.2.emit (logWarn P
      "Admission controller service not found — may be a custom installation"))
  else
    let p := r.2.emit (logPass P "Found admission controller service")
    let p := p.emit (printSection P "Service Configuration Analysis")
    let p := p.emit (logStep P "Fetching service type...")
    let t := admissionSvcField H "\x7b.spec.type\x7d" p
    let p := t.2.modify (fun a => { a with AdmissionSvcType := t.1.1 })
    let p := p.emit (logStep P "Fetching cluster IP...")
    let c := admissionSvcField H "\x7b.spec.clusterIP\x7d" p
    let p := c.2.modify (fun a => { a with AdmissionClusterIP := c.1.1 })
    let p := p.emit (logStep P "Fetching ports...")
    let ports := admissionSvcField H "\x7b.spec.ports[*].port\x7d" p
    let p := ports.2.emit (logStep P "Fetching selector...")
    let selector := admissionSvcField H "\x7b.spec.selector\x7d" p
    let svcAge := admissionSvcField H "\x7b.metadata.creationTimestamp\x7d" selector.2
    let p := svcAge.2.emit (logInfo P "Name:       ingress-nginx-controller-admission")
    let p := p.emit (fun a => logInfo P ("Type:       " ++ a.AdmissionSvcType) a)
    let p := p.emit (fun a => logInfo P ("Cluster IP: " ++ a.AdmissionClusterIP) a)
    let p := p.emit (logInfo P ("Ports:      " ++ ports.1.1))
    let p := p.emit (logInfo P ("Selector:   " ++ selector.1.1))
    (true, p.emit (logInfo P ("Created:    " ++ svcAge.1.1)))

/-- The three lines of the remediation command that the cases `LoadBalancer`
and `NodePort` write. -/
def patchLines (a : AuditState) : List String :=
  ["  IMMEDIATE REMEDIATION:",
   "    kubectl patch svc ingress-nginx-controller-admission \x5c",
   "      -n " ++ a.Namespace ++ " \x5c",
   "      -p \x27\x7b\"spec\":\x7b\"type\":\"ClusterIP\"\x7d\x7d\x27"]

/-- The section `Critical exposure check` of `auditAdmissionController`: the
`switch` on the service type, and the explicit external IPs. -/
def admissionExposure (H : Host) (P : Palette) (p : Proc) : Proc :=
  let p := p.emit (printSection P "🔒 CRITICAL: External Exposure Check")
  let p := p.emit (fun a => logStep P ("Analyzing service type: " ++ a.AdmissionSvcType ++ "...") a)
  let p :=
    if p.a.AdmissionSvcType = "ClusterIP" then
      let p := p.emit (logPass P "✓ Admission controller uses ClusterIP (internal only)")
      let p := p.emit (logInfo P "External access: BLOCKED ✓")
      let p := p.emit (logInfo P "Security posture: SECURE")
      p.emit (fun a => writelns
        ["  This configuration meets security best practices:",
         "    ✓ Not accessible from the internet",
         "    ✓ Protected by cluster network policies",
         "    ✓ Compliant with AbuseBSI requirements for " ++ a.Domain] a)
    else if p.a.AdmissionSvcType = "LoadBalancer" then
      let ip := admissionSvcField H "\x7b.status.loadBalancer.ingress[0].ip\x7d" p
      let p := ip.2.modify (fun a => { a with AdmissionExternalIP := ip.1.1 })
      let p := p.emit (logFail P "✗ CRITICAL: Admission controller exposed via LoadBalancer!")
      let p := p.emit (fun a => logInfo P ("External IP: " ++ a.AdmissionExternalIP) a)
      let p := p.emit (fun a => writelns (patchLines a) a)
      p.modify registerAdmissionFix
    else if p.a.AdmissionSvcType = "NodePort" then
      let nodePort := admissionSvcField H "\x7b.spec.ports[0].nodePort\x7d" p
      let p := nodePort.2.emit (logFail P
        ("✗ CRITICAL: Admission controller exposed via NodePort " ++ nodePort.1.1 ++ "!"))
      let p := p.emit (fun a => writelns (patchLines a) a)
      let p := p.emit (writeln "\n  Exposed on nodes:")
      let nodes := Proc.kubectl H ["get", "nodes", "-o",
        "custom-columns=NAME:.metadata.name,INTERNAL-IP:.status.addresses[0].address",
        "--no-headers"] p
      nodes.2.emit (writelns (detailLines nodes.1.1))
    else p
  let extIPs := admissionSvcField H "\x7b.spec.externalIPs\x7d" p
  if extIPs.1.1 ≠ "" ∧ extIPs.1.1 ≠ "null" then
    extIPs.2.emit (logFail P ("External IPs explicitly configured: " ++ extIPs.1.1))
  else extIPs.2

/-- The test of the innermost loop of the Ingress scan: the backend service of
the path has `admission` in its name. -/
def pathExposes (J : JsonLib) (path : Json) : Bool :=
  let pathMap := asMap (some path)
  let backend := getMap pathMap "backend"
  let svc := getMap backend "service"
  let svcName := sprintV J (svc.index "name")
  strContains svcName "admission"

/-- What the loops over the paths of one rule append to `IngressExposing`. -/
def ruleExposures (J : JsonLib) (ns name : String) (rule : Json) : String :=
  let ruleMap := asMap (some rule)
  let http := getMap ruleMap "http"
  let paths := asSlice (http.index "paths")
  concatAll ((paths.filter (pathExposes J)).map (fun _ => ns ++ "/" ++ name ++ "\n"))

/-- What the loops over the rules of one item append to `IngressExposing`. -/
def itemExposures (J : JsonLib) (item : Json) : String :=
  let itemMap := asMap (some item)
  let meta := getMap itemMap "metadata"
  let ns := sprintV J (meta.index "namespace")
  let name := sprintV J (meta.index "name")
  let spec := getMap itemMap "spec"
  let rules := asSlice (spec.index "rules")
  concatAll (rules.map (ruleExposures J ns name))

/-- What the scan of the Ingress list appends to `IngressExposing`. -/
def exposingOf (J : JsonLib) (items : List Json) : String :=
  concatAll (items.map (itemExposures J))

/-- Embeds the registration of the fix `ingress-exposure`: `exposing` is copied
from the state, the closure calls `fixDeleteExposingIngress(exposing)`. What
the closure prints is not part of the events of the executor. -/
def registerExposureFix (P : Palette) (a : AuditState) : AuditState :=
  let exposing := a.IngressExposing
  addFix "ingress-exposure" "CRITICAL"
    ("Delete Ingress resource(s) exposing admission controller: " ++ trimSpace exposing)
    ("kubectl delete ingress -n <ns> <name>  (for each: " ++ trimSpace exposing ++ ")")
    (some (fun _ w => (fixDeleteExposingIngress P exposing w).1)) a

/-- The section `Ingress exposure` of `auditAdmissionController`. -/
def admissionIngress (H : Host) (J : JsonLib) (P : Palette) (p : Proc) : Proc :=
  let p := p.emit (printSection P "Ingress Resource Exposure Check")
  let p := p.emit (logStep P
    "Scanning all Ingress resources for admission controller exposure...")
  let r := Proc.kubectl H ["get", "ingress", "-A", "-o", "json"] p
  let p := r.2.modify (fun a => { a with IngressExposing := "" })
  let p :=
    if r.1.1 ≠ "" then
      match J.unmarshalMap r.1.1 with
      | some ingressList =>
        p.modify (fun a => { a with IngressExposing :=
          a.IngressExposing ++ exposingOf J (asSlice (ingressList.index "items")) })
      | none => p
    else p
  if p.a.IngressExposing ≠ "" then
    let p := p.emit (logFail P
      "✗ CRITICAL: Found Ingress resource(s) exposing admission controller!")
    let p := p.emit (fun a => writelns
      ((splitLines (trimSpace a.IngressExposing)).map (fun ing => "    - " ++ ing)) a)
    let p := p.emit (logInfo P
      "IMMEDIATE REMEDIATION: Remove these Ingress resources or update backend service")
    p.modify (registerExposureFix P)
  else
    let p := p.emit (logPass P "✓ No Ingress resources exposing admission controller")
    p.emit (logInfo P "All Ingress resources verified safe")

/-- The body of the loop over the webhook configurations. The assertion
`webhooks[0].(map[string]interface{})` has one result only: it panics when the
first entry is not a map. -/
def webhookItem (J : JsonLib) (P : Palette) (p : Proc) (item : Json) : Proc :=
  let itemMap := asMap (some item)
  let meta := getMap itemMap "metadata"
  let whName := sprintV J (meta.index "name")
  if strContains whName "ingress-nginx" then
    let p := p.emit (logInfo P ("Webhook name: " ++ whName))
    let webhooks := asSlice (itemMap.index "webhooks")
    match webhooks with
    | [] => p
    | .obj fields :: _ =>
      let wh : GoMap := some fields
      let cc := getMap wh "clientConfig"
      let svc := getMap cc "service"
      let p := p.emit (logInfo P ("  Points to service: " ++ sprintV J (svc.index "name")))
      let p := p.emit (logInfo P ("  In namespace:      " ++ sprintV J (svc.index "namespace")))
      let p := p.emit (logInfo P ("  Port:              " ++ sprintV J (svc.index "port")))
      let fp := sprintV J (wh.index "failurePolicy")
      let p := p.emit (logInfo P ("  Failure policy:    " ++ fp))
      if sprintV J (svc.index "namespace") = p.a.Namespace then
        p.emit (fun a => logPass P ("✓ Webhook configured correctly for namespace " ++
          a.Namespace) a)
      else
        p.emit (fun a => logWarn P ("Webhook namespace mismatch: expected " ++ a.Namespace) a)
    | _ :: _ => p.osExit 2
  else p

/-- The section `Webhook configuration` of `auditAdmissionController`. -/
def admissionWebhooks (H : Host) (J : JsonLib) (P : Palette) (p : Proc) : Proc :=
  let p := p.emit (printSection P "Webhook Configuration Validation")
  let p := p.emit (logStep P "Analyzing ValidatingWebhookConfiguration...")
  let r := Proc.kubectl H ["get", "validatingwebhookconfigurations", "-o", "json"] p
  if r.1.1 ≠ "" then
    match J.unmarshalMap r.1.1 with
    | some whList => (asSlice (whList.index "items")).foldl (webhookItem J P) r.2
    | none => r.2
  else
    r.2.emit (logWarn P
      "ValidatingWebhookConfiguration not found — admission controller may not be active")

/-- The section `Endpoints` of `auditAdmissionController`. -/
def admissionEndpoints (H : Host) (P : Palette) (p : Proc) : Proc :=
  let p := p.emit (printSection P "Network Accessibility Analysis")
  let p := p.emit (logStep P "Checking service endpoints...")
  let r := Proc.kubectl H ["get", "endpoints", "-n", p.a.Namespace,
    "ingress-nginx-controller-admission",
    "-o", "jsonpath=\x7b.subsets[*].addresses[*].ip\x7d"] p
  let epCount := (nonEmpty (fields r.1.1)).length
  if epCount > 0 then
    r.2.emit (logInfo P ("Service has " ++ toString epCount ++ " active endpoint(s): " ++ r.1.1))
  else
    r.2.emit (logWarn P "No active endpoints found — service may not be functional")

/-- The test of the compliance summary of the admission probe. -/
def admissionCompliant (a : AuditState) : Bool :=
  a.AdmissionSvcType = "ClusterIP" && a.IngressExposing = ""

/-- The lines the compliance summary of the admission probe writes: the box and
the verdict with its details. -/
def complianceLines (P : Palette) (L : Lipgloss) (a : AuditState) : List String :=
  let boxColor := if admissionCompliant a then "46" else "196"
  let box := infoBox L boxColor [("Report ID:", "CB-Report#20260218-10009947")]
    [("Domain:", a.Domain), ("Email:", a.Email)]
  (splitLines box).map (fun line => "  " ++ line) ++
  (if admissionCompliant a then
    ["\n  " ++ P.Green ++ P.Bold ++ "✓ COMPLIANT — Vulnerability has been mitigated." ++ P.Reset ++
        "\n",
     "  Details:",
     "    ✓ Admission controller is ClusterIP (not exposed)",
     "    ✓ No Ingress resources expose the admission endpoint",
     "    ✓ Only accessible within cluster network"]
  else
    ["\n  " ++ P.Red ++ P.Bold ++ "✗ NON-COMPLIANT — Vulnerability is STILL PRESENT!" ++ P.Reset ++
        "\n"] ++
    (if a.AdmissionSvcType ≠ "ClusterIP" then
      ["    ✗ Service type is " ++ a.AdmissionSvcType ++ " (must be ClusterIP)"] else []) ++
    (if a.IngressExposing ≠ "" then
      ["    ✗ Ingress resources are exposing the admission controller"] else []) ++
    ["\n  IMMEDIATE ACTION REQUIRED — See remediation steps above."])

/-- The section `AbuseBSI compliance` of `auditAdmissionController`. -/
def admissionCompliance (P : Palette) (L : Lipgloss) (p : Proc) : Proc :=
  let p := p.emit (printSection P "AbuseBSI Compliance Summary")
  p.emit (fun a => writelns (complianceLines P L a) a)

/-- Embeds `auditAdmissionController`. -/
def auditAdmissionController (H : Host) (J : JsonLib) (P : Palette) (L : Lipgloss)
    (p : Proc) : Proc :=
  let d := admissionService H P p
  if d.1 then
    admissionCompliance P L (admissionEndpoints H P (admissionWebhooks H J P
      (admissionIngress H J P (admissionExposure H P d.2))))
  else d.2


/-- The statements between `p` and `q` neither terminate the process nor
revive it. -/
def SameExit (p q : Proc) : Prop := q.exit = p.exit

/-- The test under which the body of the webhook loop panics: the name of the
configuration contains `ingress-nginx` and the first entry of its `webhooks` is
not a map. -/
def webhookPanics (J : JsonLib) (item : Json) : Bool :=
  strContains (sprintV J ((getMap (asMap (some item)) "metadata").index "name")) "ingress-nginx" &&
  match asSlice ((asMap (some item)).index "webhooks") with
  | [] => false
  | .obj _ :: _ => false
  | _ :: _ => true


/-! ## Concrete cluster answers for the admission probe -/

/-- The text of an Ingress list with one Ingress, `default/leak`, whose only
path has the admission service as its backend. -/
def leakIngressText : String :=
  "\x7b\"items\":[\x7b\"metadata\":\x7b\"namespace\":\"default\",\"name\":\"leak\"\x7d," ++
  "\"spec\":\x7b\"rules\":[\x7b\"http\":\x7b\"paths\":[\x7b\"backend\":\x7b\"service\":" ++
  "\x7b\"name\":\"ingress-nginx-controller-admission\"\x7d\x7d\x7d]\x7d\x7d]\x7d\x7d]\x7d"

/-- The map `leakIngressText` decodes to. -/
def leakIngressList : GoMap :=
  some [("items", .arr [.obj
    [("metadata", .obj [("namespace", .str "default"), ("name", .str "leak")]),
     ("spec", .obj [("rules", .arr [.obj [("http", .obj [("paths", .arr [.obj
       [("backend", .obj [("service", .obj
         [("name", .str "ingress-nginx-controller-admission")])])]])])]])])]])]

/-- The text of a webhook configuration list whose configuration
`ingress-nginx-admission` has a text, not an object, as its first webhook. -/
def strayWebhookText : String :=
  "\x7b\"items\":[\x7b\"metadata\":\x7b\"name\":\"ingress-nginx-admission\"\x7d," ++
  "\"webhooks\":[\"validate.nginx.ingress.kubernetes.io\"]\x7d]\x7d"

/-- The map `strayWebhookText` decodes to. -/
def strayWebhookList : GoMap :=
  some [("items", .arr [.obj
    [("metadata", .obj [("name", .str "ingress-nginx-admission")]),
     ("webhooks", .arr [.str "validate.nginx.ingress.kubernetes.io"])]])]

/-- A decoder that knows the two texts above and rejects every other text. -/
def demoJson : JsonLib :=
  ⟨fun s => if s = leakIngressText then some leakIngressList
    else if s = strayWebhookText then some strayWebhookList else none,
   fun _ => "?"⟩

/-- A machine like `demoHost` whose admission service has the type `ClusterIP`
and whose Ingress list is `leakIngressText`. -/
def leakHost : Host :=
  { demoHost with
    output := fun log c =>
      if c.name = "kubectl" ∧ c.args.getLast? = some "jsonpath=\x7b.spec.type\x7d" then "ClusterIP"
      else if c = ⟨"kubectl", ["get", "ingress", "-A", "-o", "json"]⟩ then leakIngressText
      else demoHost.output log c }

/-- A machine like `demoHost` whose admission service has the type `ClusterIP`
and whose webhook configuration list is `strayWebhookText`. -/
def strayWebhookHost : Host :=
  { demoHost with
    output := fun log c =>
      if c.name = "kubectl" ∧ c.args.getLast? = some "jsonpath=\x7b.spec.type\x7d" then "ClusterIP"
      else if c = ⟨"kubectl", ["get", "validatingwebhookconfigurations", "-o", "json"]⟩ then
        strayWebhookText
      else demoHost.output log c }

/-- The probes of `demoProbes` with the admission probe of the source. -/
def admissionProbes (H : Host) : Probes :=
  { demoProbes H with
    auditAdmissionController :=
      asProbe (auditAdmissionController H demoJson ansiPalette plainLipgloss) }


/-- The text a step prints, if it is a print. -/
def Step.printed : Step → Option String
  | .term (.stdout t) => some t
  | _ => none

/-- The field `abusebsi_compliant` of the report a step writes. -/
def Step.compliantFlag : Step → Option Bool
  | .writeReport _ report => some report.Security.AbuseBSICompliant
  | _ => none

/-- A final state with findings of every kind, for evaluating the report and
the summary. -/
def summaryState : AuditState :=
  { demoState with
    Domain := "rubikmh.io", Email := "admin@rubikmh.io", ControllerVersion := "v1.10.0",
    AdmissionSvcType := "LoadBalancer",
    JSONReportFile := "ingress-audit-20260218-101500.json" }

/-! ## The fix executor as the specification words it -/

/-- The rollout waits that follow the call of fix `f` which returned `e`: one
`kubectl rollout status` of the workload `ingress-nginx-controller` if the call
returned nil and the identifier is disruptive, none otherwise. -/
def waitsAfter (a : AuditState) (f : Fix) (e : GoError) : List Cmd :=
  if e = none ∧ f.ID ∈ disruptiveIds then
    [rolloutCmd
      (if f.ID = "upgrade-controller" then "deployment"
       else if toLower a.DeploymentType = "" then "deployment" else toLower a.DeploymentType)
      "ingress-nginx-controller" a.Namespace]
  else []

/-- Run the commands one after the other and drop what they return. -/
def runDropping (cs : List Cmd) (w : World) : World :=
  cs.foldl (fun v c => (runCmd c.name c.args v).2) w

/-- Call the action of every fix once, in the order of the list, whatever the
calls before returned: each action is called on the state `a`, in the world
that the calls and the waits before it left. The result is what each call
returned, in order, and the world after the last one. -/
def attemptAll (a : AuditState) : List Fix → World → List GoError × World
  | [], w => ([], w)
  | f :: fs, w =>
    match f.Run with
    | none => ([], w)
    | some run =>
      ((run (captured a) w).1 :: (attemptAll a fs
          (runDropping (waitsAfter a f (run (captured a) w).1) (run (captured a) w).2)).1,
       (attemptAll a fs
          (runDropping (waitsAfter a f (run (captured a) w).1) (run (captured a) w).2)).2)

/-- A state after an audit whose probes registered three fixes, in this order:
upgrade-controller, snippet-annotations and admission-loadbalancer. -/
def registeredState : AuditState :=
  registerAdmissionFix (registerSnippetFix (registerUpgradeFix
    { oneTargetState with
      DeploymentType := "DaemonSet", ControllerVersion := "v1.10.0", FailCount := 3,
      PassCount := 5 }))

/-- A world in which every command succeeds but `kubectl patch cm ...`. -/
def patchFailsWorld : World :=
  ⟨[], fun _ c => if c.name = "kubectl" ∧ c.args.take 2 = ["patch", "cm"]
    then some "exit status 1" else none⟩

/-! ## The pipeline as the specification words it -/

/-- Call the probes once each, in the order of the list: each on the state and
in the world that the one before it left, and none after one that died in a
panic. The result is the state and the world after the last call, the calls
and prints in order, and whether a probe died. -/
def callEach : List (ProbeId × (AuditState → World → ProbeOut)) → AuditState → World →
    (AuditState × World) × List Step × Bool
  | [], a, w => ((a, w), [], false)
  | kf :: rest, a, w =>
    if (kf.2 a w).aborted then
      (((kf.2 a w).state, (kf.2 a w).world),
        Step.probe kf.1 :: (kf.2 a w).texts.map (fun t => Step.term (Event.stdout t)), true)
    else
      ((callEach rest (kf.2 a w).state (kf.2 a w).world).1,
       (Step.probe kf.1 :: (kf.2 a w).texts.map (fun t => Step.term (Event.stdout t))) ++
         (callEach rest (kf.2 a w).state (kf.2 a w).world).2.1,
       (callEach rest (kf.2 a w).state (kf.2 a w).world).2.2)

/-- A probe that leaves a note of its call: one more info finding and one
printed line with its name. -/
def noteProbe (name : String) (a : AuditState) (w : World) : ProbeOut :=
  ⟨{ a with InfoCount := a.InfoCount + 1 }, ["probe " ++ name ++ "\n"], w, false⟩

/-- The version probe of the source and seven probes that leave a note. -/
def notingProbes (H : Host) : Probes :=
  { auditVersion := asProbe (auditVersion H ansiPalette),
    auditAdmissionController := noteProbe "admission",
    auditNetworkSecurity := noteProbe "network",
    auditConfiguration := noteProbe "configuration",
    auditPodSecurity := noteProbe "pod security",
    auditVulnerabilities := noteProbe "vulnerabilities",
    auditCertificates := noteProbe "certificates",
    auditIngressResources := noteProbe "ingress resources" }

/-- The state after a setup for the single namespace `edge`. -/
def edgeState : AuditState :=
  { oneTargetState with Namespace := "edge", Namespaces := ["edge"] }

/-- A machine like `strayWebhookHost` whose controller runs the baseline image
`v1.14.3`. -/
def currentStrayHost : Host :=
  { strayWebhookHost with
    output := fun log c =>
      if c.name = "kubectl" ∧ c.args.getLast? =
          some "jsonpath=\x7b.spec.template.spec.containers[0].image\x7d" then
        "registry.k8s.io/ingress-nginx/controller:v1.14.3"
      else strayWebhookHost.output log c }

/-- A state like `twoTargetState` in which the caller has findings, fixes,
facts and buffered output of its own. -/
def usedTwoTargetState : AuditState :=
  { twoTargetState with
    PassCount := 40, FailCount := 9, WarnCount := 3, InfoCount := 70, Fixes := demoFixes,
    ControllerVersion := "v0.0.1-old", ControllerImage := "controller:v1.14.3",
    DeploymentType := "DaemonSet", AdmissionSvcType := "NodePort",
    OutputBuffer := "FAIL: left over\n" }

/-- The state after a setup in which the operator chose to scan the namespaces
`empty` and `edge`. -/
def emptyEdgeState : AuditState :=
  { twoTargetState with Namespaces := ["empty", "edge"] }

/-- Counters after one recorder call. -/
theorem LogCall.run_counters (P : Palette) (c : LogCall) (a : AuditState) :
    (c.run P a).1.PassCount = a.PassCount + countClass .PASS [c] ∧
    (c.run P a).1.FailCount = a.FailCount + countClass .FAIL [c] ∧
    (c.run P a).1.WarnCount = a.WarnCount + countClass .WARN [c] ∧
    (c.run P a).1.InfoCount = a.InfoCount + countClass .INFO [c] := by
  obtain ⟨k, m⟩ := c
  cases k <;>
    simp [LogCall.run, countClass, logPass, logFail, logWarn, logInfo, writeln, write]

/-- The count of a classification splits over the first call and the rest. -/
theorem countClass_cons (k : Classification) (c : LogCall) (cs : List LogCall) :
    countClass k (c :: cs) = countClass k [c] + countClass k cs := by
  simp [countClass, List.countP_cons]
  omega

/-- Counters after a sequence of recorder calls, from any starting state. -/
theorem runCalls_counters (P : Palette) (cs : List LogCall) (a : AuditState) :
    (runCalls P cs a).1.PassCount = a.PassCount + countClass .PASS cs ∧
    (runCalls P cs a).1.FailCount = a.FailCount + countClass .FAIL cs ∧
    (runCalls P cs a).1.WarnCount = a.WarnCount + countClass .WARN cs ∧
    (runCalls P cs a).1.InfoCount = a.InfoCount + countClass .INFO cs := by
  induction cs generalizing a with
  | nil => simp [runCalls, countClass]
  | cons c cs ih =>
    obtain ⟨h1, h2, h3, h4⟩ := ih (c.run P a).1
    obtain ⟨g1, g2, g3, g4⟩ := LogCall.run_counters P c a
    have e1 := countClass_cons .PASS c cs
    have e2 := countClass_cons .FAIL c cs
    have e3 := countClass_cons .WARN c cs
    have e4 := countClass_cons .INFO c cs
    simp only [runCalls]
    refine ⟨?_, ?_, ?_, ?_⟩ <;> omega

/-- C1: for every finite sequence of logPass / logFail / logWarn / logInfo
calls, in whatever order, applied to a fresh AuditState (the zero value, or the
test state of state_test.go), each of the four counters equals the number of
calls of its classification in the sequence; from an arbitrary state each
counter grows by exactly that number. -/
theorem C1_counters_equal_recorded_findings (P : Palette) (calls : List LogCall)
    (a : AuditState) :
    ((runCalls P calls {}).1.PassCount = countClass .PASS calls ∧
     (runCalls P calls {}).1.FailCount = countClass .FAIL calls ∧
     (runCalls P calls {}).1.WarnCount = countClass .WARN calls ∧
     (runCalls P calls {}).1.InfoCount = countClass .INFO calls) ∧
    ((runCalls P calls newTestState).1.PassCount = countClass .PASS calls ∧
     (runCalls P calls newTestState).1.FailCount = countClass .FAIL calls ∧
     (runCalls P calls newTestState).1.WarnCount = countClass .WARN calls ∧
     (runCalls P calls newTestState).1.InfoCount = countClass .INFO calls) ∧
    ((runCalls P calls a).1.PassCount = a.PassCount + countClass .PASS calls ∧
     (runCalls P calls a).1.FailCount = a.FailCount + countClass .FAIL calls ∧
     (runCalls P calls a).1.WarnCount = a.WarnCount + countClass .WARN calls ∧
     (runCalls P calls a).1.InfoCount = a.InfoCount + countClass .INFO calls) := by
  refine ⟨?_, ?_, runCalls_counters P calls a⟩
  · simpa using runCalls_counters P calls {}
  · simpa [newTestState] using runCalls_counters P calls newTestState

/-- C2: for every state and message, each of logPass, logFail, logWarn and
logInfo raises its own counter by exactly 1 and leaves the other three
counters and the fix list as they were. The four methods are total functions
of the state: there is no failing case. -/
theorem C2_log_increments_only_its_counter (P : Palette) (msg : String) (a : AuditState) :
    ((logPass P msg a).1.PassCount = a.PassCount + 1 ∧
     (logPass P msg a).1.FailCount = a.FailCount ∧
     (logPass P msg a).1.WarnCount = a.WarnCount ∧
     (logPass P msg a).1.InfoCount = a.InfoCount ∧
     (logPass P msg a).1.Fixes = a.Fixes) ∧
    ((logFail P msg a).1.FailCount = a.FailCount + 1 ∧
     (logFail P msg a).1.PassCount = a.PassCount ∧
     (logFail P msg a).1.WarnCount = a.WarnCount ∧
     (logFail P msg a).1.InfoCount = a.InfoCount ∧
     (logFail P msg a).1.Fixes = a.Fixes) ∧
    ((logWarn P msg a).1.WarnCount = a.WarnCount + 1 ∧
     (logWarn P msg a).1.PassCount = a.PassCount ∧
     (logWarn P msg a).1.FailCount = a.FailCount ∧
     (logWarn P msg a).1.InfoCount = a.InfoCount ∧
     (logWarn P msg a).1.Fixes = a.Fixes) ∧
    ((logInfo P msg a).1.InfoCount = a.InfoCount + 1 ∧
     (logInfo P msg a).1.PassCount = a.PassCount ∧
     (logInfo P msg a).1.FailCount = a.FailCount ∧
     (logInfo P msg a).1.WarnCount = a.WarnCount ∧
     (logInfo P msg a).1.Fixes = a.Fixes) := by
  simp [logPass, logFail, logWarn, logInfo, writeln, write]

/-! ## Fix registry -/

/-- C3: for every state, whatever fixes it already holds, and every id,
severity, description, command and action (nil included), addFix yields the old
fix list followed by exactly one new Fix carrying those five values: the new
fix is last, the earlier fixes are the same in the same order, and the four
counters and the output buffer are unchanged. addFix is a function of the
state alone: it does not act on the world and emits no event, so the action is
stored, not called. -/
theorem C3_addFix_appends_last (id severity description command : String)
    (run : Option (Captured → World → GoError × World)) (a : AuditState) :
    (addFix id severity description command run a).Fixes =
        a.Fixes ++ [⟨id, severity, description, command, run⟩] ∧
    (addFix id severity description command run a).Fixes.length = a.Fixes.length + 1 ∧
    (addFix id severity description command run a).Fixes.getLast? =
        some ⟨id, severity, description, command, run⟩ ∧
    (addFix id severity description command run a).Fixes.take a.Fixes.length = a.Fixes ∧
    (addFix id severity description command run a).PassCount = a.PassCount ∧
    (addFix id severity description command run a).FailCount = a.FailCount ∧
    (addFix id severity description command run a).WarnCount = a.WarnCount ∧
    (addFix id severity description command run a).InfoCount = a.InfoCount ∧
    (addFix id severity description command run a).OutputBuffer = a.OutputBuffer := by
  simp [addFix]

/-! ## Recommendations -/

/-- C9: for every state, the list of buildRecommendations contains the entry
"Upgrade controller to v1.14.3" if and only if ControllerVersion differs from
the baseline "v1.14.3". -/
theorem C9_upgrade_iff_version_differs (a : AuditState) :
    "Upgrade controller to v1.14.3" ∈ buildRecommendations a ↔
      a.ControllerVersion ≠ "v1.14.3" := by
  unfold buildRecommendations
  by_cases h1 : a.ControllerVersion = "v1.14.3" <;>
    by_cases h2 : a.AdmissionSvcType = "ClusterIP" <;> simp [h1, h2]

/-- C10: for every state, the list of buildRecommendations contains the entry
"Change admission controller service to ClusterIP" if and only if
AdmissionSvcType is not "ClusterIP"; and for a state whose type is
"ClusterIP" no entry of the list contains the text "ClusterIP". -/
theorem C10_restrict_exposure_iff_not_clusterip (a : AuditState) :
    ("Change admission controller service to ClusterIP" ∈ buildRecommendations a ↔
      a.AdmissionSvcType ≠ "ClusterIP") ∧
    (buildRecommendations { a with AdmissionSvcType := "ClusterIP" }).all
      (fun r => !strContains r "ClusterIP") = true := by
  constructor
  · unfold buildRecommendations
    by_cases h1 : a.ControllerVersion = "v1.14.3" <;>
      by_cases h2 : a.AdmissionSvcType = "ClusterIP" <;> simp [h1, h2]
  · unfold buildRecommendations
    by_cases h1 : a.ControllerVersion = "v1.14.3"
    · simp only [h1, ne_eq, not_true_eq_false, ↓reduceIte]
      decide
    · simp only [h1, ne_eq, not_true_eq_false, not_false_eq_true, ↓reduceIte]
      decide

/-! ## Fix executor: the loop -/

/-- The rows of the fix table are prints only. -/
theorem fixTable_all_stdout (P : Palette) (fs : List Fix) (i : Nat) :
    (fixTable P i fs).all Event.isStdout = true := by
  induction fs generalizing i with
  | nil => simp [fixTable]
  | cons f fs ih => simp [fixTable, fixRow, Event.isStdout, ih]

/-- The fix table is the rows of the fixes, one after the other, numbered from `i`. -/
theorem fixTable_eq_rows (P : Palette) (fs : List Fix) (i : Nat) :
    fixTable P i fs =
      ((List.range' i fs.length).zip fs).flatMap (fun p => fixRow P p.1 p.2) := by
  induction fs generalizing i with
  | nil => simp [fixTable]
  | cons f fs ih => simp [fixTable, List.range'_succ, ih]

/-- The rollout switch calls no fix and waits once exactly for the three
disruptive identifiers. -/
theorem rolloutSwitch_acts (P : Palette) (a : AuditState) (f : Fix) (w : World) :
    (rolloutSwitch P a f w).1.filterMap Event.act =
      (if f.ID ∈ disruptiveIds then [Act.wait] else []) ∧
    (rolloutSwitch P a f w).1.filterMap Event.callIndex = [] ∧
    (rolloutSwitch P a f w).1.all (Event.isRolloutWaitOf a) = true := by
  unfold rolloutSwitch
  by_cases h1 : f.ID = "snippet-annotations" ∨ f.ID = "resource-limits"
  · have hm : f.ID ∈ disruptiveIds := by
      rcases h1 with h | h <;> simp [disruptiveIds, h]
    by_cases h0 : toLower a.DeploymentType = ""
    · simp [h1, hm, h0, waitForRollout, Event.act, Event.callIndex, Event.isRolloutWaitOf]
    · simp [h1, hm, h0, waitForRollout, Event.act, Event.callIndex, Event.isRolloutWaitOf]
  · by_cases h2 : f.ID = "upgrade-controller"
    · have hm : f.ID ∈ disruptiveIds := by simp [disruptiveIds, h2]
      simp only [if_neg h1, if_pos h2, if_pos hm]
      simp [waitForRollout, Event.act, Event.callIndex, Event.isRolloutWaitOf]
    · have hm : f.ID ∉ disruptiveIds := by
        simp only [disruptiveIds, List.mem_cons, List.mem_singleton, List.not_mem_nil,
          or_false]
        tauto
      simp [h1, h2, hm]

/-- When every fix has an action the loop never panics, records one result per
fix in order, and calls the fixes one by one in index order. -/
theorem applyFixes_total (P : Palette) (con : Console) (a : AuditState) (fs : List Fix)
    (h : ∀ f ∈ fs, f.Run.isSome = true) (i : Nat) (w : World) :
    (applyFixes P con a i fs w).panicked = false ∧
    (applyFixes P con a i fs w).results.map (·.fix) = fs ∧
    (applyFixes P con a i fs w).events.filterMap Event.callIndex =
      List.range' i fs.length := by
  induction fs generalizing i w with
  | nil => simp [applyFixes]
  | cons f fs ih =>
    have hf := h f (List.mem_cons_self f fs)
    obtain ⟨run, hrun⟩ := Option.isSome_iff_exists.mp hf
    have ih2 := fun j v => ih (fun g hg => h g (List.mem_cons_of_mem f hg)) j v
    simp only [applyFixes, hrun]
    cases hr : (run (captured a) w).1 with
    | some e =>
      obtain ⟨h1, h2, h3⟩ := ih2 (i + 1) (run (captured a) w).2
      simp [h1, h2, h3, fixAnnounce, Event.callIndex, List.range'_succ]
    | none =>
      obtain ⟨h1, h2, h3⟩ := ih2 (i + 1) (rolloutSwitch P a f (run (captured a) w).2).2
      simp [h1, h2, h3, fixAnnounce, Event.callIndex, List.range'_succ,
        (rolloutSwitch_acts P a f (run (captured a) w).2).2.1]

/-- Fixes with assigned outcomes all have an action. -/
theorem returns_isSome (fs : List Fix) (es : List GoError)
    (h : List.Forall₂ Fix.returns fs es) : ∀ f ∈ fs, f.Run.isSome = true := by
  induction h with
  | nil => simp
  | cons hr _ ih =>
    intro f hf
    rcases List.mem_cons.mp hf with rfl | hf
    · obtain ⟨run, hrun, _⟩ := hr
      simp [hrun]
    · exact ih f hf

/-- The summary loop prints one entry per result, in order, and counts the
nil and the non-nil outcomes. -/
theorem tally_spec (P : Palette) (rs : List fixResult) (passed failed : Nat) :
    (tally P rs passed failed).1 = rs.map (summaryLine P) ∧
    (tally P rs passed failed).2.1 = passed + (rs.map (·.err)).countP (· = none) ∧
    (tally P rs passed failed).2.2 = failed + (rs.map (·.err)).countP (· ≠ none) := by
  induction rs generalizing passed failed with
  | nil => simp [tally]
  | cons r rs ih =>
    obtain ⟨f, e⟩ := r
    cases e with
    | none =>
      obtain ⟨h1, h2, h3⟩ := ih (passed + 1) failed
      simp [tally, h1, h2, h3]
      omega
    | some msg =>
      obtain ⟨h1, h2, h3⟩ := ih passed (failed + 1)
      simp [tally, h1, h2, h3]
      omega

/-- The loop never reads standard input. -/
theorem applyFixes_no_stdin (P : Palette) (con : Console) (a : AuditState) (fs : List Fix)
    (i : Nat) (w : World) :
    (applyFixes P con a i fs w).events.countP Event.isStdin = 0 := by
  induction fs generalizing i w with
  | nil => simp [applyFixes]
  | cons f fs ih =>
    simp only [applyFixes]
    cases hrun : f.Run with
    | none => simp [fixAnnounce, Event.isStdin]
    | some run =>
      simp only []
      cases hr : (run (captured a) w).1 with
      | some e =>
        have h1 := ih (i + 1) (run (captured a) w).2
        simp only [List.countP_append, h1]
        simp [fixAnnounce, Event.isStdin]
      | none =>
        have h1 := ih (i + 1) (rolloutSwitch P a f (run (captured a) w).2).2
        have h2 : (rolloutSwitch P a f (run (captured a) w).2).1.countP Event.isStdin = 0 := by
          unfold rolloutSwitch
          split_ifs <;> simp [waitForRollout, Event.isStdin]
        simp only [List.countP_append, h1, h2]
        simp [fixAnnounce, Event.isStdin]

/-- A list of prints holds no call, no wait and no read. -/
theorem stdout_only (a : AuditState) (l : List Event) (h : l.all Event.isStdout = true) :
    l.filterMap Event.callIndex = [] ∧ l.filterMap Event.act = [] ∧
    l.countP Event.isStdin = 0 ∧ l.all (Event.isRolloutWaitOf a) = true := by
  induction l with
  | nil => simp
  | cons e l ih =>
    simp only [List.all_cons, Bool.and_eq_true] at h
    obtain ⟨h1, h2, h3, h4⟩ := ih h.2
    cases e <;> simp_all [Event.isStdout, Event.callIndex, Event.act, Event.isStdin,
      Event.isRolloutWaitOf]

/-- Everything shown before the prompt is a print. -/
theorem shown_all_stdout (P : Palette) (a : AuditState) :
    (tableHead P a ++ fixTable P 0 a.Fixes ++ tableFoot P).all Event.isStdout = true := by
  simp [tableHead, tableFoot, Event.isStdout, fixTable_all_stdout]

/-- The summary entries and the closing lines are prints. -/
theorem summary_all_stdout (P : Palette) (rs : List fixResult) (passed failed : Nat) :
    (summaryBanner P :: (rs.map (summaryLine P) ++ closing P passed failed)).all
      Event.isStdout = true := by
  have h1 : ∀ r : fixResult, (summaryLine P r).isStdout = true := by
    intro r
    unfold summaryLine
    cases r.err <;> rfl
  have h2 : (closing P passed failed).all Event.isStdout = true := by
    unfold closing
    split_ifs <;> simp [Event.isStdout]
  have h3 : (rs.map (summaryLine P)).all Event.isStdout = true := by
    induction rs with
    | nil => rfl
    | cons r rs ih => simp only [List.map_cons, List.all_cons, h1 r, ih, Bool.and_self]
  simp only [List.all_cons, List.all_append, h2, h3]
  rfl

/-- The answer test of `offerFixes` in words. -/
theorem declined_iff (con : Console) :
    declined con = true ↔
      toLower (trimSpace con.answer) ≠ "yes" ∧ toLower (trimSpace con.answer) ≠ "y" := by
  simp [declined]

/-- The events of a run that was confirmed and did not panic. -/
theorem offerFixes_confirmed (P : Palette) (con : Console) (a : AuditState) (w : World)
    (hyes : declined con = false) (hrun : ∀ f ∈ a.Fixes, f.Run.isSome = true) :
    (offerFixes P con a w).events =
      (tableHead P a ++ fixTable P 0 a.Fixes ++ tableFoot P) ++ askOperator P ++
        [applyBanner P] ++ (applyFixes P con a 0 a.Fixes w).events ++
        (summaryBanner P :: ((offerFixes P con a w).results.map (summaryLine P) ++
          closing P (offerFixes P con a w).passed (offerFixes P con a w).failed)) ∧
    (offerFixes P con a w).results = (applyFixes P con a 0 a.Fixes w).results ∧
    (offerFixes P con a w).passed =
      ((offerFixes P con a w).results.map (·.err)).countP (· = none) ∧
    (offerFixes P con a w).failed =
      ((offerFixes P con a w).results.map (·.err)).countP (· ≠ none) ∧
    (offerFixes P con a w).panicked = false ∧
    (offerFixes P con a w).state = a := by
  obtain ⟨hp, _, _⟩ := applyFixes_total P con a a.Fixes hrun 0 w
  obtain ⟨t1, t2, t3⟩ := tally_spec P (applyFixes P con a 0 a.Fixes w).results 0 0
  simp only [offerFixes, hyes, hp, Bool.false_eq_true, if_false, t1, t2, t3]
  simp

/-- The calls of a confirmed run whose fixes all have an action. -/
theorem offerFixes_calls (P : Palette) (con : Console) (a : AuditState) (w : World)
    (hyes : declined con = false) (hrun : ∀ f ∈ a.Fixes, f.Run.isSome = true) :
    (offerFixes P con a w).events.filterMap Event.callIndex = List.range a.Fixes.length := by
  obtain ⟨he, _⟩ := offerFixes_confirmed P con a w hyes hrun
  obtain ⟨_, _, hc⟩ := applyFixes_total P con a a.Fixes hrun 0 w
  obtain ⟨s1, _⟩ := stdout_only a _ (shown_all_stdout P a)
  obtain ⟨s2, _⟩ := stdout_only a _ (summary_all_stdout P (offerFixes P con a w).results
    (offerFixes P con a w).passed (offerFixes P con a w).failed)
  rw [he]
  simp only [List.filterMap_append, s1, s2, hc, List.range_eq_range']
  simp [askOperator, applyBanner, Event.callIndex]

/-- The rollout switch leaves the world that running its waits leaves. -/
theorem rolloutSwitch_world (P : Palette) (a : AuditState) (f : Fix) (w : World) :
    (rolloutSwitch P a f w).2 = runDropping (waitsAfter a f none) w := by
  unfold rolloutSwitch waitsAfter
  by_cases h1 : f.ID = "snippet-annotations" ∨ f.ID = "resource-limits"
  · have hm : f.ID ∈ disruptiveIds := by
      rcases h1 with h | h <;> simp [disruptiveIds, h]
    have hu : f.ID ≠ "upgrade-controller" := by
      rcases h1 with h | h <;> rw [h] <;> decide
    by_cases h0 : toLower a.DeploymentType = ""
    · simp [h1, hm, hu, h0, waitForRollout, runDropping, rolloutCmd]
    · simp [h1, hm, hu, h0, waitForRollout, runDropping, rolloutCmd]
  · by_cases h2 : f.ID = "upgrade-controller"
    · have hm : f.ID ∈ disruptiveIds := by simp [disruptiveIds, h2]
      simp only [if_neg h1, if_pos h2, hm, and_self, if_true]
      simp [waitForRollout, runDropping, rolloutCmd]
    · have hm : f.ID ∉ disruptiveIds := by
        simp only [disruptiveIds, List.mem_cons, List.mem_singleton, List.not_mem_nil,
          or_false]
        tauto
      simp [h1, h2, hm, runDropping]

/-- A call that returned an error is followed by no wait. -/
theorem waitsAfter_error (a : AuditState) (f : Fix) (e : String) :
    waitsAfter a f (some e) = [] := by
  simp [waitsAfter]

/-- The loop of the executor calls the actions as `attemptAll` does: it records
what each call returned, ends in the same world, and its action steps are the
calls in order, a call that returned nil for a disruptive fix being followed by
one wait. -/
theorem applyFixes_attempts (P : Palette) (con : Console) (a : AuditState) (fs : List Fix)
    (h : ∀ f ∈ fs, f.Run.isSome = true) (i : Nat) (w : World) :
    (applyFixes P con a i fs w).results.map (·.err) = (attemptAll a fs w).1 ∧
    (applyFixes P con a i fs w).world = (attemptAll a fs w).2 ∧
    (applyFixes P con a i fs w).events.filterMap Event.act =
      expectedActs i fs (attemptAll a fs w).1 ∧
    (applyFixes P con a i fs w).events.all (Event.isRolloutWaitOf a) = true := by
  induction fs generalizing i w with
  | nil => simp [applyFixes, attemptAll, expectedActs]
  | cons f fs ih =>
    have hf := h f (List.mem_cons_self f fs)
    obtain ⟨run, hrun⟩ := Option.isSome_iff_exists.mp hf
    have ih2 := fun j v => ih (fun g hg => h g (List.mem_cons_of_mem f hg)) j v
    simp only [applyFixes, attemptAll, hrun]
    cases hr : (run (captured a) w).1 with
    | some e =>
      obtain ⟨h1, h2, h3, h4⟩ := ih2 (i + 1) (run (captured a) w).2
      simp only [waitsAfter_error, runDropping, List.foldl_nil]
      simp [h1, h2, h3, h4, fixAnnounce, Event.act, expectedActs, Event.isRolloutWaitOf]
    | none =>
      obtain ⟨h1, h2, h3, h4⟩ := ih2 (i + 1)
        (runDropping (waitsAfter a f none) (run (captured a) w).2)
      obtain ⟨g1, _, g3⟩ := rolloutSwitch_acts P a f (run (captured a) w).2
      simp only [rolloutSwitch_world]
      simp [h1, h2, h3, h4, g1, g3, fixAnnounce, Event.act, expectedActs, Event.isRolloutWaitOf]

/-- Every call returns what the action of its own fix returns in the world
that the attempts before it left. -/
theorem attemptAll_get (a : AuditState) : ∀ (fs : List Fix) (w : World) (i : Nat) (f : Fix)
    (run : Captured → World → GoError × World),
    (∀ g ∈ fs, g.Run.isSome = true) → fs[i]? = some f → f.Run = some run →
    (attemptAll a fs w).1[i]? =
      some (run (captured a) (attemptAll a (fs.take i) w).2).1 := by
  intro fs
  induction fs with
  | nil => intro w i f run _ hi; simp at hi
  | cons g rest ih =>
    intro w i f run h hi hrun
    obtain ⟨grun, hg⟩ := Option.isSome_iff_exists.mp (h g (List.mem_cons_self g rest))
    cases i with
    | zero =>
      simp only [List.getElem?_cons_zero, Option.some.injEq] at hi
      subst hi
      rw [hg] at hrun
      cases hrun
      simp [attemptAll, hg]
    | succ j =>
      simp only [List.getElem?_cons_succ] at hi
      have := ih (runDropping (waitsAfter a g (grun (captured a) w).1) (grun (captured a) w).2)
        j f run (fun x hx => h x (List.mem_cons_of_mem g hx)) hi hrun
      simp only [attemptAll, hg, List.take_succ_cons, List.getElem?_cons_succ]
      exact this

/-- The world of a confirmed run is the world the loop of the executor left. -/
theorem offerFixes_world (P : Palette) (con : Console) (a : AuditState) (w : World)
    (hyes : declined con = false) :
    (offerFixes P con a w).world = (applyFixes P con a 0 a.Fixes w).world := by
  unfold offerFixes
  simp only [hyes, Bool.false_eq_true, if_false]
  split <;> rfl

/-- A rollout wait prints, runs its command and drops what the command
returns: the world after it is the world before it with the command logged. -/
theorem waitForRollout_drops (P : Palette) (resourceType name ns : String) (w : World) :
    (waitForRollout P resourceType name ns w).1.filterMap Event.act = [Act.wait] ∧
    (waitForRollout P resourceType name ns w).2 =
      { w with log := w.log ++ [rolloutCmd resourceType name ns] } := by
  simp [waitForRollout, Event.act, runCmd, rolloutCmd]

/-! ## Fix executor: the claims -/

/-- C4: if the operator confirms (the trimmed, lower-cased answer is "yes" or
"y") and every registered fix has an action (the precondition of the
registry; calling a nil action panics), offerFixes calls the action of every
registered fix exactly once, in registration order, whatever the severities:
the calls of the run are those of the indices 0, 1, ..., n-1 in that order;
what the calls returned and the world they left are those of `attemptAll`,
which calls the actions one by one in list order; the result recorded at index
`i` is what the action of fix `i` returned when called on the state `a` in the
world the attempts before it left. One result is recorded per fix, in the same
order, and the run ends with the summary banner, one summary entry per result
in that order, each showing the description of its fix, and the closing lines;
every call precedes the summary. -/
theorem C4_confirmed_runs_every_fix_once_in_order (P : Palette) (con : Console)
    (a : AuditState) (w : World)
    (hyes : toLower (trimSpace con.answer) = "yes" ∨ toLower (trimSpace con.answer) = "y")
    (hrun : ∀ f ∈ a.Fixes, f.Run.isSome = true) :
    (offerFixes P con a w).events.filterMap Event.callIndex = List.range a.Fixes.length ∧
    (offerFixes P con a w).panicked = false ∧
    (offerFixes P con a w).results.map (·.fix) = a.Fixes ∧
    (offerFixes P con a w).results.map (·.err) = (attemptAll a a.Fixes w).1 ∧
    (offerFixes P con a w).world = (attemptAll a a.Fixes w).2 ∧
    (∀ (i : Nat) (f : Fix) (run : Captured → World → GoError × World),
      a.Fixes[i]? = some f → f.Run = some run →
      ((offerFixes P con a w).results.map (·.err))[i]? =
        some (run (captured a) (attemptAll a (a.Fixes.take i) w).2).1) ∧
    ((offerFixes P con a w).results.map (summaryLine P)).length = a.Fixes.length ∧
    (∃ before, (offerFixes P con a w).events =
        before ++ summaryBanner P :: ((offerFixes P con a w).results.map (summaryLine P) ++
          closing P (offerFixes P con a w).passed (offerFixes P con a w).failed) ∧
      before.filterMap Event.callIndex = List.range a.Fixes.length) ∧
    (∀ r : fixResult, ∃ pre post,
      summaryLine P r = Event.stdout (pre ++ r.fix.Description ++ post)) := by
  have hd : declined con = false := by
    rcases hyes with h | h <;> simp [declined, h]
  obtain ⟨he, hres, _, _, hp, _⟩ := offerFixes_confirmed P con a w hd hrun
  obtain ⟨_, hfix, hc⟩ := applyFixes_total P con a a.Fixes hrun 0 w
  obtain ⟨herr, hworld, _, _⟩ := applyFixes_attempts P con a a.Fixes hrun 0 w
  have hfix2 : (offerFixes P con a w).results.map (·.fix) = a.Fixes := by rw [hres, hfix]
  have herr2 : (offerFixes P con a w).results.map (·.err) = (attemptAll a a.Fixes w).1 := by
    rw [hres, herr]
  refine ⟨offerFixes_calls P con a w hd hrun, hp, hfix2, herr2, ?_, ?_, ?_, ⟨_, he, ?_⟩, ?_⟩
  · rw [offerFixes_world P con a w hd, hworld]
  · intro i f run hi hf
    rw [herr2]
    exact attemptAll_get a a.Fixes w i f run hrun hi hf
  · rw [List.length_map, ← List.length_map (offerFixes P con a w).results (·.fix), hfix2]
  · obtain ⟨s1, _⟩ := stdout_only a _ (shown_all_stdout P a)
    simp only [List.filterMap_append, s1, hc, List.range_eq_range']
    simp [askOperator, applyBanner, Event.callIndex]
  · intro r
    obtain ⟨f, e⟩ := r
    cases e with
    | none =>
      exact ⟨"  " ++ P.Green ++ "✓" ++ P.Reset ++ "  ", "\n", by
        simp [summaryLine, String.append_assoc]⟩
    | some msg =>
      exact ⟨"  " ++ P.Red ++ "✗" ++ P.Reset ++ "  ",
        "\n      " ++ P.Dim ++ "Error: " ++ msg ++ P.Reset ++ "\n", by
        simp [summaryLine, String.append_assoc]⟩

set_option maxRecDepth 100000 in
/-- C4 at a concrete run: the operator answers "yes" and the three fixes the
probes registered, upgrade-controller, snippet-annotations and
admission-loadbalancer, are called in the order 0, 1, 2. The commands of the
run are those of the three actions, each once, in registration order, with the
rollout waits that follow the two disruptive ones. -/
theorem C4_witness :
    (toLower (trimSpace (demoConsole "yes\n").answer) = "yes" ∨
      toLower (trimSpace (demoConsole "yes\n").answer) = "y") ∧
    (∀ f ∈ registeredState.Fixes, f.Run.isSome = true) ∧
    registeredState.Fixes.map (·.ID) =
      ["upgrade-controller", "snippet-annotations", "admission-loadbalancer"] ∧
    (offerFixes ansiPalette (demoConsole "yes\n") registeredState calmWorld).events.filterMap
      Event.callIndex = [0, 1, 2] ∧
    (offerFixes ansiPalette (demoConsole "yes\n") registeredState calmWorld).results.map
      (·.err) = [none, none, none] ∧
    (offerFixes ansiPalette (demoConsole "yes\n") registeredState calmWorld).world.log =
      [⟨"helm", ["upgrade", "ingress-nginx", "ingress-nginx/ingress-nginx", "--version",
          "4.14.3", "-n", "ingress-nginx"]⟩,
       ⟨"kubectl", ["rollout", "status", "deployment/ingress-nginx-controller", "-n",
          "ingress-nginx", "--timeout=120s"]⟩,
       ⟨"kubectl", ["patch", "cm", "ingress-nginx-controller", "-n", "ingress-nginx", "--type",
          "merge", "-p", "\x7b\"data\":\x7b\"allow-snippet-annotations\":\"false\"\x7d\x7d"]⟩,
       ⟨"kubectl", ["rollout", "status", "daemonset/ingress-nginx-controller", "-n",
          "ingress-nginx", "--timeout=120s"]⟩,
       ⟨"kubectl", ["patch", "svc", "ingress-nginx-controller-admission", "-n", "ingress-nginx",
          "-p", "\x7b\"spec\":\x7b\"type\":\"ClusterIP\"\x7d\x7d"]⟩] :=
  have h := C4_confirmed_runs_every_fix_once_in_order ansiPalette (demoConsole "yes\n")
    registeredState calmWorld (by decide) (by decide)
  ⟨by decide, by decide, by decide, h.1.trans (by decide), h.2.2.2.1.trans (by decide),
    (congrArg World.log h.2.2.2.2.1).trans (by decide)⟩

/-- C5: if the operator's answer, trimmed and lower-cased, is anything other
than "yes" or "y" (an empty answer and the end of input included), offerFixes
calls no fix action and performs no rollout wait; the world, the four
counters, the fix list and the output buffer are as before. The run reads
standard input once and decides for all fixes together: it prints the table,
the prompt and the skip notice, and nothing else. -/
theorem C5_declined_runs_nothing (P : Palette) (con : Console) (a : AuditState) (w : World)
    (hno : toLower (trimSpace con.answer) ≠ "yes" ∧ toLower (trimSpace con.answer) ≠ "y") :
    (offerFixes P con a w).events.filterMap Event.act = [] ∧
    (offerFixes P con a w).events.countP Event.isExec = 0 ∧
    (offerFixes P con a w).world = w ∧
    (offerFixes P con a w).state = a ∧
    (offerFixes P con a w).state.PassCount = a.PassCount ∧
    (offerFixes P con a w).state.FailCount = a.FailCount ∧
    (offerFixes P con a w).state.WarnCount = a.WarnCount ∧
    (offerFixes P con a w).state.InfoCount = a.InfoCount ∧
    (offerFixes P con a w).state.Fixes = a.Fixes ∧
    (offerFixes P con a w).state.OutputBuffer = a.OutputBuffer ∧
    (offerFixes P con a w).events.countP Event.isStdin = 1 ∧
    (offerFixes P con a w).events =
      tableHead P a ++ fixTable P 0 a.Fixes ++ tableFoot P ++ askOperator P ++ skipNotice P a ∧
    (offerFixes P con a w).panicked = false := by
  have hd : declined con = true := (declined_iff con).mpr hno
  obtain ⟨_, s2, s3, _⟩ := stdout_only a _ (shown_all_stdout P a)
  have hev : (offerFixes P con a w).events =
      tableHead P a ++ fixTable P 0 a.Fixes ++ tableFoot P ++ askOperator P ++ skipNotice P a := by
    simp [offerFixes, hd]
  have hx : (tableHead P a ++ fixTable P 0 a.Fixes ++ tableFoot P).countP Event.isExec = 0 := by
    have h := shown_all_stdout P a
    rw [List.countP_eq_zero]
    intro e he
    have := List.all_eq_true.mp h e he
    cases e <;> simp_all [Event.isStdout, Event.isExec]
  refine ⟨?_, ?_, ?_, ?_, ?_, ?_, ?_, ?_, ?_, ?_, ?_, hev, ?_⟩
  · rw [hev]
    simp only [List.filterMap_append, s2]
    simp [askOperator, skipNotice, Event.act]
  · rw [hev]
    simp only [List.countP_append, hx]
    simp [askOperator, skipNotice, Event.isExec]
  all_goals first
    | (simp [offerFixes, hd]; done)
    | (rw [hev]
       simp only [List.countP_append, s3]
       simp [askOperator, skipNotice, Event.isStdin])

/-- C5 at concrete runs: at the end of input (an empty answer) and on the
answer "No", none of the three demo fixes is called and the state is kept. -/
theorem C5_witness :
    (toLower (trimSpace (demoConsole "").answer) ≠ "yes" ∧
      toLower (trimSpace (demoConsole "").answer) ≠ "y") ∧
    (offerFixes ansiPalette (demoConsole "") demoState calmWorld).events.filterMap
      Event.act = [] ∧
    (offerFixes ansiPalette (demoConsole "") demoState calmWorld).state = demoState ∧
    (offerFixes ansiPalette (demoConsole " No\n") demoState calmWorld).events.filterMap
      Event.act = [] :=
  have h := C5_declined_runs_nothing ansiPalette (demoConsole "") demoState calmWorld
    (by decide)
  have h2 := C5_declined_runs_nothing ansiPalette (demoConsole " No\n") demoState calmWorld
    (by decide)
  ⟨by decide, h.1, h.2.2.2.1, h2.1⟩

/-- C7 as stated fails: the only fix of this confirmed run has the disruptive
identifier upgrade-controller and its action returns an error; the fix is
attempted and no rollout wait follows it. -/
theorem C7_counterexample_failed_fix_is_not_awaited :
    declined (demoConsole "yes\n") = false ∧
    failedUpgradeState.Fixes.map (·.ID) = ["upgrade-controller"] ∧
    "upgrade-controller" ∈ disruptiveIds ∧
    (offerFixes ansiPalette (demoConsole "yes\n") failedUpgradeState calmWorld).events.filterMap
      Event.act = [Act.call 0] ∧
    (offerFixes ansiPalette (demoConsole "yes\n") failedUpgradeState calmWorld).events.countP
      Event.isExec = 0 ∧
    (offerFixes ansiPalette (demoConsole "yes\n") failedUpgradeState calmWorld).events.filterMap
      Event.act ≠ actsWaitingAfterEveryAttempt 0 failedUpgradeState.Fixes := by
  decide

/-- C7, amended: in a confirmed run over fixes that have an action, in any
world, the action steps of the executor are: each fix called in turn, and
after a call that returned nil for a fix whose id is snippet-annotations,
resource-limits or upgrade-controller exactly one rollout wait before the next
call; no wait after a fix with any other id, none after a fix that returned an
error. Every command the executor runs is `kubectl rollout status` of the
workload ingress-nginx-controller in the audited namespace. The outcome of a
wait is dropped: a wait leaves the world as it was but for its command in the
log, every fix is called whatever the waits returned, and the results recorded
are what the actions themselves returned. -/
theorem C7_wait_follows_successful_disruptive_fix (P : Palette) (con : Console)
    (a : AuditState) (w : World)
    (hyes : toLower (trimSpace con.answer) = "yes" ∨ toLower (trimSpace con.answer) = "y")
    (hrun : ∀ f ∈ a.Fixes, f.Run.isSome = true) :
    (offerFixes P con a w).events.filterMap Event.act =
      expectedActs 0 a.Fixes ((offerFixes P con a w).results.map (·.err)) ∧
    (offerFixes P con a w).events.all (Event.isRolloutWaitOf a) = true ∧
    (offerFixes P con a w).events.filterMap Event.callIndex = List.range a.Fixes.length ∧
    (offerFixes P con a w).results.map (·.err) = (attemptAll a a.Fixes w).1 ∧
    (offerFixes P con a w).world = (attemptAll a a.Fixes w).2 ∧
    (∀ (resourceType name ns : String) (v : World),
      (waitForRollout P resourceType name ns v).1.filterMap Event.act = [Act.wait] ∧
      (waitForRollout P resourceType name ns v).2 =
        { v with log := v.log ++ [rolloutCmd resourceType name ns] }) := by
  have hd : declined con = false := by
    rcases hyes with h | h <;> simp [declined, h]
  obtain ⟨he, hres, _⟩ := offerFixes_confirmed P con a w hd hrun
  obtain ⟨herr, hworld, hact, hwait⟩ := applyFixes_attempts P con a a.Fixes hrun 0 w
  obtain ⟨_, s1, _, s3⟩ := stdout_only a _ (shown_all_stdout P a)
  obtain ⟨_, t1, _, t3⟩ := stdout_only a _ (summary_all_stdout P
    (offerFixes P con a w).results (offerFixes P con a w).passed
    (offerFixes P con a w).failed)
  have herr2 : (offerFixes P con a w).results.map (·.err) = (attemptAll a a.Fixes w).1 := by
    rw [hres, herr]
  refine ⟨?_, ?_, offerFixes_calls P con a w hd hrun, herr2, ?_,
    fun rt name ns v => waitForRollout_drops P rt name ns v⟩
  · rw [herr2, he]
    simp only [List.filterMap_append, s1, t1, hact]
    simp [askOperator, applyBanner, Event.act]
  · rw [he]
    simp only [List.all_append, s3, t3, hwait]
    simp [askOperator, applyBanner, Event.isRolloutWaitOf]
  · rw [offerFixes_world P con a w hd, hworld]

set_option maxRecDepth 100000 in
/-- C7 amended, at a concrete run: of the three fixes the probes registered the
first (upgrade-controller, nil) is followed by a wait, the second
(snippet-annotations, error) and the third (admission-loadbalancer, nil) by
none. -/
theorem C7_witness :
    (toLower (trimSpace (demoConsole "yes").answer) = "yes" ∨
      toLower (trimSpace (demoConsole "yes").answer) = "y") ∧
    (∀ f ∈ registeredState.Fixes, f.Run.isSome = true) ∧
    (offerFixes ansiPalette (demoConsole "yes") registeredState patchFailsWorld).results.map
      (·.err) = [none, some "exit status 1", none] ∧
    (offerFixes ansiPalette (demoConsole "yes") registeredState patchFailsWorld).events.filterMap
      Event.act = [Act.call 0, Act.wait, Act.call 1, Act.call 2] ∧
    (offerFixes ansiPalette (demoConsole "yes") registeredState patchFailsWorld).world.log.map
      (fun c => c.args.take 2) =
      [["upgrade", "ingress-nginx"], ["rollout", "status"], ["patch", "cm"], ["patch", "svc"]] :=
  have h := C7_wait_follows_successful_disruptive_fix ansiPalette (demoConsole "yes")
    registeredState patchFailsWorld (by decide) (by decide)
  ⟨by decide, by decide, h.2.2.2.1.trans (by decide), h.1.trans (by decide),
    (congrArg (fun v : World => v.log.map (fun c => c.args.take 2)) h.2.2.2.2.1).trans
      (by decide)⟩

/-- C8: in every run, whatever the answer, offerFixes first prints the table
head, then for every registered fix in registration order a row showing its
severity and its description and a line showing its command text, then the
table foot, and only then the prompt followed by the read of the answer.
Everything before the read is a print: no fix action is called and no command
is run before the answer has been read. Nothing after the prompt reads
standard input again. -/
theorem C8_fixes_are_shown_before_the_answer (P : Palette) (con : Console)
    (a : AuditState) (w : World) :
    (∃ prompt rest, (offerFixes P con a w).events =
        (tableHead P a ++ fixTable P 0 a.Fixes ++ tableFoot P) ++
          [Event.stdout prompt, Event.stdin] ++ rest ∧
      rest.countP Event.isStdin = 0) ∧
    (tableHead P a ++ fixTable P 0 a.Fixes ++ tableFoot P).all Event.isStdout = true ∧
    fixTable P 0 a.Fixes =
      ((List.range a.Fixes.length).zip a.Fixes).flatMap (fun p => fixRow P p.1 p.2) ∧
    (∀ (i : Nat) (f : Fix), ∃ s1 s2 s3 c1 c2, fixRow P i f =
      [Event.stdout (s1 ++ f.Severity ++ s2 ++ f.Description ++ s3),
       Event.stdout (c1 ++ f.Command ++ c2), Event.stdout "\n"]) := by
  refine ⟨?_, shown_all_stdout P a, ?_, ?_⟩
  · refine ⟨"  " ++ P.Bold ++ "Do you want to apply all fixes? [yes/no]:" ++ P.Reset ++ " ", ?_⟩
    by_cases hd : declined con = true
    · exact ⟨skipNotice P a, by simp [offerFixes, hd, askOperator],
        by simp [skipNotice, Event.isStdin]⟩
    · by_cases hp : (applyFixes P con a 0 a.Fixes w).panicked = true
      · refine ⟨[applyBanner P] ++ (applyFixes P con a 0 a.Fixes w).events,
          by simp [offerFixes, hd, hp, askOperator], ?_⟩
        simp only [List.countP_append, applyFixes_no_stdin]
        simp [applyBanner, Event.isStdin]
      · obtain ⟨t1, _, _⟩ := tally_spec P (applyFixes P con a 0 a.Fixes w).results 0 0
        obtain ⟨_, _, s3, _⟩ := stdout_only a _ (summary_all_stdout P
          (applyFixes P con a 0 a.Fixes w).results
          (tally P (applyFixes P con a 0 a.Fixes w).results 0 0).2.1
          (tally P (applyFixes P con a 0 a.Fixes w).results 0 0).2.2)
        refine ⟨[applyBanner P] ++ (applyFixes P con a 0 a.Fixes w).events ++
          (summaryBanner P :: ((applyFixes P con a 0 a.Fixes w).results.map (summaryLine P) ++
            closing P (tally P (applyFixes P con a 0 a.Fixes w).results 0 0).2.1
              (tally P (applyFixes P con a 0 a.Fixes w).results 0 0).2.2)),
          by simp [offerFixes, hd, hp, askOperator, t1], ?_⟩
        simp only [List.countP_append, applyFixes_no_stdin, s3]
        simp [applyBanner, Event.isStdin]
  · rw [fixTable_eq_rows, List.range_eq_range']
  · intro i f
    exact ⟨"  " ++ P.Bold ++ "[" ++ padLeftNat 2 (i + 1) ++ "]" ++ P.Reset ++ "  " ++
        (if f.Severity = "CRITICAL" then P.Red else P.Yellow),
      strRepeat " " (10 - f.Severity.length) ++ P.Reset ++ "  ", "\n",
      "        " ++ P.Dim ++ "$ ", P.Reset ++ "\n", by
        simp [fixRow, padRight, String.append_assoc]⟩


/-! ## Recommendations: the whole list -/

/-- C11: for every state, buildRecommendations returns exactly the upgrade
entry (if the version differs from "v1.14.3"), then the restrict-exposure
entry (if the service type differs from "ClusterIP"), then the retirement
advisory and the Gateway-API advisory. The two advisories are always the last
two entries in that order, the list has 2, 3 or 4 entries and is never empty,
and the upgrade entry is in the list exactly when it is its first entry. At
(v1.14.3, ClusterIP) the list is the two advisories; at (v1.10.0,
LoadBalancer) it has four entries, the upgrade entry first. -/
theorem C11_recommendations_exact_list (a : AuditState) :
    buildRecommendations a =
      (if a.ControllerVersion ≠ "v1.14.3" then ["Upgrade controller to v1.14.3"] else []) ++
      (if a.AdmissionSvcType ≠ "ClusterIP" then
        ["Change admission controller service to ClusterIP"] else []) ++
      ["Plan migration from Ingress-NGINX (retiring March 2026)",
       "Consider migrating to Gateway API or alternative controller"] ∧
    (buildRecommendations a).drop ((buildRecommendations a).length - 2) =
      ["Plan migration from Ingress-NGINX (retiring March 2026)",
       "Consider migrating to Gateway API or alternative controller"] ∧
    buildRecommendations a ≠ [] ∧
    ((buildRecommendations a).length = 2 ∨ (buildRecommendations a).length = 3 ∨
      (buildRecommendations a).length = 4) ∧
    ("Upgrade controller to v1.14.3" ∈ buildRecommendations a ↔
      (buildRecommendations a).head? = some "Upgrade controller to v1.14.3") ∧
    buildRecommendations { ControllerVersion := "v1.14.3", AdmissionSvcType := "ClusterIP" } =
      ["Plan migration from Ingress-NGINX (retiring March 2026)",
       "Consider migrating to Gateway API or alternative controller"] ∧
    buildRecommendations { ControllerVersion := "v1.10.0", AdmissionSvcType := "LoadBalancer" } =
      ["Upgrade controller to v1.14.3", "Change admission controller service to ClusterIP",
       "Plan migration from Ingress-NGINX (retiring March 2026)",
       "Consider migrating to Gateway API or alternative controller"] := by
  refine ⟨?_, ?_, ?_, ?_, ?_, by decide, by decide⟩ <;>
    unfold buildRecommendations <;>
    by_cases h1 : a.ControllerVersion = "v1.14.3" <;>
    by_cases h2 : a.AdmissionSvcType = "ClusterIP" <;> simp [h1, h2]


/-! ## Console summary -/

/-- A sequence of writes prints its lines, each followed by a newline, and
changes nothing but the output buffer. -/
theorem writelns_events (ls : List String) (a : AuditState) :
    (writelns ls a).2 = ls.map (fun l => Event.stdout (l ++ "\n")) := by
  induction ls generalizing a with
  | nil => rfl
  | cons l ls ih => simp [writelns, writeln, write, ih]

/-- C12: the overall status tier written by generateSummary is a function of
FailCount and WarnCount alone. For all counters exactly one tier is chosen:
EXCELLENT iff failed = 0 and warned = 0, GOOD iff failed = 0 and warned > 0,
NEEDS ATTENTION iff 1 ≤ failed ≤ 2 whatever warned is, CRITICAL iff
failed > 2. Two states with the same FailCount and WarnCount get the same
tier, so PassCount and InfoCount (and every other field) have no influence.
The two status lines generateSummary writes are those of the chosen tier: the
first ends in `Overall Status:` and the tier name. At (0,0), (0,3), (1,0),
(2,5), (3,0) the tiers are EXCELLENT, GOOD, NEEDS ATTENTION, NEEDS ATTENTION,
CRITICAL. -/
theorem C12_status_tier_is_function_of_fail_and_warn (P : Palette) (L : Lipgloss)
    (a b : AuditState) (pass info : Nat) :
    (overallStatus a = .EXCELLENT ↔ a.FailCount = 0 ∧ a.WarnCount = 0) ∧
    (overallStatus a = .GOOD ↔ a.FailCount = 0 ∧ a.WarnCount > 0) ∧
    (overallStatus a = .NEEDS_ATTENTION ↔ 1 ≤ a.FailCount ∧ a.FailCount ≤ 2) ∧
    (overallStatus a = .CRITICAL ↔ a.FailCount > 2) ∧
    overallStatus { b with FailCount := a.FailCount, WarnCount := a.WarnCount } =
      overallStatus a ∧
    overallStatus { a with PassCount := pass, InfoCount := info } = overallStatus a ∧
    (∃ colour detail, statusLines P a =
      ["  " ++ colour ++ P.Bold ++ "● Overall Status: " ++ (overallStatus a).label ++ P.Reset,
       detail]) ∧
    (∃ before after, (generateSummary P L a).2 =
      (before ++ statusLines P a ++ after).map (fun l => Event.stdout (l ++ "\n"))) ∧
    (overallStatus { FailCount := 0, WarnCount := 0 } = .EXCELLENT ∧
     overallStatus { FailCount := 0, WarnCount := 3 } = .GOOD ∧
     overallStatus { FailCount := 1, WarnCount := 0 } = .NEEDS_ATTENTION ∧
     overallStatus { FailCount := 2, WarnCount := 5 } = .NEEDS_ATTENTION ∧
     overallStatus { FailCount := 3, WarnCount := 0 } = .CRITICAL) := by
  refine ⟨?_, ?_, ?_, ?_, rfl, rfl, ?_, ?_, by decide⟩
  · unfold overallStatus
    split_ifs <;> simp_all
  · unfold overallStatus
    split_ifs <;> simp_all
    omega
  · unfold overallStatus
    split_ifs <;> simp_all
    omega
  · unfold overallStatus
    split_ifs <;> simp_all
  · unfold statusLines
    cases overallStatus a
    · exact ⟨P.Green, _, by simp only [Tier.label, String.append_assoc]; rfl⟩
    · exact ⟨P.Yellow, _, by simp only [Tier.label, String.append_assoc]; rfl⟩
    · exact ⟨P.Yellow, _, by simp only [Tier.label, String.append_assoc]; rfl⟩
    · exact ⟨P.Red, _, by simp only [Tier.label, String.append_assoc]; rfl⟩
  · exact ⟨headerLines P "AUDIT SUMMARY" ++ summaryBoxLines L a ++ [""], summaryTail P a,
      by rw [generateSummary, writelns_events, summaryLines]⟩


/-! ## Report file names -/

/-- Texts of the shape `before ++ x ++ "-" ++ s ++ after` with `s` of a fixed
length determine `x` and `s`. -/
theorem name_injective (pre suf x1 x2 s1 s2 : String) (hlen : s1.length = s2.length)
    (h : pre ++ x1 ++ "-" ++ s1 ++ suf = pre ++ x2 ++ "-" ++ s2 ++ suf) :
    x1 = x2 ∧ s1 = s2 := by
  have h2 := congrArg String.data h
  simp only [String.data_append, List.append_assoc] at h2
  have h3 := List.append_cancel_left h2
  have h3b : (x1.data ++ ("-".data ++ s1.data)) ++ suf.data =
      (x2.data ++ ("-".data ++ s2.data)) ++ suf.data := by
    simpa only [List.append_assoc] using h3
  have h4 := List.append_cancel_right h3b
  have hl : ("-".data ++ s1.data).length = ("-".data ++ s2.data).length := by
    simp only [List.length_append]
    simp only [String.length] at hlen
    omega
  obtain ⟨e1, e2⟩ := List.append_inj' h4 hl
  exact ⟨String.ext e1, String.ext (List.append_cancel_left e2)⟩

/-- A time stamp has fifteen runes. -/
theorem isStamp_length (ts : String) (h : isStamp ts = true) : ts.length = 15 := by
  simp only [isStamp, Bool.and_eq_true, decide_eq_true_eq] at h
  exact h.1.1

/-- C20: report file names are a function of the target and the time stamp
only. A scan names the files of target ns `ingress-audit-<ns>-<ts>.txt` and
`.json`, whatever else the state holds; a single-target run names them
`ingress-audit-<ts>.txt` and `.json`. For time stamps of the fixed shape
YYYYMMDD-HHMMSS, two (namespace, time stamp) pairs give the same text file
name, or the same JSON file name, only if the namespaces are equal and the
time stamps are equal: the reports of different targets have different names.
The text file and the JSON file of a target are never the same file. -/
theorem C20_report_names_determine_target_and_stamp (a b : AuditState)
    (ns1 ns2 ts1 ts2 : String) (h1 : isStamp ts1 = true) (h2 : isStamp ts2 = true) :
    (subState a ns1 ts1).TextReportFile = "ingress-audit-" ++ ns1 ++ "-" ++ ts1 ++ ".txt" ∧
    (subState a ns1 ts1).JSONReportFile = "ingress-audit-" ++ ns1 ++ "-" ++ ts1 ++ ".json" ∧
    (subState a ns1 ts1).TextReportFile = (subState b ns1 ts1).TextReportFile ∧
    (subState a ns1 ts1).JSONReportFile = (subState b ns1 ts1).JSONReportFile ∧
    ((subState a ns1 ts1).TextReportFile = (subState b ns2 ts2).TextReportFile ↔
      ns1 = ns2 ∧ ts1 = ts2) ∧
    ((subState a ns1 ts1).JSONReportFile = (subState b ns2 ts2).JSONReportFile ↔
      ns1 = ns2 ∧ ts1 = ts2) ∧
    (subState a ns1 ts1).TextReportFile ≠ (subState b ns2 ts2).JSONReportFile ∧
    (setupReportFiles ts1 a).TextReportFile = "ingress-audit-" ++ ts1 ++ ".txt" ∧
    (setupReportFiles ts1 a).JSONReportFile = "ingress-audit-" ++ ts1 ++ ".json" ∧
    (setupReportFiles ts1 a).TextReportFile ≠ (setupReportFiles ts1 a).JSONReportFile := by
  have hl : ts1.length = ts2.length := by
    rw [isStamp_length ts1 h1, isStamp_length ts2 h2]
  refine ⟨rfl, rfl, rfl, rfl, ⟨?_, ?_⟩, ⟨?_, ?_⟩, ?_, rfl, rfl, ?_⟩
  · exact fun h => name_injective "ingress-audit-" ".txt" ns1 ns2 ts1 ts2 hl h
  · rintro ⟨rfl, rfl⟩
    rfl
  · exact fun h => name_injective "ingress-audit-" ".json" ns1 ns2 ts1 ts2 hl h
  · rintro ⟨rfl, rfl⟩
    rfl
  · intro h
    have h3 := congrArg (fun s => s.data.reverse.head?) h
    simp [subState, String.data_append] at h3
  · intro h
    have h3 := congrArg (fun s => s.data.reverse.head?) h
    simp [setupReportFiles, String.data_append] at h3

/-- C20 at concrete values: two targets of one scan get different file names. -/
theorem C20_witness :
    isStamp "20260218-101500" = true ∧
    (subState demoState "ingress-nginx" "20260218-101500").TextReportFile =
      "ingress-audit-ingress-nginx-20260218-101500.txt" ∧
    ((subState demoState "ingress-nginx" "20260218-101500").TextReportFile =
        (subState demoState "edge" "20260218-101500").TextReportFile ↔
      "ingress-nginx" = "edge" ∧ "20260218-101500" = "20260218-101500") :=
  have h := C20_report_names_determine_target_and_stamp demoState demoState
    "ingress-nginx" "edge" "20260218-101500" "20260218-101500" (by decide) (by decide)
  ⟨by decide, by decide, h.2.2.2.2.1⟩


/-! ## Registered fixes: text shown and command run -/

/-- C18 on the code: for the fixes upgrade-controller and
admission-loadbalancer the words of the command text are the program and
arguments the action runs. For snippet-annotations and resource-limits the
action runs `kubectl` on the resource named by the live `ControllerName`,
while the text shown always names `ingress-nginx-controller`: for the
controller `my-nginx` in namespace `web` the operator is shown
`kubectl patch cm ingress-nginx-controller -n web ...` and
`kubectl set resources deployment ingress-nginx-controller -n web ...`, and
the actions run `kubectl patch cm my-nginx -n web ...` and
`kubectl set resources deployment my-nginx -n web ...`. -/
theorem C18_text_names_default_controller_action_names_live_one (a : AuditState)
    (live : Captured) :
    ((registerSnippetFix a).Fixes.getLast?.map (fun f => f.commandsRun live) =
      some [⟨"kubectl", ["patch", "cm", live.ControllerName, "-n", a.Namespace, "--type",
        "merge", "-p",
        "\x7b\"data\":\x7b\"allow-snippet-annotations\":\"false\"\x7d\x7d"]⟩] ∧
     (registerSnippetFix a).Fixes.getLast?.map (·.Command) =
      some ("kubectl patch cm ingress-nginx-controller -n " ++ a.Namespace ++
        " --type merge -p \x27\x7b\"data\":\x7b\"allow-snippet-annotations\":\"false\"\x7d\x7d\x27")) ∧
    ((registerLimitsFix customNameState).Fixes.map (fun f => shellWords f.Command) =
      [["kubectl", "set", "resources", "deployment", "ingress-nginx-controller", "-n", "web",
        "--limits=cpu=200m,memory=256Mi", "--requests=cpu=100m,memory=128Mi"]] ∧
     (registerLimitsFix customNameState).Fixes.map
        (fun f => (f.commandsRun (captured (registerLimitsFix customNameState))).map Cmd.words) =
      [[["kubectl", "set", "resources", "deployment", "my-nginx", "-n", "web",
        "--limits=cpu=200m,memory=256Mi", "--requests=cpu=100m,memory=128Mi"]]]) ∧
    ((registerSnippetFix customNameState).Fixes.map (fun f => shellWords f.Command) =
      [["kubectl", "patch", "cm", "ingress-nginx-controller", "-n", "web", "--type", "merge",
        "-p", "\x7b\"data\":\x7b\"allow-snippet-annotations\":\"false\"\x7d\x7d"]] ∧
     (registerSnippetFix customNameState).Fixes.map
        (fun f => (f.commandsRun (captured (registerSnippetFix customNameState))).map Cmd.words) =
      [[["kubectl", "patch", "cm", "my-nginx", "-n", "web", "--type", "merge",
        "-p", "\x7b\"data\":\x7b\"allow-snippet-annotations\":\"false\"\x7d\x7d"]]]) ∧
    ((registerUpgradeFix customNameState).Fixes.map (fun f => [shellWords f.Command]) =
      (registerUpgradeFix customNameState).Fixes.map
        (fun f => (f.commandsRun (captured (registerUpgradeFix customNameState))).map Cmd.words) ∧
     (registerAdmissionFix customNameState).Fixes.map (fun f => [shellWords f.Command]) =
      (registerAdmissionFix customNameState).Fixes.map
        (fun f => (f.commandsRun (captured (registerAdmissionFix customNameState))).map
          Cmd.words)) := by
  refine ⟨⟨?_, ?_⟩, by decide, by decide, by decide⟩
  · simp [registerSnippetFix, addFix, Fix.commandsRun, runCmd, calmWorld]
  · simp [registerSnippetFix, addFix]

/-! ## The pre-flight probe is quiet -/

theorem Quiet.refl (p : Proc) : Quiet p p :=
  ⟨rfl, ⟨[], by simp⟩, fun _ _ => rfl⟩

theorem Quiet.trans {p q r : Proc} (h1 : Quiet p q) (h2 : Quiet q r) : Quiet p r := by
  obtain ⟨a1, e1, p1⟩ := h1.steps
  obtain ⟨a2, e2, p2⟩ := h2.steps
  refine ⟨h2.fixes.trans h1.fixes, ⟨a1 ++ a2, by rw [e2, e1, List.append_assoc], ?_⟩, ?_⟩
  · simp [List.all_append, p1, p2]
  · intro c hc
    have hq := h1.dead c hc
    rw [h2.dead c (by rw [hq]; exact hc), hq]

/-- Quiet steps leave the trail as it is. -/
theorem Quiet.trail_eq {p q : Proc} (h : Quiet p q) : q.trail = p.trail := by
  obtain ⟨added, e, ha⟩ := h.steps
  simp only [Proc.trail, e, List.filter_append]
  have : added.filter (fun s => !s.isPrint) = [] := by
    rw [List.filter_eq_nil_iff]
    intro s hs
    simp [List.all_eq_true.mp ha s hs]
  rw [this, List.append_nil]

/-- Terminal events are print steps exactly when they are prints. -/
theorem term_all_isPrint (l : List Event) :
    (l.map Step.term).all Step.isPrint = l.all Event.isStdout := by
  induction l with
  | nil => rfl
  | cons e l ih =>
    cases e <;> simp [Step.isPrint, Event.isStdout, ih]

theorem writes_write (g : AuditState → String) : Writes (fun a => write (g a) a) := by
  intro a
  simp [write, Event.isStdout]

theorem writes_writeln (g : AuditState → String) : Writes (fun a => writeln (g a) a) := by
  intro a
  simp [writeln, write, Event.isStdout]

theorem writelns_fixes (ls : List String) (a : AuditState) :
    (writelns ls a).1.Fixes = a.Fixes := by
  induction ls generalizing a with
  | nil => rfl
  | cons l ls ih => simp [writelns, ih, writeln, write]

theorem writelns_textReportFile (ls : List String) (a : AuditState) :
    (writelns ls a).1.TextReportFile = a.TextReportFile := by
  induction ls generalizing a with
  | nil => rfl
  | cons l ls ih => simp [writelns, ih, writeln, write]

theorem writelns_jsonReportFile (ls : List String) (a : AuditState) :
    (writelns ls a).1.JSONReportFile = a.JSONReportFile := by
  induction ls generalizing a with
  | nil => rfl
  | cons l ls ih => simp [writelns, ih, writeln, write]

theorem writelns_failCount (ls : List String) (a : AuditState) :
    (writelns ls a).1.FailCount = a.FailCount := by
  induction ls generalizing a with
  | nil => rfl
  | cons l ls ih => simp [writelns, ih, writeln, write]

theorem writes_writelns (g : AuditState → List String) :
    Writes (fun a => writelns (g a) a) := by
  intro a
  refine ⟨writelns_fixes _ a, ?_⟩
  rw [writelns_events]
  simp [Event.isStdout]

theorem writes_logPass (P : Palette) (g : AuditState → String) :
    Writes (fun a => logPass P (g a) a) := by
  intro a
  simp [logPass, writeln, write, Event.isStdout]

theorem writes_logFail (P : Palette) (g : AuditState → String) :
    Writes (fun a => logFail P (g a) a) := by
  intro a
  simp [logFail, writeln, write, Event.isStdout]

theorem writes_logWarn (P : Palette) (g : AuditState → String) :
    Writes (fun a => logWarn P (g a) a) := by
  intro a
  simp [logWarn, writeln, write, Event.isStdout]

theorem writes_logInfo (P : Palette) (g : AuditState → String) :
    Writes (fun a => logInfo P (g a) a) := by
  intro a
  simp [logInfo, writeln, write, Event.isStdout]

theorem writes_logStep (P : Palette) (g : AuditState → String) :
    Writes (fun a => logStep P (g a) a) := by
  intro a
  simp [logStep, writeln, write, Event.isStdout]

theorem writes_printHeader (P : Palette) (title : String) : Writes (printHeader P title) :=
  writes_writelns (fun _ => headerLines P title)

theorem writes_printSection (P : Palette) (title : String) : Writes (printSection P title) :=
  writes_writelns (fun _ => sectionLines P title)

theorem Quiet.emit {p q : Proc} {f : AuditState → AuditState × List Event}
    (hf : Writes f) (h : Quiet p q) : Quiet p (q.emit f) := by
  refine h.trans ?_
  unfold Proc.emit
  cases hq : q.exit with
  | some c => simp only []; exact ⟨rfl, ⟨[], by simp⟩, fun _ _ => rfl⟩
  | none =>
    refine ⟨(hf q.a).1, ⟨_, rfl, ?_⟩, fun c hc => by rw [hq] at hc; cases hc⟩
    rw [term_all_isPrint]
    exact (hf q.a).2

theorem Quiet.print {p q : Proc} (text : String) (h : Quiet p q) : Quiet p (q.print text) := by
  refine h.trans ?_
  unfold Proc.print
  cases hq : q.exit with
  | some c => exact ⟨rfl, ⟨[], by simp⟩, fun _ _ => rfl⟩
  | none => exact ⟨rfl, ⟨_, rfl, by simp [Step.isPrint]⟩, fun c hc => by rw [hq] at hc; cases hc⟩

theorem Quiet.modify {p q : Proc} {f : AuditState → AuditState}
    (hf : ∀ a, (f a).Fixes = a.Fixes) (h : Quiet p q) : Quiet p (q.modify f) := by
  refine h.trans ?_
  unfold Proc.modify
  cases hq : q.exit with
  | some c => exact ⟨rfl, ⟨[], by simp⟩, fun _ _ => rfl⟩
  | none => exact ⟨hf q.a, ⟨[], by simp⟩, fun c hc => by rw [hq] at hc; cases hc⟩

theorem Quiet.osExit {p q : Proc} (code : Nat) (h : Quiet p q) : Quiet p (q.osExit code) := by
  refine h.trans ?_
  unfold Proc.osExit
  cases hq : q.exit with
  | some c => exact ⟨rfl, ⟨[], by simp⟩, fun _ _ => rfl⟩
  | none => exact ⟨rfl, ⟨[], by simp⟩, fun c hc => by rw [hq] at hc; cases hc⟩

theorem Quiet.output {p q : Proc} (H : Host) (name : String) (args : List String)
    (h : Quiet p q) : Quiet p (Proc.output H name args q).2 := by
  refine h.trans ?_
  unfold Proc.output
  cases hq : q.exit with
  | some c => exact ⟨rfl, ⟨[], by simp⟩, fun _ _ => rfl⟩
  | none => exact ⟨rfl, ⟨[], by simp⟩, fun c hc => by rw [hq] at hc; cases hc⟩

theorem Quiet.kubectl {p q : Proc} (H : Host) (args : List String) (h : Quiet p q) :
    Quiet p (Proc.kubectl H args q).2 :=
  Quiet.output H "kubectl" args h

theorem Quiet.helmCmd {p q : Proc} (H : Host) (args : List String) (h : Quiet p q) :
    Quiet p (Proc.helmCmd H args q).2 :=
  Quiet.output H "helm" args h

theorem Quiet.kubectlE {p q : Proc} (H : Host) (args : List String) (h : Quiet p q) :
    Quiet p (Proc.kubectlE H args q).2 := by
  refine h.trans ?_
  unfold Proc.kubectlE
  cases hq : q.exit with
  | some c => exact ⟨rfl, ⟨[], by simp⟩, fun _ _ => rfl⟩
  | none => exact ⟨rfl, ⟨[], by simp⟩, fun c hc => by rw [hq] at hc; cases hc⟩

theorem Quiet.foldl {α : Type} {p : Proc} (f : Proc → α → Proc)
    (hf : ∀ q x, Quiet p q → Quiet p (f q x)) (xs : List α) {q : Proc} (h : Quiet p q) :
    Quiet p (xs.foldl f q) := by
  induction xs generalizing q with
  | nil => exact h
  | cons x xs ih => exact ih (hf q x h)

theorem Quiet.ite {p a b : Proc} (c : Prop) [Decidable c] (ha : Quiet p a) (hb : Quiet p b) :
    Quiet p (if c then a else b) := by
  split
  · exact ha
  · exact hb

theorem quiet_toolVersion (H : Host) (name : String) {p q : Proc} (h : Quiet p q) :
    Quiet p (toolVersion H name q).2 := by
  unfold toolVersion
  split
  · exact Quiet.kubectl H _ h
  · split
    · exact Quiet.helmCmd H _ h
    · exact Quiet.output H _ _ h

theorem quiet_checkTool (H : Host) (P : Palette) (name : String) {p q : Proc} (h : Quiet p q) :
    Quiet p (checkTool H P q name) := by
  unfold checkTool
  apply Quiet.ite
  · exact Quiet.emit (writes_logPass P _) (quiet_toolVersion H name
      (Quiet.emit (writes_logStep P _) h))
  · exact Quiet.osExit 1 (Quiet.emit (writes_logFail P _) (Quiet.emit (writes_logStep P _) h))

theorem quiet_preflightTools (H : Host) (P : Palette) {p q : Proc} (h : Quiet p q) :
    Quiet p (preflightTools H P q) := by
  unfold preflightTools
  exact Quiet.foldl _ (fun q x hq => quiet_checkTool H P x hq) _
    (Quiet.emit (writes_printSection P _) (Quiet.emit (writes_printHeader P _) h))


theorem quiet_preflightCluster (H : Host) (P : Palette) {p q : Proc} (h : Quiet p q) :
    Quiet p (preflightCluster H P q) := by
  unfold preflightCluster
  simp only []
  repeat' first
    | with_reducible exact h
    | with_reducible apply Quiet.emit
    | with_reducible apply Quiet.modify
    | with_reducible apply Quiet.osExit
    | with_reducible apply Quiet.kubectl
    | with_reducible apply Quiet.kubectlE
    | with_reducible apply Quiet.helmCmd
    | with_reducible apply Quiet.output
    | with_reducible apply Quiet.ite
    | with_reducible apply writes_logPass
    | with_reducible apply writes_logFail
    | with_reducible apply writes_logWarn
    | with_reducible apply writes_logInfo
    | with_reducible apply writes_logStep
    | with_reducible apply writes_printHeader
    | with_reducible apply writes_printSection
    | with_reducible apply writes_writeln
    | with_reducible apply writes_writelns
    | (intro _; rfl)
    | split

theorem quiet_preflightNamespace (H : Host) (P : Palette) {p q : Proc} (h : Quiet p q) :
    Quiet p (preflightNamespace H P q) := by
  unfold preflightNamespace
  simp only []
  repeat' first
    | with_reducible exact h
    | with_reducible apply Quiet.emit
    | with_reducible apply Quiet.modify
    | with_reducible apply Quiet.osExit
    | with_reducible apply Quiet.kubectl
    | with_reducible apply Quiet.kubectlE
    | with_reducible apply Quiet.helmCmd
    | with_reducible apply Quiet.output
    | with_reducible apply Quiet.ite
    | with_reducible apply writes_logPass
    | with_reducible apply writes_logFail
    | with_reducible apply writes_logWarn
    | with_reducible apply writes_logInfo
    | with_reducible apply writes_logStep
    | with_reducible apply writes_printHeader
    | with_reducible apply writes_printSection
    | with_reducible apply writes_writeln
    | with_reducible apply writes_writelns

theorem quiet_checkRbac (H : Host) (P : Palette) (c : String × String × String) {p q : Proc}
    (h : Quiet p q) : Quiet p (checkRbac H P q c) := by
  unfold checkRbac
  simp only []
  repeat' first
    | with_reducible exact h
    | with_reducible apply Quiet.emit
    | with_reducible apply Quiet.modify
    | with_reducible apply Quiet.osExit
    | with_reducible apply Quiet.kubectl
    | with_reducible apply Quiet.kubectlE
    | with_reducible apply Quiet.helmCmd
    | with_reducible apply Quiet.output
    | with_reducible apply Quiet.ite
    | with_reducible apply writes_logPass
    | with_reducible apply writes_logFail
    | with_reducible apply writes_logWarn
    | with_reducible apply writes_logInfo
    | with_reducible apply writes_logStep

theorem quiet_preflightRbac (H : Host) (P : Palette) {p q : Proc} (h : Quiet p q) :
    Quiet p (preflightRbac H P q) := by
  unfold preflightRbac
  exact Quiet.emit (writes_logInfo P _) (Quiet.foldl _ (fun q x hq => quiet_checkRbac H P x hq) _
    (Quiet.emit (writes_printSection P _) h))

/-- The pre-flight probe registers no fix, adds only prints to the steps, and
does nothing in a process that is dead. -/
theorem quiet_auditPreflight (H : Host) (P : Palette) (p : Proc) :
    Quiet p (auditPreflight H P p) := by
  unfold auditPreflight
  exact quiet_preflightRbac H P (quiet_preflightNamespace H P (quiet_preflightCluster H P
    (quiet_preflightTools H P (Quiet.refl p))))


/-! ## Stages of the pipeline -/

/-- A dead process ignores a probe call. -/
theorem Proc.probe_dead (k : ProbeId) (f : AuditState → World → ProbeOut) (p : Proc) (c : Nat)
    (h : p.exit = some c) : p.probe k f = p := by
  simp [Proc.probe, h]

/-- A probe call that leaves the process alive found it alive, and added its
mark and its prints to the steps. -/
theorem Proc.probe_alive (k : ProbeId) (f : AuditState → World → ProbeOut) (p : Proc)
    (h : (p.probe k f).exit = none) :
    p.exit = none ∧ (p.probe k f).trail = p.trail ++ [Step.probe k] ∧
    ∃ added, (p.probe k f).steps = p.steps ++ added := by
  cases hp : p.exit with
  | some c => rw [Proc.probe_dead k f p c hp, hp] at h; cases h
  | none =>
    refine ⟨rfl, ?_, ⟨Step.probe k :: (f p.a p.w).texts.map (fun t => Step.term (Event.stdout t)),
      by simp [Proc.probe, hp]⟩⟩
    simp [Proc.probe, hp, Proc.trail, List.filter_append, Step.isPrint, List.filter_map,
      Function.comp_def]

/-- A probe call never ends a live process with status 1. -/
theorem Proc.probe_not_one (k : ProbeId) (f : AuditState → World → ProbeOut) (p : Proc)
    (h : p.exit = none) : (p.probe k f).exit ≠ some 1 := by
  simp only [Proc.probe, h]
  split <;> simp

theorem Proc.mark_dead (k : ProbeId) (p : Proc) (c : Nat) (h : p.exit = some c) :
    p.mark k = p := by
  simp [Proc.mark, h]

theorem Proc.mark_alive (k : ProbeId) (p : Proc) (h : p.exit = none) :
    (p.mark k).exit = none ∧ (p.mark k).a = p.a ∧ (p.mark k).w = p.w ∧
    (p.mark k).steps = p.steps ++ [Step.probe k] ∧
    (p.mark k).trail = p.trail ++ [Step.probe k] := by
  simp [Proc.mark, h, Proc.trail, List.filter_append, Step.isPrint]

theorem Proc.emit_dead (f : AuditState → AuditState × List Event) (p : Proc) (c : Nat)
    (h : p.exit = some c) : p.emit f = p := by
  simp [Proc.emit, h]

theorem Proc.generateJSONReport_dead (H : Host) (p : Proc) (c : Nat) (h : p.exit = some c) :
    p.generateJSONReport H = p := by
  simp [Proc.generateJSONReport, h]

theorem Proc.writeTextReport_dead (p : Proc) (c : Nat) (h : p.exit = some c) :
    p.writeTextReport = p := by
  simp [Proc.writeTextReport, h]

theorem Proc.offerFixes_dead (P : Palette) (con : Console) (p : Proc) (c : Nat)
    (h : p.exit = some c) : p.offerFixes P con = p := by
  simp [Proc.offerFixes, h]

/-- The probes, when none of them terminates the process: the process was
alive before, each probe left it alive, and the steps added are, prints aside,
the nine probe calls in the order of the source. -/
theorem runProbes_alive (H : Host) (P : Palette) (probes : Probes) (p : Proc)
    (h : (runProbes H P probes p).exit = none) :
    p.exit = none ∧ (runProbes H P probes p).trail = p.trail ++ pipelineMarks ∧
    (auditPreflight H P (p.mark .preflight)).exit = none ∧
    ∃ added, (runProbes H P probes p).steps = p.steps ++ added := by
  unfold runProbes at h ⊢
  simp only [] at h ⊢
  obtain ⟨h8, t8, a8, s8⟩ := Proc.probe_alive _ _ _ h
  obtain ⟨h7, t7, a7, s7⟩ := Proc.probe_alive _ _ _ h8
  obtain ⟨h6, t6, a6, s6⟩ := Proc.probe_alive _ _ _ h7
  obtain ⟨h5, t5, a5, s5⟩ := Proc.probe_alive _ _ _ h6
  obtain ⟨h4, t4, a4, s4⟩ := Proc.probe_alive _ _ _ h5
  obtain ⟨h3, t3, a3, s3⟩ := Proc.probe_alive _ _ _ h4
  obtain ⟨h2, t2, a2, s2⟩ := Proc.probe_alive _ _ _ h3
  obtain ⟨h1, t1, a1, s1⟩ := Proc.probe_alive _ _ _ h2
  have hq := quiet_auditPreflight H P (p.mark .preflight)
  have hm : (p.mark .preflight).exit = none := by
    cases hx : (p.mark .preflight).exit with
    | none => rfl
    | some c => rw [hq.dead c hx, hx] at h1; cases h1
  have hp : p.exit = none := by
    cases hx : p.exit with
    | none => rfl
    | some c => rw [Proc.mark_dead _ p c hx, hx] at hm; cases hm
  obtain ⟨_, _, _, ms, mt⟩ := Proc.mark_alive .preflight p hp
  obtain ⟨a0, s0, _⟩ := hq.steps
  refine ⟨hp, ?_, h1, ⟨([Step.probe .preflight] ++ a0) ++ a1 ++ a2 ++ a3 ++ a4 ++ a5 ++ a6 ++
    a7 ++ a8, ?_⟩⟩
  · rw [t8, t7, t6, t5, t4, t3, t2, t1, hq.trail_eq, mt]
    simp [pipelineMarks]
  · rw [s8, s7, s6, s5, s4, s3, s2, s1, s0, ms]
    simp


theorem runAudit_eq (H : Host) (P : Palette) (L : Lipgloss) (probes : Probes) (con : Console)
    (p : Proc) : runAudit H P L probes con p = finishAudit H P L con (runProbes H P probes p) :=
  rfl

/-- Once the pre-flight probe has terminated the process, the other probes do
nothing. -/
theorem runProbes_after_fatal_preflight (H : Host) (P : Palette) (probes : Probes) (p : Proc)
    (c : Nat) (h : (auditPreflight H P (p.mark .preflight)).exit = some c) :
    runProbes H P probes p = auditPreflight H P (p.mark .preflight) := by
  unfold runProbes
  simp only []
  rw [Proc.probe_dead _ _ _ c h, Proc.probe_dead _ _ _ c h, Proc.probe_dead _ _ _ c h,
    Proc.probe_dead _ _ _ c h, Proc.probe_dead _ _ _ c h, Proc.probe_dead _ _ _ c h,
    Proc.probe_dead _ _ _ c h, Proc.probe_dead _ _ _ c h]

theorem finishAudit_dead (H : Host) (P : Palette) (L : Lipgloss) (con : Console) (q : Proc)
    (c : Nat) (h : q.exit = some c) : finishAudit H P L con q = q := by
  unfold finishAudit
  simp only []
  rw [Proc.generateJSONReport_dead _ _ c h, Proc.emit_dead _ _ c h,
    Proc.writeTextReport_dead _ c h, Proc.offerFixes_dead _ _ _ c h]
  simp

/-- Once the pre-flight probe has terminated the process, `runAudit` does
nothing more. -/
theorem runAudit_after_fatal_preflight (H : Host) (P : Palette) (L : Lipgloss)
    (probes : Probes) (con : Console) (p : Proc) (c : Nat)
    (h : (auditPreflight H P (p.mark .preflight)).exit = some c) :
    runAudit H P L probes con p = auditPreflight H P (p.mark .preflight) := by
  rw [runAudit_eq, runProbes_after_fatal_preflight H P probes p c h,
    finishAudit_dead H P L con _ c h]

theorem offerFixes_state (P : Palette) (con : Console) (a : AuditState) (w : World) :
    (offerFixes P con a w).state = a := by
  unfold offerFixes
  simp only []
  split
  · rfl
  · split <;> rfl

/-- The second half of `runAudit` on a live process: JSON report, summary, text
report, fix executor. -/
theorem finishAudit_alive (H : Host) (P : Palette) (L : Lipgloss) (con : Console) (q : Proc)
    (h : q.exit = none) :
    (finishAudit H P L con q).steps =
      q.steps ++
      [Step.writeReport q.a.JSONReportFile (buildReport (H.rfc3339 q.w.log) q.a)] ++
      (generateSummary P L q.a).2.map Step.term ++
      [Step.writeText q.a.TextReportFile (generateSummary P L q.a).1.OutputBuffer] ++
      (if q.a.Fixes.length > 0 then
        (offerFixes P con (generateSummary P L q.a).1 q.w).events.map Step.term
       else []) ∧
    (finishAudit H P L con q).exit =
      (if q.a.Fixes.length > 0 ∧
          (offerFixes P con (generateSummary P L q.a).1 q.w).panicked = true
       then some 2 else none) ∧
    (finishAudit H P L con q).a = (generateSummary P L q.a).1 := by
  have hf : (generateSummary P L q.a).1.Fixes = q.a.Fixes := by
    unfold generateSummary
    exact writelns_fixes _ _
  have hn : (generateSummary P L q.a).1.TextReportFile = q.a.TextReportFile := by
    unfold generateSummary
    exact writelns_textReportFile _ _
  unfold finishAudit
  simp only [Proc.generateJSONReport, h, Proc.emit, Proc.writeTextReport, hf, hn]
  by_cases hfix : q.a.Fixes.length > 0
  · simp only [hfix, if_true, Proc.offerFixes, true_and, offerFixes_state]
  · simp only [hfix, if_false, false_and]
    simp


theorem offerFixes_events_ne_nil (P : Palette) (con : Console) (a : AuditState) (w : World) :
    (offerFixes P con a w).events ≠ [] := by
  unfold offerFixes
  simp only []
  split
  · simp [tableHead]
  · split <;> simp [tableHead]

theorem term_filter_not_print (es : List Event) :
    (es.map Step.term).filter (fun s => !s.isPrint) =
      (es.filter (fun e => !e.isStdout)).map Step.term := by
  induction es with
  | nil => rfl
  | cons e es ih => cases e <;> simp_all [Step.isPrint, Event.isStdout]

theorem summary_fixes (P : Palette) (L : Lipgloss) (a : AuditState) :
    (generateSummary P L a).1.Fixes = a.Fixes := by
  unfold generateSummary
  exact writelns_fixes _ _

theorem summary_quiet (P : Palette) (L : Lipgloss) (a : AuditState) :
    ((generateSummary P L a).2.map Step.term).filter (fun s => !s.isPrint) = [] := by
  have hw : (generateSummary P L a).2.all Event.isStdout = true := by
    unfold generateSummary
    exact ((writes_writelns (summaryLines P L)) _).2
  rw [term_filter_not_print]
  simp only [List.map_eq_nil_iff, List.filter_eq_nil_iff]
  intro e he
  have := List.all_eq_true.mp hw e he
  simp [this]

/-- Prints aside, the second half of `runAudit` is the two file writes and then
the reads and calls of the fix executor. -/
theorem finishAudit_trail (H : Host) (P : Palette) (L : Lipgloss) (con : Console) (q : Proc)
    (h : q.exit = none) :
    (finishAudit H P L con q).trail =
      q.trail ++
      [Step.writeReport q.a.JSONReportFile (buildReport (H.rfc3339 q.w.log) q.a),
       Step.writeText q.a.TextReportFile (generateSummary P L q.a).1.OutputBuffer] ++
      (if q.a.Fixes.length > 0 then
        ((offerFixes P con (generateSummary P L q.a).1 q.w).events.filter
          (fun e => !e.isStdout)).map Step.term
       else []) := by
  obtain ⟨hs, _, _⟩ := finishAudit_alive H P L con q h
  unfold Proc.trail
  rw [hs]
  simp only [List.filter_append, summary_quiet, List.append_nil, List.append_assoc]
  congr 1
  split
  · rw [term_filter_not_print]
    simp [Step.isPrint]
  · simp [Step.isPrint]

/-- The executor adds steps exactly when a fix is registered. -/
theorem finishAudit_longer (H : Host) (P : Palette) (L : Lipgloss) (con : Console) (q : Proc)
    (h : q.exit = none) :
    ((finishAudit H P L con q).steps.length >
        (q.steps ++
          [Step.writeReport q.a.JSONReportFile (buildReport (H.rfc3339 q.w.log) q.a)] ++
          (generateSummary P L q.a).2.map Step.term ++
          [Step.writeText q.a.TextReportFile
            (generateSummary P L q.a).1.OutputBuffer]).length ↔
      q.a.Fixes ≠ []) := by
  obtain ⟨hs, _, _⟩ := finishAudit_alive H P L con q h
  rw [hs]
  by_cases hfix : q.a.Fixes.length > 0
  · have hne := offerFixes_events_ne_nil P con (generateSummary P L q.a).1 q.w
    have hpos := List.length_pos.mpr hne
    have hne2 : q.a.Fixes ≠ [] := List.length_pos.mp hfix
    simp only [hfix, if_true, List.length_append, List.length_map, ne_eq, hne2,
      not_false_eq_true, iff_true]
    omega
  · have hnil : q.a.Fixes = [] := by
      cases hx : q.a.Fixes with
      | nil => rfl
      | cons x xs => rw [hx] at hfix; simp at hfix
    simp [hfix, hnil]

/-! ## The probes are called one by one -/

theorem probes_dead (kfs : List (ProbeId × (AuditState → World → ProbeOut))) (q : Proc) (c : Nat)
    (h : q.exit = some c) : kfs.foldl (fun p kf => p.probe kf.1 kf.2) q = q := by
  induction kfs with
  | nil => rfl
  | cons kf rest ih => rw [List.foldl_cons, Proc.probe_dead kf.1 kf.2 q c h, ih]

/-- Calling the probes of a list on a live process is `callEach`. -/
theorem probes_callEach : ∀ (kfs : List (ProbeId × (AuditState → World → ProbeOut))) (q : Proc),
    q.exit = none →
    kfs.foldl (fun p kf => p.probe kf.1 kf.2) q =
      ⟨(callEach kfs q.a q.w).1.1, q.steps ++ (callEach kfs q.a q.w).2.1,
        (callEach kfs q.a q.w).1.2, if (callEach kfs q.a q.w).2.2 then some 2 else none⟩ := by
  intro kfs
  induction kfs with
  | nil =>
    intro q h
    cases q
    simp only [] at h
    subst h
    simp [callEach]
  | cons kf rest ih =>
    intro q h
    rw [List.foldl_cons]
    by_cases hab : (kf.2 q.a q.w).aborted = true
    · have hd : (q.probe kf.1 kf.2).exit = some 2 := by simp [Proc.probe, h, hab]
      rw [probes_dead rest _ 2 hd]
      simp [Proc.probe, h, callEach, hab]
    · have hl : (q.probe kf.1 kf.2).exit = none := by simp [Proc.probe, h, hab]
      rw [ih _ hl]
      simp [Proc.probe, h, callEach, hab]

/-- The probes of `runAudit` after the pre-flight, as one list. -/
theorem runProbes_eq (H : Host) (P : Palette) (probes : Probes) (p : Proc) :
    runProbes H P probes p =
      [(ProbeId.version, probes.auditVersion), (.admission, probes.auditAdmissionController),
       (.network, probes.auditNetworkSecurity), (.configuration, probes.auditConfiguration),
       (.podSecurity, probes.auditPodSecurity), (.vulnerabilities, probes.auditVulnerabilities),
       (.certificates, probes.auditCertificates),
       (.ingress, probes.auditIngressResources)].foldl (fun p kf => p.probe kf.1 kf.2)
        (auditPreflight H P (p.mark .preflight)) := by
  unfold runProbes
  simp only [List.foldl_cons, List.foldl_nil]

/-- The probes of a pipeline that none of them ends: the pre-flight probe left
the process alive, and the eight probes after it were called as `callEach`
calls them, one by one on the state and in the world the one before left. -/
theorem runProbes_calls (H : Host) (P : Palette) (probes : Probes) (p : Proc)
    (h : (runProbes H P probes p).exit = none) :
    (auditPreflight H P (p.mark .preflight)).exit = none ∧
    (runProbes H P probes p).a =
      (callEach
        [(ProbeId.version, probes.auditVersion), (.admission, probes.auditAdmissionController),
         (.network, probes.auditNetworkSecurity), (.configuration, probes.auditConfiguration),
         (.podSecurity, probes.auditPodSecurity), (.vulnerabilities, probes.auditVulnerabilities),
         (.certificates, probes.auditCertificates), (.ingress, probes.auditIngressResources)]
        (auditPreflight H P (p.mark .preflight)).a
        (auditPreflight H P (p.mark .preflight)).w).1.1 ∧
    (runProbes H P probes p).w =
      (callEach
        [(ProbeId.version, probes.auditVersion), (.admission, probes.auditAdmissionController),
         (.network, probes.auditNetworkSecurity), (.configuration, probes.auditConfiguration),
         (.podSecurity, probes.auditPodSecurity), (.vulnerabilities, probes.auditVulnerabilities),
         (.certificates, probes.auditCertificates), (.ingress, probes.auditIngressResources)]
        (auditPreflight H P (p.mark .preflight)).a
        (auditPreflight H P (p.mark .preflight)).w).1.2 ∧
    (runProbes H P probes p).steps =
      (auditPreflight H P (p.mark .preflight)).steps ++
      (callEach
        [(ProbeId.version, probes.auditVersion), (.admission, probes.auditAdmissionController),
         (.network, probes.auditNetworkSecurity), (.configuration, probes.auditConfiguration),
         (.podSecurity, probes.auditPodSecurity), (.vulnerabilities, probes.auditVulnerabilities),
         (.certificates, probes.auditCertificates), (.ingress, probes.auditIngressResources)]
        (auditPreflight H P (p.mark .preflight)).a
        (auditPreflight H P (p.mark .preflight)).w).2.1 ∧
    (∃ prints : List Step, prints.all Step.isPrint = true ∧
      (auditPreflight H P (p.mark .preflight)).steps =
        p.steps ++ Step.probe .preflight :: prints) := by
  obtain ⟨hp, _, h0, _⟩ := runProbes_alive H P probes p h
  have hq := quiet_auditPreflight H P (p.mark .preflight)
  obtain ⟨_, _, _, ms, _⟩ := Proc.mark_alive .preflight p hp
  obtain ⟨prints, hs, hall⟩ := hq.steps
  have hc := probes_callEach
    [(ProbeId.version, probes.auditVersion), (.admission, probes.auditAdmissionController),
     (.network, probes.auditNetworkSecurity), (.configuration, probes.auditConfiguration),
     (.podSecurity, probes.auditPodSecurity), (.vulnerabilities, probes.auditVulnerabilities),
     (.certificates, probes.auditCertificates), (.ingress, probes.auditIngressResources)]
    (auditPreflight H P (p.mark .preflight)) h0
  rw [← runProbes_eq] at hc
  refine ⟨h0, ?_, ?_, ?_, ⟨prints, hall, ?_⟩⟩
  · rw [hc]
  · rw [hc]
  · rw [hc]
  · rw [hs, ms]
    simp

set_option maxRecDepth 100000 in
/-- C16, as the claim states it, fails when the pre-flight probe ends the
process: in the audit of the namespace `edge`, for which `kubectl get
namespace edge` fails, `runAudit` calls the pre-flight probe and nothing else.
None of the eight other probes runs (no note of theirs is printed, the
controller version is still empty), no report file is written and the fix
executor is not invoked; the process ends with status 1. -/
theorem C16_counterexample_fatal_preflight_ends_the_pipeline :
    (runAudit demoHost ansiPalette plainLipgloss (notingProbes demoHost) (demoConsole "yes\n")
      ⟨edgeState, [], scanWorld, none⟩).exit = some 1 ∧
    (runAudit demoHost ansiPalette plainLipgloss (notingProbes demoHost) (demoConsole "yes\n")
      ⟨edgeState, [], scanWorld, none⟩).steps.filterMap Step.marker = [.preflight] ∧
    ((runAudit demoHost ansiPalette plainLipgloss (notingProbes demoHost) (demoConsole "yes\n")
      ⟨edgeState, [], scanWorld, none⟩).steps.filterMap Step.printed).filter
        (fun t => strContains t "probe ") = [] ∧
    (runAudit demoHost ansiPalette plainLipgloss (notingProbes demoHost) (demoConsole "yes\n")
      ⟨edgeState, [], scanWorld, none⟩).a.ControllerVersion = "" ∧
    (runAudit demoHost ansiPalette plainLipgloss (notingProbes demoHost) (demoConsole "yes\n")
      ⟨edgeState, [], scanWorld, none⟩).steps.filterMap Step.filePath = [] ∧
    (runAudit demoHost ansiPalette plainLipgloss (notingProbes demoHost) (demoConsole "yes\n")
      ⟨edgeState, [], scanWorld, none⟩).steps.filterMap Step.callIndex = [] := by
  refine ⟨?_, ?_, ?_, ?_, ?_, ?_⟩ <;> decide

/-- C16, amended: when no probe terminates the process, `runAudit` calls the
nine probes once each in the order preflight, version, admission, network,
configuration, pod security, vulnerabilities, certificates, ingress resources:
the pre-flight probe first, then the eight others as `callEach` calls them,
each on the state and in the world the probe before it left. Then it writes
the JSON report built from the state the probes left, prints the summary,
writes the text file with the buffer as it is after the summary, and only then
come the steps of the fix executor, which are there if and only if the probes
registered a fix. Prints aside, the steps of the whole run are the nine probe
calls, the two file writes and then the reads and calls of the executor, so
that no fix action is called before a report is written. When a probe
terminates the process, `runAudit` does nothing after the probes. -/
theorem C16_probes_then_reports_then_fix_executor (H : Host) (P : Palette) (L : Lipgloss)
    (probes : Probes) (con : Console) (p : Proc)
    (h : (runProbes H P probes p).exit = none) :
    (runProbes H P probes p).trail = p.trail ++ pipelineMarks ∧
    (runAudit H P L probes con p).steps =
      (runProbes H P probes p).steps ++
      [Step.writeReport (runProbes H P probes p).a.JSONReportFile
        (buildReport (H.rfc3339 (runProbes H P probes p).w.log) (runProbes H P probes p).a)] ++
      (generateSummary P L (runProbes H P probes p).a).2.map Step.term ++
      [Step.writeText (runProbes H P probes p).a.TextReportFile
        (generateSummary P L (runProbes H P probes p).a).1.OutputBuffer] ++
      (if (runProbes H P probes p).a.Fixes.length > 0 then
        (offerFixes P con (generateSummary P L (runProbes H P probes p).a).1
          (runProbes H P probes p).w).events.map Step.term
       else []) ∧
    (runAudit H P L probes con p).trail =
      p.trail ++ pipelineMarks ++
      [Step.writeReport (runProbes H P probes p).a.JSONReportFile
        (buildReport (H.rfc3339 (runProbes H P probes p).w.log) (runProbes H P probes p).a),
       Step.writeText (runProbes H P probes p).a.TextReportFile
        (generateSummary P L (runProbes H P probes p).a).1.OutputBuffer] ++
      (if (runProbes H P probes p).a.Fixes.length > 0 then
        ((offerFixes P con (generateSummary P L (runProbes H P probes p).a).1
          (runProbes H P probes p).w).events.filter (fun e => !e.isStdout)).map Step.term
       else []) ∧
    ((runAudit H P L probes con p).steps.length >
        ((runProbes H P probes p).steps ++
          [Step.writeReport (runProbes H P probes p).a.JSONReportFile
            (buildReport (H.rfc3339 (runProbes H P probes p).w.log)
              (runProbes H P probes p).a)] ++
          (generateSummary P L (runProbes H P probes p).a).2.map Step.term ++
          [Step.writeText (runProbes H P probes p).a.TextReportFile
            (generateSummary P L (runProbes H P probes p).a).1.OutputBuffer]).length ↔
      (runProbes H P probes p).a.Fixes ≠ []) ∧
    (generateSummary P L (runProbes H P probes p).a).1.Fixes =
      (runProbes H P probes p).a.Fixes ∧
    (auditPreflight H P (p.mark .preflight)).exit = none ∧
    (runProbes H P probes p).a =
      (callEach
        [(ProbeId.version, probes.auditVersion), (.admission, probes.auditAdmissionController),
         (.network, probes.auditNetworkSecurity), (.configuration, probes.auditConfiguration),
         (.podSecurity, probes.auditPodSecurity), (.vulnerabilities, probes.auditVulnerabilities),
         (.certificates, probes.auditCertificates), (.ingress, probes.auditIngressResources)]
        (auditPreflight H P (p.mark .preflight)).a
        (auditPreflight H P (p.mark .preflight)).w).1.1 ∧
    (runProbes H P probes p).w =
      (callEach
        [(ProbeId.version, probes.auditVersion), (.admission, probes.auditAdmissionController),
         (.network, probes.auditNetworkSecurity), (.configuration, probes.auditConfiguration),
         (.podSecurity, probes.auditPodSecurity), (.vulnerabilities, probes.auditVulnerabilities),
         (.certificates, probes.auditCertificates), (.ingress, probes.auditIngressResources)]
        (auditPreflight H P (p.mark .preflight)).a
        (auditPreflight H P (p.mark .preflight)).w).1.2 ∧
    (runProbes H P probes p).steps =
      (auditPreflight H P (p.mark .preflight)).steps ++
      (callEach
        [(ProbeId.version, probes.auditVersion), (.admission, probes.auditAdmissionController),
         (.network, probes.auditNetworkSecurity), (.configuration, probes.auditConfiguration),
         (.podSecurity, probes.auditPodSecurity), (.vulnerabilities, probes.auditVulnerabilities),
         (.certificates, probes.auditCertificates), (.ingress, probes.auditIngressResources)]
        (auditPreflight H P (p.mark .preflight)).a
        (auditPreflight H P (p.mark .preflight)).w).2.1 ∧
    (∃ prints : List Step, prints.all Step.isPrint = true ∧
      (auditPreflight H P (p.mark .preflight)).steps =
        p.steps ++ Step.probe .preflight :: prints) ∧
    (∀ (q : Proc) (c : Nat), (runProbes H P probes q).exit = some c →
      runAudit H P L probes con q = runProbes H P probes q) := by
  obtain ⟨_, ht, _, _⟩ := runProbes_alive H P probes p h
  obtain ⟨hs, _, _⟩ := finishAudit_alive H P L con (runProbes H P probes p) h
  have htr := finishAudit_trail H P L con (runProbes H P probes p) h
  have hlen := finishAudit_longer H P L con (runProbes H P probes p) h
  obtain ⟨c1, c2, c3, c4, c5⟩ := runProbes_calls H P probes p h
  rw [ht] at htr
  exact ⟨ht, hs, htr, hlen, summary_fixes P L _, c1, c2, c3, c4, c5,
    fun q c hq => by rw [runAudit_eq, finishAudit_dead H P L con _ c hq]⟩

set_option maxRecDepth 100000 in
/-- The statement of C16 on a concrete machine: the single-target audit of
`oneTargetState` on `demoHost`, with the version probe of the source and seven
probes that leave a note when they are called. -/
theorem C16_witness :
    (runProbes demoHost ansiPalette (notingProbes demoHost)
      ⟨oneTargetState, [], healthyWorld, none⟩).exit = none ∧
    (runAudit demoHost ansiPalette plainLipgloss (notingProbes demoHost) (demoConsole "no\n")
      ⟨oneTargetState, [], healthyWorld, none⟩).trail.map
        (fun s => (s.marker, s.filePath, s.callIndex)) =
      [(some .preflight, none, none), (some .version, none, none),
       (some .admission, none, none), (some .network, none, none),
       (some .configuration, none, none), (some .podSecurity, none, none),
       (some .vulnerabilities, none, none), (some .certificates, none, none),
       (some .ingress, none, none),
       (none, some "ingress-audit-20260218-101459.json", none),
       (none, some "ingress-audit-20260218-101459.txt", none),
       (none, none, none)] ∧
    ((runAudit demoHost ansiPalette plainLipgloss (notingProbes demoHost) (demoConsole "no\n")
      ⟨oneTargetState, [], healthyWorld, none⟩).steps.filterMap Step.printed).filter
        (fun t => strContains t "probe ") =
      ["probe admission\n", "probe network\n", "probe configuration\n", "probe pod security\n",
       "probe vulnerabilities\n", "probe certificates\n", "probe ingress resources\n"] ∧
    (runProbes demoHost ansiPalette (notingProbes demoHost)
      ⟨oneTargetState, [], healthyWorld, none⟩).a.ControllerVersion = "v1.10.0" :=
  have h := C16_probes_then_reports_then_fix_executor demoHost ansiPalette plainLipgloss
    (notingProbes demoHost) (demoConsole "no\n") ⟨oneTargetState, [], healthyWorld, none⟩
    (by decide)
  ⟨by decide,
   (congrArg (List.map (fun s => (s.marker, s.filePath, s.callIndex))) h.2.2.1).trans
     (by decide),
   by decide,
   (congrArg (fun a : AuditState => a.ControllerVersion) h.2.2.2.2.2.2.1).trans (by decide)⟩



theorem Proc.probe_keeps_not_one (k : ProbeId) (f : AuditState → World → ProbeOut) (p : Proc)
    (h : p.exit ≠ some 1) : (p.probe k f).exit ≠ some 1 := by
  cases hp : p.exit with
  | some c => rw [Proc.probe_dead k f p c hp, hp]; rw [hp] at h; exact h
  | none => exact Proc.probe_not_one k f p hp

theorem finishAudit_keeps_not_one (H : Host) (P : Palette) (L : Lipgloss) (con : Console)
    (q : Proc) (h : q.exit ≠ some 1) : (finishAudit H P L con q).exit ≠ some 1 := by
  cases hq : q.exit with
  | some c => rw [finishAudit_dead H P L con q c hq, hq]; rw [hq] at h; exact h
  | none =>
    rw [(finishAudit_alive H P L con q hq).2.1]
    split <;> simp

/-- Inside `runAudit` only the pre-flight probe ends the process with status 1. -/
theorem runAudit_exit_one (H : Host) (P : Palette) (L : Lipgloss) (probes : Probes)
    (con : Console) (p : Proc) (h : (runAudit H P L probes con p).exit = some 1) :
    (auditPreflight H P (p.mark .preflight)).exit = some 1 := by
  by_contra hne
  rw [runAudit_eq] at h
  refine finishAudit_keeps_not_one H P L con _ ?_ h
  unfold runProbes
  simp only []
  exact Proc.probe_keeps_not_one _ _ _ (Proc.probe_keeps_not_one _ _ _
    (Proc.probe_keeps_not_one _ _ _ (Proc.probe_keeps_not_one _ _ _
    (Proc.probe_keeps_not_one _ _ _ (Proc.probe_keeps_not_one _ _ _
    (Proc.probe_keeps_not_one _ _ _ (Proc.probe_keeps_not_one _ _ _ hne)))))))

theorem Proc.osExit_dead (code : Nat) (p : Proc) (c : Nat) (h : p.exit = some c) :
    p.osExit code = p := by
  simp [Proc.osExit, h]

theorem Proc.fresh_eq (p : Proc) (hs : p.steps = []) (h0 : p.exit = none) :
    (⟨p.a, [], p.w, none⟩ : Proc) = p := by
  cases p
  cases hs
  cases h0
  rfl

/-- The run of `main` on one target. -/
theorem main_single (H : Host) (P : Palette) (L : Lipgloss) (probes : Probes)
    (con : Nat → Console) (a : AuditState) (w : World)
    (hm : ¬ (a.ScanAll = true ∧ a.Namespaces.length > 1)) :
    main H P L probes con a w =
      if (runAudit H P L probes (con 0) ⟨a, [], w, none⟩).a.FailCount > 0 then
        (runAudit H P L probes (con 0) ⟨a, [], w, none⟩).osExit 1
      else runAudit H P L probes (con 0) ⟨a, [], w, none⟩ := by
  unfold main
  rw [if_neg hm]

/-- What a fatal pre-flight failure leaves of a target: the fix list and the
steps, prints aside, as they were when its pipeline started, but for the call
of the pre-flight probe. -/
theorem fatal_preflight_leaves (H : Host) (P : Palette) (L : Lipgloss) (probes : Probes)
    (con : Console) (p : Proc) (h0 : p.exit = none) (c : Nat)
    (h : (auditPreflight H P (p.mark .preflight)).exit = some c) :
    (runAudit H P L probes con p).exit = some c ∧
    (runAudit H P L probes con p).a.Fixes = p.a.Fixes ∧
    (runAudit H P L probes con p).trail = p.trail ++ [Step.probe .preflight] := by
  have hq := quiet_auditPreflight H P (p.mark .preflight)
  obtain ⟨_, ma, _, _, mt⟩ := Proc.mark_alive .preflight p h0
  rw [runAudit_after_fatal_preflight H P L probes con p c h]
  exact ⟨h, by rw [hq.fixes, ma], by rw [hq.trail_eq, mt]⟩

set_option maxRecDepth 100000 in
/-- C17, as the claim states it, fails for a scan of several targets: on
`demoHost`, scanning `ingress-nginx` and `edge` with an operator who confirms,
the audit of `ingress-nginx` registers the fix `upgrade-controller` and calls
its action (`helm upgrade` runs), and then the pre-flight probe of `edge`, whose
`kubectl get namespace edge` fails, terminates the process with status 1: the
loop never reaches the closing summary, and the last step that is not a print
is that pre-flight call. -/
theorem C17_counterexample_fix_executed_before_fatal_preflight :
    (runMultiNamespaceScan demoHost ansiPalette plainLipgloss (demoProbes demoHost)
      (fun _ => demoConsole "yes\n") twoTargetState scanWorld).p.exit = some 1 ∧
    (scanLoop demoHost ansiPalette plainLipgloss (demoProbes demoHost)
      (fun _ => demoConsole "yes\n") twoTargetState (demoHost.stamp scanWorld.log) 0
      twoTargetState.Namespaces ⟨⟨twoTargetState, [], scanWorld, none⟩, 0, []⟩).p.exit = some 1 ∧
    (runMultiNamespaceScan demoHost ansiPalette plainLipgloss (demoProbes demoHost)
      (fun _ => demoConsole "yes\n") twoTargetState scanWorld).p.trail.map
        (fun s => (s.marker, s.callIndex, s.filePath)) =
      [(some .preflight, none, none), (some .version, none, none),
       (some .admission, none, none), (some .network, none, none),
       (some .configuration, none, none), (some .podSecurity, none, none),
       (some .vulnerabilities, none, none), (some .certificates, none, none),
       (some .ingress, none, none),
       (none, none, some "ingress-audit-ingress-nginx-20260218-101500.json"),
       (none, none, some "ingress-audit-ingress-nginx-20260218-101500.txt"),
       (none, none, none), (none, some 0, none), (none, none, none),
       (some .preflight, none, none)] ∧
    (runMultiNamespaceScan demoHost ansiPalette plainLipgloss (demoProbes demoHost)
      (fun _ => demoConsole "yes\n") twoTargetState scanWorld).runs.map
        (fun r => (r.ns, r.final.Fixes.map (fun f => f.ID))) =
        [("ingress-nginx", ["upgrade-controller"]), ("edge", [])] ∧
    (runMultiNamespaceScan demoHost ansiPalette plainLipgloss (demoProbes demoHost)
      (fun _ => demoConsole "yes\n") twoTargetState scanWorld).p.w.log.drop 29 =
      [⟨"helm", ["upgrade", "ingress-nginx", "ingress-nginx/ingress-nginx", "--version",
          "4.14.3", "-n", "ingress-nginx"]⟩,
       ⟨"kubectl", ["rollout", "status", "deployment/ingress-nginx-controller", "-n",
          "ingress-nginx", "--timeout=120s"]⟩,
       ⟨"kubectl", ["get", "deployment", "-n", "edge", "ingress-nginx-controller",
          "--ignore-not-found"]⟩,
       ⟨"kubectl", ["version", "--client", "--short"]⟩,
       ⟨"helm", ["version", "--short"]⟩,
       ⟨"jq", ["--version"]⟩,
       ⟨"kubectl", ["cluster-info"]⟩,
       ⟨"kubectl", ["version", "--short"]⟩,
       ⟨"kubectl", ["cluster-info"]⟩,
       ⟨"kubectl", ["config", "current-context"]⟩,
       ⟨"kubectl", ["get", "nodes", "--no-headers"]⟩,
       ⟨"kubectl", ["get", "namespace", "edge"]⟩,
       ⟨"kubectl", ["get", "namespaces", "-o", "jsonpath=\x7b.items[*].metadata.name\x7d"]⟩] := by
  refine ⟨?_, ?_, ?_, ?_, ?_⟩ <;> decide

/-- C17, amended: when the pre-flight probe of a target terminates the process,
`runAudit` does nothing after it, so that between the start of that target and
the termination no fix is registered (the fix list is the one the target started
with, which is empty for every target of a scan) and no fix action is called
(prints aside, the only step added is the call of the pre-flight probe); and
inside `runAudit` nothing but the pre-flight probe ends the process with status
1. In a run of one target the whole process is the pre-flight call. -/
theorem C17_fatal_preflight_precedes_fixes_of_its_target (H : Host) (P : Palette) (L : Lipgloss)
    (probes : Probes) (con : Console) (p : Proc) (h0 : p.exit = none)
    (h : (auditPreflight H P (p.mark .preflight)).exit = some 1) :
    runAudit H P L probes con p = auditPreflight H P (p.mark .preflight) ∧
    (runAudit H P L probes con p).exit = some 1 ∧
    (runAudit H P L probes con p).a.Fixes = p.a.Fixes ∧
    (runAudit H P L probes con p).trail = p.trail ++ [Step.probe .preflight] ∧
    (∀ (a : AuditState) (ns ts : String), (subState a ns ts).Fixes = []) ∧
    (∀ q : Proc, (runAudit H P L probes con q).exit = some 1 →
      (auditPreflight H P (q.mark .preflight)).exit = some 1) ∧
    (p.steps = [] → ¬ (p.a.ScanAll = true ∧ p.a.Namespaces.length > 1) →
      (main H P L probes (fun _ => con) p.a p.w).exit = some 1 ∧
      (main H P L probes (fun _ => con) p.a p.w).a.Fixes = p.a.Fixes ∧
      (main H P L probes (fun _ => con) p.a p.w).trail = [Step.probe .preflight]) := by
  obtain ⟨e1, e2, e3⟩ := fatal_preflight_leaves H P L probes con p h0 1 h
  refine ⟨runAudit_after_fatal_preflight H P L probes con p 1 h, e1, e2, e3,
    fun _ _ _ => rfl, fun q hq => runAudit_exit_one H P L probes con q hq, ?_⟩
  intro hs hm
  have hmain : main H P L probes (fun _ => con) p.a p.w = runAudit H P L probes con p := by
    rw [main_single H P L probes (fun _ => con) p.a p.w hm, Proc.fresh_eq p hs h0]
    split
    · exact Proc.osExit_dead 1 _ 1 e1
    · rfl
  rw [hmain]
  refine ⟨e1, e2, ?_⟩
  rw [e3]
  simp [Proc.trail, hs]

set_option maxRecDepth 100000 in
/-- The statement of C17 for the target `edge` on `demoHost`, where
`kubectl get namespace edge` fails. -/
theorem C17_witness :
    (auditPreflight demoHost ansiPalette (Proc.mark .preflight
      ⟨subState twoTargetState "edge" "20260218-101500", [], scanWorld, none⟩)).exit = some 1 ∧
    (runAudit demoHost ansiPalette plainLipgloss (demoProbes demoHost) (demoConsole "yes\n")
      ⟨subState twoTargetState "edge" "20260218-101500", [], scanWorld, none⟩).a.Fixes = [] ∧
    (runAudit demoHost ansiPalette plainLipgloss (demoProbes demoHost) (demoConsole "yes\n")
      ⟨subState twoTargetState "edge" "20260218-101500", [], scanWorld, none⟩).trail =
      [Step.probe .preflight] ∧
    (main demoHost ansiPalette plainLipgloss (demoProbes demoHost) (fun _ => demoConsole "yes\n")
      (subState twoTargetState "edge" "20260218-101500") scanWorld).trail =
      [Step.probe .preflight] :=
  ⟨by decide,
   (C17_fatal_preflight_precedes_fixes_of_its_target demoHost ansiPalette plainLipgloss
      (demoProbes demoHost) (demoConsole "yes\n")
      ⟨subState twoTargetState "edge" "20260218-101500", [], scanWorld, none⟩ rfl
      (by decide)).2.2.1,
   (C17_fatal_preflight_precedes_fixes_of_its_target demoHost ansiPalette plainLipgloss
      (demoProbes demoHost) (demoConsole "yes\n")
      ⟨subState twoTargetState "edge" "20260218-101500", [], scanWorld, none⟩ rfl
      (by decide)).2.2.2.1,
   ((C17_fatal_preflight_precedes_fixes_of_its_target demoHost ansiPalette plainLipgloss
      (demoProbes demoHost) (demoConsole "yes\n")
      ⟨subState twoTargetState "edge" "20260218-101500", [], scanWorld, none⟩ rfl
      (by decide)).2.2.2.2.2.2 rfl (by decide)).2.2⟩




/-! ## The scan of several targets -/

theorem scannedLines_print (P : Palette) (nss : List String) :
    ∀ x ∈ scannedLines P nss, x.isPrint = true := by
  intro x hx
  simp only [scannedLines, List.mem_map] at hx
  obtain ⟨ns, _, rfl⟩ := hx
  rfl

theorem isPrint_stdout (t : String) : (Step.term (Event.stdout t)).isPrint = true := rfl

/-- The statements after the loop of a scan that is still alive: they print,
and exit with status 1 exactly if the total is positive. -/
theorem scanVerdict_alive (P : Palette) (a : AuditState) (s : Scan) (h : s.p.exit = none) :
    (scanVerdict P a s).p.exit = (if s.totalFail > 0 then some 1 else none) ∧
    (scanVerdict P a s).runs = s.runs ∧
    (scanVerdict P a s).totalFail = s.totalFail ∧
    (scanVerdict P a s).p.trail = s.p.trail := by
  have hq := scannedLines_print P a.Namespaces
  unfold scanVerdict
  simp only [h]
  split
  · simpa [Proc.print, Proc.osExit, h, Proc.trail, List.filter_append, isPrint_stdout] using hq
  · simpa [Proc.print, h, Proc.trail, List.filter_append, isPrint_stdout] using hq

theorem scanVerdict_dead (P : Palette) (a : AuditState) (s : Scan) (c : Nat)
    (h : s.p.exit = some c) : scanVerdict P a s = s := by
  unfold scanVerdict
  simp [h]

theorem scanVerdict_runs (P : Palette) (a : AuditState) (s : Scan) :
    (scanVerdict P a s).runs = s.runs := by
  cases h : s.p.exit with
  | none => exact (scanVerdict_alive P a s h).2.1
  | some c => rw [scanVerdict_dead P a s c h]

theorem scanLoop_nil (H : Host) (P : Palette) (L : Lipgloss) (probes : Probes)
    (con : Nat → Console) (a : AuditState) (ts : String) (i : Nat) (s : Scan) :
    scanLoop H P L probes con a ts i [] s = s := rfl

theorem scanLoop_cons (H : Host) (P : Palette) (L : Lipgloss) (probes : Probes)
    (con : Nat → Console) (a : AuditState) (ts : String) (i : Nat) (ns : String)
    (rest : List String) (s : Scan) :
    scanLoop H P L probes con a ts i (ns :: rest) s =
      scanLoop H P L probes con a ts (i + 1) rest (scanTurn H P L probes con a ts i ns s) := rfl

theorem scanTurn_dead (H : Host) (P : Palette) (L : Lipgloss) (probes : Probes)
    (con : Nat → Console) (a : AuditState) (ts : String) (i : Nat) (ns : String)
    (s : Scan) (c : Nat) (h : s.p.exit = some c) :
    scanTurn H P L probes con a ts i ns s = s := by
  unfold scanTurn
  rw [h]

/-- A target without the workload is skipped. -/
theorem scanTurn_skip (H : Host) (P : Palette) (L : Lipgloss) (probes : Probes)
    (con : Nat → Console) (a : AuditState) (ts : String) (i : Nat) (ns : String)
    (s : Scan) (h : s.p.exit = none) (hf : (existenceCheck H P a i ns s.p).1 = false) :
    scanTurn H P L probes con a ts i ns s =
      { s with p := (existenceCheck H P a i ns s.p).2.print (skipLine P ns) } := by
  unfold scanTurn
  rw [h]
  dsimp only
  rw [if_pos hf]

/-- A target whose audit terminates the process. -/
theorem scanTurn_cut (H : Host) (P : Palette) (L : Lipgloss) (probes : Probes)
    (con : Nat → Console) (a : AuditState) (ts : String) (i : Nat) (ns : String)
    (s : Scan) (h : s.p.exit = none) (hf : (existenceCheck H P a i ns s.p).1 = true) (c : Nat)
    (hr : (targetAudit H P L probes con a ts i ns s.p).exit = some c) :
    scanTurn H P L probes con a ts i ns s =
      { s with p := { targetAudit H P L probes con a ts i ns s.p with a := s.p.a },
               runs := s.runs ++ [⟨ns, subState a ns ts,
                 (targetAudit H P L probes con a ts i ns s.p).a⟩] } := by
  unfold scanTurn
  rw [h]
  dsimp only
  rw [if_neg (by rw [hf]; decide), hr]

/-- A target whose audit returns. -/
theorem scanTurn_done (H : Host) (P : Palette) (L : Lipgloss) (probes : Probes)
    (con : Nat → Console) (a : AuditState) (ts : String) (i : Nat) (ns : String)
    (s : Scan) (h : s.p.exit = none) (hf : (existenceCheck H P a i ns s.p).1 = true)
    (hr : (targetAudit H P L probes con a ts i ns s.p).exit = none) :
    scanTurn H P L probes con a ts i ns s =
      { p := { targetAudit H P L probes con a ts i ns s.p with a := s.p.a },
        totalFail := s.totalFail + (targetAudit H P L probes con a ts i ns s.p).a.FailCount,
        runs := s.runs ++ [⟨ns, subState a ns ts,
          (targetAudit H P L probes con a ts i ns s.p).a⟩] } := by
  unfold scanTurn
  rw [h]
  dsimp only
  rw [if_neg (by rw [hf]; decide), hr]

theorem scanLoop_dead (H : Host) (P : Palette) (L : Lipgloss) (probes : Probes)
    (con : Nat → Console) (a : AuditState) (ts : String) :
    ∀ (nss : List String) (i : Nat) (s : Scan) (c : Nat), s.p.exit = some c →
      scanLoop H P L probes con a ts i nss s = s := by
  intro nss
  induction nss with
  | nil => intro i s c _; rfl
  | cons ns rest ih =>
    intro i s c h
    rw [scanLoop_cons, scanTurn_dead H P L probes con a ts i ns s c h]
    exact ih (i + 1) s c h

/-- One turn of the loop records at most its own target, started from the
state `subState` builds, and adds its failed count to the total. -/
theorem scanTurn_runs (H : Host) (P : Palette) (L : Lipgloss) (probes : Probes)
    (con : Nat → Console) (a : AuditState) (ts : String) (i : Nat) (ns : String) (s : Scan) :
    ∃ one : List TargetRun,
      (scanTurn H P L probes con a ts i ns s).runs = s.runs ++ one ∧
      (one.map (fun r => r.ns)).Sublist [ns] ∧
      one.map (fun r => r.initial) = one.map (fun r => subState a r.ns ts) ∧
      ((scanTurn H P L probes con a ts i ns s).p.exit = none →
        (scanTurn H P L probes con a ts i ns s).totalFail =
          s.totalFail + (one.map (fun r => r.final.FailCount)).sum) := by
  cases h : s.p.exit with
  | some c =>
    rw [scanTurn_dead H P L probes con a ts i ns s c h]
    exact ⟨[], by simp, by simp, rfl, fun _ => by simp⟩
  | none =>
    cases hf : (existenceCheck H P a i ns s.p).1 with
    | false =>
      rw [scanTurn_skip H P L probes con a ts i ns s h hf]
      exact ⟨[], by simp, by simp, rfl, fun _ => by simp⟩
    | true =>
      cases hr : (targetAudit H P L probes con a ts i ns s.p).exit with
      | some c =>
        rw [scanTurn_cut H P L probes con a ts i ns s h hf c hr]
        generalize targetAudit H P L probes con a ts i ns s.p = X at hr ⊢
        refine ⟨[⟨ns, subState a ns ts, X.a⟩], rfl, List.Sublist.refl _, rfl, ?_⟩
        intro hx
        dsimp only at hx
        rw [hr] at hx
        cases hx
      | none =>
        rw [scanTurn_done H P L probes con a ts i ns s h hf hr]
        generalize targetAudit H P L probes con a ts i ns s.p = X at hr ⊢
        exact ⟨[⟨ns, subState a ns ts, X.a⟩], rfl, List.Sublist.refl _, rfl, fun _ => by simp⟩

/-- The loop of the scan: the targets it audits are some of the namespaces, in
their order; each starts from the state `subState` builds; and when the loop
runs to its end the total is the sum of the failed counts of the audited
targets. -/
theorem scanLoop_runs (H : Host) (P : Palette) (L : Lipgloss) (probes : Probes)
    (con : Nat → Console) (a : AuditState) (ts : String) :
    ∀ (nss : List String) (i : Nat) (s : Scan),
    ∃ added : List TargetRun,
      (scanLoop H P L probes con a ts i nss s).runs = s.runs ++ added ∧
      (added.map (fun r => r.ns)).Sublist nss ∧
      added.map (fun r => r.initial) = added.map (fun r => subState a r.ns ts) ∧
      ((scanLoop H P L probes con a ts i nss s).p.exit = none →
        (scanLoop H P L probes con a ts i nss s).totalFail =
          s.totalFail + (added.map (fun r => r.final.FailCount)).sum) := by
  intro nss
  induction nss with
  | nil =>
    intro i s
    rw [scanLoop_nil]
    exact ⟨[], by simp, by simp, rfl, fun _ => by simp⟩
  | cons ns rest ih =>
    intro i s
    rw [scanLoop_cons]
    obtain ⟨one, o1, o2, o3, o4⟩ := scanTurn_runs H P L probes con a ts i ns s
    obtain ⟨added, h1, h2, h3, h4⟩ := ih (i + 1) (scanTurn H P L probes con a ts i ns s)
    refine ⟨one ++ added, ?_, ?_, ?_, ?_⟩
    · rw [h1, o1, List.append_assoc]
    · rw [List.map_append]
      exact List.Sublist.append o2 h2
    · rw [List.map_append, List.map_append, o3, h3]
    · intro hx
      have halive : (scanTurn H P L probes con a ts i ns s).p.exit = none := by
        cases hy : (scanTurn H P L probes con a ts i ns s).p.exit with
        | none => rfl
        | some c =>
          rw [scanLoop_dead H P L probes con a ts rest (i + 1) _ c hy, hy] at hx
          cases hx
      rw [h4 hx, o4 halive, List.map_append, List.sum_append, Nat.add_assoc]


theorem audited_multi (H : Host) (P : Palette) (L : Lipgloss) (probes : Probes)
    (con : Nat → Console) (a : AuditState) (w : World)
    (hm : a.ScanAll = true ∧ a.Namespaces.length > 1) :
    audited H P L probes con a w =
      scanLoop H P L probes con a (H.stamp w.log) 0 a.Namespaces ⟨⟨a, [], w, none⟩, 0, []⟩ := by
  unfold audited
  rw [if_pos hm]

theorem audited_single (H : Host) (P : Palette) (L : Lipgloss) (probes : Probes)
    (con : Nat → Console) (a : AuditState) (w : World)
    (hm : ¬ (a.ScanAll = true ∧ a.Namespaces.length > 1)) :
    audited H P L probes con a w =
      ⟨runAudit H P L probes (con 0) ⟨a, [], w, none⟩,
       (runAudit H P L probes (con 0) ⟨a, [], w, none⟩).a.FailCount,
       [⟨a.Namespace, a, (runAudit H P L probes (con 0) ⟨a, [], w, none⟩).a⟩]⟩ := by
  unfold audited
  rw [if_neg hm]

theorem main_multi (H : Host) (P : Palette) (L : Lipgloss) (probes : Probes)
    (con : Nat → Console) (a : AuditState) (w : World)
    (hm : a.ScanAll = true ∧ a.Namespaces.length > 1) :
    main H P L probes con a w =
      (scanVerdict P a (scanLoop H P L probes con a (H.stamp w.log) 0 a.Namespaces
        ⟨⟨a, [], w, none⟩, 0, []⟩)).p := by
  unfold main
  rw [if_pos hm]
  rfl

/-- The exit status of a scan whose loop ran to its end. -/
theorem verdict_status (P : Palette) (a : AuditState) (S : Scan) (added : List TargetRun)
    (h : S.p.exit = none) (hr : S.runs = added)
    (ht : S.totalFail = (added.map (fun r => r.final.FailCount)).sum) :
    (exitStatus (scanVerdict P a S).p ≠ 0 ↔
      (S.runs.map (fun r => r.final.FailCount)).sum > 0) ∧
    exitStatus (scanVerdict P a S).p =
      (if (S.runs.map (fun r => r.final.FailCount)).sum > 0 then 1 else 0) ∧
    S.totalFail = (S.runs.map (fun r => r.final.FailCount)).sum := by
  obtain ⟨hv, _, _, _⟩ := scanVerdict_alive P a S h
  unfold exitStatus
  rw [hv, hr, ← ht]
  by_cases hpos : S.totalFail > 0
  · simp [hpos]
  · simp [hpos]

/-- The exit status of a run of one target whose audit returned. -/
theorem single_status (r : Proc) (h : r.exit = none) :
    (exitStatus (if r.a.FailCount > 0 then r.osExit 1 else r) ≠ 0 ↔ r.a.FailCount > 0) ∧
    exitStatus (if r.a.FailCount > 0 then r.osExit 1 else r) =
      (if r.a.FailCount > 0 then 1 else 0) := by
  unfold exitStatus
  by_cases hpos : r.a.FailCount > 0
  · simp [hpos, Proc.osExit, h]
  · simp [hpos, h]

theorem runMultiNamespaceScan_runs (H : Host) (P : Palette) (L : Lipgloss) (probes : Probes)
    (con : Nat → Console) (a : AuditState) (w : World) :
    ∃ added : List TargetRun,
      (runMultiNamespaceScan H P L probes con a w).runs = added ∧
      (added.map (fun r => r.ns)).Sublist a.Namespaces ∧
      added.map (fun r => r.initial) = added.map (fun r => subState a r.ns (H.stamp w.log)) := by
  obtain ⟨added, r1, r2, r3, _⟩ := scanLoop_runs H P L probes con a (H.stamp w.log)
    a.Namespaces 0 ⟨⟨a, [], w, none⟩, 0, []⟩
  refine ⟨added, ?_, r2, r3⟩
  unfold runMultiNamespaceScan
  dsimp only
  rw [scanVerdict_runs, r1]
  rfl

/-! ## What a scan leaves in the steps of the process -/

theorem Proc.output_frame (H : Host) (name : String) (args : List String) (p : Proc) :
    (Proc.output H name args p).2.steps = p.steps ∧
    (Proc.output H name args p).2.exit = p.exit ∧
    (Proc.output H name args p).2.a = p.a := by
  unfold Proc.output
  split <;> simp

theorem hasWorkload_frame (H : Host) (ns name : String) :
    ∀ (rs : List String) (p : Proc),
      (hasWorkload H ns name rs p).2.steps = p.steps ∧
      (hasWorkload H ns name rs p).2.exit = p.exit ∧
      (hasWorkload H ns name rs p).2.a = p.a := by
  intro rs
  induction rs with
  | nil => intro p; exact ⟨rfl, rfl, rfl⟩
  | cons r rest ih =>
    intro p
    obtain ⟨o1, o2, o3⟩ := Proc.output_frame H "kubectl"
      ["get", r, "-n", ns, name, "--ignore-not-found"] p
    unfold hasWorkload
    dsimp only
    split
    · exact ⟨o1, o2, o3⟩
    · obtain ⟨i1, i2, i3⟩ := ih (Proc.output H "kubectl"
        ["get", r, "-n", ns, name, "--ignore-not-found"] p).2
      exact ⟨i1.trans o1, i2.trans o2, i3.trans o3⟩

/-- The existence check of a target prints the banner and asks the cluster: it
leaves the state and the life of the process alone. -/
theorem existenceCheck_frame (H : Host) (P : Palette) (a : AuditState) (i : Nat) (ns : String)
    (p : Proc) (h : p.exit = none) :
    (existenceCheck H P a i ns p).2.steps =
      p.steps ++ [Step.term (Event.stdout (targetBanner P a i ns))] ∧
    (existenceCheck H P a i ns p).2.exit = none ∧
    (existenceCheck H P a i ns p).2.a = p.a := by
  obtain ⟨f1, f2, f3⟩ := hasWorkload_frame H ns a.ControllerName ["deployment", "daemonset"]
    (p.print (targetBanner P a i ns))
  unfold existenceCheck nsHasIngressNginx
  rw [f1, f2, f3]
  simp [Proc.print, h]

theorem targetAudit_eq (H : Host) (P : Palette) (L : Lipgloss) (probes : Probes)
    (con : Nat → Console) (a : AuditState) (ts : String) (i : Nat) (ns : String) (p : Proc) :
    targetAudit H P L probes con a ts i ns p =
      runAudit H P L probes (con i)
        ⟨subState a ns ts, (existenceCheck H P a i ns p).2.steps,
          (existenceCheck H P a i ns p).2.w, (existenceCheck H P a i ns p).2.exit⟩ := rfl

/-- One turn of the loop leaves the state of the caller alone, and the final
state it records for its target is the one `runAudit` leaves when it is
started on the state `subState` builds. -/
theorem scanTurn_finals (H : Host) (P : Palette) (L : Lipgloss) (probes : Probes)
    (con : Nat → Console) (a : AuditState) (ts : String) (i : Nat) (ns : String) (s : Scan) :
    (scanTurn H P L probes con a ts i ns s).p.a = s.p.a ∧
    ∀ r ∈ (scanTurn H P L probes con a ts i ns s).runs, r ∈ s.runs ∨
      ∃ q : Proc, r.ns = ns ∧
        r.final = (runAudit H P L probes (con i) ⟨subState a ns ts, q.steps, q.w, none⟩).a := by
  cases h : s.p.exit with
  | some c =>
    rw [scanTurn_dead H P L probes con a ts i ns s c h]
    exact ⟨rfl, fun r hr => Or.inl hr⟩
  | none =>
    obtain ⟨_, fx, fa⟩ := existenceCheck_frame H P a i ns s.p h
    cases hf : (existenceCheck H P a i ns s.p).1 with
    | false =>
      rw [scanTurn_skip H P L probes con a ts i ns s h hf]
      refine ⟨?_, fun r hr => Or.inl hr⟩
      simp [Proc.print, fx, fa]
    | true =>
      have hX := targetAudit_eq H P L probes con a ts i ns s.p
      rw [fx] at hX
      cases hr : (targetAudit H P L probes con a ts i ns s.p).exit with
      | some c =>
        rw [scanTurn_cut H P L probes con a ts i ns s h hf c hr]
        refine ⟨rfl, fun r hm => ?_⟩
        rcases List.mem_append.mp hm with hm | hm
        · exact Or.inl hm
        · rw [List.mem_singleton] at hm
          exact Or.inr ⟨(existenceCheck H P a i ns s.p).2, by rw [hm], by rw [hm, hX]⟩
      | none =>
        rw [scanTurn_done H P L probes con a ts i ns s h hf hr]
        refine ⟨rfl, fun r hm => ?_⟩
        rcases List.mem_append.mp hm with hm | hm
        · exact Or.inl hm
        · rw [List.mem_singleton] at hm
          exact Or.inr ⟨(existenceCheck H P a i ns s.p).2, by rw [hm], by rw [hm, hX]⟩

/-- The loop of the scan leaves the state of the caller alone, and every final
state it records is the one `runAudit` leaves when it is started on the state
`subState` builds for that target. -/
theorem scanLoop_finals (H : Host) (P : Palette) (L : Lipgloss) (probes : Probes)
    (con : Nat → Console) (a : AuditState) (ts : String) :
    ∀ (nss : List String) (i : Nat) (s : Scan),
      (scanLoop H P L probes con a ts i nss s).p.a = s.p.a ∧
      ∀ r ∈ (scanLoop H P L probes con a ts i nss s).runs, r ∈ s.runs ∨
        ∃ (j : Nat) (q : Proc), r.ns ∈ nss ∧
          r.final =
            (runAudit H P L probes (con j) ⟨subState a r.ns ts, q.steps, q.w, none⟩).a := by
  intro nss
  induction nss with
  | nil => intro i s; exact ⟨rfl, fun r hr => Or.inl hr⟩
  | cons ns rest ih =>
    intro i s
    rw [scanLoop_cons]
    obtain ⟨t1, t2⟩ := scanTurn_finals H P L probes con a ts i ns s
    obtain ⟨l1, l2⟩ := ih (i + 1) (scanTurn H P L probes con a ts i ns s)
    refine ⟨l1.trans t1, fun r hr => ?_⟩
    rcases l2 r hr with hm | ⟨j, q, hn, hq⟩
    · rcases t2 r hm with hm2 | ⟨q, hn, hq⟩
      · exact Or.inl hm2
      · exact Or.inr ⟨i, q, by rw [hn]; exact List.mem_cons_self _ _, by rw [hq, hn]⟩
    · exact Or.inr ⟨j, q, List.mem_cons_of_mem _ hn, hq⟩

/-- One turn of the loop on a live process: the pipeline of the target runs if
and only if the existence check finds the workload. Without the workload the
turn prints the banner and the skip line and does nothing else; with it the
process goes on as `runAudit` started on the state of the target leaves it. -/
theorem scanTurn_iff (H : Host) (P : Palette) (L : Lipgloss) (probes : Probes)
    (con : Nat → Console) (a : AuditState) (ts : String) (i : Nat) (ns : String) (s : Scan)
    (hs : s.p.exit = none) :
    ((existenceCheck H P a i ns s.p).1 = false →
      (scanTurn H P L probes con a ts i ns s).runs = s.runs ∧
      (scanTurn H P L probes con a ts i ns s).totalFail = s.totalFail ∧
      (scanTurn H P L probes con a ts i ns s).p.steps =
        s.p.steps ++ [Step.term (Event.stdout (targetBanner P a i ns)),
          Step.term (Event.stdout (skipLine P ns))] ∧
      (scanTurn H P L probes con a ts i ns s).p.w = (existenceCheck H P a i ns s.p).2.w ∧
      (scanTurn H P L probes con a ts i ns s).p.exit = none) ∧
    ((existenceCheck H P a i ns s.p).1 = true →
      (scanTurn H P L probes con a ts i ns s).runs =
        s.runs ++ [⟨ns, subState a ns ts,
          (runAudit H P L probes (con i)
            ⟨subState a ns ts, (existenceCheck H P a i ns s.p).2.steps,
              (existenceCheck H P a i ns s.p).2.w, none⟩).a⟩] ∧
      (scanTurn H P L probes con a ts i ns s).p.steps =
        (runAudit H P L probes (con i)
          ⟨subState a ns ts, (existenceCheck H P a i ns s.p).2.steps,
            (existenceCheck H P a i ns s.p).2.w, none⟩).steps ∧
      (scanTurn H P L probes con a ts i ns s).p.w =
        (runAudit H P L probes (con i)
          ⟨subState a ns ts, (existenceCheck H P a i ns s.p).2.steps,
            (existenceCheck H P a i ns s.p).2.w, none⟩).w ∧
      (scanTurn H P L probes con a ts i ns s).p.exit =
        (runAudit H P L probes (con i)
          ⟨subState a ns ts, (existenceCheck H P a i ns s.p).2.steps,
            (existenceCheck H P a i ns s.p).2.w, none⟩).exit) := by
  obtain ⟨e1, e2, _⟩ := existenceCheck_frame H P a i ns s.p hs
  have hX := targetAudit_eq H P L probes con a ts i ns s.p
  rw [e2] at hX
  constructor
  · intro hchk
    rw [scanTurn_skip H P L probes con a ts i ns s hs hchk]
    refine ⟨rfl, rfl, ?_, ?_, ?_⟩
    · simp [Proc.print, e2, e1]
    · simp [Proc.print, e2]
    · simp [Proc.print, e2]
  · intro hchk
    rw [← hX]
    cases hr : (targetAudit H P L probes con a ts i ns s.p).exit with
    | some c =>
      rw [scanTurn_cut H P L probes con a ts i ns s hs hchk c hr]
      generalize targetAudit H P L probes con a ts i ns s.p = X at hr
      exact ⟨rfl, rfl, rfl, hr⟩
    | none =>
      rw [scanTurn_done H P L probes con a ts i ns s hs hchk hr]
      generalize targetAudit H P L probes con a ts i ns s.p = X at hr
      exact ⟨rfl, rfl, rfl, hr⟩

/-- The total of the scan after the turn of a target whose pipeline returned:
the total before plus the failed count `runAudit` left in the state of the
target. -/
theorem scanTurn_total (H : Host) (P : Palette) (L : Lipgloss) (probes : Probes)
    (con : Nat → Console) (a : AuditState) (ts : String) (i : Nat) (ns : String) (s : Scan)
    (hs : s.p.exit = none) (hchk : (existenceCheck H P a i ns s.p).1 = true)
    (hr : (runAudit H P L probes (con i)
      ⟨subState a ns ts, (existenceCheck H P a i ns s.p).2.steps,
        (existenceCheck H P a i ns s.p).2.w, none⟩).exit = none) :
    (scanTurn H P L probes con a ts i ns s).totalFail =
      s.totalFail + (runAudit H P L probes (con i)
        ⟨subState a ns ts, (existenceCheck H P a i ns s.p).2.steps,
          (existenceCheck H P a i ns s.p).2.w, none⟩).a.FailCount := by
  obtain ⟨_, e2, _⟩ := existenceCheck_frame H P a i ns s.p hs
  have hX := targetAudit_eq H P L probes con a ts i ns s.p
  rw [e2] at hX
  rw [← hX] at hr ⊢
  rw [scanTurn_done H P L probes con a ts i ns s hs hchk hr]

/-! ## The exit statuses of an audit -/

theorem exitsOnly_refl (p : Proc) : ExitsOnly p p := Or.inl rfl

theorem exitsOnly_same {p q r : Proc} (e : r.exit = q.exit) (h : ExitsOnly p q) :
    ExitsOnly p r := by
  unfold ExitsOnly at *
  rw [e]
  exact h

theorem exitsOnly_emit {p q : Proc} (f : AuditState → AuditState × List Event)
    (h : ExitsOnly p q) : ExitsOnly p (q.emit f) := by
  refine exitsOnly_same ?_ h
  unfold Proc.emit
  cases hq : q.exit <;> simp [hq]

theorem exitsOnly_modify {p q : Proc} (f : AuditState → AuditState)
    (h : ExitsOnly p q) : ExitsOnly p (q.modify f) := by
  refine exitsOnly_same ?_ h
  unfold Proc.modify
  cases hq : q.exit <;> simp [hq]

theorem exitsOnly_print {p q : Proc} (text : String) (h : ExitsOnly p q) :
    ExitsOnly p (q.print text) := by
  refine exitsOnly_same ?_ h
  unfold Proc.print
  cases hq : q.exit <;> simp [hq]

theorem exitsOnly_output {p q : Proc} (H : Host) (name : String) (args : List String)
    (h : ExitsOnly p q) : ExitsOnly p (Proc.output H name args q).2 := by
  refine exitsOnly_same ?_ h
  unfold Proc.output
  cases hq : q.exit <;> simp [hq]

theorem exitsOnly_kubectl {p q : Proc} (H : Host) (args : List String) (h : ExitsOnly p q) :
    ExitsOnly p (Proc.kubectl H args q).2 :=
  exitsOnly_output H "kubectl" args h

theorem exitsOnly_helmCmd {p q : Proc} (H : Host) (args : List String) (h : ExitsOnly p q) :
    ExitsOnly p (Proc.helmCmd H args q).2 :=
  exitsOnly_output H "helm" args h

theorem exitsOnly_kubectlE {p q : Proc} (H : Host) (args : List String) (h : ExitsOnly p q) :
    ExitsOnly p (Proc.kubectlE H args q).2 := by
  refine exitsOnly_same ?_ h
  unfold Proc.kubectlE
  cases hq : q.exit <;> simp [hq]

theorem exitsOnly_one {p q : Proc} (h : ExitsOnly p q) : ExitsOnly p (q.osExit 1) := by
  unfold ExitsOnly Proc.osExit at *
  cases hq : q.exit with
  | some c => simpa [hq] using h
  | none => simp

theorem exitsOnly_two {p q : Proc} (h : ExitsOnly p q) : ExitsOnly p (q.osExit 2) := by
  unfold ExitsOnly Proc.osExit at *
  cases hq : q.exit with
  | some c => simpa [hq] using h
  | none => simp

theorem exitsOnly_foldl {α : Type} {p : Proc} (f : Proc → α → Proc)
    (hf : ∀ q x, ExitsOnly p q → ExitsOnly p (f q x)) (xs : List α) {q : Proc}
    (h : ExitsOnly p q) : ExitsOnly p (xs.foldl f q) := by
  induction xs generalizing q with
  | nil => exact h
  | cons x xs ih => exact ih (hf q x h)

theorem exitsOnly_ite {p a b : Proc} (c : Prop) [Decidable c] (ha : ExitsOnly p a)
    (hb : ExitsOnly p b) : ExitsOnly p (if c then a else b) := by
  split
  · exact ha
  · exact hb

theorem exitsOnly_toolVersion (H : Host) (name : String) {p q : Proc} (h : ExitsOnly p q) :
    ExitsOnly p (toolVersion H name q).2 := by
  unfold toolVersion
  split
  · exact exitsOnly_kubectl H _ h
  · split
    · exact exitsOnly_helmCmd H _ h
    · exact exitsOnly_output H _ _ h

theorem exitsOnly_checkTool (H : Host) (P : Palette) (name : String) {p q : Proc}
    (h : ExitsOnly p q) : ExitsOnly p (checkTool H P q name) := by
  unfold checkTool
  apply exitsOnly_ite
  · exact exitsOnly_emit _ (exitsOnly_toolVersion H name (exitsOnly_emit _ h))
  · exact exitsOnly_one (exitsOnly_emit _ (exitsOnly_emit _ h))

theorem exitsOnly_preflightTools (H : Host) (P : Palette) {p q : Proc} (h : ExitsOnly p q) :
    ExitsOnly p (preflightTools H P q) := by
  unfold preflightTools
  exact exitsOnly_foldl _ (fun q x hq => exitsOnly_checkTool H P x hq) _
    (exitsOnly_emit _ (exitsOnly_emit _ h))

theorem exitsOnly_preflightCluster (H : Host) (P : Palette) {p q : Proc} (h : ExitsOnly p q) :
    ExitsOnly p (preflightCluster H P q) := by
  unfold preflightCluster
  simp only []
  repeat' first
    | with_reducible exact h
    | with_reducible apply exitsOnly_emit
    | with_reducible apply exitsOnly_modify
    | with_reducible apply exitsOnly_one
    | with_reducible apply exitsOnly_two
    | with_reducible apply exitsOnly_kubectl
    | with_reducible apply exitsOnly_kubectlE
    | with_reducible apply exitsOnly_helmCmd
    | with_reducible apply exitsOnly_output
    | with_reducible apply exitsOnly_ite
    | split

theorem exitsOnly_preflightNamespace (H : Host) (P : Palette) {p q : Proc}
    (h : ExitsOnly p q) : ExitsOnly p (preflightNamespace H P q) := by
  unfold preflightNamespace
  simp only []
  repeat' first
    | with_reducible exact h
    | with_reducible apply exitsOnly_emit
    | with_reducible apply exitsOnly_modify
    | with_reducible apply exitsOnly_one
    | with_reducible apply exitsOnly_two
    | with_reducible apply exitsOnly_kubectl
    | with_reducible apply exitsOnly_kubectlE
    | with_reducible apply exitsOnly_helmCmd
    | with_reducible apply exitsOnly_output
    | with_reducible apply exitsOnly_ite

theorem exitsOnly_checkRbac (H : Host) (P : Palette) (c : String × String × String)
    {p q : Proc} (h : ExitsOnly p q) : ExitsOnly p (checkRbac H P q c) := by
  unfold checkRbac
  simp only []
  repeat' first
    | with_reducible exact h
    | with_reducible apply exitsOnly_emit
    | with_reducible apply exitsOnly_modify
    | with_reducible apply exitsOnly_one
    | with_reducible apply exitsOnly_kubectl
    | with_reducible apply exitsOnly_kubectlE
    | with_reducible apply exitsOnly_helmCmd
    | with_reducible apply exitsOnly_output
    | with_reducible apply exitsOnly_ite

theorem exitsOnly_preflightRbac (H : Host) (P : Palette) {p q : Proc} (h : ExitsOnly p q) :
    ExitsOnly p (preflightRbac H P q) := by
  unfold preflightRbac
  exact exitsOnly_emit _ (exitsOnly_foldl _ (fun q x hq => exitsOnly_checkRbac H P x hq) _
    (exitsOnly_emit _ h))

theorem exitsOnly_auditPreflight (H : Host) (P : Palette) (p : Proc) :
    ExitsOnly p (auditPreflight H P p) := by
  unfold auditPreflight
  exact exitsOnly_preflightRbac H P (exitsOnly_preflightNamespace H P
    (exitsOnly_preflightCluster H P (exitsOnly_preflightTools H P (exitsOnly_refl p))))

theorem exitsOnly_probe (k : ProbeId) (f : AuditState → World → ProbeOut) {p q : Proc}
    (h : ExitsOnly p q) : ExitsOnly p (q.probe k f) := by
  unfold ExitsOnly Proc.probe at *
  cases hq : q.exit with
  | some c => simpa [hq] using h
  | none =>
    rw [hq] at h
    dsimp only
    split
    · exact Or.inr (Or.inr rfl)
    · exact h

/-- An audit leaves the exit status of the process as it is or ends the
process with status 1 or 2. -/
theorem exitsOnly_runAudit (H : Host) (P : Palette) (L : Lipgloss) (probes : Probes)
    (con : Console) (p : Proc) : ExitsOnly p (runAudit H P L probes con p) := by
  have hp : ExitsOnly p (runProbes H P probes p) := by
    unfold runProbes
    simp only []
    refine exitsOnly_probe _ _ (exitsOnly_probe _ _ (exitsOnly_probe _ _ (exitsOnly_probe _ _
      (exitsOnly_probe _ _ (exitsOnly_probe _ _ (exitsOnly_probe _ _ (exitsOnly_probe _ _
      ?_)))))))
    have hm : ExitsOnly p (p.mark .preflight) := by
      refine exitsOnly_same ?_ (exitsOnly_refl p)
      unfold Proc.mark
      cases hq : p.exit <;> simp [hq]
    unfold ExitsOnly at hm ⊢
    rcases exitsOnly_auditPreflight H P (p.mark .preflight) with e | e | e
    · rw [e]; exact hm
    · exact Or.inr (Or.inl e)
    · exact Or.inr (Or.inr e)
  rw [runAudit_eq]
  generalize runProbes H P probes p = q at hp
  cases hq : q.exit with
  | some c => rw [finishAudit_dead H P L con q c hq]; exact hp
  | none =>
    unfold ExitsOnly at hp ⊢
    rw [(finishAudit_alive H P L con q hq).2.1]
    split
    · exact Or.inr (Or.inr rfl)
    · rw [← hq]; exact hp

/-- A turn of the scan leaves the exit status as it is or ends the process with
status 1 or 2. -/
theorem exitsOnly_scanTurn (H : Host) (P : Palette) (L : Lipgloss) (probes : Probes)
    (con : Nat → Console) (a : AuditState) (ts : String) (i : Nat) (ns : String) (s : Scan) :
    ExitsOnly s.p (scanTurn H P L probes con a ts i ns s).p := by
  cases hs : s.p.exit with
  | some c =>
    rw [scanTurn_dead H P L probes con a ts i ns s c hs]
    exact exitsOnly_refl _
  | none =>
    obtain ⟨_, e2, _⟩ := existenceCheck_frame H P a i ns s.p hs
    cases hf : (existenceCheck H P a i ns s.p).1 with
    | false =>
      have t := ((scanTurn_iff H P L probes con a ts i ns s hs).1 hf).2.2.2.2
      unfold ExitsOnly
      rw [t, hs]
      exact Or.inl rfl
    | true =>
      have t := ((scanTurn_iff H P L probes con a ts i ns s hs).2 hf).2.2.2
      have hr := exitsOnly_runAudit H P L probes (con i)
        ⟨subState a ns ts, (existenceCheck H P a i ns s.p).2.steps,
          (existenceCheck H P a i ns s.p).2.w, none⟩
      unfold ExitsOnly at hr ⊢
      rw [t, hs]
      exact hr

theorem exitsOnly_scanLoop (H : Host) (P : Palette) (L : Lipgloss) (probes : Probes)
    (con : Nat → Console) (a : AuditState) (ts : String) :
    ∀ (nss : List String) (i : Nat) (s : Scan),
      ExitsOnly s.p (scanLoop H P L probes con a ts i nss s).p := by
  intro nss
  induction nss with
  | nil => intro i s; exact exitsOnly_refl _
  | cons ns rest ih =>
    intro i s
    rw [scanLoop_cons]
    have h1 := exitsOnly_scanTurn H P L probes con a ts i ns s
    have h2 := ih (i + 1) (scanTurn H P L probes con a ts i ns s)
    unfold ExitsOnly at h1 h2 ⊢
    rcases h2 with e | e | e
    · rw [e]; exact h1
    · exact Or.inr (Or.inl e)
    · exact Or.inr (Or.inr e)

/-- When `main` or the scan comes to decide the exit status, the process is
alive or was ended with status 1 or 2. -/
theorem audited_exit (H : Host) (P : Palette) (L : Lipgloss) (probes : Probes)
    (con : Nat → Console) (a : AuditState) (w : World) :
    (audited H P L probes con a w).p.exit = none ∨
    (audited H P L probes con a w).p.exit = some 1 ∨
    (audited H P L probes con a w).p.exit = some 2 := by
  by_cases hm : a.ScanAll = true ∧ a.Namespaces.length > 1
  · rw [audited_multi H P L probes con a w hm]
    exact exitsOnly_scanLoop H P L probes con a (H.stamp w.log) a.Namespaces 0
      ⟨⟨a, [], w, none⟩, 0, []⟩
  · rw [audited_single H P L probes con a w hm]
    exact exitsOnly_runAudit H P L probes (con 0) ⟨a, [], w, none⟩

/-! ## The pre-flight probe ends the process only after a failed finding -/

theorem fieldsFrom_cur (cs : List Char) : ∀ cur : List Char, cur ≠ [] → fieldsFrom cur cs ≠ [] := by
  induction cs with
  | nil =>
    intro cur h
    cases cur with
    | nil => exact absurd rfl h
    | cons x xs => simp [fieldsFrom]
  | cons c cs ih =>
    intro cur h
    cases cur with
    | nil => exact absurd rfl h
    | cons x xs =>
      unfold fieldsFrom
      split
      · simp
      · exact ih _ (by simp)

theorem fieldsFrom_mem (c : Char) (hs : isSpace c = false) (cs : List Char) :
    ∀ cur : List Char, c ∈ cs → fieldsFrom cur cs ≠ [] := by
  induction cs with
  | nil => intro cur h; cases h
  | cons d ds ih =>
    intro cur h
    unfold fieldsFrom
    by_cases hd : isSpace d = true
    · have hne : c ≠ d := by
        intro e
        rw [e, hd] at hs
        cases hs
      have hmem : c ∈ ds := by
        rcases List.mem_cons.mp h with e | e
        · exact absurd e hne
        · exact e
      rw [if_pos hd]
      split
      · exact ih [] hmem
      · simp
    · rw [if_neg hd]
      exact fieldsFrom_cur ds _ (by simp)

theorem containsChars_head (x : Char) (sub : List Char) (cs : List Char)
    (h : containsChars (x :: sub) cs = true) : x ∈ cs := by
  induction cs with
  | nil => simp [containsChars] at h
  | cons c cs ih =>
    unfold containsChars at h
    rw [Bool.or_eq_true] at h
    rcases h with h | h
    · simp only [List.isPrefixOf, Bool.and_eq_true, beq_iff_eq] at h
      rw [h.1]
      exact List.mem_cons_self _ _
    · exact List.mem_cons_of_mem _ (ih h)

/-- A line that contains `control plane` has a field, so the loop that reads
the API server never indexes an empty slice. -/
theorem apiServerOf_some (lines : List String) :
    ∀ cur : String, apiServerOf cur lines ≠ none := by
  induction lines with
  | nil => intro cur; simp [apiServerOf]
  | cons line rest ih =>
    intro cur
    unfold apiServerOf
    split
    · next hc =>
      have hm : 'c' ∈ line.data := containsChars_head 'c' _ line.data hc
      have hf : fields line ≠ [] := fieldsFrom_mem 'c' (by decide) line.data [] hm
      cases hl : (fields line).getLast? with
      | none => exact absurd (List.getLast?_eq_none_iff.mp hl) hf
      | some x => exact ih x
    · exact ih cur

theorem keeps_writelns (g : AuditState → List String) : Keeps (fun a => writelns (g a) a) :=
  fun a => writelns_failCount (g a) a

theorem keeps_writeln (g : AuditState → String) : Keeps (fun a => writeln (g a) a) :=
  fun _ => rfl

theorem keeps_logPass (P : Palette) (g : AuditState → String) :
    Keeps (fun a => logPass P (g a) a) := fun _ => rfl

theorem keeps_logWarn (P : Palette) (g : AuditState → String) :
    Keeps (fun a => logWarn P (g a) a) := fun _ => rfl

theorem keeps_logInfo (P : Palette) (g : AuditState → String) :
    Keeps (fun a => logInfo P (g a) a) := fun _ => rfl

theorem keeps_logStep (P : Palette) (g : AuditState → String) :
    Keeps (fun a => logStep P (g a) a) := fun _ => rfl

theorem keeps_printHeader (P : Palette) (title : String) : Keeps (printHeader P title) :=
  keeps_writelns (fun _ => headerLines P title)

theorem keeps_printSection (P : Palette) (title : String) : Keeps (printSection P title) :=
  keeps_writelns (fun _ => sectionLines P title)

theorem preflighted_same {n : Nat} {q r : Proc} (ha : r.a.FailCount = q.a.FailCount)
    (he : r.exit = q.exit) (h : Preflighted n q) : Preflighted n r := by
  unfold Preflighted at *
  rw [ha, he]
  exact h

theorem charged_same {n : Nat} {q r : Proc} (ha : r.a.FailCount = q.a.FailCount)
    (he : r.exit = q.exit) (h : Charged n q) : Charged n r := by
  unfold Charged at *
  rw [ha]
  exact ⟨preflighted_same ha he h.1, h.2⟩

theorem emit_same {f : AuditState → AuditState × List Event} (hf : Keeps f) (q : Proc) :
    (q.emit f).a.FailCount = q.a.FailCount ∧ (q.emit f).exit = q.exit := by
  unfold Proc.emit
  cases hq : q.exit with
  | some c => simp [hq]
  | none => exact ⟨hf q.a, rfl⟩

theorem modify_same {f : AuditState → AuditState} (hf : ∀ a, (f a).FailCount = a.FailCount)
    (q : Proc) : (q.modify f).a.FailCount = q.a.FailCount ∧ (q.modify f).exit = q.exit := by
  unfold Proc.modify
  cases hq : q.exit with
  | some c => simp [hq]
  | none => exact ⟨hf q.a, rfl⟩

theorem output_same (H : Host) (name : String) (args : List String) (q : Proc) :
    (Proc.output H name args q).2.a.FailCount = q.a.FailCount ∧
    (Proc.output H name args q).2.exit = q.exit := by
  unfold Proc.output
  cases hq : q.exit with
  | some c => simp [hq]
  | none => exact ⟨rfl, rfl⟩

theorem kubectlE_same (H : Host) (args : List String) (q : Proc) :
    (Proc.kubectlE H args q).2.a.FailCount = q.a.FailCount ∧
    (Proc.kubectlE H args q).2.exit = q.exit := by
  unfold Proc.kubectlE
  cases hq : q.exit with
  | some c => simp [hq]
  | none => exact ⟨rfl, rfl⟩

theorem preflighted_emit {n : Nat} {q : Proc} {f : AuditState → AuditState × List Event}
    (hf : Keeps f) (h : Preflighted n q) : Preflighted n (q.emit f) :=
  preflighted_same (emit_same hf q).1 (emit_same hf q).2 h

theorem charged_emit {n : Nat} {q : Proc} {f : AuditState → AuditState × List Event}
    (hf : Keeps f) (h : Charged n q) : Charged n (q.emit f) :=
  charged_same (emit_same hf q).1 (emit_same hf q).2 h

theorem preflighted_modify {n : Nat} {q : Proc} {f : AuditState → AuditState}
    (hf : ∀ a, (f a).FailCount = a.FailCount) (h : Preflighted n q) :
    Preflighted n (q.modify f) :=
  preflighted_same (modify_same hf q).1 (modify_same hf q).2 h

theorem preflighted_output {n : Nat} {q : Proc} (H : Host) (name : String) (args : List String)
    (h : Preflighted n q) : Preflighted n (Proc.output H name args q).2 :=
  preflighted_same (output_same H name args q).1 (output_same H name args q).2 h

theorem preflighted_kubectl {n : Nat} {q : Proc} (H : Host) (args : List String)
    (h : Preflighted n q) : Preflighted n (Proc.kubectl H args q).2 :=
  preflighted_output H "kubectl" args h

theorem preflighted_helmCmd {n : Nat} {q : Proc} (H : Host) (args : List String)
    (h : Preflighted n q) : Preflighted n (Proc.helmCmd H args q).2 :=
  preflighted_output H "helm" args h

theorem preflighted_kubectlE {n : Nat} {q : Proc} (H : Host) (args : List String)
    (h : Preflighted n q) : Preflighted n (Proc.kubectlE H args q).2 :=
  preflighted_same (kubectlE_same H args q).1 (kubectlE_same H args q).2 h

theorem charged_kubectl {n : Nat} {q : Proc} (H : Host) (args : List String)
    (h : Charged n q) : Charged n (Proc.kubectl H args q).2 :=
  charged_same (output_same H "kubectl" args q).1 (output_same H "kubectl" args q).2 h

/-- A failed finding charges the process. -/
theorem charged_logFail {n : Nat} {q : Proc} (P : Palette) (g : AuditState → String)
    (h : Preflighted n q) : Charged n (q.emit (fun a => logFail P (g a) a)) := by
  unfold Charged Preflighted Proc.emit at *
  cases hq : q.exit with
  | some c =>
    rw [hq] at h
    rcases h.2 with e | e
    · cases e
    · simp only [hq]
      exact ⟨h, e.2⟩
  | none =>
    have h1 := h.1
    refine ⟨⟨?_, Or.inl rfl⟩, ?_⟩
    · show n ≤ q.a.FailCount + 1
      omega
    · show n < q.a.FailCount + 1
      omega

/-- The exit with status 1 of a charged process. -/
theorem preflighted_one {n : Nat} {q : Proc} (h : Charged n q) :
    Preflighted n (q.osExit 1) := by
  unfold Charged Preflighted Proc.osExit at *
  cases hq : q.exit with
  | some c =>
    have h1 := h.1
    dsimp only
    exact h1
  | none => exact ⟨h.1.1, Or.inr ⟨rfl, h.2⟩⟩

theorem preflighted_foldl {α : Type} {n : Nat} (f : Proc → α → Proc)
    (hf : ∀ q x, Preflighted n q → Preflighted n (f q x)) (xs : List α) {q : Proc}
    (h : Preflighted n q) : Preflighted n (xs.foldl f q) := by
  induction xs generalizing q with
  | nil => exact h
  | cons x xs ih => exact ih (hf q x h)

theorem preflighted_ite {n : Nat} {a b : Proc} (c : Prop) [Decidable c]
    (ha : Preflighted n a) (hb : Preflighted n b) : Preflighted n (if c then a else b) := by
  split
  · exact ha
  · exact hb

theorem preflighted_toolVersion (H : Host) (name : String) {n : Nat} {q : Proc}
    (h : Preflighted n q) : Preflighted n (toolVersion H name q).2 := by
  unfold toolVersion
  split
  · exact preflighted_kubectl H _ h
  · split
    · exact preflighted_helmCmd H _ h
    · exact preflighted_output H _ _ h

theorem preflighted_checkTool (H : Host) (P : Palette) (name : String) {n : Nat} {q : Proc}
    (h : Preflighted n q) : Preflighted n (checkTool H P q name) := by
  unfold checkTool
  apply preflighted_ite
  · exact preflighted_emit (keeps_logPass P _) (preflighted_toolVersion H name
      (preflighted_emit (keeps_logStep P _) h))
  · exact preflighted_one (charged_logFail P _ (preflighted_emit (keeps_logStep P _) h))

theorem preflighted_preflightTools (H : Host) (P : Palette) {n : Nat} {q : Proc}
    (h : Preflighted n q) : Preflighted n (preflightTools H P q) := by
  unfold preflightTools
  exact preflighted_foldl _ (fun q x hq => preflighted_checkTool H P x hq) _
    (preflighted_emit (keeps_printSection P _) (preflighted_emit (keeps_printHeader P _) h))

theorem preflighted_preflightCluster (H : Host) (P : Palette) {n : Nat} {q : Proc}
    (h : Preflighted n q) : Preflighted n (preflightCluster H P q) := by
  unfold preflightCluster
  simp only []
  repeat' first
    | with_reducible exact h
    | with_reducible apply preflighted_emit
    | with_reducible apply preflighted_modify
    | with_reducible apply preflighted_one
    | with_reducible apply charged_logFail
    | with_reducible apply preflighted_kubectl
    | with_reducible apply preflighted_kubectlE
    | with_reducible apply preflighted_helmCmd
    | with_reducible apply preflighted_output
    | with_reducible apply preflighted_ite
    | with_reducible apply keeps_logPass
    | with_reducible apply keeps_logWarn
    | with_reducible apply keeps_logInfo
    | with_reducible apply keeps_logStep
    | with_reducible apply keeps_printHeader
    | with_reducible apply keeps_printSection
    | with_reducible apply keeps_writeln
    | with_reducible apply keeps_writelns
    | (intro _; rfl)
    | (exfalso; exact apiServerOf_some _ _ (by assumption))
    | split

theorem preflighted_preflightNamespace (H : Host) (P : Palette) {n : Nat} {q : Proc}
    (h : Preflighted n q) : Preflighted n (preflightNamespace H P q) := by
  unfold preflightNamespace
  simp only []
  repeat' first
    | with_reducible exact h
    | with_reducible apply preflighted_emit
    | with_reducible apply preflighted_modify
    | with_reducible apply preflighted_one
    | with_reducible apply charged_logFail
    | with_reducible apply charged_emit
    | with_reducible apply charged_kubectl
    | with_reducible apply preflighted_kubectl
    | with_reducible apply preflighted_kubectlE
    | with_reducible apply preflighted_helmCmd
    | with_reducible apply preflighted_output
    | with_reducible apply preflighted_ite
    | with_reducible apply keeps_logPass
    | with_reducible apply keeps_logWarn
    | with_reducible apply keeps_logInfo
    | with_reducible apply keeps_logStep
    | with_reducible apply keeps_printHeader
    | with_reducible apply keeps_printSection
    | with_reducible apply keeps_writeln
    | with_reducible apply keeps_writelns

theorem preflighted_checkRbac (H : Host) (P : Palette) (c : String × String × String)
    {n : Nat} {q : Proc} (h : Preflighted n q) : Preflighted n (checkRbac H P q c) := by
  unfold checkRbac
  simp only []
  repeat' first
    | with_reducible exact h
    | with_reducible apply preflighted_emit
    | with_reducible apply preflighted_kubectl
    | with_reducible apply preflighted_ite
    | with_reducible apply keeps_logPass
    | with_reducible apply keeps_logWarn
    | with_reducible apply keeps_logInfo
    | with_reducible apply keeps_logStep

theorem preflighted_preflightRbac (H : Host) (P : Palette) {n : Nat} {q : Proc}
    (h : Preflighted n q) : Preflighted n (preflightRbac H P q) := by
  unfold preflightRbac
  exact preflighted_emit (keeps_logInfo P _) (preflighted_foldl _
    (fun q x hq => preflighted_checkRbac H P x hq) _
    (preflighted_emit (keeps_printSection P _) h))

/-- The pre-flight probe of a live process returns, or ends the process with
status 1 after it recorded a failed finding; it never panics. -/
theorem auditPreflight_exit (H : Host) (P : Palette) (p : Proc) (h0 : p.exit = none) :
    p.a.FailCount ≤ (auditPreflight H P p).a.FailCount ∧
    ((auditPreflight H P p).exit = none ∨
      ((auditPreflight H P p).exit = some 1 ∧
        p.a.FailCount < (auditPreflight H P p).a.FailCount)) := by
  have hp : Preflighted p.a.FailCount p := ⟨Nat.le_refl _, Or.inl h0⟩
  unfold auditPreflight
  exact preflighted_preflightRbac H P (preflighted_preflightNamespace H P
    (preflighted_preflightCluster H P (preflighted_preflightTools H P hp)))

/-- An audit that ends the process with status 1 recorded a failed finding. -/
theorem runAudit_one_failed (H : Host) (P : Palette) (L : Lipgloss) (probes : Probes)
    (con : Console) (p : Proc) (h0 : p.exit = none)
    (h : (runAudit H P L probes con p).exit = some 1) :
    p.a.FailCount < (runAudit H P L probes con p).a.FailCount := by
  have h1 := runAudit_exit_one H P L probes con p h
  obtain ⟨ma, mb, _⟩ := Proc.mark_alive .preflight p h0
  rw [runAudit_after_fatal_preflight H P L probes con p 1 h1]
  rcases (auditPreflight_exit H P (p.mark .preflight) ma).2 with e | e
  · rw [h1] at e
    cases e
  · rw [mb] at e
    exact e.2

/-- An audit of a live process that ends with status 2 passed the pre-flight
probe: the panic is in a later probe or in the report phase. -/
theorem runAudit_two_passed (H : Host) (P : Palette) (L : Lipgloss) (probes : Probes)
    (con : Console) (p : Proc) (h0 : p.exit = none)
    (h : (runAudit H P L probes con p).exit = some 2) :
    (auditPreflight H P (p.mark .preflight)).exit = none := by
  obtain ⟨ma, _, _⟩ := Proc.mark_alive .preflight p h0
  rcases (auditPreflight_exit H P (p.mark .preflight) ma).2 with e | e
  · exact e
  · rw [runAudit_after_fatal_preflight H P L probes con p 1 e.1, e.1] at h
    cases h

/-- A turn of the scan that ends the process with status 1 recorded a target
with a failed finding. -/
theorem scanTurn_one (H : Host) (P : Palette) (L : Lipgloss) (probes : Probes)
    (con : Nat → Console) (a : AuditState) (ts : String) (i : Nat) (ns : String) (s : Scan)
    (hs : s.p.exit = some 1 → 0 < (s.runs.map (fun r => r.final.FailCount)).sum)
    (h : (scanTurn H P L probes con a ts i ns s).p.exit = some 1) :
    0 < ((scanTurn H P L probes con a ts i ns s).runs.map (fun r => r.final.FailCount)).sum := by
  cases hx : s.p.exit with
  | some c =>
    rw [scanTurn_dead H P L probes con a ts i ns s c hx] at h ⊢
    exact hs h
  | none =>
    obtain ⟨_, e2, _⟩ := existenceCheck_frame H P a i ns s.p hx
    cases hf : (existenceCheck H P a i ns s.p).1 with
    | false =>
      rw [((scanTurn_iff H P L probes con a ts i ns s hx).1 hf).2.2.2.2] at h
      cases h
    | true =>
      obtain ⟨t1, _, _, t4⟩ := (scanTurn_iff H P L probes con a ts i ns s hx).2 hf
      rw [t4] at h
      have hr := runAudit_one_failed H P L probes (con i)
        ⟨subState a ns ts, (existenceCheck H P a i ns s.p).2.steps,
          (existenceCheck H P a i ns s.p).2.w, none⟩ rfl h
      rw [t1, List.map_append, List.sum_append]
      simp only [List.map_cons, List.map_nil, List.sum_cons, List.sum_nil]
      omega

theorem scanLoop_one (H : Host) (P : Palette) (L : Lipgloss) (probes : Probes)
    (con : Nat → Console) (a : AuditState) (ts : String) :
    ∀ (nss : List String) (i : Nat) (s : Scan),
      (s.p.exit = some 1 → 0 < (s.runs.map (fun r => r.final.FailCount)).sum) →
      (scanLoop H P L probes con a ts i nss s).p.exit = some 1 →
      0 < ((scanLoop H P L probes con a ts i nss s).runs.map
        (fun r => r.final.FailCount)).sum := by
  intro nss
  induction nss with
  | nil => intro i s hs h; exact hs h
  | cons ns rest ih =>
    intro i s hs h
    rw [scanLoop_cons] at h ⊢
    exact ih (i + 1) _ (scanTurn_one H P L probes con a ts i ns s hs) h

/-- When the process was ended with status 1, an audited target holds a failed
finding. -/
theorem audited_one (H : Host) (P : Palette) (L : Lipgloss) (probes : Probes)
    (con : Nat → Console) (a : AuditState) (w : World)
    (h : (audited H P L probes con a w).p.exit = some 1) :
    0 < ((audited H P L probes con a w).runs.map (fun r => r.final.FailCount)).sum := by
  by_cases hm : a.ScanAll = true ∧ a.Namespaces.length > 1
  · rw [audited_multi H P L probes con a w hm] at h ⊢
    exact scanLoop_one H P L probes con a (H.stamp w.log) a.Namespaces 0
      ⟨⟨a, [], w, none⟩, 0, []⟩ (fun e => by cases e) h
  · rw [audited_single H P L probes con a w hm] at h ⊢
    have hr := runAudit_one_failed H P L probes (con 0) ⟨a, [], w, none⟩ rfl h
    simp only [List.map_cons, List.map_nil, List.sum_cons, List.sum_nil]
    omega

/-! ## The exit status of the process -/

set_option maxRecDepth 100000 in
/-- C13 on the code: the exit status of the process in every run. The process
reaches its exit decision alive, or an audit ended it with status 1 (a fatal
pre-flight failure) or with status 2 (a run-time panic). When no audit ended
the process, the exit status is non-zero, and then 1, if and only if the failed
counts of the audited targets sum to more than zero; the audited targets of a
run of one target are that target, those of a scan are the targets the loop ran
the pipeline for, some of the namespaces in their order, and the local total of
the scan is the sum of their FailCounts. When an audit ended the process, the
exit status is the status it ended with. The pre-flight probe ends the process
only after it recorded a failed finding, so that in every run that does not
panic, a fatal pre-flight failure or not, the exit status is non-zero if and
only if the failed counts sum to more than zero; in every run the exit status
is non-zero if and only if the failed counts sum to more than zero or the
process panicked. A panic is never in the pre-flight probe: an audit that ends
with status 2 passed it. On a cluster whose webhook configuration has a first
entry that is not an object the admission probe panics: the pre-flight probe
passes, no failed finding is recorded, and the process exits with status 2, in
a run of one target and in a scan. -/
theorem C13_exit_status_is_that_of_a_dying_audit_or_follows_the_failed_counts (H : Host)
    (P : Palette) (L : Lipgloss) (probes : Probes) (con : Nat → Console) (a : AuditState)
    (w : World) :
    ((audited H P L probes con a w).p.exit = none →
      (exitStatus (main H P L probes con a w) ≠ 0 ↔
        ((audited H P L probes con a w).runs.map (fun r => r.final.FailCount)).sum > 0) ∧
      exitStatus (main H P L probes con a w) =
        (if ((audited H P L probes con a w).runs.map (fun r => r.final.FailCount)).sum > 0
         then 1 else 0) ∧
      (audited H P L probes con a w).totalFail =
        ((audited H P L probes con a w).runs.map (fun r => r.final.FailCount)).sum) ∧
    (∀ c : Nat, (audited H P L probes con a w).p.exit = some c →
      main H P L probes con a w = (audited H P L probes con a w).p ∧
      exitStatus (main H P L probes con a w) = c) ∧
    ((audited H P L probes con a w).p.exit = none ∨
      (audited H P L probes con a w).p.exit = some 1 ∨
      (audited H P L probes con a w).p.exit = some 2) ∧
    ((audited H P L probes con a w).p.exit ≠ some 2 →
      (exitStatus (main H P L probes con a w) ≠ 0 ↔
        ((audited H P L probes con a w).runs.map (fun r => r.final.FailCount)).sum > 0)) ∧
    (exitStatus (main H P L probes con a w) ≠ 0 ↔
      ((audited H P L probes con a w).runs.map (fun r => r.final.FailCount)).sum > 0 ∨
      (audited H P L probes con a w).p.exit = some 2) ∧
    exitStatus (main H P L probes con a w) ≤ 2 ∧
    (∀ (c : Console) (q : Proc), q.exit = none →
      (runAudit H P L probes c q).exit = some 2 →
      (auditPreflight H P (q.mark .preflight)).exit = none) ∧
    (∀ (c : Console) (q : Proc), q.exit = none →
      (runAudit H P L probes c q).exit = some 1 →
      q.a.FailCount < (runAudit H P L probes c q).a.FailCount) ∧
    ((audited H P L probes con a w).runs.map (fun r => r.ns)).Sublist
      (if a.ScanAll = true ∧ a.Namespaces.length > 1 then a.Namespaces else [a.Namespace]) ∧
    (audited H P L probes con a w).runs.map (fun r => r.final.FailCount) =
      (if a.ScanAll = true ∧ a.Namespaces.length > 1 then
        (scanLoop H P L probes con a (H.stamp w.log) 0 a.Namespaces
          ⟨⟨a, [], w, none⟩, 0, []⟩).runs.map (fun r => r.final.FailCount)
       else [(runAudit H P L probes (con 0) ⟨a, [], w, none⟩).a.FailCount]) ∧
    (∀ (c : Console) (q : Proc), (runAudit H P L probes c q).exit = some 1 →
      (auditPreflight H P (q.mark .preflight)).exit = some 1) ∧
    ((auditPreflight currentStrayHost ansiPalette
        (Proc.mark .preflight ⟨oneTargetState, [], healthyWorld, none⟩)).exit = none ∧
      exitStatus (main currentStrayHost ansiPalette plainLipgloss
        (admissionProbes currentStrayHost) (fun _ => demoConsole "no\n") oneTargetState
        healthyWorld) = 2 ∧
      (audited currentStrayHost ansiPalette plainLipgloss (admissionProbes currentStrayHost)
        (fun _ => demoConsole "no\n") oneTargetState healthyWorld).runs.map
          (fun r => (r.ns, r.final.FailCount)) = [("ingress-nginx", 0)]) ∧
    (exitStatus (main currentStrayHost ansiPalette plainLipgloss
        (admissionProbes currentStrayHost) (fun _ => demoConsole "no\n") twoTargetState
        healthyWorld) = 2 ∧
      (audited currentStrayHost ansiPalette plainLipgloss (admissionProbes currentStrayHost)
        (fun _ => demoConsole "no\n") twoTargetState healthyWorld).runs.map
          (fun r => (r.ns, r.final.FailCount)) = [("ingress-nginx", 0)]) := by
  have halive : (audited H P L probes con a w).p.exit = none →
      (exitStatus (main H P L probes con a w) ≠ 0 ↔
        ((audited H P L probes con a w).runs.map (fun r => r.final.FailCount)).sum > 0) ∧
      exitStatus (main H P L probes con a w) =
        (if ((audited H P L probes con a w).runs.map (fun r => r.final.FailCount)).sum > 0
         then 1 else 0) ∧
      (audited H P L probes con a w).totalFail =
        ((audited H P L probes con a w).runs.map (fun r => r.final.FailCount)).sum := by
    intro h
    by_cases hm : a.ScanAll = true ∧ a.Namespaces.length > 1
    · obtain ⟨added, r1, _, _, r4⟩ := scanLoop_runs H P L probes con a (H.stamp w.log)
        a.Namespaces 0 ⟨⟨a, [], w, none⟩, 0, []⟩
      rw [audited_multi H P L probes con a w hm] at h ⊢
      rw [main_multi H P L probes con a w hm]
      generalize scanLoop H P L probes con a (H.stamp w.log) 0 a.Namespaces
        ⟨⟨a, [], w, none⟩, 0, []⟩ = S at h r1 r4 ⊢
      have hr : S.runs = added := by rw [r1]; rfl
      have ht : S.totalFail = (added.map (fun r => r.final.FailCount)).sum := by
        rw [r4 h]
        exact Nat.zero_add _
      exact verdict_status P a S added h hr ht
    · rw [audited_single H P L probes con a w hm] at h ⊢
      rw [main_single H P L probes con a w hm]
      generalize runAudit H P L probes (con 0) ⟨a, [], w, none⟩ = r at h ⊢
      obtain ⟨s1, s2⟩ := single_status r h
      refine ⟨?_, ?_, ?_⟩
      · simpa using s1
      · simpa using s2
      · simp
  have hdead : ∀ c : Nat, (audited H P L probes con a w).p.exit = some c →
      main H P L probes con a w = (audited H P L probes con a w).p ∧
      exitStatus (main H P L probes con a w) = c := by
    intro c h
    by_cases hm : a.ScanAll = true ∧ a.Namespaces.length > 1
    · rw [audited_multi H P L probes con a w hm] at h ⊢
      rw [main_multi H P L probes con a w hm]
      generalize scanLoop H P L probes con a (H.stamp w.log) 0 a.Namespaces
        ⟨⟨a, [], w, none⟩, 0, []⟩ = S at h ⊢
      rw [scanVerdict_dead P a S c h]
      exact ⟨rfl, by simp [exitStatus, h]⟩
    · rw [audited_single H P L probes con a w hm] at h ⊢
      rw [main_single H P L probes con a w hm]
      generalize runAudit H P L probes (con 0) ⟨a, [], w, none⟩ = r at h ⊢
      dsimp only at h ⊢
      have hd : (if r.a.FailCount > 0 then r.osExit 1 else r) = r := by
        split
        · exact Proc.osExit_dead 1 r c h
        · rfl
      rw [hd]
      exact ⟨rfl, by simp [exitStatus, h]⟩
  have hexit := audited_exit H P L probes con a w
  have hall : exitStatus (main H P L probes con a w) ≠ 0 ↔
      ((audited H P L probes con a w).runs.map (fun r => r.final.FailCount)).sum > 0 ∨
      (audited H P L probes con a w).p.exit = some 2 := by
    rcases hexit with e | e | e
    · rw [(halive e).1, e]
      simp
    · have hpos := audited_one H P L probes con a w e
      rw [(hdead 1 e).2, e]
      simp only [ne_eq, Nat.succ_ne_zero, not_false_eq_true, true_iff]
      exact Or.inl hpos
    · rw [(hdead 2 e).2]
      simp only [ne_eq, OfNat.ofNat_ne_zero, not_false_eq_true, true_iff]
      exact Or.inr e
  have hle : exitStatus (main H P L probes con a w) ≤ 2 := by
    rcases hexit with e | e | e
    · rw [(halive e).2.1]
      split <;> omega
    · rw [(hdead 1 e).2]
      omega
    · rw [(hdead 2 e).2]
  refine ⟨halive, hdead, hexit, ?_, hall, hle,
    fun c q h0 hq => runAudit_two_passed H P L probes c q h0 hq,
    fun c q h0 hq => runAudit_one_failed H P L probes c q h0 hq, ?_, ?_,
    fun c q hq => runAudit_exit_one H P L probes c q hq,
    ⟨by decide, by decide, by decide⟩, ⟨by decide, by decide⟩⟩
  · intro hne
    rw [hall]
    exact ⟨fun h => h.resolve_right hne, Or.inl⟩
  · by_cases hm : a.ScanAll = true ∧ a.Namespaces.length > 1
    · obtain ⟨added, r1, r2, _, _⟩ := scanLoop_runs H P L probes con a (H.stamp w.log)
        a.Namespaces 0 ⟨⟨a, [], w, none⟩, 0, []⟩
      rw [audited_multi H P L probes con a w hm, if_pos hm, r1]
      exact r2
    · rw [audited_single H P L probes con a w hm, if_neg hm]
      simp
  · by_cases hm : a.ScanAll = true ∧ a.Namespaces.length > 1
    · rw [audited_multi H P L probes con a w hm, if_pos hm]
    · rw [audited_single H P L probes con a w hm, if_neg hm]
      simp

/-! ## Each target of a scan starts afresh -/

set_option maxRecDepth 100000 in
/-- C14: the state `runMultiNamespaceScan` builds for a target has the four
counters at zero, no fix, an empty output buffer and every discovered field at
its zero value; it takes from the state of the caller the domain, the email and
the controller name and nothing else, and from the loop the namespace of the
target and the time stamp in the two report names. The pipeline of a target is
`runAudit` started on that state: after the turn of a target with the workload
the steps, the world and the life of the process are those `runAudit` leaves
when started on `subState`, and the total of the scan grows by the failed
count of that run; the final state recorded for a target is the
one `runAudit` leaves when started on `subState`, whatever the probes and the
operator did for the targets before it, and the scan never writes to the state
of the caller. Two scans from the same setup whose probes, consoles and
renderers differ start a target of the same namespace from the same state. On
`demoHost` the second target starts at zero after the first one recorded six
passes, one failure, one fix and a controller version of seven characters, and
it ends with the same findings as the first; the same holds when the state of
the caller holds findings, fixes and facts of its own. -/
theorem C14_each_target_starts_from_a_fresh_context (H : Host) (P : Palette) (L : Lipgloss)
    (probes : Probes) (con : Nat → Console) (a : AuditState) (w : World) :
    (∀ ns ts : String, subState a ns ts =
      { Namespace := ns, Namespaces := [ns], ScanAll := false, Domain := a.Domain,
        Email := a.Email, ControllerName := a.ControllerName, Fixes := [],
        PassCount := 0, WarnCount := 0, FailCount := 0, InfoCount := 0,
        ClusterVersion := "", APIServer := "", CurrentContext := "", NodeCount := 0,
        ReadyNodes := 0, DeploymentType := "", ControllerImage := "", ControllerVersion := "",
        ControllerReplicas := "", HelmChart := "", HelmChartVersion := "", HelmStatus := "",
        HelmRevision := "", AdmissionSvcType := "", AdmissionClusterIP := "",
        AdmissionExternalIP := "", IngressExposing := "", AllowSnippets := "", CPULimit := "",
        MemoryLimit := "", CPURequest := "", MemoryRequest := "", NpCount := 0,
        UpdateStrategy := "", ImagePullPolicy := "",
        TextReportFile := "ingress-audit-" ++ ns ++ "-" ++ ts ++ ".txt",
        JSONReportFile := "ingress-audit-" ++ ns ++ "-" ++ ts ++ ".json",
        OutputBuffer := "" }) ∧
    (∀ ns ts : String, subState a ns ts =
      subState { Domain := a.Domain, Email := a.Email, ControllerName := a.ControllerName }
        ns ts) ∧
    (runMultiNamespaceScan H P L probes con a w).runs.map (fun r => r.initial) =
      (runMultiNamespaceScan H P L probes con a w).runs.map
        (fun r => subState a r.ns (H.stamp w.log)) ∧
    (∀ (L2 : Lipgloss) (probes2 : Probes) (con2 : Nat → Console),
      ∀ r1 ∈ (runMultiNamespaceScan H P L probes con a w).runs,
      ∀ r2 ∈ (runMultiNamespaceScan H P L2 probes2 con2 a w).runs,
        r1.ns = r2.ns → r1.initial = r2.initial) ∧
    ((runMultiNamespaceScan H P L probes con a w).runs.map (fun r => r.ns)).Sublist
      a.Namespaces ∧
    (∀ (ts : String) (i : Nat) (ns : String) (p : Proc),
      targetAudit H P L probes con a ts i ns p =
        runAudit H P L probes (con i)
          ⟨subState a ns ts, (existenceCheck H P a i ns p).2.steps,
            (existenceCheck H P a i ns p).2.w, (existenceCheck H P a i ns p).2.exit⟩) ∧
    (∀ (ts : String) (i : Nat) (ns : String) (s : Scan), s.p.exit = none →
      (existenceCheck H P a i ns s.p).1 = true →
      (scanTurn H P L probes con a ts i ns s).p.steps =
        (runAudit H P L probes (con i)
          ⟨subState a ns ts, (existenceCheck H P a i ns s.p).2.steps,
            (existenceCheck H P a i ns s.p).2.w, none⟩).steps ∧
      (scanTurn H P L probes con a ts i ns s).p.w =
        (runAudit H P L probes (con i)
          ⟨subState a ns ts, (existenceCheck H P a i ns s.p).2.steps,
            (existenceCheck H P a i ns s.p).2.w, none⟩).w ∧
      (scanTurn H P L probes con a ts i ns s).p.exit =
        (runAudit H P L probes (con i)
          ⟨subState a ns ts, (existenceCheck H P a i ns s.p).2.steps,
            (existenceCheck H P a i ns s.p).2.w, none⟩).exit ∧
      (scanTurn H P L probes con a ts i ns s).p.a = s.p.a ∧
      ((runAudit H P L probes (con i)
          ⟨subState a ns ts, (existenceCheck H P a i ns s.p).2.steps,
            (existenceCheck H P a i ns s.p).2.w, none⟩).exit = none →
        (scanTurn H P L probes con a ts i ns s).totalFail =
          s.totalFail + (runAudit H P L probes (con i)
            ⟨subState a ns ts, (existenceCheck H P a i ns s.p).2.steps,
              (existenceCheck H P a i ns s.p).2.w, none⟩).a.FailCount)) ∧
    (∀ r ∈ (runMultiNamespaceScan H P L probes con a w).runs,
      ∃ (j : Nat) (q : Proc), r.ns ∈ a.Namespaces ∧
        r.final = (runAudit H P L probes (con j)
          ⟨subState a r.ns (H.stamp w.log), q.steps, q.w, none⟩).a) ∧
    (runMultiNamespaceScan H P L probes con a w).p.a = a ∧
    (runMultiNamespaceScan demoHost ansiPalette plainLipgloss (demoProbes demoHost)
      (fun _ => demoConsole "no\n") twoTargetState healthyWorld).runs.map
        (fun r => [[r.initial.PassCount, r.initial.FailCount, r.initial.Fixes.length,
            r.initial.ControllerVersion.length, r.initial.OutputBuffer.length],
          [r.final.PassCount, r.final.FailCount, r.final.Fixes.length,
            r.final.ControllerVersion.length]]) =
      [[[0, 0, 0, 0, 0], [6, 1, 1, 7]], [[0, 0, 0, 0, 0], [6, 1, 1, 7]]] ∧
    (runMultiNamespaceScan demoHost ansiPalette plainLipgloss (demoProbes demoHost)
      (fun _ => demoConsole "no\n") usedTwoTargetState healthyWorld).runs.map
        (fun r => (r.ns, [r.final.PassCount, r.final.FailCount, r.final.WarnCount,
          r.final.Fixes.length], r.final.Fixes.map (·.ID), r.final.ControllerVersion,
          r.final.AdmissionSvcType)) =
      [("ingress-nginx", [6, 1, 6, 1], ["upgrade-controller"], "v1.10.0", ""),
       ("edge", [6, 1, 6, 1], ["upgrade-controller"], "v1.10.0", "")] := by
  obtain ⟨added, r1, r2, r3⟩ := runMultiNamespaceScan_runs H P L probes con a w
  have hinit : ∀ (L2 : Lipgloss) (probes2 : Probes) (con2 : Nat → Console),
      ∀ r ∈ (runMultiNamespaceScan H P L2 probes2 con2 a w).runs,
        r.initial = subState a r.ns (H.stamp w.log) := by
    intro L2 probes2 con2 r hr
    obtain ⟨added2, q1, _, q3⟩ := runMultiNamespaceScan_runs H P L2 probes2 con2 a w
    rw [q1] at hr
    exact List.map_inj_left.mp q3 r hr
  obtain ⟨f1, f2⟩ := scanLoop_finals H P L probes con a (H.stamp w.log) a.Namespaces 0
    ⟨⟨a, [], w, none⟩, 0, []⟩
  have hS : runMultiNamespaceScan H P L probes con a w =
      scanVerdict P a (scanLoop H P L probes con a (H.stamp w.log) 0 a.Namespaces
        ⟨⟨a, [], w, none⟩, 0, []⟩) := rfl
  refine ⟨fun _ _ => rfl, fun _ _ => rfl, ?_, ?_, ?_,
    fun ts i ns p => targetAudit_eq H P L probes con a ts i ns p,
    fun ts i ns s hs hchk =>
      ⟨((scanTurn_iff H P L probes con a ts i ns s hs).2 hchk).2.1,
       ((scanTurn_iff H P L probes con a ts i ns s hs).2 hchk).2.2.1,
       ((scanTurn_iff H P L probes con a ts i ns s hs).2 hchk).2.2.2,
       (scanTurn_finals H P L probes con a ts i ns s).1,
       fun hr => scanTurn_total H P L probes con a ts i ns s hs hchk hr⟩,
    ?_, ?_, by decide, by decide⟩
  · rw [r1]
    exact r3
  · intro L2 probes2 con2 x hx y hy hxy
    rw [hinit L probes con x hx, hinit L2 probes2 con2 y hy, hxy]
  · rw [r1]
    exact r2
  · intro r hr
    rw [hS, scanVerdict_runs] at hr
    rcases f2 r hr with hm | hq
    · simp at hm
    · exact hq
  · rw [hS]
    generalize scanLoop H P L probes con a (H.stamp w.log) 0 a.Namespaces
      ⟨⟨a, [], w, none⟩, 0, []⟩ = S at f1 ⊢
    have f1b : S.p.a = a := f1
    cases hx : S.p.exit with
    | some c => rw [scanVerdict_dead P a S c hx]; exact f1b
    | none =>
      unfold scanVerdict
      simp only [hx]
      split <;> simp [Proc.print, Proc.osExit, hx, f1b]


theorem filterMap_marker_trail (steps : List Step) :
    steps.filterMap Step.marker = (steps.filter (fun s => !s.isPrint)).filterMap Step.marker := by
  induction steps with
  | nil => rfl
  | cons s rest ih =>
    cases s with
    | term e => cases e <;> simp [Step.isPrint, Step.marker, ih]
    | probe k => simp [Step.isPrint, Step.marker, ih]
    | writeReport x y => simp [Step.isPrint, Step.marker, ih]
    | writeText x y => simp [Step.isPrint, Step.marker, ih]

theorem filterMap_filePath_trail (steps : List Step) :
    steps.filterMap Step.filePath =
      (steps.filter (fun s => !s.isPrint)).filterMap Step.filePath := by
  induction steps with
  | nil => rfl
  | cons s rest ih =>
    cases s with
    | term e => cases e <;> simp [Step.isPrint, Step.filePath, ih]
    | probe k => simp [Step.isPrint, Step.filePath, ih]
    | writeReport x y => simp [Step.isPrint, Step.filePath, ih]
    | writeText x y => simp [Step.isPrint, Step.filePath, ih]

theorem term_no_marker (es : List Event) : (es.map Step.term).filterMap Step.marker = [] := by
  induction es with
  | nil => rfl
  | cons e es ih => simp [Step.marker, ih]

theorem term_no_filePath (es : List Event) : (es.map Step.term).filterMap Step.filePath = [] := by
  induction es with
  | nil => rfl
  | cons e es ih => simp [Step.filePath, ih]

/-- An audit that returns calls each probe once, in order, and writes one pair
of report files, named as its final state names them. -/
theorem runAudit_marks_and_files (H : Host) (P : Palette) (L : Lipgloss) (probes : Probes)
    (con : Console) (p : Proc) (h : (runAudit H P L probes con p).exit = none) :
    (runAudit H P L probes con p).steps.filterMap Step.marker =
      p.steps.filterMap Step.marker ++
        [.preflight, .version, .admission, .network, .configuration, .podSecurity,
         .vulnerabilities, .certificates, .ingress] ∧
    (runAudit H P L probes con p).steps.filterMap Step.filePath =
      p.steps.filterMap Step.filePath ++
        [(runAudit H P L probes con p).a.JSONReportFile,
         (runAudit H P L probes con p).a.TextReportFile] := by
  have hq : (runProbes H P probes p).exit = none := by
    cases hx : (runProbes H P probes p).exit with
    | none => rfl
    | some c =>
      rw [runAudit_eq, finishAudit_dead H P L con _ c hx, hx] at h
      cases h
  obtain ⟨_, ht, _, _⟩ := runProbes_alive H P probes p hq
  have htr := finishAudit_trail H P L con (runProbes H P probes p) hq
  obtain ⟨_, _, ha⟩ := finishAudit_alive H P L con (runProbes H P probes p) hq
  rw [ht] at htr
  rw [runAudit_eq, filterMap_marker_trail, filterMap_filePath_trail,
    filterMap_marker_trail p.steps, filterMap_filePath_trail p.steps, ha]
  have htr2 : (finishAudit H P L con (runProbes H P probes p)).steps.filter
      (fun s => !s.isPrint) = _ := htr
  rw [htr2]
  have hj : (generateSummary P L (runProbes H P probes p).a).1.JSONReportFile =
      (runProbes H P probes p).a.JSONReportFile := by
    unfold generateSummary
    exact writelns_jsonReportFile _ _
  have hx : (generateSummary P L (runProbes H P probes p).a).1.TextReportFile =
      (runProbes H P probes p).a.TextReportFile := by
    unfold generateSummary
    exact writelns_textReportFile _ _
  rw [hj, hx]
  generalize runProbes H P probes p = q
  generalize (generateSummary P L q.a).1 = sa
  simp only [List.filterMap_append, Proc.trail]
  constructor
  · split <;> simp [pipelineMarks, Step.marker, term_no_marker]
  · split <;> simp [pipelineMarks, Step.filePath, term_no_filePath]


/-- The audit of a target that returns calls each probe once, in order, and
writes one pair of report files, named as its final state names them. -/
theorem targetAudit_marks_and_files (H : Host) (P : Palette) (L : Lipgloss) (probes : Probes)
    (con : Nat → Console) (a : AuditState) (ts : String) (i : Nat) (ns : String) (p : Proc)
    (hp : p.exit = none) (h : (targetAudit H P L probes con a ts i ns p).exit = none) :
    (targetAudit H P L probes con a ts i ns p).steps.filterMap Step.marker =
      p.steps.filterMap Step.marker ++
        [.preflight, .version, .admission, .network, .configuration, .podSecurity,
         .vulnerabilities, .certificates, .ingress] ∧
    (targetAudit H P L probes con a ts i ns p).steps.filterMap Step.filePath =
      p.steps.filterMap Step.filePath ++
        [(targetAudit H P L probes con a ts i ns p).a.JSONReportFile,
         (targetAudit H P L probes con a ts i ns p).a.TextReportFile] := by
  obtain ⟨f1, _, _⟩ := existenceCheck_frame H P a i ns p hp
  unfold targetAudit at h ⊢
  obtain ⟨m1, m2⟩ := runAudit_marks_and_files H P L probes (con i)
    { (existenceCheck H P a i ns p).2 with a := subState a ns ts } h
  rw [m1, m2]
  dsimp only
  rw [f1]
  generalize existenceCheck H P a i ns p = e
  simp [Step.marker, Step.filePath]

/-- The loop of a scan that runs to its end, when the existence check answers
`found ns` for every target whenever it is asked: the pipeline runs for the
targets with the workload and for no other, in their order; the probe calls of
the process are nine per such target and the files written are one JSON and
one text report per such target, as its final state names them. -/
theorem scanLoop_found (H : Host) (P : Palette) (L : Lipgloss) (probes : Probes)
    (con : Nat → Console) (a : AuditState) (ts : String) (found : String → Bool) :
    ∀ (nss : List String) (i : Nat) (s : Scan),
    (∀ ns ∈ nss, ∀ p : Proc, p.exit = none →
      (nsHasIngressNginx H ns a.ControllerName p).1 = found ns) →
    (scanLoop H P L probes con a ts i nss s).p.exit = none →
    ∃ added : List TargetRun,
      (scanLoop H P L probes con a ts i nss s).runs = s.runs ++ added ∧
      added.map (fun r => r.ns) = nss.filter found ∧
      (scanLoop H P L probes con a ts i nss s).p.steps.filterMap Step.marker =
        s.p.steps.filterMap Step.marker ++ added.flatMap (fun _ =>
          [ProbeId.preflight, .version, .admission, .network, .configuration, .podSecurity,
           .vulnerabilities, .certificates, .ingress]) ∧
      (scanLoop H P L probes con a ts i nss s).p.steps.filterMap Step.filePath =
        s.p.steps.filterMap Step.filePath ++
          added.flatMap (fun r => [r.final.JSONReportFile, r.final.TextReportFile]) ∧
      (scanLoop H P L probes con a ts i nss s).totalFail =
        s.totalFail + (added.map (fun r => r.final.FailCount)).sum := by
  intro nss
  induction nss with
  | nil =>
    intro i s _ _
    exact ⟨[], by simp [scanLoop_nil], rfl, by simp [scanLoop_nil], by simp [scanLoop_nil],
      by simp [scanLoop_nil]⟩
  | cons ns rest ih =>
    intro i s hf halive
    rw [scanLoop_cons] at halive ⊢
    have hturn : (scanTurn H P L probes con a ts i ns s).p.exit = none := by
      cases hx : (scanTurn H P L probes con a ts i ns s).p.exit with
      | none => rfl
      | some c =>
        rw [scanLoop_dead H P L probes con a ts rest (i + 1) _ c hx, hx] at halive
        cases halive
    have hs : s.p.exit = none := by
      cases hx : s.p.exit with
      | none => rfl
      | some c =>
        rw [scanTurn_dead H P L probes con a ts i ns s c hx, hx] at hturn
        cases hturn
    obtain ⟨e1, e2, _⟩ := existenceCheck_frame H P a i ns s.p hs
    have hchk : (existenceCheck H P a i ns s.p).1 = found ns :=
      hf ns (List.mem_cons_self _ _) (s.p.print (targetBanner P a i ns))
        (by simp [Proc.print, hs])
    obtain ⟨added, a1, a2, a3, a4, a5⟩ := ih (i + 1) (scanTurn H P L probes con a ts i ns s)
      (fun ns2 h2 => hf ns2 (List.mem_cons_of_mem _ h2)) halive
    cases hfd : found ns with
    | false =>
      rw [hfd] at hchk
      have t := scanTurn_skip H P L probes con a ts i ns s hs hchk
      have t1 : (scanTurn H P L probes con a ts i ns s).runs = s.runs := by rw [t]
      have t2 : (scanTurn H P L probes con a ts i ns s).totalFail = s.totalFail := by rw [t]
      have t3 : (scanTurn H P L probes con a ts i ns s).p.steps =
          s.p.steps ++ [Step.term (Event.stdout (targetBanner P a i ns)),
            Step.term (Event.stdout (skipLine P ns))] := by
        rw [t]
        simp [Proc.print, e2, e1]
      refine ⟨added, by rw [a1, t1], ?_, ?_, ?_, by rw [a5, t2]⟩
      · rw [a2]
        simp [List.filter_cons, hfd]
      · rw [a3, t3]
        simp [Step.marker]
      · rw [a4, t3]
        simp [Step.filePath]
    | true =>
      rw [hfd] at hchk
      have hr : (targetAudit H P L probes con a ts i ns s.p).exit = none := by
        cases hx : (targetAudit H P L probes con a ts i ns s.p).exit with
        | none => rfl
        | some c =>
          rw [scanTurn_cut H P L probes con a ts i ns s hs hchk c hx] at hturn
          dsimp only at hturn
          rw [hx] at hturn
          cases hturn
      obtain ⟨m1, m2⟩ := targetAudit_marks_and_files H P L probes con a ts i ns s.p hs hr
      have t := scanTurn_done H P L probes con a ts i ns s hs hchk hr
      have t1 : (scanTurn H P L probes con a ts i ns s).runs =
          s.runs ++ [⟨ns, subState a ns ts, (targetAudit H P L probes con a ts i ns s.p).a⟩] := by
        rw [t]
      have t2 : (scanTurn H P L probes con a ts i ns s).totalFail =
          s.totalFail + (targetAudit H P L probes con a ts i ns s.p).a.FailCount := by rw [t]
      have t3 : (scanTurn H P L probes con a ts i ns s).p.steps =
          (targetAudit H P L probes con a ts i ns s.p).steps := by rw [t]
      refine ⟨⟨ns, subState a ns ts, (targetAudit H P L probes con a ts i ns s.p).a⟩ :: added,
        by rw [a1, t1]; simp, ?_, ?_, ?_, ?_⟩
      · rw [List.map_cons, a2]
        simp [List.filter_cons, hfd]
      · rw [a3, t3, m1]
        simp
      · rw [a4, t3, m2]
        simp
      · rw [a5, t2]
        simp [Nat.add_assoc]

theorem trimSpace_empty : trimSpace "" = "" := by decide

/-- On `hostWithEmptyNamespace` the existence check finds nothing in `empty`. -/
theorem empty_has_no_workload (p : Proc) :
    (nsHasIngressNginx hostWithEmptyNamespace "empty" emptyFirstState.ControllerName p).1 =
      false := by
  have h1 : ∀ log, trimSpace (hostWithEmptyNamespace.output log ⟨"kubectl",
      ["get", "deployment", "-n", "empty", emptyFirstState.ControllerName,
        "--ignore-not-found"]⟩) = "" := fun _ => by
    show trimSpace "" = ""
    decide
  have h2 : ∀ log, trimSpace (hostWithEmptyNamespace.output log ⟨"kubectl",
      ["get", "daemonset", "-n", "empty", emptyFirstState.ControllerName,
        "--ignore-not-found"]⟩) = "" := fun _ => by
    show trimSpace "" = ""
    decide
  cases hp : p.exit with
  | some c => simp [nsHasIngressNginx, hasWorkload, Proc.output, hp, trimSpace_empty]
  | none => simp [nsHasIngressNginx, hasWorkload, Proc.output, hp, h1, h2, runCmd]

/-- On `hostWithEmptyNamespace` the existence check finds the Deployment in
`ingress-nginx`. -/
theorem ingressNginx_has_workload (p : Proc) (hp : p.exit = none) :
    (nsHasIngressNginx hostWithEmptyNamespace "ingress-nginx" emptyFirstState.ControllerName
      p).1 = true := by
  have h1 : ∀ log, trimSpace (hostWithEmptyNamespace.output log ⟨"kubectl",
      ["get", "deployment", "-n", "ingress-nginx", emptyFirstState.ControllerName,
        "--ignore-not-found"]⟩) ≠ "" := fun _ => by
    show trimSpace "ingress-nginx-controller   1/1     1            1           40d\n" ≠ ""
    decide
  simp [nsHasIngressNginx, hasWorkload, Proc.output, hp, h1]

set_option maxRecDepth 100000 in
/-- C15, as the claim states it, fails when the pre-flight probe of B ends the
process: in the scan of `empty` and `edge`, where `empty` has no workload and
`edge` has one, the pipeline is started for `edge` only, but `kubectl get
namespace edge` fails and its pre-flight probe exits with status 1. The eight
other probes do not run for `edge` and no report file is written for it. -/
theorem C15_counterexample_no_report_pair_after_fatal_preflight :
    (nsHasIngressNginx hostWithEmptyNamespace "empty" emptyEdgeState.ControllerName
      ⟨emptyEdgeState, [], scanWorld, none⟩).1 = false ∧
    (nsHasIngressNginx hostWithEmptyNamespace "edge" emptyEdgeState.ControllerName
      ⟨emptyEdgeState, [], scanWorld, none⟩).1 = true ∧
    (runMultiNamespaceScan hostWithEmptyNamespace ansiPalette plainLipgloss
      (notingProbes hostWithEmptyNamespace) (fun _ => demoConsole "no\n") emptyEdgeState
      scanWorld).runs.map (fun r => r.ns) = ["edge"] ∧
    (runMultiNamespaceScan hostWithEmptyNamespace ansiPalette plainLipgloss
      (notingProbes hostWithEmptyNamespace) (fun _ => demoConsole "no\n") emptyEdgeState
      scanWorld).p.steps.filterMap Step.marker = [.preflight] ∧
    ((runMultiNamespaceScan hostWithEmptyNamespace ansiPalette plainLipgloss
      (notingProbes hostWithEmptyNamespace) (fun _ => demoConsole "no\n") emptyEdgeState
      scanWorld).p.steps.filterMap Step.printed).filter (fun t => strContains t "probe ") = [] ∧
    (runMultiNamespaceScan hostWithEmptyNamespace ansiPalette plainLipgloss
      (notingProbes hostWithEmptyNamespace) (fun _ => demoConsole "no\n") emptyEdgeState
      scanWorld).p.steps.filterMap Step.filePath = [] ∧
    (runMultiNamespaceScan hostWithEmptyNamespace ansiPalette plainLipgloss
      (notingProbes hostWithEmptyNamespace) (fun _ => demoConsole "no\n") emptyEdgeState
      scanWorld).p.exit = some 1 := by
  refine ⟨?_, ?_, ?_, ?_, ?_, ?_, ?_⟩ <;> decide

/-- C15, amended: in a scan that runs to the end of its loop (no pipeline is
cut short by a fatal pre-flight failure or a panic), where the existence check
answers `found ns` for each target, the pipeline runs for the targets with the
workload and for no other, in their order: the audited targets are the
namespaces with `found`, the probe calls of the process are nine per audited
target, the files written are the JSON and the text report of each audited
target, and the exit status is non-zero if and only if their FailCounts sum to
more than zero. Each audited target ends in the state `runAudit` leaves when
started on the state built for it. One turn of the loop on a live process runs
the pipeline if and only if the check finds the workload: without it the turn
prints the banner and the skip line and leaves the state, the audited targets
and the total as they were, the world being the one the check left; with it
the process goes on as `runAudit` leaves it. For the targets A and B, A without
and B with the workload: the turn of A is the check and the skip line, one
target is audited, B, with nine probe calls and exactly two files, and the exit
status is non-zero if and only if the FailCount of B is positive. -/
theorem C15_pipeline_runs_iff_the_workload_is_found (H : Host) (P : Palette) (L : Lipgloss)
    (probes : Probes) (con : Nat → Console) (a : AuditState) (w : World)
    (found : String → Bool)
    (hfound : ∀ ns ∈ a.Namespaces, ∀ p : Proc, p.exit = none →
      (nsHasIngressNginx H ns a.ControllerName p).1 = found ns)
    (h : (scanLoop H P L probes con a (H.stamp w.log) 0 a.Namespaces
      ⟨⟨a, [], w, none⟩, 0, []⟩).p.exit = none) :
    (runMultiNamespaceScan H P L probes con a w).runs.map (fun r => r.ns) =
      a.Namespaces.filter found ∧
    (runMultiNamespaceScan H P L probes con a w).p.steps.filterMap Step.marker =
      (runMultiNamespaceScan H P L probes con a w).runs.flatMap (fun _ =>
        [ProbeId.preflight, .version, .admission, .network, .configuration, .podSecurity,
         .vulnerabilities, .certificates, .ingress]) ∧
    (runMultiNamespaceScan H P L probes con a w).p.steps.filterMap Step.filePath =
      (runMultiNamespaceScan H P L probes con a w).runs.flatMap
        (fun r => [r.final.JSONReportFile, r.final.TextReportFile]) ∧
    (exitStatus (runMultiNamespaceScan H P L probes con a w).p ≠ 0 ↔
      ((runMultiNamespaceScan H P L probes con a w).runs.map
        (fun r => r.final.FailCount)).sum > 0) ∧
    (∀ r ∈ (runMultiNamespaceScan H P L probes con a w).runs,
      ∃ (j : Nat) (q : Proc), r.ns ∈ a.Namespaces ∧
        r.final = (runAudit H P L probes (con j)
          ⟨subState a r.ns (H.stamp w.log), q.steps, q.w, none⟩).a) ∧
    (∀ (ts : String) (i : Nat) (ns : String) (s : Scan), s.p.exit = none →
      ((existenceCheck H P a i ns s.p).1 = false →
        (scanTurn H P L probes con a ts i ns s).runs = s.runs ∧
        (scanTurn H P L probes con a ts i ns s).totalFail = s.totalFail ∧
        (scanTurn H P L probes con a ts i ns s).p.steps =
          s.p.steps ++ [Step.term (Event.stdout (targetBanner P a i ns)),
            Step.term (Event.stdout (skipLine P ns))] ∧
        (scanTurn H P L probes con a ts i ns s).p.w = (existenceCheck H P a i ns s.p).2.w ∧
        (scanTurn H P L probes con a ts i ns s).p.exit = none) ∧
      ((existenceCheck H P a i ns s.p).1 = true →
        (scanTurn H P L probes con a ts i ns s).runs =
          s.runs ++ [⟨ns, subState a ns ts,
            (runAudit H P L probes (con i)
              ⟨subState a ns ts, (existenceCheck H P a i ns s.p).2.steps,
                (existenceCheck H P a i ns s.p).2.w, none⟩).a⟩] ∧
        (scanTurn H P L probes con a ts i ns s).p.steps =
          (runAudit H P L probes (con i)
            ⟨subState a ns ts, (existenceCheck H P a i ns s.p).2.steps,
              (existenceCheck H P a i ns s.p).2.w, none⟩).steps ∧
        (scanTurn H P L probes con a ts i ns s).p.w =
          (runAudit H P L probes (con i)
            ⟨subState a ns ts, (existenceCheck H P a i ns s.p).2.steps,
              (existenceCheck H P a i ns s.p).2.w, none⟩).w ∧
        (scanTurn H P L probes con a ts i ns s).p.exit =
          (runAudit H P L probes (con i)
            ⟨subState a ns ts, (existenceCheck H P a i ns s.p).2.steps,
              (existenceCheck H P a i ns s.p).2.w, none⟩).exit) ∧
      (scanTurn H P L probes con a ts i ns s).p.a = s.p.a) ∧
    (∀ A B : String, a.Namespaces = [A, B] → found A = false → found B = true →
      scanTurn H P L probes con a (H.stamp w.log) 0 A ⟨⟨a, [], w, none⟩, 0, []⟩ =
        ⟨(existenceCheck H P a 0 A ⟨a, [], w, none⟩).2.print (skipLine P A), 0, []⟩ ∧
      ∃ r : TargetRun,
        (runMultiNamespaceScan H P L probes con a w).runs = [r] ∧
        r.ns = B ∧
        (runMultiNamespaceScan H P L probes con a w).p.steps.filterMap Step.marker =
          [.preflight, .version, .admission, .network, .configuration, .podSecurity,
           .vulnerabilities, .certificates, .ingress] ∧
        (runMultiNamespaceScan H P L probes con a w).p.steps.filterMap Step.filePath =
          [r.final.JSONReportFile, r.final.TextReportFile] ∧
        (exitStatus (runMultiNamespaceScan H P L probes con a w).p ≠ 0 ↔
          r.final.FailCount > 0)) := by
  have hS : runMultiNamespaceScan H P L probes con a w =
      scanVerdict P a (scanLoop H P L probes con a (H.stamp w.log) 0 a.Namespaces
        ⟨⟨a, [], w, none⟩, 0, []⟩) := rfl
  obtain ⟨added, g1, g2, g3, g4, g5⟩ := scanLoop_found H P L probes con a (H.stamp w.log) found
    a.Namespaces 0 ⟨⟨a, [], w, none⟩, 0, []⟩ hfound h
  obtain ⟨_, f2⟩ := scanLoop_finals H P L probes con a (H.stamp w.log) a.Namespaces 0
    ⟨⟨a, [], w, none⟩, 0, []⟩
  obtain ⟨v1, v2, _, v4⟩ := scanVerdict_alive P a _ h
  have hruns : (runMultiNamespaceScan H P L probes con a w).runs = added := by
    rw [hS, v2, g1]
    rfl
  have hmark : (runMultiNamespaceScan H P L probes con a w).p.steps.filterMap Step.marker =
      added.flatMap (fun _ =>
        [ProbeId.preflight, .version, .admission, .network, .configuration, .podSecurity,
         .vulnerabilities, .certificates, .ingress]) := by
    rw [hS, filterMap_marker_trail]
    change (scanVerdict P a _).p.trail.filterMap Step.marker = _
    rw [v4]
    change ((scanLoop H P L probes con a (H.stamp w.log) 0 a.Namespaces
      ⟨⟨a, [], w, none⟩, 0, []⟩).p.steps.filter (fun s => !s.isPrint)).filterMap Step.marker = _
    rw [← filterMap_marker_trail, g3]
    rfl
  have hfile : (runMultiNamespaceScan H P L probes con a w).p.steps.filterMap Step.filePath =
      added.flatMap (fun r => [r.final.JSONReportFile, r.final.TextReportFile]) := by
    rw [hS, filterMap_filePath_trail]
    change (scanVerdict P a _).p.trail.filterMap Step.filePath = _
    rw [v4]
    change ((scanLoop H P L probes con a (H.stamp w.log) 0 a.Namespaces
      ⟨⟨a, [], w, none⟩, 0, []⟩).p.steps.filter (fun s => !s.isPrint)).filterMap
        Step.filePath = _
    rw [← filterMap_filePath_trail, g4]
    rfl
  have hexit : (exitStatus (runMultiNamespaceScan H P L probes con a w).p ≠ 0 ↔
      (added.map (fun r => r.final.FailCount)).sum > 0) := by
    rw [hS]
    unfold exitStatus
    rw [v1, g5]
    simp only [Nat.zero_add]
    split <;> simp_all
  refine ⟨by rw [hruns, g2], by rw [hruns]; exact hmark, by rw [hruns]; exact hfile,
    by rw [hruns]; exact hexit, ?_, ?_, ?_⟩
  · intro r hr
    rw [hS, scanVerdict_runs] at hr
    rcases f2 r hr with hm | hq
    · simp at hm
    · exact hq
  · intro ts i ns s hs
    obtain ⟨t1, t2⟩ := scanTurn_iff H P L probes con a ts i ns s hs
    exact ⟨t1, t2, (scanTurn_finals H P L probes con a ts i ns s).1⟩
  · intro A B hN hA hB
    have hchk : (existenceCheck H P a 0 A (⟨a, [], w, none⟩ : Proc)).1 = false := by
      have := hfound A (by rw [hN]; simp) ((⟨a, [], w, none⟩ : Proc).print (targetBanner P a 0 A))
        (by simp [Proc.print])
      rw [hA] at this
      exact this
    refine ⟨scanTurn_skip H P L probes con a (H.stamp w.log) 0 A ⟨⟨a, [], w, none⟩, 0, []⟩
      rfl hchk, ?_⟩
    have hns : added.map (fun r => r.ns) = [B] := by
      rw [g2, hN]
      simp [List.filter_cons, hA, hB]
    obtain ⟨r, hr, hrB⟩ : ∃ r, added = [r] ∧ r.ns = B := by
      cases hq : added with
      | nil => rw [hq] at hns; simp at hns
      | cons r rest =>
        cases rest with
        | nil => rw [hq] at hns; exact ⟨r, rfl, by simpa using hns⟩
        | cons r2 rest2 => rw [hq] at hns; simp at hns
    refine ⟨r, by rw [hruns, hr], hrB, ?_, ?_, ?_⟩
    · rw [hmark, hr]
      rfl
    · rw [hfile, hr]
      rfl
    · rw [hexit, hr]
      simp

theorem found_on_hostWithEmptyNamespace :
    ∀ ns ∈ emptyFirstState.Namespaces, ∀ p : Proc, p.exit = none →
      (nsHasIngressNginx hostWithEmptyNamespace ns emptyFirstState.ControllerName p).1 =
        (fun ns => decide (ns = "ingress-nginx")) ns := by
  intro ns hns p hp
  have hmem : ns = "empty" ∨ ns = "ingress-nginx" := by
    simpa [emptyFirstState] using hns
  rcases hmem with rfl | rfl
  · rw [empty_has_no_workload p]
    decide
  · rw [ingressNginx_has_workload p hp]
    decide

set_option maxRecDepth 100000 in
/-- The statement of C15 on `hostWithEmptyNamespace`, for the targets `empty`
and `ingress-nginx`, with the version probe of the source and seven probes
that leave a note when they are called. -/
theorem C15_witness :
    (∀ ns ∈ emptyFirstState.Namespaces, ∀ p : Proc, p.exit = none →
      (nsHasIngressNginx hostWithEmptyNamespace ns emptyFirstState.ControllerName p).1 =
        (fun ns => decide (ns = "ingress-nginx")) ns) ∧
    (scanLoop hostWithEmptyNamespace ansiPalette plainLipgloss
      (notingProbes hostWithEmptyNamespace) (fun _ => demoConsole "no\n") emptyFirstState
      (hostWithEmptyNamespace.stamp healthyWorld.log) 0 emptyFirstState.Namespaces
      ⟨⟨emptyFirstState, [], healthyWorld, none⟩, 0, []⟩).p.exit = none ∧
    (runMultiNamespaceScan hostWithEmptyNamespace ansiPalette plainLipgloss
      (notingProbes hostWithEmptyNamespace) (fun _ => demoConsole "no\n") emptyFirstState
      healthyWorld).runs.map (fun r => r.ns) = ["ingress-nginx"] ∧
    (runMultiNamespaceScan hostWithEmptyNamespace ansiPalette plainLipgloss
      (notingProbes hostWithEmptyNamespace) (fun _ => demoConsole "no\n") emptyFirstState
      healthyWorld).p.steps.filterMap Step.filePath =
      ["ingress-audit-ingress-nginx-20260218-101500.json",
       "ingress-audit-ingress-nginx-20260218-101500.txt"] ∧
    ((runMultiNamespaceScan hostWithEmptyNamespace ansiPalette plainLipgloss
      (notingProbes hostWithEmptyNamespace) (fun _ => demoConsole "no\n") emptyFirstState
      healthyWorld).p.steps.filterMap Step.printed).filter
        (fun t => strContains t "probe " || strContains t "NAMESPACE" ||
          strContains t "SKIP") =
      ["\n\x1b[1m\x1b[0;34m--- NAMESPACE 1/2: empty ---\x1b[0m\n",
       "  \x1b[1;33mSKIP\x1b[0m: No ingress-nginx in namespace \x1b[0;36mempty\x1b[0m\n",
       "\n\x1b[1m\x1b[0;34m--- NAMESPACE 2/2: ingress-nginx ---\x1b[0m\n",
       "probe admission\n", "probe network\n", "probe configuration\n",
       "probe pod security\n", "probe vulnerabilities\n", "probe certificates\n",
       "probe ingress resources\n",
       "\n\x1b[1m\x1b[0;34m=== MULTI-NAMESPACE SCAN COMPLETE ===\x1b[0m\n"] ∧
    exitStatus (runMultiNamespaceScan hostWithEmptyNamespace ansiPalette plainLipgloss
      (notingProbes hostWithEmptyNamespace) (fun _ => demoConsole "no\n") emptyFirstState
      healthyWorld).p = 1 ∧
    (runMultiNamespaceScan hostWithEmptyNamespace ansiPalette plainLipgloss
      (notingProbes hostWithEmptyNamespace) (fun _ => demoConsole "no\n") emptyFirstState
      healthyWorld).runs.map (fun r => r.final.FailCount) = [1] :=
  have h := C15_pipeline_runs_iff_the_workload_is_found hostWithEmptyNamespace ansiPalette
    plainLipgloss (notingProbes hostWithEmptyNamespace) (fun _ => demoConsole "no\n")
    emptyFirstState healthyWorld (fun ns => decide (ns = "ingress-nginx"))
    found_on_hostWithEmptyNamespace (by decide)
  ⟨found_on_hostWithEmptyNamespace, by decide, h.1.trans (by decide), by decide, by decide,
    by decide, by decide⟩


/-! ## Structured report and closing summary -/

/-- The loop over the recommendations writes entry `k` of the list as the line
`    <k+1>. <entry>`. -/
theorem numbered_eq (l : List String) (i : Nat) :
    numbered i l = ((List.range' i l.length).zip l).map
      (fun p => "    " ++ toString (p.1 + 1) ++ ". " ++ p.2) := by
  induction l generalizing i with
  | nil => rfl
  | cons x rest ih => simp [numbered, List.range'_succ, ih]

set_option maxRecDepth 100000 in
/-- C21: for every state, the structured report and the closing summary render
the same values. The four counters of the report are the four counters of the
state, which are the numbers in the stats box of the summary; the
recommendations of the report are `buildRecommendations` of the state, and the
summary prints exactly that list, entry `k` as the line `    <k+1>. <entry>`,
under its `Recommendations:` heading; `publicly_exposed` is true iff the admission service type is not
`ClusterIP` (false for ClusterIP, true for LoadBalancer and NodePort);
`abusebsi_compliant` is the negation of `publicly_exposed`, and the compliance
line of the summary reads COMPLIANT when the flag is true and NON-COMPLIANT
when it is false. `runAudit` builds the report and the summary from one and the
same state. -/
theorem C21_report_and_summary_render_the_same_values (H : Host) (P : Palette) (L : Lipgloss)
    (con : Console) (now : String) (a : AuditState) (steps : List Step) (w : World) :
    (buildReport now a).AuditResults = ⟨a.PassCount, a.FailCount, a.WarnCount, a.InfoCount⟩ ∧
    summaryBoxLines L a =
      (splitLines (L.border
        (if a.FailCount > 0 then "196" else if a.WarnCount > 0 then "226" else "46")
        (strJoin "\n"
          [L.label "Domain:" ++ (buildReport now a).Domain,
           L.label "Email:" ++ (buildReport now a).AdminEmail,
           L.divider (strRepeat "â”€" 44),
           L.label "✓ Passed:" ++ toString (buildReport now a).AuditResults.Passed,
           L.label "✗ Failed:" ++ toString (buildReport now a).AuditResults.Failed,
           L.label "⚠ Warnings:" ++ toString (buildReport now a).AuditResults.Warnings,
           L.label "ℹ Info:" ++ toString (buildReport now a).AuditResults.Info]))).map
        (fun line => "  " ++ line) ∧
    (buildReport now a).Recommendations = buildRecommendations a ∧
    (∃ before after, summaryLines P L a =
      before ++ ["  " ++ P.Bold ++ "Recommendations:" ++ P.Reset] ++
        ((List.range (buildReport now a).Recommendations.length).zip
          (buildReport now a).Recommendations).map
            (fun p => "    " ++ toString (p.1 + 1) ++ ". " ++ p.2) ++
        ["", "  " ++ P.Bold ++ "AbuseBSI Report Response:" ++ P.Reset] ++ after) ∧
    summaryLines ansiPalette plainLipgloss summaryState =
      ["\n\x1b[0;34m\x1b[1m" ++ strRepeat "═" 60 ++ "\x1b[0m",
       "\x1b[0;34m\x1b[1m    AUDIT SUMMARY" ++ strRepeat " " 43 ++ "\x1b[0m",
       "\x1b[0;34m\x1b[1m" ++ strRepeat "═" 60 ++ "\x1b[0m\n",
       "  Domain:rubikmh.io", "  Email:admin@rubikmh.io",
       "  " ++ strRepeat "â”€" 44,
       "  ✓ Passed:7", "  ✗ Failed:3", "  ⚠ Warnings:2", "  ℹ Info:11", "",
       "  \x1b[0;31m\x1b[1m● Overall Status: CRITICAL\x1b[0m",
       "  3 critical issue(s) found — immediate action required!",
       "", "  \x1b[1mKey Findings:\x1b[0m",
       "    • Controller version:          v1.10.0",
       "    • Admission controller:        LoadBalancer",
       "    • AbuseBSI compliance:         \x1b[0;31m✗ NON-COMPLIANT\x1b[0m", "",
       "  \x1b[1mRecommendations:\x1b[0m",
       "    1. Upgrade controller to v1.14.3",
       "    2. Change admission controller service to ClusterIP",
       "    3. Plan migration from Ingress-NGINX (retiring March 2026)",
       "    4. Consider migrating to Gateway API or alternative controller", "",
       "  \x1b[1mAbuseBSI Report Response:\x1b[0m",
       "    Report ID: CB-Report#20260218-10009947",
       "    Status:    \x1b[0;31m✗ STILL VULNERABLE\x1b[0m",
       "    Details:   Exposed via LoadBalancer — immediate remediation required", "",
       "  \x1b[1mReport files generated:\x1b[0m",
       "    • ingress-audit-20260218-101500.txt (text)",
       "    • ingress-audit-20260218-101500.json (json)", "",
       "  \x1b[1mFor questions: admin@rubikmh.io\x1b[0m"] ∧
    ((buildReport now summaryState).AuditResults = ⟨7, 3, 2, 11⟩ ∧
     (buildReport now summaryState).Recommendations =
      ["Upgrade controller to v1.14.3", "Change admission controller service to ClusterIP",
       "Plan migration from Ingress-NGINX (retiring March 2026)",
       "Consider migrating to Gateway API or alternative controller"] ∧
     (buildReport now summaryState).Admission.PubliclyExposed = true ∧
     (buildReport now summaryState).Security.AbuseBSICompliant = false) ∧
    ((buildReport now a).Admission.PubliclyExposed = true ↔ a.AdmissionSvcType ≠ "ClusterIP") ∧
    ((buildReport now { a with AdmissionSvcType := "ClusterIP" }).Admission.PubliclyExposed =
        false ∧
     (buildReport now { a with AdmissionSvcType := "LoadBalancer" }).Admission.PubliclyExposed =
        true ∧
     (buildReport now { a with AdmissionSvcType := "NodePort" }).Admission.PubliclyExposed =
        true) ∧
    (buildReport now a).Security.AbuseBSICompliant =
      !(buildReport now a).Admission.PubliclyExposed ∧
    compliantText P a =
      (if (buildReport now a).Security.AbuseBSICompliant = true then
        P.Green ++ "✓ COMPLIANT" ++ P.Reset
       else P.Red ++ "✗ NON-COMPLIANT" ++ P.Reset) ∧
    ("    • AbuseBSI compliance:         " ++ compliantText P a) ∈ summaryLines P L a ∧
    (generateSummary P L a).2 =
      (summaryLines P L a).map (fun l => Event.stdout (l ++ "\n")) ∧
    (finishAudit H P L con ⟨a, steps, w, none⟩).steps =
      steps ++ [Step.writeReport a.JSONReportFile (buildReport (H.rfc3339 w.log) a)] ++
      (generateSummary P L a).2.map Step.term ++
      [Step.writeText a.TextReportFile (generateSummary P L a).1.OutputBuffer] ++
      (if a.Fixes.length > 0 then
        (offerFixes P con (generateSummary P L a).1 w).events.map Step.term
       else []) := by
  refine ⟨rfl, rfl, rfl, ?_, by decide,
    ⟨rfl, by simp [buildReport, buildRecommendations, summaryState],
      by simp [buildReport, summaryState], by simp [buildReport, summaryState]⟩,
    ?_, ?_, ?_, ?_, ?_, ?_, ?_⟩
  · refine ⟨headerLines P "AUDIT SUMMARY" ++ summaryBoxLines L a ++ [""] ++ statusLines P a ++
      ["", "  " ++ P.Bold ++ "Key Findings:" ++ P.Reset,
       "    • Controller version:          " ++ a.ControllerVersion,
       "    • Admission controller:        " ++ a.AdmissionSvcType,
       "    • AbuseBSI compliance:         " ++ compliantText P a, ""],
      ["    Report ID: CB-Report#20260218-10009947"] ++
      (if a.AdmissionSvcType = "ClusterIP" then
        ["    Status:    " ++ P.Green ++ "✓ RESOLVED" ++ P.Reset,
         "    Details:   Admission controller is not publicly exposed"]
      else
        ["    Status:    " ++ P.Red ++ "✗ STILL VULNERABLE" ++ P.Reset,
         "    Details:   Exposed via " ++ a.AdmissionSvcType ++
           " — immediate remediation required"]) ++
      ["",
       "  " ++ P.Bold ++ "Report files generated:" ++ P.Reset,
       "    • " ++ a.TextReportFile ++ " (text)",
       "    • " ++ a.JSONReportFile ++ " (json)",
       "",
       "  " ++ P.Bold ++ "For questions: " ++ a.Email ++ P.Reset], ?_⟩
    have hn := numbered_eq (buildRecommendations a) 0
    rw [← List.range_eq_range'] at hn
    simp only [summaryLines, summaryTail, buildReport, hn, List.append_assoc, List.cons_append,
      List.nil_append, List.singleton_append]
  · simp [buildReport]
  · simp [buildReport]
  · simp [buildReport]
  · by_cases h : a.AdmissionSvcType = "ClusterIP" <;> simp [compliantText, buildReport, h]
  · simp [summaryLines, summaryTail]
  · rw [generateSummary, writelns_events]
  · exact (finishAudit_alive H P L con ⟨a, steps, w, none⟩ rfl).1


/-! ## stripANSI -/

theorem matchParamsM_spec : ∀ (l : List Char) (n : Nat), matchParamsM l = some n →
    ∃ ps post, l = ps ++ 'm' :: post ∧ (∀ c ∈ ps, c.isDigit = true ∨ c = ';') ∧
      n = ps.length + 1 := by
  intro l
  induction l with
  | nil => intro n h; simp [matchParamsM] at h
  | cons c cs ih =>
    intro n h
    unfold matchParamsM at h
    by_cases hm : c = 'm'
    · rw [if_pos hm] at h
      exact ⟨[], cs, by simp [hm], by simp, by simpa using h.symm⟩
    · rw [if_neg hm] at h
      by_cases hp : isAnsiParam c = true
      · rw [if_pos hp] at h
        cases hr : matchParamsM cs with
        | none => rw [hr] at h; simp at h
        | some k =>
          rw [hr] at h
          obtain ⟨ps, post, e, hall, hk⟩ := ih k hr
          refine ⟨c :: ps, post, by simp [e], ?_, ?_⟩
          · intro x hx
            rcases List.mem_cons.mp hx with rfl | hx
            · simpa [isAnsiParam] using hp
            · exact hall x hx
          · simp at h
            simp [hk, ← h]
      · rw [if_neg hp] at h
        simp at h

theorem matchParamsM_complete : ∀ (ps : List Char) (post : List Char),
    (∀ c ∈ ps, c.isDigit = true ∨ c = ';') →
    matchParamsM (ps ++ 'm' :: post) = some (ps.length + 1) := by
  intro ps
  induction ps with
  | nil => intro post _; simp [matchParamsM]
  | cons c cs ih =>
    intro post h
    have hc := h c (List.mem_cons_self _ _)
    have hm : c ≠ 'm' := by
      rcases hc with hd | hs
      · intro e
        rw [e] at hd
        exact absurd hd (by decide)
      · rw [hs]
        decide
    have hp : isAnsiParam c = true := by simpa [isAnsiParam] using hc
    rw [List.cons_append, matchParamsM, if_neg hm, if_pos hp,
      ih post (fun x hx => h x (List.mem_cons_of_mem _ hx))]
    rfl

theorem matchAnsi_not_esc (c : Char) (cs : List Char) (h : c ≠ '\x1b') :
    matchAnsi (c :: cs) = none := by
  unfold matchAnsi
  split
  · rename_i heq
    simp only [List.cons.injEq] at heq
    exact absurd heq.1 h
  · rfl

theorem matchAnsi_spec (l : List Char) (n : Nat) (h : matchAnsi l = some n) :
    ∃ seq post, l = seq ++ post ∧ AnsiSequence seq ∧ n = seq.length := by
  unfold matchAnsi at h
  split at h
  · rename_i rest
    cases hr : matchParamsM rest with
    | none => rw [hr] at h; simp at h
    | some k =>
      rw [hr] at h
      obtain ⟨ps, post, e, hall, hk⟩ := matchParamsM_spec rest k hr
      refine ⟨'\x1b' :: '[' :: (ps ++ ['m']), post, by simp [e], ⟨ps, hall, rfl⟩, ?_⟩
      simp at h
      simp [hk, ← h]
  · simp at h

theorem matchAnsi_complete (seq post : List Char) (h : AnsiSequence seq) :
    matchAnsi (seq ++ post) = some seq.length := by
  obtain ⟨ps, hall, rfl⟩ := h
  have := matchParamsM_complete ps post hall
  simp only [List.cons_append, List.append_assoc, List.singleton_append, matchAnsi, this]
  simp [this]

theorem containsAnsi_append_right : ∀ (pre l : List Char), containsAnsi l = true →
    containsAnsi (pre ++ l) = true := by
  intro pre
  induction pre with
  | nil => intro l h; exact h
  | cons c cs ih => intro l h; simp [containsAnsi, ih l h]

/-- The test `containsAnsi` decides `HasAnsiSequence`. -/
theorem containsAnsi_iff (s : String) : containsAnsi s.data = true ↔ HasAnsiSequence s := by
  constructor
  · intro h
    suffices hl : ∀ l : List Char, containsAnsi l = true →
        ∃ pre seq post, l = pre ++ seq ++ post ∧ AnsiSequence seq from hl s.data h
    intro l
    induction l with
    | nil => intro h; simp [containsAnsi] at h
    | cons c cs ih =>
      intro h
      simp only [containsAnsi, Bool.or_eq_true] at h
      rcases h with h | h
      · obtain ⟨n, hn⟩ := Option.isSome_iff_exists.mp h
        obtain ⟨seq, post, e, hs, _⟩ := matchAnsi_spec _ n hn
        exact ⟨[], seq, post, by simpa using e, hs⟩
      · obtain ⟨pre, seq, post, e, hs⟩ := ih h
        exact ⟨c :: pre, seq, post, by simp [e], hs⟩
  · rintro ⟨pre, seq, post, e, hs⟩
    rw [e, List.append_assoc]
    apply containsAnsi_append_right
    have hm := matchAnsi_complete seq post hs
    obtain ⟨ps, _, rfl⟩ := hs
    rw [List.cons_append] at hm ⊢
    rw [containsAnsi, hm]
    rfl

/-- A text without a colour sequence is left as it is. -/
theorem stripFrom_clean : ∀ l : List Char, containsAnsi l = false → stripFrom 0 l = l := by
  intro l
  induction l with
  | nil => intro _; rfl
  | cons c cs ih =>
    intro h
    simp only [containsAnsi, Bool.or_eq_false_iff] at h
    have hn : matchAnsi (c :: cs) = none := by
      cases hx : matchAnsi (c :: cs) with
      | none => rfl
      | some k => rw [hx] at h; simp at h
    rw [stripFrom, hn, ih h.2]

theorem matchAnsi_ge_two (l : List Char) (n : Nat) (h : matchAnsi l = some n) :
    ∃ k, n = k + 1 := by
  obtain ⟨seq, post, _, ⟨ps, _, rfl⟩, hn⟩ := matchAnsi_spec l n h
  exact ⟨ps.length + 2, by simp [hn]⟩

/-- When every ESC starts a complete sequence, no ESC is left. -/
theorem stripFrom_no_esc : ∀ (l : List Char) (skip : Nat), escapesComplete l = true →
    '\x1b' ∉ stripFrom skip l := by
  intro l
  induction l with
  | nil => intro skip _; cases skip <;> simp [stripFrom]
  | cons c cs ih =>
    intro skip h
    simp only [escapesComplete, Bool.and_eq_true, Bool.or_eq_true, decide_eq_true_eq] at h
    cases skip with
    | succ k => rw [stripFrom]; exact ih k h.2
    | zero =>
      cases hm : matchAnsi (c :: cs) with
      | some n =>
        obtain ⟨k, rfl⟩ := matchAnsi_ge_two _ n hm
        rw [stripFrom, hm]
        exact ih k h.2
      | none =>
        rw [stripFrom, hm]
        have hc : c ≠ '\x1b' := by
          rcases h.1 with h1 | h1
          · simpa using h1
          · rw [hm] at h1; simp at h1
        simp only [List.mem_cons, not_or]
        exact ⟨fun e => hc e.symm, ih 0 h.2⟩


theorem stripFrom_sublist : ∀ (l : List Char) (skip : Nat), (stripFrom skip l).Sublist l := by
  intro l
  induction l with
  | nil => intro skip; cases skip <;> simp [stripFrom]
  | cons c cs ih =>
    intro skip
    cases skip with
    | succ k => rw [stripFrom]; exact List.Sublist.cons c (ih k)
    | zero =>
      cases hm : matchAnsi (c :: cs) with
      | some n =>
        obtain ⟨k, rfl⟩ := matchAnsi_ge_two _ n hm
        rw [stripFrom, hm]
        exact List.Sublist.cons c (ih k)
      | none =>
        rw [stripFrom, hm]
        exact List.Sublist.cons₂ c (ih 0)

theorem no_esc_no_sequence (s : String) (h : '\x1b' ∉ s.data) : ¬ HasAnsiSequence s := by
  rintro ⟨pre, seq, post, e, ps, _, rfl⟩
  apply h
  rw [e]
  simp

/-- C25, as the claim states it, fails: the text `ESC [ ESC [ 0 m m` holds one
match of the pattern, the inner `ESC [ 0 m`; deleting it leaves `ESC [ m`,
which is itself a colour escape sequence. -/
theorem C25_counterexample_sequence_left_after_stripping :
    stripANSI "\x1b[\x1b[0mm" = "\x1b[m" ∧ HasAnsiSequence (stripANSI "\x1b[\x1b[0mm") :=
  ⟨by decide, (containsAnsi_iff _).mp (by decide)⟩

/-- C25, amended: when every ESC of the text is the first rune of a complete
colour sequence, stripANSI leaves no ESC and therefore no colour sequence. For
every text the result is the text with runes deleted, the others kept in order.
The two texts of the tests give `PASS: all good` and `ERROR detail`. -/
theorem C25_no_sequence_left_when_every_escape_is_complete (s : String)
    (h : escapesComplete s.data = true) :
    '\x1b' ∉ (stripANSI s).data ∧
    ¬ HasAnsiSequence (stripANSI s) ∧
    (∀ t : String, (stripANSI t).data.Sublist t.data) ∧
    stripANSI "\x1b[0;32mPASS\x1b[0m: all good" = "PASS: all good" ∧
    stripANSI "\x1b[1m\x1b[0;31mERROR\x1b[0m\x1b[2m detail\x1b[0m" = "ERROR detail" := by
  have hesc : '\x1b' ∉ (stripANSI s).data := stripFrom_no_esc s.data 0 h
  exact ⟨hesc, no_esc_no_sequence _ hesc, fun t => stripFrom_sublist t.data 0, by decide,
    by decide⟩

/-- C25 on the first text of the tests. -/
theorem C25_witness :
    escapesComplete "\x1b[0;32mPASS\x1b[0m: all good".data = true ∧
    ¬ HasAnsiSequence (stripANSI "\x1b[0;32mPASS\x1b[0m: all good") :=
  ⟨by decide,
   (C25_no_sequence_left_when_every_escape_is_complete "\x1b[0;32mPASS\x1b[0m: all good"
     (by decide)).2.1⟩

/-! ## The output buffer -/

theorem matchParamsM_append_newline : ∀ l : List Char,
    matchParamsM (l ++ ['\n']) = matchParamsM l := by
  intro l
  induction l with
  | nil => decide
  | cons c cs ih => simp only [List.cons_append, matchParamsM, List.append_eq, ih]

theorem matchAnsi_short (c d : Char) (rest : List Char) (h : d ≠ '[') :
    matchAnsi (c :: d :: rest) = none := by
  unfold matchAnsi
  split
  · rename_i heq
    simp only [List.cons.injEq] at heq
    exact absurd heq.2.1 h
  · rfl

theorem matchAnsi_single (c : Char) : matchAnsi [c] = none := by
  unfold matchAnsi
  split
  · rename_i heq
    simp at heq
  · rfl

theorem matchAnsi_append_newline (l : List Char) : matchAnsi (l ++ ['\n']) = matchAnsi l := by
  rcases l with _ | ⟨c, _ | ⟨d, rest⟩⟩
  · decide
  · rw [matchAnsi_single]
    exact matchAnsi_short c '\n' [] (by decide)
  · by_cases hc : c = '\x1b'
    · by_cases hd : d = '['
      · subst hc hd
        simp only [List.cons_append, matchAnsi, matchParamsM_append_newline]
      · rw [matchAnsi_short c d rest hd]
        exact matchAnsi_short c d _ hd
    · rw [matchAnsi_not_esc c _ hc]
      exact matchAnsi_not_esc c _ hc

theorem containsAnsi_append_newline : ∀ l : List Char,
    containsAnsi (l ++ ['\n']) = containsAnsi l := by
  intro l
  induction l with
  | nil => decide
  | cons c cs ih =>
    have := matchAnsi_append_newline (c :: cs)
    rw [List.cons_append] at this ⊢
    rw [containsAnsi, containsAnsi, this, ih]

/-- The PASS line in the usual colours, stripped. -/
theorem strip_pass_prefix (t : List Char) :
    stripFrom 0 ('\x1b' :: '[' :: '0' :: ';' :: '3' :: '2' :: 'm' :: '✓' :: ' ' :: 'P' :: 'A' ::
      'S' :: 'S' :: '\x1b' :: '[' :: '0' :: 'm' :: ':' :: ' ' :: t) =
      '✓' :: ' ' :: 'P' :: 'A' :: 'S' :: 'S' :: ':' :: ' ' :: stripFrom 0 t := rfl

/-- The FAIL line in the usual colours, stripped. -/
theorem strip_fail_prefix (t : List Char) :
    stripFrom 0 ('\x1b' :: '[' :: '0' :: ';' :: '3' :: '1' :: 'm' :: '✗' :: ' ' :: 'F' :: 'A' ::
      'I' :: 'L' :: '\x1b' :: '[' :: '0' :: 'm' :: ':' :: ' ' :: t) =
      '✗' :: ' ' :: 'F' :: 'A' :: 'I' :: 'L' :: ':' :: ' ' :: stripFrom 0 t := rfl

theorem concatAll_cons (s : String) (rest : List String) :
    concatAll (s :: rest) = s ++ concatAll rest := rfl

theorem writeCall_run (P : Palette) (c : WriteCall) (a : AuditState) :
    (c.run P a).1.OutputBuffer = a.OutputBuffer ++ stripANSI (c.text P) ∧
    (c.run P a).2 = [Event.stdout (c.text P)] := by
  rcases c with s | s | ⟨k, msg⟩ | msg
  · exact ⟨rfl, rfl⟩
  · exact ⟨rfl, rfl⟩
  · cases k <;>
      simp [WriteCall.run, WriteCall.text, LogCall.run, logPass, logFail, logWarn, logInfo,
        writeln, write, String.append_assoc]
  · simp [WriteCall.run, WriteCall.text, logStep, writeln, write, String.append_assoc]

theorem runWrites_spec (P : Palette) : ∀ (cs : List WriteCall) (a : AuditState),
    (runWrites P cs a).1.OutputBuffer =
      a.OutputBuffer ++ concatAll (cs.map (fun c => stripANSI (c.text P))) ∧
    (runWrites P cs a).2 = cs.map (fun c => Event.stdout (c.text P)) := by
  intro cs
  induction cs with
  | nil => intro a; simp [runWrites, concatAll]
  | cons c cs ih =>
    intro a
    obtain ⟨h1, h2⟩ := writeCall_run P c a
    obtain ⟨i1, i2⟩ := ih (c.run P a).1
    simp only [runWrites, List.map_cons, concatAll_cons]
    rw [i1, i2, h1, h2, String.append_assoc]
    exact ⟨rfl, rfl⟩


theorem clean_with_newline (msg : String) (h : ¬ HasAnsiSequence msg) :
    containsAnsi (msg.data ++ ['\n']) = false := by
  rw [containsAnsi_append_newline]
  cases hc : containsAnsi msg.data with
  | false => rfl
  | true => exact absurd ((containsAnsi_iff msg).mp hc) h

theorem stripANSI_pass_line (msg : String) (h : ¬ HasAnsiSequence msg) :
    stripANSI (ansiPalette.Green ++ "✓ PASS" ++ ansiPalette.Reset ++ ": " ++ msg ++ "\n") =
      "✓ PASS: " ++ msg ++ "\n" := by
  apply String.ext
  have e := strip_pass_prefix (msg.data ++ ['\n'])
  rw [stripFrom_clean _ (clean_with_newline msg h)] at e
  exact e

theorem stripANSI_fail_line (msg : String) (h : ¬ HasAnsiSequence msg) :
    stripANSI (ansiPalette.Red ++ "✗ FAIL" ++ ansiPalette.Reset ++ ": " ++ msg ++ "\n") =
      "✗ FAIL: " ++ msg ++ "\n" := by
  apply String.ext
  have e := strip_fail_prefix (msg.data ++ ['\n'])
  rw [stripFrom_clean _ (clean_with_newline msg h)] at e
  exact e

/-- C26: the output buffer only grows, by the stripped form of each text
written. After any sequence of write, writeln, logPass, logFail, logWarn,
logInfo and logStep calls the buffer is the buffer before, followed by
stripANSI of each text the calls wrote, in call order, and the terminal got
those texts unstripped. stripANSI leaves a text without colour sequence as it
is. With the usual colour codes and a message without colour sequence, the
buffer after logPass (resp. logFail) is the buffer before followed by the line
`✓ PASS: ` (resp. `✗ FAIL: `), the message verbatim, and a newline. -/
theorem C26_buffer_is_concatenation_of_stripped_texts (P : Palette) (cs : List WriteCall)
    (a : AuditState) (msg : String) (h : ¬ HasAnsiSequence msg) :
    (runWrites P cs a).1.OutputBuffer =
      a.OutputBuffer ++ concatAll (cs.map (fun c => stripANSI (c.text P))) ∧
    (runWrites P cs a).2 = cs.map (fun c => Event.stdout (c.text P)) ∧
    (∀ s : String, (write s a).1.OutputBuffer = a.OutputBuffer ++ stripANSI s ∧
      (writeln s a).1.OutputBuffer = a.OutputBuffer ++ stripANSI (s ++ "\n")) ∧
    stripANSI msg = msg ∧
    (logPass ansiPalette msg a).1.OutputBuffer = a.OutputBuffer ++ "✓ PASS: " ++ msg ++ "\n" ∧
    (logFail ansiPalette msg a).1.OutputBuffer = a.OutputBuffer ++ "✗ FAIL: " ++ msg ++ "\n" ∧
    (logPass P msg a).1.OutputBuffer =
      a.OutputBuffer ++ stripANSI (P.Green ++ "✓ PASS" ++ P.Reset ++ ": " ++ msg ++ "\n") := by
  obtain ⟨r1, r2⟩ := runWrites_spec P cs a
  have hm : containsAnsi msg.data = false := by
    cases hc : containsAnsi msg.data with
    | false => rfl
    | true => exact absurd ((containsAnsi_iff msg).mp hc) h
  refine ⟨r1, r2, fun s => ⟨rfl, rfl⟩, ?_, ?_, ?_, rfl⟩
  · exact String.ext (stripFrom_clean msg.data hm)
  · show a.OutputBuffer ++ stripANSI _ = _
    rw [stripANSI_pass_line msg h]
    simp [String.append_assoc]
  · show a.OutputBuffer ++ stripANSI _ = _
    rw [stripANSI_fail_line msg h]
    simp [String.append_assoc]

/-- C26 on the calls of the tests: logPass and logFail on `newTestState`. -/
theorem C26_witness :
    ¬ HasAnsiSequence "deployment healthy" ∧
    (logPass ansiPalette "deployment healthy" newTestState).1.OutputBuffer =
      newTestState.OutputBuffer ++ "✓ PASS: " ++ "deployment healthy" ++ "\n" ∧
    (runWrites ansiPalette [.log ⟨.PASS, "deployment healthy"⟩, .writeln "  detail",
        .log ⟨.FAIL, "service exposed"⟩] newTestState).1.OutputBuffer =
      newTestState.OutputBuffer ++ concatAll
        ([WriteCall.log ⟨.PASS, "deployment healthy"⟩, .writeln "  detail",
          .log ⟨.FAIL, "service exposed"⟩].map (fun c => stripANSI (c.text ansiPalette))) :=
  have hn : ¬ HasAnsiSequence "deployment healthy" :=
    fun hs => absurd ((containsAnsi_iff _).mpr hs) (by decide)
  ⟨hn,
   (C26_buffer_is_concatenation_of_stripped_texts ansiPalette [] newTestState
      "deployment healthy" hn).2.2.2.2.1,
   (C26_buffer_is_concatenation_of_stripped_texts ansiPalette
      [.log ⟨.PASS, "deployment healthy"⟩, .writeln "  detail",
        .log ⟨.FAIL, "service exposed"⟩] newTestState "deployment healthy" hn).1⟩


/-! ## extractVersion -/

theorem fieldsFuncFrom_append_sep (isSep : Char → Bool) (c : Char) (ys : List Char)
    (hc : isSep c = true) : ∀ (l cur : List Char),
    fieldsFuncFrom isSep cur (l ++ c :: ys) =
      fieldsFuncFrom isSep cur l ++ fieldsFuncFrom isSep [] ys := by
  intro l
  induction l with
  | nil =>
    intro cur
    cases cur <;> simp [fieldsFuncFrom, hc]
  | cons x l ih =>
    intro cur
    by_cases hx : isSep x = true
    · cases cur <;> simp [fieldsFuncFrom, hx, ih]
    · simp [fieldsFuncFrom, hx, ih]

theorem fieldsFuncFrom_no_sep (isSep : Char → Bool) : ∀ (l cur : List Char),
    (∀ c ∈ l, isSep c = false) →
    fieldsFuncFrom isSep cur l = if (cur ++ l).isEmpty then [] else [String.mk (cur ++ l)] := by
  intro l
  induction l with
  | nil => intro cur _; simp [fieldsFuncFrom]
  | cons x l ih =>
    intro cur h
    have hx := h x (List.mem_cons_self _ _)
    rw [fieldsFuncFrom, if_neg (by simp [hx]), ih _ (fun c hc => h c (List.mem_cons_of_mem _ hc))]
    simp

theorem firstVTag_append (A B : List String) (h : firstVTag A = none) :
    firstVTag (A ++ B) = firstVTag B := by
  induction A with
  | nil => rfl
  | cons p rest ih =>
    rw [firstVTag] at h
    split at h
    · cases h
    · rename_i hc
      rw [List.cons_append, firstVTag, if_neg hc]
      exact ih h

theorem countDots_beforeDash_le (p : String) : countDots (beforeDash p) ≤ countDots p :=
  (List.takeWhile_sublist _).count_le _

theorem firstVTag_none (A : List String)
    (h : ∀ p ∈ A, ¬ (p.data.head? = some 'v' ∧ countDots p ≥ 2)) : firstVTag A = none := by
  induction A with
  | nil => rfl
  | cons p rest ih =>
    rw [firstVTag, if_neg, ih (fun q hq => h q (List.mem_cons_of_mem _ hq))]
    rintro ⟨_, hv, hd⟩
    exact h p (List.mem_cons_self _ _)
      ⟨hv, Nat.le_trans hd (countDots_beforeDash_le p)⟩

theorem extractVersion_eq (s : String) :
    extractVersion s =
      match firstVTag (imageParts s) with
      | some v => v
      | none =>
        match firstBareVersion (imageParts s) with
        | some v => v
        | none => "unknown" := rfl

theorem digit_ne (c x : Char) (hd : c.isDigit = true) (hx : x.isDigit = false) : c ≠ x := by
  intro e
  rw [e, hx] at hd
  cases hd

theorem utf8ByteSize_two (c d : Char) (rest : List Char) :
    (String.mk (c :: d :: rest)).utf8ByteSize > 1 := by
  show String.utf8ByteSize.go (c :: d :: rest) > 1
  simp only [String.utf8ByteSize.go]
  have h1 := Char.utf8Size_pos c
  have h2 := Char.utf8Size_pos d
  omega


theorem decimal_chars (X : String) (h : isDecimal X = true) :
    X.data ≠ [] ∧ ∀ c ∈ X.data, c.isDigit = true := by
  simp only [isDecimal, Bool.and_eq_true, Bool.not_eq_true', List.isEmpty_eq_false,
    List.all_eq_true] at h
  exact h

/-- The runes `v X . Y . Z` of a version tag, followed by nothing or by a dash
and more: the text before the dash is the tag, which has two dots. -/
theorem version_tag_shape (X Y Z : String) (hX : isDecimal X = true) (hY : isDecimal Y = true)
    (hZ : isDecimal Z = true) (S : List Char) (hS : S = [] ∨ S.head? = some '-') :
    beforeDash (String.mk ('v' :: (X.data ++ '.' :: (Y.data ++ '.' :: Z.data)) ++ S)) =
      String.mk ('v' :: (X.data ++ '.' :: (Y.data ++ '.' :: Z.data))) ∧
    countDots (String.mk ('v' :: (X.data ++ '.' :: (Y.data ++ '.' :: Z.data)))) = 2 ∧
    ∀ c ∈ 'v' :: (X.data ++ '.' :: (Y.data ++ '.' :: Z.data)), imageSep c = false := by
  obtain ⟨_, dX⟩ := decimal_chars X hX
  obtain ⟨_, dY⟩ := decimal_chars Y hY
  obtain ⟨_, dZ⟩ := decimal_chars Z hZ
  have hmem : ∀ c ∈ 'v' :: (X.data ++ '.' :: (Y.data ++ '.' :: Z.data)),
      c = 'v' ∨ c = '.' ∨ c.isDigit = true := by
    intro c hc
    simp only [List.mem_cons, List.mem_append] at hc
    rcases hc with h | h | h | h | h | h
    · exact Or.inl h
    · exact Or.inr (Or.inr (dX c h))
    · exact Or.inr (Or.inl h)
    · exact Or.inr (Or.inr (dY c h))
    · exact Or.inr (Or.inl h)
    · exact Or.inr (Or.inr (dZ c h))
  refine ⟨?_, ?_, ?_⟩
  · unfold beforeDash
    congr 1
    show List.takeWhile _ (_ ++ S) = _
    rw [List.takeWhile_append_of_pos]
    · rcases hS with rfl | hS
      · simp
      · cases S with
        | nil => simp
        | cons x rest =>
          simp only [List.head?_cons, Option.some.injEq] at hS
          simp [hS]
    · intro c hc
      rcases hmem c hc with h | h | h
      · rw [h]; decide
      · rw [h]; decide
      · simpa using digit_ne c '-' h (by decide)
  · have cX : List.count '.' X.data = 0 :=
      List.count_eq_zero.mpr (fun hm => digit_ne _ '.' (dX _ hm) (by decide) rfl)
    have cY : List.count '.' Y.data = 0 :=
      List.count_eq_zero.mpr (fun hm => digit_ne _ '.' (dY _ hm) (by decide) rfl)
    have cZ : List.count '.' Z.data = 0 :=
      List.count_eq_zero.mpr (fun hm => digit_ne _ '.' (dZ _ hm) (by decide) rfl)
    show List.count '.' ('v' :: (X.data ++ '.' :: (Y.data ++ '.' :: Z.data))) = 2
    rw [List.count_cons, List.count_append, List.count_cons, List.count_append, List.count_cons,
      cX, cY, cZ]
    decide
  · intro c hc
    rcases hmem c hc with h | h | h
    · rw [h]; decide
    · rw [h]; decide
    · have h1 := digit_ne c ':' h (by decide)
      have h2 := digit_ne c '@' h (by decide)
      have h3 := digit_ne c '/' h (by decide)
      simp [imageSep, h1, h2, h3]

/-- The first loop of `extractVersion` takes a version tag that comes first. -/
theorem firstVTag_tag (X Y Z : String) (hX : isDecimal X = true) (hY : isDecimal Y = true)
    (hZ : isDecimal Z = true) (S : List Char) (hS : S = [] ∨ S.head? = some '-')
    (R : List String) :
    firstVTag (String.mk ('v' :: (X.data ++ '.' :: (Y.data ++ '.' :: Z.data)) ++ S) :: R) =
      some (String.mk ('v' :: (X.data ++ '.' :: (Y.data ++ '.' :: Z.data)))) := by
  obtain ⟨b, d, _⟩ := version_tag_shape X Y Z hX hY hZ S hS
  obtain ⟨nX, _⟩ := decimal_chars X hX
  rw [firstVTag, if_pos, b]
  refine ⟨?_, rfl, ?_⟩
  · cases hx : X.data with
    | nil => exact absurd hx nX
    | cons x rest => exact utf8ByteSize_two _ _ _
  · rw [b, d]


/-- C23: for an image reference `repo:vX.Y.Z`, with X, Y, Z decimal numbers,
optionally followed by a suffix that starts with a dash and by a digest that
starts with `@`, where no piece of `repo` between `:`, `@` and `/` starts with
`v` and has two dots, `extractVersion` returns exactly `vX.Y.Z`: suffix and
digest are dropped, and a registry host with dots is not taken for the version.
The references of the tests give `v1.11.0`, `v1.14.3`, `v1.14.3` and `v2.0.0`. -/
theorem C23_version_tag_is_extracted (repo X Y Z suffix digest : String)
    (hX : isDecimal X = true) (hY : isDecimal Y = true) (hZ : isDecimal Z = true)
    (hs : suffix = "" ∨
      (suffix.data.head? = some '-' ∧ ∀ c ∈ suffix.data, c ≠ ':' ∧ c ≠ '@' ∧ c ≠ '/'))
    (hd : digest = "" ∨ digest.data.head? = some '@')
    (hr : ∀ p ∈ imageParts repo, ¬ (p.data.head? = some 'v' ∧ countDots p ≥ 2)) :
    extractVersion (repo ++ ":" ++ "v" ++ X ++ "." ++ Y ++ "." ++ Z ++ suffix ++ digest) =
      "v" ++ X ++ "." ++ Y ++ "." ++ Z ∧
    extractVersion "registry.k8s.io/ingress-nginx/controller:v1.11.0" = "v1.11.0" ∧
    extractVersion "registry.k8s.io/ingress-nginx/controller:v1.14.3" = "v1.14.3" ∧
    extractVersion "controller:v1.14.3@sha256:abc" = "v1.14.3" ∧
    extractVersion "controller:v2.0.0-alpha.1" = "v2.0.0" := by
  refine ⟨?_, by decide, by decide, by decide, by decide⟩
  have hS : suffix.data = [] ∨ suffix.data.head? = some '-' := by
    rcases hs with rfl | ⟨h, _⟩
    · exact Or.inl rfl
    · exact Or.inr h
  have hsep : ∀ c ∈ suffix.data, imageSep c = false := by
    rcases hs with rfl | ⟨_, h⟩
    · intro c hc
      cases hc
    · intro c hc
      obtain ⟨h1, h2, h3⟩ := h c hc
      simp [imageSep, h1, h2, h3]
  obtain ⟨_, _, tsep⟩ := version_tag_shape X Y Z hX hY hZ suffix.data hS
  have hdata : (repo ++ ":" ++ "v" ++ X ++ "." ++ Y ++ "." ++ Z ++ suffix ++ digest).data =
      repo.data ++ ':' :: (('v' :: (X.data ++ '.' :: (Y.data ++ '.' :: Z.data)) ++ suffix.data) ++
        digest.data) := by
    simp only [String.data_append]
    simp
  have hparts : ∃ R, imageParts
      (repo ++ ":" ++ "v" ++ X ++ "." ++ Y ++ "." ++ Z ++ suffix ++ digest) =
      imageParts repo ++
        (String.mk ('v' :: (X.data ++ '.' :: (Y.data ++ '.' :: Z.data)) ++ suffix.data) :: R) := by
    have hall : ∀ c ∈ 'v' :: (X.data ++ '.' :: (Y.data ++ '.' :: Z.data)) ++ suffix.data,
        imageSep c = false := by
      intro c hc
      rcases List.mem_append.mp hc with h | h
      · exact tsep c h
      · exact hsep c h
    have hone := fieldsFuncFrom_no_sep imageSep _ [] hall
    rw [List.nil_append, if_neg (by simp)] at hone
    unfold imageParts
    rw [hdata]
    change ∃ R, fieldsFuncFrom imageSep [] _ = fieldsFuncFrom imageSep [] _ ++ _
    rw [fieldsFuncFrom_append_sep imageSep ':' _ (by decide)]
    rcases hd with rfl | hd
    · refine ⟨[], ?_⟩
      have : ("" : String).data = [] := rfl
      rw [this, List.append_nil, hone]
    · cases hdd : digest.data with
      | nil => rw [hdd] at hd; cases hd
      | cons x rest =>
        rw [hdd] at hd
        simp only [List.head?_cons, Option.some.injEq] at hd
        subst hd
        rw [fieldsFuncFrom_append_sep imageSep '@' _ (by decide), hone]
        exact ⟨_, rfl⟩
  obtain ⟨R, hR⟩ := hparts
  rw [extractVersion_eq, hR, firstVTag_append _ _ (firstVTag_none _ hr),
    firstVTag_tag X Y Z hX hY hZ suffix.data hS R]
  apply String.ext
  simp only [String.data_append]
  simp

/-- C23 on `registry.k8s.io/ingress-nginx/controller:v1.14.3-beta@sha256:abc`. -/
theorem C23_witness :
    extractVersion ("registry.k8s.io/ingress-nginx/controller" ++ ":" ++ "v" ++ "1" ++ "." ++
      "14" ++ "." ++ "3" ++ "-beta" ++ "@sha256:abc") = "v" ++ "1" ++ "." ++ "14" ++ "." ++ "3" :=
  (C23_version_tag_is_extracted "registry.k8s.io/ingress-nginx/controller" "1" "14" "3"
    "-beta" "@sha256:abc" (by decide) (by decide) (by decide)
    (Or.inr ⟨by decide, by decide⟩) (Or.inr (by decide)) (by decide)).1


theorem firstVTag_some (A : List String) (v : String) (h : firstVTag A = some v) :
    ∃ p ∈ A, v = beforeDash p ∧ countDots (beforeDash p) ≥ 2 ∧
      p.data.head? = some 'v' ∧ p.utf8ByteSize > 1 := by
  induction A with
  | nil => cases h
  | cons p rest ih =>
    rw [firstVTag] at h
    split at h
    · rename_i hc
      simp only [Option.some.injEq] at h
      exact ⟨p, List.mem_cons_self _ _, h.symm, hc.2.2, hc.2.1, hc.1⟩
    · obtain ⟨q, hq, r⟩ := ih h
      exact ⟨q, List.mem_cons_of_mem _ hq, r⟩

theorem firstBareVersion_some (A : List String) (v : String) (h : firstBareVersion A = some v) :
    ∃ p ∈ A, v = beforeDash p ∧ countDots (beforeDash p) ≥ 2 ∧
      (beforeDash p).data.all (fun c => c = '.' || ('0' ≤ c && c ≤ '9')) = true := by
  induction A with
  | nil => cases h
  | cons p rest ih =>
    rw [firstBareVersion] at h
    split at h
    · rename_i hc
      simp only [Option.some.injEq] at h
      exact ⟨p, List.mem_cons_self _ _, h.symm, hc.1, hc.2⟩
    · obtain ⟨q, hq, r⟩ := ih h
      exact ⟨q, List.mem_cons_of_mem _ hq, r⟩

/-- C24 on the code: `extractVersion` returns `unknown` or the text before the
first dash of one of the pieces of its input, a text with at least two dots;
that piece either starts with `v` (first loop) or its text before the dash is
made of digits and dots only (second loop). An input none of whose pieces has
two dots before its first dash gives `unknown`, as do the four inputs of the
claim. But the first loop does not look at the runes after the `v`: for the
image `vault.example.com/ingress-nginx/controller:v1.14.3` the result is the
registry host `vault.example.com`, which is not semver-like, so the statement
that the result is always `unknown` or semver-like is false; the version probe
then records a FAIL and registers the upgrade fix for a controller that runs
v1.14.3. -/
theorem C24_result_is_unknown_or_a_piece_not_always_semver (s : String) :
    (extractVersion s = "unknown" ∨
      ∃ p ∈ imageParts s, extractVersion s = beforeDash p ∧ countDots (beforeDash p) ≥ 2 ∧
        ((p.data.head? = some 'v' ∧ p.utf8ByteSize > 1) ∨
          (beforeDash p).data.all (fun c => c = '.' || ('0' ≤ c && c ≤ '9')) = true)) ∧
    ((∀ p ∈ imageParts s, countDots (beforeDash p) < 2) → extractVersion s = "unknown") ∧
    (extractVersion "" = "unknown" ∧ extractVersion "nodots" = "unknown" ∧
      extractVersion "onedot.only" = "unknown" ∧ extractVersion "chart-1.2.3" = "unknown" ∧
      extractVersion "some/path:1.2.3" = "1.2.3") ∧
    extractVersion "vault.example.com/ingress-nginx/controller:v1.14.3" = "vault.example.com" ∧
    semverLike "vault.example.com" = false ∧
    semverLike "v1.14.3" = true ∧
    ¬ (∀ t : String, extractVersion t = "unknown" ∨ semverLike (extractVersion t) = true) ∧
    ((versionAnalysis ansiPalette
        ⟨{ ControllerImage := "vault.example.com/ingress-nginx/controller:v1.14.3" }, [],
          calmWorld, none⟩).a.ControllerVersion = "vault.example.com" ∧
      (versionAnalysis ansiPalette
        ⟨{ ControllerImage := "vault.example.com/ingress-nginx/controller:v1.14.3" }, [],
          calmWorld, none⟩).a.FailCount = 1 ∧
      (versionAnalysis ansiPalette
        ⟨{ ControllerImage := "vault.example.com/ingress-nginx/controller:v1.14.3" }, [],
          calmWorld, none⟩).a.Fixes.map (fun f => f.ID) = ["upgrade-controller"]) := by
  refine ⟨?_, ?_, by decide, by decide, by decide, by decide, ?_, by decide⟩
  · rw [extractVersion_eq]
    cases h1 : firstVTag (imageParts s) with
    | some v =>
      obtain ⟨p, hp, e, d, hv, hl⟩ := firstVTag_some _ v h1
      exact Or.inr ⟨p, hp, e, d, Or.inl ⟨hv, hl⟩⟩
    | none =>
      cases h2 : firstBareVersion (imageParts s) with
      | some v =>
        obtain ⟨p, hp, e, d, hall⟩ := firstBareVersion_some _ v h2
        exact Or.inr ⟨p, hp, e, d, Or.inr hall⟩
      | none => exact Or.inl rfl
  · intro h
    rw [extractVersion_eq]
    cases h1 : firstVTag (imageParts s) with
    | some v =>
      obtain ⟨p, hp, _, d, _⟩ := firstVTag_some _ v h1
      exact absurd d (Nat.not_le.mpr (h p hp))
    | none =>
      cases h2 : firstBareVersion (imageParts s) with
      | some v =>
        obtain ⟨p, hp, _, d, _⟩ := firstBareVersion_some _ v h2
        exact absurd d (Nat.not_le.mpr (h p hp))
      | none => rfl
  · intro h
    have := h "vault.example.com/ingress-nginx/controller:v1.14.3"
    revert this
    decide


theorem extractVersion_unknown (s : String)
    (h : ∀ p ∈ imageParts s, countDots (beforeDash p) < 2) : extractVersion s = "unknown" := by
  rw [extractVersion_eq]
  cases h1 : firstVTag (imageParts s) with
  | some v =>
    obtain ⟨p, hp, _, d, _⟩ := firstVTag_some _ v h1
    exact absurd d (Nat.not_le.mpr (h p hp))
  | none =>
    cases h2 : firstBareVersion (imageParts s) with
    | some v =>
      obtain ⟨p, hp, _, d, _⟩ := firstBareVersion_some _ v h2
      exact absurd d (Nat.not_le.mpr (h p hp))
    | none => rfl

theorem takeWhile_append_stop {α : Type} (p : α → Bool) (c : α) (r : List α)
    (hc : p c = false) : ∀ l : List α, List.takeWhile p (l ++ c :: r) = List.takeWhile p l := by
  intro l
  induction l with
  | nil => simp [List.takeWhile_cons, hc]
  | cons x l ih =>
    rw [List.cons_append, List.takeWhile_cons, List.takeWhile_cons, ih]

/-- A chart identifier `name-version` whose name has no dot: nothing before the
first dash has a dot, so no version is found. -/
theorem extractVersion_chart_identifier (name ver : String)
    (hn : ∀ c ∈ name.data, c ≠ '.' ∧ c ≠ ':' ∧ c ≠ '@' ∧ c ≠ '/')
    (hv : ∀ c ∈ ver.data, c ≠ ':' ∧ c ≠ '@' ∧ c ≠ '/') :
    extractVersion (name ++ "-" ++ ver) = "unknown" := by
  apply extractVersion_unknown
  have hdata : (name ++ "-" ++ ver).data = name.data ++ '-' :: ver.data := by
    simp only [String.data_append]
    simp
  have hall : ∀ c ∈ name.data ++ '-' :: ver.data, imageSep c = false := by
    intro c hc
    rcases List.mem_append.mp hc with h | h
    · obtain ⟨_, h1, h2, h3⟩ := hn c h
      simp [imageSep, h1, h2, h3]
    · rcases List.mem_cons.mp h with h | h
      · rw [h]; decide
      · obtain ⟨h1, h2, h3⟩ := hv c h
        simp [imageSep, h1, h2, h3]
  have hone := fieldsFuncFrom_no_sep imageSep _ [] hall
  rw [List.nil_append, if_neg (by simp)] at hone
  intro p hp
  unfold imageParts at hp
  rw [hdata] at hp
  change p ∈ fieldsFuncFrom imageSep [] _ at hp
  rw [hone] at hp
  simp only [List.mem_singleton] at hp
  subst hp
  show List.count '.' (List.takeWhile _ (name.data ++ '-' :: ver.data)) < 2
  rw [takeWhile_append_stop _ '-' _ (by decide)]
  have hz : List.count '.' name.data = 0 :=
    List.count_eq_zero.mpr (fun hm => (hn _ hm).1 rfl)
  have := (List.takeWhile_sublist (fun x => decide (x ≠ '-')) (l := name.data)).count_le '.'
  omega

/-- C29 on the code: for the chart identifier `ingress-nginx-4.14.3`, and for
every identifier `name-version` whose name has no dot, `extractVersion` returns
`unknown`, because its second loop looks only at the text before the first
dash. The version probe therefore records for the release of the chart
`ingress-nginx-4.14.3` the chart version `unknown` and the WARN
`Chart version unknown may be outdated (latest: 4.14.3)`, and no PASS. The PASS
is recorded only for a chart text from which `extractVersion` gets `4.14.3`,
such as the bare text `4.14.3`. -/
theorem C29_chart_identifier_gives_unknown_and_warn (P : Palette) (a : AuditState)
    (steps : List Step) (w : World) (status revision name ver : String) :
    extractVersion "ingress-nginx-4.14.3" = "unknown" ∧
    ((∀ c ∈ name.data, c ≠ '.' ∧ c ≠ ':' ∧ c ≠ '@' ∧ c ≠ '/') →
      (∀ c ∈ ver.data, c ≠ ':' ∧ c ≠ '@' ∧ c ≠ '/') →
      extractVersion (name ++ "-" ++ ver) = "unknown") ∧
    (helmRelease P ⟨a, steps, w, none⟩
      ⟨true, "ingress-nginx-4.14.3", status, revision⟩).a.HelmChartVersion = "unknown" ∧
    (helmRelease P ⟨a, steps, w, none⟩
      ⟨true, "ingress-nginx-4.14.3", status, revision⟩).a.PassCount = a.PassCount ∧
    (helmRelease P ⟨a, steps, w, none⟩
      ⟨true, "ingress-nginx-4.14.3", status, revision⟩).a.WarnCount = a.WarnCount + 1 ∧
    (helmRelease P ⟨a, steps, w, none⟩
      ⟨true, "ingress-nginx-4.14.3", status, revision⟩).steps.getLast? =
      some (Step.term (Event.stdout (P.Yellow ++ "⚠ WARN" ++ P.Reset ++ ": " ++
        "Chart version unknown may be outdated (latest: 4.14.3)" ++ "\n"))) ∧
    (helmRelease P ⟨a, steps, w, none⟩ ⟨true, "4.14.3", status, revision⟩).a.PassCount =
      a.PassCount + 1 ∧
    (helmRelease P ⟨a, steps, w, none⟩ ⟨true, "4.14.3", status, revision⟩).steps.getLast? =
      some (Step.term (Event.stdout (P.Green ++ "✓ PASS" ++ P.Reset ++ ": " ++
        "Running latest Helm chart version 4.14.3" ++ "\n"))) := by
  have h1 : extractVersion "ingress-nginx-4.14.3" = "unknown" := by decide
  have h2 : extractVersion "4.14.3" = "4.14.3" := by decide
  have h3 : ("unknown" : String) ≠ "4.14.3" := by decide
  refine ⟨h1, extractVersion_chart_identifier name ver, ?_, ?_, ?_, ?_, ?_, ?_⟩ <;>
    simp [helmRelease, Proc.modify, Proc.emit, logInfo, logWarn, logPass, writeln, write, h1, h2,
      h3, String.append_assoc]


/-! ## The version probe: comparison with the baseline -/

/-- C22: the version analysis of the version probe, entered in any state. The
version token is what `extractVersion` gets from the image. A token equal to
the baseline `v1.14.3` records one PASS, no WARN, no FAIL, and registers no
fix; the token `unknown` records one WARN, no PASS, no FAIL, and registers no
fix; every other token records one FAIL, no PASS, no WARN, and registers
exactly one fix, `upgrade-controller`, after the fixes already there. -/
theorem C22_version_token_verdicts (P : Palette) (a : AuditState) (steps : List Step)
    (w : World) :
    (versionAnalysis P ⟨a, steps, w, none⟩).a.ControllerVersion =
      extractVersion a.ControllerImage ∧
    (versionAnalysis P ⟨a, steps, w, none⟩).a.PassCount =
      a.PassCount + (if extractVersion a.ControllerImage = "v1.14.3" then 1 else 0) ∧
    (versionAnalysis P ⟨a, steps, w, none⟩).a.WarnCount =
      a.WarnCount + (if extractVersion a.ControllerImage = "unknown" then 1 else 0) ∧
    (versionAnalysis P ⟨a, steps, w, none⟩).a.FailCount =
      a.FailCount + (if extractVersion a.ControllerImage ≠ "v1.14.3" ∧
        extractVersion a.ControllerImage ≠ "unknown" then 1 else 0) ∧
    (versionAnalysis P ⟨a, steps, w, none⟩).a.Fixes.map (fun f => f.ID) =
      a.Fixes.map (fun f => f.ID) ++ (if extractVersion a.ControllerImage ≠ "v1.14.3" ∧
        extractVersion a.ControllerImage ≠ "unknown" then ["upgrade-controller"] else []) ∧
    (versionAnalysis P ⟨a, steps, w, none⟩).a.Fixes.take a.Fixes.length = a.Fixes ∧
    (versionAnalysis P ⟨a, steps, w, none⟩).exit = none := by
  have hne : ("unknown" : String) ≠ "v1.14.3" := by decide
  have hne2 : ("v1.14.3" : String) ≠ "unknown" := by decide
  simp only [versionAnalysis, Proc.emit, Proc.modify]
  by_cases hsha : strContains a.ControllerImage "@sha256:" = true <;>
  by_cases h1 : extractVersion a.ControllerImage = "v1.14.3" <;>
  by_cases h2 : extractVersion a.ControllerImage = "unknown" <;>
    simp [hsha, h1, h2, hne, hne2, logInfo, logStep, logPass, logWarn, logFail, printSection,
      writelns, writeln, write, registerUpgradeFix, addFix]


/-! ## fixDeleteExposingIngress -/

/-- One turn of the loop, read on the trimmed line: nothing for a blank line or
a line without a slash, one delete for the entry otherwise. -/
theorem deleteEntry_spec (P : Palette) (line : String) (w : World) :
    (deleteEntry P line w).1 =
      deleteAll ([trimSpace line].filterMap (fun line =>
        if line = "" ∨ '/' ∉ line.data then none
        else some (String.mk (line.data.takeWhile (· ≠ '/')),
          String.mk ((line.data.dropWhile (· ≠ '/')).drop 1)))) w := by
  unfold deleteEntry
  dsimp only
  by_cases h1 : trimSpace line = ""
  · simp [h1, deleteAll]
  · rw [if_neg h1]
    by_cases h2 : '/' ∈ (trimSpace line).data
    · simp only [splitN2, h2, if_true, List.filterMap_cons, h1, false_or, not_true_eq_false,
        if_false, List.filterMap_nil, deleteAll]
      split <;> rfl
    · simp [splitN2, h2, h1, deleteAll]

theorem deleteAll_append (A B : List (String × String)) (w : World) :
    deleteAll (A ++ B) w =
      match (deleteAll A w).1 with
      | some e => (some e, (deleteAll A w).2)
      | none => deleteAll B (deleteAll A w).2 := by
  induction A generalizing w with
  | nil => rfl
  | cons e rest ih =>
    rw [List.cons_append, deleteAll, deleteAll]
    split
    · rfl
    · exact ih _

/-- The loop of the source issues the deletes of the well-formed lines. -/
theorem deleteEntries_spec (P : Palette) : ∀ (lines : List String) (w : World),
    (deleteEntries P lines w).1 =
      deleteAll ((lines.map trimSpace).filterMap (fun line =>
        if line = "" ∨ '/' ∉ line.data then none
        else some (String.mk (line.data.takeWhile (· ≠ '/')),
          String.mk ((line.data.dropWhile (· ≠ '/')).drop 1)))) w := by
  intro lines
  induction lines with
  | nil => intro w; rfl
  | cons line rest ih =>
    intro w
    have h1 := deleteEntry_spec P line w
    have hsplit : trimSpace line :: rest.map trimSpace =
        [trimSpace line] ++ rest.map trimSpace := rfl
    rw [List.map_cons, hsplit, List.filterMap_append, deleteAll_append, ← h1]
    rw [deleteEntries]
    cases hd : (deleteEntry P line w).1.1 with
    | some e => exact Prod.ext hd rfl
    | none => exact ih _

/-- What `deleteAll` leaves: the commands issued are the deletes of the entries
up to and including the first one that fails; the result is nil exactly when
none fails, and otherwise the error names the entry of the first failure. -/
theorem deleteAll_spec : ∀ (entries : List (String × String)) (w : World),
    (deleteAll entries w).2.log =
      w.log ++ (entries.map deleteCmd).take (leadingSuccesses w (entries.map deleteCmd) + 1) ∧
    (deleteAll entries w).2.result = w.result ∧
    ((deleteAll entries w).1 = none ↔
      leadingSuccesses w (entries.map deleteCmd) = (entries.map deleteCmd).length) ∧
    (leadingSuccesses w (entries.map deleteCmd) < (entries.map deleteCmd).length →
      ∃ e err, entries[leadingSuccesses w (entries.map deleteCmd)]? = some e ∧
        (outcomesOf w (entries.map deleteCmd))[leadingSuccesses w (entries.map deleteCmd)]? =
          some (some err) ∧
        (deleteAll entries w).1 = some ("delete ingress " ++ e.1 ++ "/" ++ e.2 ++ ": " ++ err)) := by
  intro entries
  induction entries with
  | nil => intro w; simp [deleteAll, leadingSuccesses, outcomesOf]
  | cons e rest ih =>
    intro w
    obtain ⟨i1, i2, i3, i4⟩ := ih (runCmd "kubectl" ["delete", "ingress", e.2, "-n", e.1] w).2
    cases hr : (runCmd "kubectl" ["delete", "ingress", e.2, "-n", e.1] w).1 with
    | some err =>
      have hk : leadingSuccesses w ((e :: rest).map deleteCmd) = 0 := by
        simp [leadingSuccesses, outcomesOf, deleteCmd, hr]
      rw [hk, deleteAll, hr]
      refine ⟨by simp [runCmd, deleteCmd], rfl, by simp, fun _ => ⟨e, err, by simp, ?_, rfl⟩⟩
      simp [outcomesOf, deleteCmd, hr]
    | none =>
      have hk : leadingSuccesses w ((e :: rest).map deleteCmd) =
          leadingSuccesses (runCmd "kubectl" ["delete", "ingress", e.2, "-n", e.1] w).2
            (rest.map deleteCmd) + 1 := by
        simp [leadingSuccesses, outcomesOf, deleteCmd, hr]
      rw [hk, deleteAll, hr]
      dsimp only
      refine ⟨?_, ?_, ?_, ?_⟩
      · rw [i1]
        simp [runCmd, deleteCmd]
      · rw [i2]
        rfl
      · rw [i3]
        simp
      · intro hlt
        obtain ⟨e0, err, g1, g2, g3⟩ := i4 (by simpa using hlt)
        refine ⟨e0, err, by simpa using g1, ?_, g3⟩
        simpa [outcomesOf, deleteCmd] using g2


/-! ## The admission probe: where it can stop -/

theorem sameExit_refl (p : Proc) : SameExit p p := rfl

theorem sameExit_emit {p q : Proc} (f : AuditState → AuditState × List Event)
    (h : SameExit p q) : SameExit p (q.emit f) := by
  unfold SameExit Proc.emit at *
  cases hq : q.exit with
  | some c => rw [← h, hq]
  | none => rw [← h, hq]

theorem sameExit_modify {p q : Proc} (f : AuditState → AuditState)
    (h : SameExit p q) : SameExit p (q.modify f) := by
  unfold SameExit Proc.modify at *
  cases hq : q.exit with
  | some c => rw [← h, hq]
  | none => rw [← h, hq]

theorem sameExit_kubectl {p q : Proc} (H : Host) (args : List String) (h : SameExit p q) :
    SameExit p (Proc.kubectl H args q).2 := by
  unfold SameExit at *
  rw [← h]
  exact (Proc.output_frame H "kubectl" args q).2.1

theorem sameExit_svcField {p q : Proc} (H : Host) (path : String) (h : SameExit p q) :
    SameExit p (admissionSvcField H path q).2 :=
  sameExit_kubectl H _ h

theorem sameExit_ite {p a b : Proc} (c : Prop) [Decidable c] (ha : SameExit p a)
    (hb : SameExit p b) : SameExit p (if c then a else b) := by
  split
  · exact ha
  · exact hb

theorem sameExit_admissionService (H : Host) (P : Palette) {p q : Proc} (h : SameExit p q) :
    SameExit p (admissionService H P q).2 := by
  unfold admissionService
  simp only []
  split
  all_goals
    repeat' first
      | with_reducible exact h
      | with_reducible apply sameExit_emit
      | with_reducible apply sameExit_modify
      | with_reducible apply sameExit_svcField
      | with_reducible apply sameExit_kubectl

theorem sameExit_admissionExposure (H : Host) (P : Palette) {p q : Proc} (h : SameExit p q) :
    SameExit p (admissionExposure H P q) := by
  unfold admissionExposure
  simp only []
  repeat' first
    | with_reducible exact h
    | with_reducible apply sameExit_emit
    | with_reducible apply sameExit_modify
    | with_reducible apply sameExit_svcField
    | with_reducible apply sameExit_kubectl
    | with_reducible apply sameExit_ite

theorem sameExit_admissionIngress (H : Host) (J : JsonLib) (P : Palette) {p q : Proc}
    (h : SameExit p q) : SameExit p (admissionIngress H J P q) := by
  unfold admissionIngress
  simp only []
  repeat' first
    | with_reducible exact h
    | with_reducible apply sameExit_emit
    | with_reducible apply sameExit_modify
    | with_reducible apply sameExit_svcField
    | with_reducible apply sameExit_kubectl
    | with_reducible apply sameExit_ite
    | split

theorem sameExit_admissionEndpoints (H : Host) (P : Palette) {p q : Proc} (h : SameExit p q) :
    SameExit p (admissionEndpoints H P q) := by
  unfold admissionEndpoints
  simp only []
  repeat' first
    | with_reducible exact h
    | with_reducible apply sameExit_emit
    | with_reducible apply sameExit_kubectl
    | with_reducible apply sameExit_ite

theorem sameExit_admissionCompliance (P : Palette) (L : Lipgloss) {p q : Proc}
    (h : SameExit p q) : SameExit p (admissionCompliance P L q) := by
  unfold admissionCompliance
  exact sameExit_emit _ (sameExit_emit _ h)


theorem Proc.emit_exit (f : AuditState → AuditState × List Event) (p : Proc) :
    (p.emit f).exit = p.exit := sameExit_emit f (sameExit_refl p)

theorem Proc.osExit_alive (code : Nat) (p : Proc) (h : p.exit = none) :
    (p.osExit code).exit = some code := by
  simp [Proc.osExit, h]

/-- The body of the webhook loop on a live process: it ends the process with a
panic exactly when `webhookPanics` holds of the item. -/
theorem webhookItem_exit (J : JsonLib) (P : Palette) (p : Proc) (hp : p.exit = none)
    (item : Json) :
    (webhookItem J P p item).exit = if webhookPanics J item = true then some 2 else none := by
  unfold webhookItem webhookPanics
  dsimp only
  by_cases hc : strContains (sprintV J ((getMap (asMap (some item)) "metadata").index "name"))
      "ingress-nginx" = true
  · rw [if_pos hc, hc, Bool.true_and]
    generalize asSlice ((asMap (some item)).index "webhooks") = webhooks
    rcases webhooks with _ | ⟨first, rest⟩
    · simp only [Proc.emit_exit, hp]
      rfl
    · cases first with
      | obj fields =>
        dsimp only
        simp only [Bool.false_eq_true, if_false]
        split <;> simp only [Proc.emit_exit, hp]
      | _ =>
        dsimp only
        simp only [if_true]
        exact Proc.osExit_alive 2 _ (by rw [Proc.emit_exit, hp])
  · rw [if_neg hc]
    simp [hc, hp]

theorem webhookItem_dead (J : JsonLib) (P : Palette) (p : Proc) (c : Nat) (hp : p.exit = some c)
    (item : Json) : (webhookItem J P p item).exit = some c := by
  unfold webhookItem
  dsimp only
  split
  · split
    · rw [Proc.emit_exit, hp]
    · split <;> simp only [Proc.emit_exit, hp]
    · rw [Proc.osExit_dead 2 _ c (by rw [Proc.emit_exit, hp]), Proc.emit_exit, hp]
  · exact hp

theorem webhookLoop_dead (J : JsonLib) (P : Palette) : ∀ (items : List Json) (p : Proc) (c : Nat),
    p.exit = some c → (items.foldl (webhookItem J P) p).exit = some c := by
  intro items
  induction items with
  | nil => intro p c h; exact h
  | cons item rest ih =>
    intro p c h
    exact ih _ c (webhookItem_dead J P p c h item)

/-- The webhook loop on a live process panics exactly when some item does. -/
theorem webhookLoop_exit (J : JsonLib) (P : Palette) : ∀ (items : List Json) (p : Proc),
    p.exit = none →
    (items.foldl (webhookItem J P) p).exit =
      if items.any (webhookPanics J) = true then some 2 else none := by
  intro items
  induction items with
  | nil => intro p h; simpa using h
  | cons item rest ih =>
    intro p h
    have h1 := webhookItem_exit J P p h item
    rw [List.foldl_cons, List.any_cons]
    by_cases hw : webhookPanics J item = true
    · rw [if_pos hw] at h1
      rw [webhookLoop_dead J P rest _ 2 h1, hw, Bool.true_or, if_pos rfl]
    · rw [if_neg hw] at h1
      rw [ih _ h1]
      simp [hw]

/-- The section `Webhook configuration` on a live process: it panics exactly
when the list decodes and an item of it makes the loop panic. -/
theorem admissionWebhooks_exit (H : Host) (J : JsonLib) (P : Palette) (a : AuditState)
    (steps : List Step) (w : World) :
    (admissionWebhooks H J P ⟨a, steps, w, none⟩).exit =
      if trimSpace (H.output w.log
          ⟨"kubectl", ["get", "validatingwebhookconfigurations", "-o", "json"]⟩) ≠ "" ∧
        ∃ whList, J.unmarshalMap (trimSpace (H.output w.log
          ⟨"kubectl", ["get", "validatingwebhookconfigurations", "-o", "json"]⟩)) = some whList ∧
          (asSlice (whList.index "items")).any (webhookPanics J) = true
      then some 2 else none := by
  unfold admissionWebhooks
  simp only [Proc.emit, Proc.kubectl, Proc.output]
  by_cases ht : trimSpace (H.output w.log
      ⟨"kubectl", ["get", "validatingwebhookconfigurations", "-o", "json"]⟩) = ""
  · simp [ht]
  · simp only [ne_eq, ht, not_false_eq_true, if_true, true_and]
    cases hd : J.unmarshalMap (trimSpace (H.output w.log
        ⟨"kubectl", ["get", "validatingwebhookconfigurations", "-o", "json"]⟩)) with
    | none => simp
    | some whList =>
      simp only [Option.some.injEq, exists_eq_left']
      exact webhookLoop_exit J P _ _ rfl


/-- A list of outcomes has no failure among its first `k + 1` entries, `k` the
number of its leading successes, exactly when it has no failure at all. -/
theorem issued_all_succeed_iff (l : List GoError) :
    (∀ o ∈ l.take ((l.takeWhile Option.isNone).length + 1), o = none) ↔
      (l.takeWhile Option.isNone).length = l.length := by
  induction l with
  | nil => simp
  | cons o rest ih =>
    cases o with
    | none =>
      simp only [List.takeWhile_cons, Option.isNone_none, if_true, List.length_cons,
        List.take_succ_cons, List.mem_cons, forall_eq_or_imp, true_and, add_left_inj]
      exact ih
    | some e => simp [List.takeWhile_cons]

theorem outcomesOf_length : ∀ (cmds : List Cmd) (w : World),
    (outcomesOf w cmds).length = cmds.length := by
  intro cmds
  induction cmds with
  | nil => intro w; rfl
  | cons c rest ih => intro w; simp [outcomesOf, ih]

/-- C28: `fixDeleteExposingIngress` does what `deleteAll` does on the
well-formed lines of its argument (trimmed, not blank, with a slash, cut at
the first slash): the commands it adds to the log are the deletes
`kubectl delete ingress <name> -n <ns>` of these entries, in order, up to and
including the first one that fails; it returns nil exactly when every delete
it issued succeeded, which is when it issued all of them; otherwise the error
names the entry of the first failing delete and no later entry is attempted. -/
theorem C28_one_delete_per_well_formed_line_until_first_failure (P : Palette)
    (exposing : String) (w : World) :
    (fixDeleteExposingIngress P exposing w).1 = deleteAll (exposingEntries exposing) w ∧
    (fixDeleteExposingIngress P exposing w).1.2.log =
      w.log ++ ((exposingEntries exposing).map deleteCmd).take
        (leadingSuccesses w ((exposingEntries exposing).map deleteCmd) + 1) ∧
    (fixDeleteExposingIngress P exposing w).1.2.result = w.result ∧
    ((fixDeleteExposingIngress P exposing w).1.1 = none ↔
      ∀ o ∈ (outcomesOf w ((exposingEntries exposing).map deleteCmd)).take
        (leadingSuccesses w ((exposingEntries exposing).map deleteCmd) + 1), o = none) ∧
    ((fixDeleteExposingIngress P exposing w).1.1 = none ↔
      leadingSuccesses w ((exposingEntries exposing).map deleteCmd) =
        (exposingEntries exposing).length) ∧
    (leadingSuccesses w ((exposingEntries exposing).map deleteCmd) <
        (exposingEntries exposing).length →
      ∃ e err,
        (exposingEntries exposing)[leadingSuccesses w
          ((exposingEntries exposing).map deleteCmd)]? = some e ∧
        (outcomesOf w ((exposingEntries exposing).map deleteCmd))[leadingSuccesses w
          ((exposingEntries exposing).map deleteCmd)]? = some (some err) ∧
        (fixDeleteExposingIngress P exposing w).1.1 =
          some ("delete ingress " ++ e.1 ++ "/" ++ e.2 ++ ": " ++ err)) ∧
    exposingEntries "default/leak\n\n  prod/admin-ui  \nnoslash\nkube/sys/x\n" =
      [("default", "leak"), ("prod", "admin-ui"), ("kube", "sys/x")] ∧
    (fixDeleteExposingIngress ansiPalette
        "default/leak\n\n  prod/admin-ui  \nnoslash\nkube/sys/x\n" stubbornWorld).1.1 =
      some "delete ingress prod/admin-ui: exit status 1" ∧
    (fixDeleteExposingIngress ansiPalette
        "default/leak\n\n  prod/admin-ui  \nnoslash\nkube/sys/x\n" stubbornWorld).1.2.log =
      [⟨"kubectl", ["delete", "ingress", "leak", "-n", "default"]⟩,
       ⟨"kubectl", ["delete", "ingress", "admin-ui", "-n", "prod"]⟩] ∧
    (fixDeleteExposingIngress ansiPalette
        "default/leak\n\n  prod/admin-ui  \nnoslash\nkube/sys/x\n" calmWorld).1.1 = none ∧
    (fixDeleteExposingIngress ansiPalette
        "default/leak\n\n  prod/admin-ui  \nnoslash\nkube/sys/x\n" calmWorld).1.2.log =
      [⟨"kubectl", ["delete", "ingress", "leak", "-n", "default"]⟩,
       ⟨"kubectl", ["delete", "ingress", "admin-ui", "-n", "prod"]⟩,
       ⟨"kubectl", ["delete", "ingress", "sys/x", "-n", "kube"]⟩] ∧
    (∀ a : AuditState,
      (registerExposureFix P a).Fixes.map (fun f => (f.ID, f.Run.map (fun run =>
          run (captured a) w))) =
        a.Fixes.map (fun f => (f.ID, f.Run.map (fun run => run (captured a) w))) ++
          [("ingress-exposure", some (deleteAll (exposingEntries a.IngressExposing) w))]) := by
  have hs : (fixDeleteExposingIngress P exposing w).1 = deleteAll (exposingEntries exposing) w :=
    deleteEntries_spec P _ w
  obtain ⟨d1, d2, d3, d4⟩ := deleteAll_spec (exposingEntries exposing) w
  have hl : ((exposingEntries exposing).map deleteCmd).length =
      (exposingEntries exposing).length := List.length_map _ _
  refine ⟨hs, ?_, ?_, ?_, ?_, ?_, by decide, by decide, by decide, by decide, by decide, ?_⟩
  · rw [hs]; exact d1
  · rw [hs]; exact d2
  · rw [hs, d3]
    have hi := issued_all_succeed_iff (outcomesOf w ((exposingEntries exposing).map deleteCmd))
    rw [outcomesOf_length] at hi
    exact hi.symm
  · rw [hs, d3, hl]
  · intro hlt
    rw [hs]
    exact d4 (by rw [hl]; exact hlt)
  · intro a
    have ha : (fixDeleteExposingIngress P a.IngressExposing w).1 =
        deleteAll (exposingEntries a.IngressExposing) w := deleteEntries_spec P _ w
    simp [registerExposureFix, addFix, ha]


/-! ## The traversal of decoded cluster answers -/

theorem getMap_isSome (m : GoMap) (key : String) : (getMap m key).isSome = true := by
  unfold getMap
  cases m with
  | none => rfl
  | some fields =>
    dsimp only
    split <;> rfl

theorem getMap_not_map (m : GoMap) (key : String) (h : asMap (m.index key) = none) :
    getMap m key = some [] := by
  unfold getMap
  cases m with
  | none => rfl
  | some fields =>
    dsimp only
    rw [h]

theorem writelns_admissionSvcType (ls : List String) (a : AuditState) :
    (writelns ls a).1.AdmissionSvcType = a.AdmissionSvcType := by
  induction ls generalizing a with
  | nil => rfl
  | cons l ls ih => simp [writelns, ih, writeln, write]

theorem writelns_ingressExposing (ls : List String) (a : AuditState) :
    (writelns ls a).1.IngressExposing = a.IngressExposing := by
  induction ls generalizing a with
  | nil => rfl
  | cons l ls ih => simp [writelns, ih, writeln, write]

set_option maxRecDepth 100000 in
/-- C27: `getMap` never returns the nil map: it returns the empty map for a nil
map, for a missing key and for a value that is not a map, and the map under
the key otherwise. The Ingress scan of the admission probe, which goes through
items, rules and paths with two-value assertions and `getMap`, never ends the
process. The webhook scan does: its assertion
`webhooks[0].(map[string]interface{})` has one value, so the section panics
exactly when the answer decodes to a list with a configuration whose name
contains `ingress-nginx` and whose first `webhooks` entry is not an object; the
sections after it do not run then. On a cluster that answers with such a list
the admission probe panics, and `runAudit` ends with status 2 after the call
of the admission probe, with no report written. -/
theorem C27_webhook_traversal_panics_on_entry_that_is_not_an_object (H : Host) (J : JsonLib)
    (P : Palette) (L : Lipgloss) (a : AuditState) (steps : List Step) (w : World) (m : GoMap)
    (key : String) :
    getMap none key = some [] ∧
    (getMap m key).isSome = true ∧
    (m.index key = none → getMap m key = some []) ∧
    (∀ v, m.index key = some v → (∀ fields, v ≠ .obj fields) → getMap m key = some []) ∧
    (∀ fields, m.index key = some (.obj fields) → getMap m key = some fields) ∧
    (admissionIngress H J P ⟨a, steps, w, none⟩).exit = none ∧
    (admissionWebhooks H J P ⟨a, steps, w, none⟩).exit =
      (if trimSpace (H.output w.log
          ⟨"kubectl", ["get", "validatingwebhookconfigurations", "-o", "json"]⟩) ≠ "" ∧
        ∃ whList, J.unmarshalMap (trimSpace (H.output w.log
          ⟨"kubectl", ["get", "validatingwebhookconfigurations", "-o", "json"]⟩)) = some whList ∧
          (asSlice (whList.index "items")).any (webhookPanics J) = true
      then some 2 else none) ∧
    (∀ q : Proc, (admissionCompliance P L (admissionEndpoints H P q)).exit = q.exit) ∧
    (∀ name entry rest, strContains name "ingress-nginx" = true →
      (∀ fields, entry ≠ .obj fields) →
      webhookPanics J (.obj [("metadata", .obj [("name", .str name)]),
        ("webhooks", .arr (entry :: rest))]) = true) ∧
    demoJson.unmarshalMap strayWebhookText = some strayWebhookList ∧
    (auditAdmissionController strayWebhookHost demoJson ansiPalette plainLipgloss
      ⟨oneTargetState, [], healthyWorld, none⟩).exit = some 2 ∧
    ((auditAdmissionController strayWebhookHost demoJson ansiPalette plainLipgloss
      ⟨oneTargetState, [], healthyWorld, none⟩).steps.filterMap Step.printed).getLast? =
      some "\x1b[0;34mℹ INFO\x1b[0m: Webhook name: ingress-nginx-admission\n" ∧
    (runAudit strayWebhookHost ansiPalette plainLipgloss (admissionProbes strayWebhookHost)
      (demoConsole "no\n") ⟨oneTargetState, [], healthyWorld, none⟩).exit = some 2 ∧
    (runAudit strayWebhookHost ansiPalette plainLipgloss (admissionProbes strayWebhookHost)
      (demoConsole "no\n") ⟨oneTargetState, [], healthyWorld, none⟩).steps.filterMap
        Step.marker = [.preflight, .version, .admission] ∧
    (runAudit strayWebhookHost ansiPalette plainLipgloss (admissionProbes strayWebhookHost)
      (demoConsole "no\n") ⟨oneTargetState, [], healthyWorld, none⟩).steps.filterMap
        Step.filePath = [] := by
  refine ⟨rfl, getMap_isSome m key, ?_, ?_, ?_, ?_, admissionWebhooks_exit H J P a steps w, ?_, ?_,
    rfl, by decide, by decide, by decide, by decide, by decide⟩
  · intro h
    exact getMap_not_map m key (by rw [h]; rfl)
  · intro v h hv
    refine getMap_not_map m key ?_
    rw [h]
    cases v with
    | obj fields => exact absurd rfl (hv fields)
    | _ => rfl
  · intro fields h
    cases m with
    | none => simp [GoMap.index] at h
    | some fs =>
      unfold getMap
      dsimp only
      rw [h]
      rfl
  · exact sameExit_admissionIngress H J P (sameExit_refl _)
  · intro q
    exact sameExit_admissionCompliance P L (sameExit_admissionEndpoints H P (sameExit_refl q))
  · intro name entry rest hn he
    unfold webhookPanics
    have h1 : sprintV J ((getMap (asMap (some (Json.obj [("metadata", .obj [("name", .str name)]),
        ("webhooks", .arr (entry :: rest))]))) "metadata").index "name") = name := by
      simp [asMap, getMap, GoMap.index, List.lookup, sprintV]
    rw [h1, hn, Bool.true_and]
    have h2 : asSlice ((asMap (some (Json.obj [("metadata", .obj [("name", .str name)]),
        ("webhooks", .arr (entry :: rest))]))).index "webhooks") = entry :: rest := by
      simp [asMap, GoMap.index, List.lookup, asSlice]
    rw [h2]
    cases entry with
    | obj fields => exact absurd rfl (he fields)
    | _ => rfl

set_option maxRecDepth 100000 in
/-- C30: the flag `abusebsi_compliant` of the report, and with it the
compliance line of the closing summary, is true exactly when the admission
service type is `ClusterIP`; the compliance summary of the admission probe
declares COMPLIANT exactly when the type is `ClusterIP` and `IngressExposing`
is empty. The two agree in every state but those with type `ClusterIP` and an
exposing Ingress: there the admission probe prints NON-COMPLIANT and the report
and the closing summary say compliant. Such a state is reached on a cluster
whose admission service is `ClusterIP` and whose Ingress `default/leak` has the
admission service as a backend: one run prints both verdicts. -/
theorem C30_report_flag_ignores_exposing_ingresses (P : Palette) (L : Lipgloss) (now : String)
    (a : AuditState) (steps : List Step) (w : World) :
    ((buildReport now a).Security.AbuseBSICompliant = true ↔ a.AdmissionSvcType = "ClusterIP") ∧
    compliantText P a =
      (if a.AdmissionSvcType = "ClusterIP" then P.Green ++ "✓ COMPLIANT" ++ P.Reset
       else P.Red ++ "✗ NON-COMPLIANT" ++ P.Reset) ∧
    (admissionCompliant a = true ↔ a.AdmissionSvcType = "ClusterIP" ∧ a.IngressExposing = "") ∧
    (if admissionCompliant a = true then
        "\n  " ++ P.Green ++ P.Bold ++ "✓ COMPLIANT — Vulnerability has been mitigated." ++
          P.Reset ++ "\n"
      else
        "\n  " ++ P.Red ++ P.Bold ++ "✗ NON-COMPLIANT — Vulnerability is STILL PRESENT!" ++
          P.Reset ++ "\n") ∈ complianceLines P L a ∧
    (admissionCompliance P L ⟨a, steps, w, none⟩).a.AdmissionSvcType = a.AdmissionSvcType ∧
    (admissionCompliance P L ⟨a, steps, w, none⟩).a.IngressExposing = a.IngressExposing ∧
    ((buildReport now a).Security.AbuseBSICompliant = admissionCompliant a ↔
      ¬ (a.AdmissionSvcType = "ClusterIP" ∧ a.IngressExposing ≠ "")) ∧
    (buildReport now
      { a with AdmissionSvcType := "ClusterIP", IngressExposing := "default/leak\n" }
      ).Security.AbuseBSICompliant = true ∧
    admissionCompliant
      { a with AdmissionSvcType := "ClusterIP", IngressExposing := "default/leak\n" } = false ∧
    (runAudit leakHost ansiPalette plainLipgloss (admissionProbes leakHost)
      (demoConsole "no\n") ⟨oneTargetState, [], healthyWorld, none⟩).exit = none ∧
    ((runAudit leakHost ansiPalette plainLipgloss (admissionProbes leakHost)
      (demoConsole "no\n") ⟨oneTargetState, [], healthyWorld, none⟩).a.AdmissionSvcType,
     (runAudit leakHost ansiPalette plainLipgloss (admissionProbes leakHost)
      (demoConsole "no\n") ⟨oneTargetState, [], healthyWorld, none⟩).a.IngressExposing) =
      ("ClusterIP", "default/leak\n") ∧
    (runAudit leakHost ansiPalette plainLipgloss (admissionProbes leakHost)
      (demoConsole "no\n") ⟨oneTargetState, [], healthyWorld, none⟩).steps.filterMap
        Step.compliantFlag = [true] ∧
    ((runAudit leakHost ansiPalette plainLipgloss (admissionProbes leakHost)
      (demoConsole "no\n") ⟨oneTargetState, [], healthyWorld, none⟩).steps.filterMap
        Step.printed).filter (fun t => strContains t "COMPLIANT") =
      ["\n  \x1b[0;31m\x1b[1m✗ NON-COMPLIANT — Vulnerability is STILL PRESENT!\x1b[0m\n\n",
       "    • AbuseBSI compliance:         \x1b[0;32m✓ COMPLIANT\x1b[0m\n"] := by
  refine ⟨by simp [buildReport], ?_, by simp [admissionCompliant], ?_, ?_, ?_, ?_,
    by simp [buildReport], by simp [admissionCompliant], by decide, by decide, by decide,
    by decide⟩
  · unfold compliantText
    by_cases h : a.AdmissionSvcType = "ClusterIP" <;> simp [h]
  · unfold complianceLines
    by_cases h : admissionCompliant a = true
    · simp [h]
    · simp [h]
  · simp only [admissionCompliance, Proc.emit, printSection]
    rw [writelns_admissionSvcType, writelns_admissionSvcType]
  · simp only [admissionCompliance, Proc.emit, printSection]
    rw [writelns_ingressExposing, writelns_ingressExposing]
  · by_cases h1 : a.AdmissionSvcType = "ClusterIP" <;>
      by_cases h2 : a.IngressExposing = "" <;> simp [buildReport, admissionCompliant, h1, h2]

/-! ## Registered fixes: what the action runs -/

end IngressAudit
